import Mathlib

/-!
# ModemManager: AT-reply interpretation and step sequencing

A shallow embedding of the reply parsers of `src/mm-modem-helpers.c`, of the
MBIM port guard of `src/mm-mbim-port.c` and of the GPS enable/disable
sequences of `plugins/cinterion/mm-shared-cinterion.c`, with the properties
proved about them.

C strings are lists of characters.  The regular expressions of the source are
written as terms of `Re` and run by a backtracking matcher that returns its
results in the priority order of PCRE (leftmost alternative first, lazy or
greedy repetition as flagged).
-/

set_option autoImplicit false

namespace ModemManager

/-! ## C strings and the library helpers the source calls -/

/-- A NUL-terminated C string, without its terminator. -/
abbrev CStr := List Char

/-- The C library `isdigit` in the C locale. -/
def isdigit (c : Char) : Bool := c.isDigit

/-- GLib `g_ascii_isspace`: space, tab, line feed, form feed, carriage return. -/
def g_ascii_isspace (c : Char) : Bool :=
  c = ' ' || c = '\t' || c = '\n' || c = Char.ofNat 12 || c = '\r'

/-- The C library `isspace` in the C locale, also the class `\s` of PCRE:
`g_ascii_isspace` and the vertical tab. -/
def isspace (c : Char) : Bool := g_ascii_isspace c || c = Char.ofNat 11

/-- Whether `s` begins with `p`. -/
def startsWith : CStr → CStr → Bool
  | [], _ => true
  | _ :: _, [] => false
  | a :: p, b :: s => a = b && startsWith p s

/-- The C library `strstr`: the suffix of the haystack that starts at the first
occurrence of the needle, or `none` (NULL). -/
def strstr (needle : CStr) : CStr → Option CStr
  | [] => if needle = [] then some [] else none
  | c :: cs => if startsWith needle (c :: cs) then some (c :: cs) else strstr needle cs

/-- The C library `strchr`: the suffix that starts at the first occurrence of
the character. -/
def strchr (c : Char) : CStr → Option CStr
  | [] => none
  | x :: xs => if x = c then some (x :: xs) else strchr c xs

/-- GLib `g_strchug`: drop the leading white space. -/
def g_strchug (s : CStr) : CStr := s.dropWhile g_ascii_isspace

/-- GLib `g_strchomp`: drop the trailing white space. -/
def g_strchomp (s : CStr) : CStr := (s.reverse.dropWhile g_ascii_isspace).reverse

/-- GLib `g_strstrip`: `g_strchomp (g_strchug s)`. -/
def g_strstrip (s : CStr) : CStr := g_strchomp (g_strchug s)

/-- The errors the embedded code reports (a `GError` domain and code with its
message), and `external` for an error handed over by a collaborator (a failed
AT command, a transport failure), identified by a number. -/
inductive GError where
  | modem_general (message : String)
  | core_in_progress (message : String)
  | core_failed (message : String)
  | core_unsupported (message : String)
  | external (code : Nat)
  deriving DecidableEq, Repr

/-! ## Regular expressions (the fragment of PCRE the source uses) -/

/-- Captured groups of one match attempt: group number and captured text. -/
abbrev Caps := List (Nat × CStr)

/-- Regular expressions: literal character, character class, sequence,
alternative, repetition `*` of a class, option `?`, numbered capture group and
the end anchor `$`.  Repetition and option carry their laziness (PCRE
`G_REGEX_UNGREEDY` makes them lazy). -/
inductive Re where
  | chr (c : Char)
  | cls (p : Char → Bool)
  | seq (a b : Re)
  | alt (a b : Re)
  | star (lazy : Bool) (p : Char → Bool)
  | opt (lazy : Bool) (a : Re)
  | grp (n : Nat) (a : Re)
  | eos

/-- The ways a lazy `p*` can stop, shortest first. -/
def starL (p : Char → Bool) : CStr → List CStr
  | [] => [[]]
  | c :: cs => (c :: cs) :: (if p c then starL p cs else [])

/-- The ways a greedy `p*` can stop, longest first. -/
def starG (p : Char → Bool) : CStr → List CStr
  | [] => [[]]
  | c :: cs => (if p c then starG p cs else []) ++ [c :: cs]

/-- All the ways the expression matches a prefix of the subject, in the order a
backtracking matcher tries them: for each, the groups captured and the rest of
the subject.  `$` matches at the end of the subject and before a final line
feed. -/
def Re.run : Re → CStr → List (Caps × CStr)
  | .chr c, s =>
    match s with
    | x :: xs => if x = c then [([], xs)] else []
    | [] => []
  | .cls p, s =>
    match s with
    | x :: xs => if p x then [([], xs)] else []
    | [] => []
  | .seq a b, s =>
    (a.run s).flatMap fun r1 => (b.run r1.2).map fun r2 => (r1.1 ++ r2.1, r2.2)
  | .alt a b, s => a.run s ++ b.run s
  | .star lazy p, s => (if lazy then starL p s else starG p s).map fun r => ([], r)
  | .opt lazy a, s => if lazy then ([], s) :: a.run s else a.run s ++ [([], s)]
  | .grp n a, s =>
    (a.run s).map fun r => ((n, s.take (s.length - r.2.length)) :: r.1, r.2)
  | .eos, s => if s = [] ∨ s = ['\n'] then [([], s)] else []

/-- The sequence of the listed expressions. -/
def Re.cat : Re → List Re → Re
  | a, [] => a
  | a, b :: bs => .seq a (Re.cat b bs)

/-- The literal text `c :: cs`. -/
def Re.lit (c : Char) (cs : CStr) : Re := Re.cat (.chr c) (cs.map .chr)

/-- The number of capture groups of an expression. -/
def Re.groups : Re → Nat
  | .seq a b => a.groups + b.groups
  | .alt a b => a.groups + b.groups
  | .opt _ a => a.groups
  | .grp _ a => a.groups + 1
  | _ => 0

/-- What `GMatchInfo` holds after a match: the matched text (group 0) followed
by the text of each group. -/
abbrev GMatchInfo := List CStr

/-- GLib `g_match_info_fetch`: the text of a group, `none` (NULL) past the last
group. -/
def g_match_info_fetch (info : GMatchInfo) (num : Nat) : Option CStr := info.get? num

/-- GLib `g_match_info_get_match_count`. -/
def g_match_info_get_match_count (info : GMatchInfo) : Nat := info.length

/-- The match information of a successful attempt at `s` that left `rest`. -/
def mkMatchInfo (re : Re) (s : CStr) (r : Caps × CStr) : GMatchInfo :=
  s.take (s.length - r.2.length) ::
    (List.range re.groups).map fun i => (r.1.lookup (i + 1)).getD []

/-- The first match of the expression at or after the start of the subject
(PCRE tries each start position from the left): its match information and the
subject after the match. -/
def regexSearch (re : Re) : CStr → Option (GMatchInfo × CStr)
  | [] => (re.run []).head?.map fun r => (mkMatchInfo re [] r, r.2)
  | c :: cs =>
    match (re.run (c :: cs)).head? with
    | some r => some (mkMatchInfo re (c :: cs) r, r.2)
    | none => regexSearch re cs

/-- GLib `g_regex_match`: the match information of the first match, if any. -/
def g_regex_match (re : Re) (s : CStr) : Option GMatchInfo :=
  (regexSearch re s).map Prod.fst

/-- The successive matches that `g_regex_match` and then `g_match_info_next`
deliver, each search starting where the previous match ended.  An empty match
ends the iteration (none of the expressions of the source matches the empty
text). -/
def matchesFrom (re : Re) : Nat → CStr → List GMatchInfo
  | 0, _ => []
  | fuel + 1, s =>
    match regexSearch re s with
    | none => []
    | some (info, rest) =>
      if rest.length < s.length then info :: matchesFrom re fuel rest else [info]

/-- All the matches of the expression in the subject. -/
def g_regex_match_all (re : Re) (s : CStr) : List GMatchInfo :=
  matchesFrom re (s.length + 1) s

/-! ## Operator scan replies (`mm_gsm_parse_scan_response`) -/

/-- The keys of a scan record: `MM_SCAN_TAG_STATUS`, `MM_SCAN_TAG_OPER_LONG`,
`MM_SCAN_TAG_OPER_SHORT`, `MM_SCAN_TAG_OPER_NUM`, `MM_SCAN_TAG_ACCESS_TECH`. -/
inductive ScanTag where
  | STATUS
  | OPER_LONG
  | OPER_SHORT
  | OPER_NUM
  | ACCESS_TECH
  deriving DecidableEq, Repr

/-- One scan record: the `GHashTable` from the five tags to text, a tag being
absent when its field is `none`. -/
structure ScanRecord where
  status : Option CStr
  oper_long : Option CStr
  oper_short : Option CStr
  oper_num : Option CStr
  access_tech : Option CStr
  deriving DecidableEq, Repr

/-- The table `g_hash_table_new_full` creates. -/
def ScanRecord.empty : ScanRecord := ⟨none, none, none, none, none⟩

/-- GLib `g_hash_table_insert` on a scan record. -/
def g_hash_table_insert (hash : ScanRecord) (key : ScanTag) (value : CStr) : ScanRecord :=
  match key with
  | .STATUS => { hash with status := some value }
  | .OPER_LONG => { hash with oper_long := some value }
  | .OPER_SHORT => { hash with oper_short := some value }
  | .OPER_NUM => { hash with oper_num := some value }
  | .ACCESS_TECH => { hash with access_tech := some value }

/-- GLib `g_hash_table_lookup` on a scan record. -/
def g_hash_table_lookup (hash : ScanRecord) (key : ScanTag) : Option CStr :=
  match key with
  | .STATUS => hash.status
  | .OPER_LONG => hash.oper_long
  | .OPER_SHORT => hash.oper_short
  | .OPER_NUM => hash.oper_num
  | .ACCESS_TECH => hash.access_tech

/-- The text `save_scan_value` stores for a captured text: a text wrapped in
quotes has both quotes replaced by blanks and is then stripped. -/
def unquote (quoted : CStr) : CStr :=
  if 2 ≤ quoted.length ∧ quoted.head? = some '"' ∧ quoted.getLast? = some '"' then
    g_strstrip (' ' :: (quoted.drop 1).dropLast ++ [' '])
  else quoted

/-- The function `save_scan_value`: store group `num` of the match under `key`, unquoted,
unless the group is missing or the text to store is empty. -/
def save_scan_value (hash : ScanRecord) (key : ScanTag) (info : GMatchInfo) (num : Nat) :
    ScanRecord :=
  match g_match_info_fetch info num with
  | none => hash
  | some quoted =>
    let quoted := unquote quoted
    if quoted.length = 0 then hash else g_hash_table_insert hash key quoted

/-- A character other than the listed ones (a negated class). -/
def notIn (l : List Char) (c : Char) : Bool := !l.contains c

/-- The technology-aware expression
`\((\d),([^,\)]*),([^,\)]*),([^,\)]*)[\)]?,(\d)\)`, compiled `G_REGEX_UNGREEDY`. -/
def scanRegexUmts : Re :=
  Re.cat (.chr '(') [.grp 1 (.cls isdigit), .chr ',',
    .grp 2 (.star true (notIn [',', ')'])), .chr ',',
    .grp 3 (.star true (notIn [',', ')'])), .chr ',',
    .grp 4 (.star true (notIn [',', ')'])), .opt true (.chr ')'), .chr ',',
    .grp 5 (.cls isdigit), .chr ')']

/-- The pre-UMTS expression `\((\d),([^,\)]*),([^,\)]*),([^\)]*)\)`, compiled
`G_REGEX_UNGREEDY`. -/
def scanRegexPreUmts : Re :=
  Re.cat (.chr '(') [.grp 1 (.cls isdigit), .chr ',',
    .grp 2 (.star true (notIn [',', ')'])), .chr ',',
    .grp 3 (.star true (notIn [',', ')'])), .chr ',',
    .grp 4 (.star true (notIn [')'])), .chr ')']

/-- The body of the loop of `mm_gsm_parse_scan_response` for one match: the
record built from the match, or `none` when the record is destroyed because
its operator number is not valid. -/
def scanRecordOfMatch (umts_format : Bool) (match_info : GMatchInfo) : Option ScanRecord :=
  let hash := ScanRecord.empty
  let hash := save_scan_value hash .STATUS match_info 1
  let hash := save_scan_value hash .OPER_LONG match_info 2
  let hash := save_scan_value hash .OPER_SHORT match_info 3
  let hash := save_scan_value hash .OPER_NUM match_info 4
  let access_tech := if umts_format then g_match_info_fetch match_info 5 else none
  let hash :=
    match access_tech with
    | some [c] => if '0' ≤ c ∧ c ≤ '6' then g_hash_table_insert hash .ACCESS_TECH [c] else hash
    | _ => hash
  match g_hash_table_lookup hash .OPER_NUM with
  | some tmp =>
    if 5 ≤ tmp.length ∧ tmp.all (fun c => isdigit c || c = '-') then some hash else none
  | none => none

/-- The function `mm_gsm_parse_scan_response`: the records of a `+COPS: ` scan reply, or the
error set when the reply has no `+COPS: ` tag. -/
def mm_gsm_parse_scan_response (reply : CStr) : Except GError (List ScanRecord) :=
  match strstr "+COPS: ".toList reply with
  | none => .error (.modem_general "Could not parse scan results.")
  | some found =>
    let reply := found.drop 7
    match g_regex_match scanRegexUmts reply with
    | some _ => .ok ((g_regex_match_all scanRegexUmts reply).filterMap (scanRecordOfMatch true))
    | none => .ok ((g_regex_match_all scanRegexPreUmts reply).filterMap (scanRecordOfMatch false))

/-! ### The scan replies the properties are stated for -/

/-- The text wrapped in a pair of quote characters. -/
def quoted (s : CStr) : CStr := '"' :: (s ++ ['"'])

/-- An operator as a scan reply lists it: status digit, long and short name,
numeric id and, in the technology-aware shape, the access-technology digit. -/
structure Operator where
  status : Char
  long : CStr
  short : CStr
  num : CStr
  act : Char

/-- An operator name as the replies quote it: no comma, no parenthesis, and no
white space at either end (it may be empty). -/
def isNameText (s : CStr) : Bool :=
  s.all (fun c => c != ',' && c != '(' && c != ')') &&
    (s.head?.all fun c => !g_ascii_isspace c) && (s.getLast?.all fun c => !g_ascii_isspace c)

/-- A valid operator record: a status digit, two names and a numeric id of at
least 5 digits. -/
def Operator.valid (o : Operator) : Bool :=
  isdigit o.status && isNameText o.long && isNameText o.short &&
    decide (5 ≤ o.num.length) && o.num.all isdigit

/-- A valid operator record for a shape: in the technology-aware shape the
access technology is a digit too. -/
def Operator.validFor (umts : Bool) (o : Operator) : Bool :=
  o.valid && (!umts || isdigit o.act)

/-- The record as the reply writes it: `(s,"long","short","num",a)` in the
technology-aware shape, `(s,"long","short","num")` in the pre-UMTS shape. -/
def Operator.render (umts : Bool) (o : Operator) : CStr :=
  '(' :: o.status :: ',' :: (quoted o.long ++ ',' :: (quoted o.short ++ ',' ::
    (quoted o.num ++ (if umts then [',', o.act, ')'] else [')']))))

/-- The records of a reply, separated by commas. -/
def joinRecords : List CStr → CStr
  | [] => []
  | [a] => a
  | a :: b :: l => a ++ ',' :: joinRecords (b :: l)

/-- The field a name is expected to give: absent when the name is empty. -/
def textField (s : CStr) : Option CStr := if s = [] then none else some s

/-- The scan record expected for an operator: its unquoted fields, and its
access technology in the technology-aware shape when the digit is in 0..6. -/
def Operator.record (umts : Bool) (o : Operator) : ScanRecord :=
  { status := some [o.status]
    oper_long := textField o.long
    oper_short := textField o.short
    oper_num := some o.num
    access_tech := if umts ∧ '0' ≤ o.act ∧ o.act ≤ '6' then some [o.act] else none }

/-- The part of the technology-aware expression after its fourth group:
`[\)]?,(\d)\)`. -/
def scanRegexUmtsTail : Re :=
  Re.cat (.opt true (.chr ')')) [.chr ',', .grp 5 (.cls isdigit), .chr ')']

/-- Trailing text after the records that does not disturb them: empty, or a
comma followed by something other than a digit. -/
def isTrailer (t : CStr) : Bool :=
  match t with
  | [] => true
  | [c] => c = ','
  | c :: d :: _ => c = ',' && !isdigit d

/-- Trailing text that holds no record for the grammar the records are written
in: the technology-aware grammar finds no valid record in it and, for records
in the pre-UMTS shape, no match at all, the pre-UMTS grammar finding no valid
record. -/
def noRecordIn (umts : Bool) (t : CStr) : Bool :=
  if umts then
    ((g_regex_match_all scanRegexUmts t).filterMap (scanRecordOfMatch true)).isEmpty
  else
    (g_regex_match scanRegexUmts t).isNone &&
      ((g_regex_match_all scanRegexPreUmts t).filterMap (scanRecordOfMatch false)).isEmpty

/-- The groups a record gives to a match: its status, its three quoted fields
and the groups `a` that follow them. -/
def Operator.groups (o : Operator) (a : List CStr) : List CStr :=
  [o.status] :: quoted o.long :: quoted o.short :: quoted o.num :: a


/-! ### What the loop stores for a match -/

/-- The text `save_scan_value` stores for group `num` of a match: the group
unquoted, `none` when the group is missing or nothing is left to store. -/
def storedText (info : GMatchInfo) (num : Nat) : Option CStr :=
  (g_match_info_fetch info num).bind fun q => textField (unquote q)

/-- The access technology the loop of `mm_gsm_parse_scan_response` stores for a
match: group 5 of a technology-aware match when it is one character in
`'0'..'6'`. -/
def storedAccessTech (umts_format : Bool) (info : GMatchInfo) : Option CStr :=
  if umts_format then
    match g_match_info_fetch info 5 with
    | some [c] => if '0' ≤ c ∧ c ≤ '6' then some [c] else none
    | _ => none
  else none

/-- A text a record can hold between quotes: no comma and no parenthesis. -/
def isQuotable (s : CStr) : Bool := s.all fun c => c != ',' && c != '(' && c != ')'

/-- An operator record in the technology-aware shape: a status digit, two names
without comma or parenthesis, a numeric id of at least 5 digits and an
access-technology digit in 0..6. -/
def Operator.wellFormed (o : Operator) : Bool :=
  isdigit o.status && isQuotable o.long && isQuotable o.short &&
    decide (5 ≤ o.num.length) && o.num.all isdigit && decide ('0' ≤ o.act ∧ o.act ≤ '6')

/-- The operator with the white space at both ends of its names removed. -/
def Operator.trimmed (o : Operator) : Operator :=
  { o with long := g_strstrip o.long, short := g_strstrip o.short }

/-! ### Replies that send empty names without quotes -/

/-- A name as some phones send it: between quotes, or nothing at all when the
name is empty. -/
def bareName (s : CStr) : CStr := if s = [] then [] else quoted s

/-- The record as such a reply writes it, in the pre-UMTS shape:
`(s,"long","short","num")` with nothing in the place of an empty name, as in
`(2,"T - Mobile",,"31026")`. -/
def Operator.renderBare (o : Operator) : CStr :=
  '(' :: o.status :: ',' :: (bareName o.long ++ ',' :: (bareName o.short ++ ',' ::
    (quoted o.num ++ [')'])))
/-! ## Registration replies (`mm_gsm_parse_creg_response`) -/

/-- The class `[^,\s]` of the registration expressions. -/
def notCommaSpace (c : Char) : Bool := !(c = ',' || isspace c)

/-- The expression `\d{1,2}`: a digit and, greedily, a second one. -/
def reDigit12 : Re := .seq (.cls isdigit) (.opt false (.cls isdigit))

/-- The expression `\s*`, greedy. -/
def reSpaces : Re := .star false isspace

/-- The expression `\+(CREG|CGREG):\s*`, the head of the six expressions. -/
def cregHead : List Re :=
  [.grp 1 (.alt (Re.lit 'C' "REG".toList) (Re.lit 'C' "GREG".toList)), .chr ':', reSpaces]

/-- The macro `CREG1`: `\+(CREG|CGREG):\s*(\d{1})`. -/
def CREG1 : List Re := Re.chr '+' :: cregHead ++ [.grp 2 (.cls isdigit)]

/-- The macro `CREG2`: `\+(CREG|CGREG):\s*(\d{1}),\s*(\d{1})`. -/
def CREG2 : List Re :=
  Re.chr '+' :: cregHead ++ [.grp 2 (.cls isdigit), .chr ',', reSpaces, .grp 3 (.cls isdigit)]

/-- The macro `CREG3`: `\+(CREG|CGREG):\s*(\d{1}),\s*([^,\s]*)\s*,\s*([^,\s]*)`. -/
def CREG3 : List Re :=
  Re.chr '+' :: cregHead ++ [.grp 2 (.cls isdigit), .chr ',', reSpaces,
    .grp 3 (.star false notCommaSpace), reSpaces, .chr ',', reSpaces,
    .grp 4 (.star false notCommaSpace)]

/-- The macro `CREG4`: `\+(CREG|CGREG):\s*(\d{1}),\s*(\d{1})\s*,\s*([^,\s]*)\s*,\s*([^,\s]*)`. -/
def CREG4 : List Re :=
  Re.chr '+' :: cregHead ++ [.grp 2 (.cls isdigit), .chr ',', reSpaces, .grp 3 (.cls isdigit),
    reSpaces, .chr ',', reSpaces, .grp 4 (.star false notCommaSpace), reSpaces, .chr ',',
    reSpaces, .grp 5 (.star false notCommaSpace)]

/-- The macro `CREG5`:
`\+(CREG|CGREG):\s*(\d{1})\s*,\s*([^,\s]*)\s*,\s*([^,\s]*)\s*,\s*(\d{1,2})`. -/
def CREG5 : List Re :=
  Re.chr '+' :: cregHead ++ [.grp 2 (.cls isdigit), reSpaces, .chr ',', reSpaces,
    .grp 3 (.star false notCommaSpace), reSpaces, .chr ',', reSpaces,
    .grp 4 (.star false notCommaSpace), reSpaces, .chr ',', reSpaces, .grp 5 reDigit12]

/-- The macro `CREG6`:
`\+(CREG|CGREG):\s*(\d{1}),\s*(\d{1})\s*,\s*([^,\s]*)\s*,\s*([^,\s]*)\s*,\s*(\d{1,2})`. -/
def CREG6 : List Re :=
  Re.chr '+' :: cregHead ++ [.grp 2 (.cls isdigit), .chr ',', reSpaces, .grp 3 (.cls isdigit),
    reSpaces, .chr ',', reSpaces, .grp 4 (.star false notCommaSpace), reSpaces, .chr ',',
    reSpaces, .grp 5 (.star false notCommaSpace), reSpaces, .chr ',', reSpaces,
    .grp 6 reDigit12]

/-- One expression of `mm_gsm_creg_regex_get`: the grammar followed by `$` for
a solicited reply, wrapped in `\r\n` ... `\r\n` for an unsolicited one. -/
def cregRegex (solicited : Bool) (grammar : List Re) : Re :=
  if solicited then
    match grammar ++ [.eos] with
    | a :: as => Re.cat a as
    | [] => .eos
  else Re.cat (.chr '\r') (.chr '\n' :: grammar ++ [.chr '\r', .chr '\n'])

/-- The function `mm_gsm_creg_regex_get`: the six expressions, in the order of the array. -/
def mm_gsm_creg_regex_get (solicited : Bool) : List Re :=
  [CREG1, CREG2, CREG3, CREG4, CREG5, CREG6].map (cregRegex solicited)

/-- The value of a character as a digit of `strtol`. -/
def digitVal (c : Char) : Option Nat :=
  if '0' ≤ c ∧ c ≤ '9' then some (c.toNat - 48)
  else if 'a' ≤ c ∧ c ≤ 'z' then some (c.toNat - 87)
  else if 'A' ≤ c ∧ c ≤ 'Z' then some (c.toNat - 55)
  else none

/-- The digit loop of `strtol`: the value of the longest run of digits of the
base at the start of the text, from the accumulator `acc`. -/
def digitsValue (base : Nat) : Nat → CStr → Nat
  | acc, [] => acc
  | acc, c :: cs =>
    match digitVal c with
    | some d => if d < base then digitsValue base (acc * base + d) cs else acc
    | none => acc

/-- The constant `LONG_MAX` for a 64-bit `long`. -/
def LONG_MAX : Int := 2 ^ 63 - 1

/-- The constant `LONG_MIN` for a 64-bit `long`. -/
def LONG_MIN : Int := -(2 : Int) ^ 63

/-- The C library `strtol (str, NULL, base)` for base 10 or 16: white space, an
optional sign, for base 16 an optional `0x`, then digits; the value is clamped
to the range of `long`, and is 0 without digits. -/
def strtol (str : CStr) (base : Nat) : Int :=
  let s := str.dropWhile isspace
  let neg := s.head? = some '-'
  let s := if s.head? = some '-' ∨ s.head? = some '+' then s.drop 1 else s
  let s :=
    if base = 16 ∧ s.head? = some '0' ∧ ((s.drop 1).head? = some 'x' ∨ (s.drop 1).head? = some 'X')
    then s.drop 2 else s
  let v : Int := (digitsValue base 0 s : Nat)
  if neg then max (-v) LONG_MIN else min v LONG_MAX

/-- The conversion of a `glong` to `gulong` (64 bits). -/
def toGulong (i : Int) : Nat := (i % 2 ^ 64).toNat

/-- The function `parse_uint`: the value returned and what is stored in `*valid`.  A leading
quote is skipped and the text is cut at the next quote; an empty text is not
valid; otherwise the text is read by `strtol` into a `gulong` and is valid when
`nmin = nmax` or the value is within `nmin..nmax`.  The value is returned
through a `guint` cast. -/
def parse_uint (str : Option CStr) (base : Nat) (nmin nmax : Int) : Nat × Bool :=
  match str with
  | none => (0, false)
  | some str =>
    let str := if str.head? = some '"' then str.drop 1 else str
    let str := str.takeWhile (fun c => c != '"')
    if str.length ≠ 0 then
      let ret := toGulong (strtol str base)
      if nmin = nmax ∨ (toGulong nmin ≤ ret ∧ ret ≤ toGulong nmax) then (ret % 2 ^ 32, true)
      else (0, false)
    else (0, false)

/-- The locations `mm_gsm_parse_creg_response` writes through its out
parameters: registration state, location-area code, cell id, access technology
and the CGREG flag. -/
structure CregOut where
  reg_state : Nat
  lac : Nat
  ci : Nat
  act : Int
  cgreg : Bool
  deriving DecidableEq, Repr

/-- What a call of `mm_gsm_parse_creg_response` leaves: the value returned, the
out parameters after the call, and the error set. -/
structure CregResult where
  success : Bool
  out : CregOut
  error : Option GError
  deriving DecidableEq, Repr

/-- The group numbers `mm_gsm_parse_creg_response` selects from the number of
groups of the match: `(istat, ilac, ici, iact)`, 0 for a field the reply does
not have.  With six groups the third one decides: a quote in it or more than
one character make it the location-area code. -/
def cregIndices (info : GMatchInfo) : Nat × Nat × Nat × Nat :=
  let n_matches := g_match_info_get_match_count info
  if n_matches = 3 then (2, 0, 0, 0)
  else if n_matches = 4 then (3, 0, 0, 0)
  else if n_matches = 5 then (2, 3, 4, 0)
  else if n_matches = 6 then
    match g_match_info_fetch info 3 with
    | some str =>
      if (strchr '"' str).isSome ∨ 1 < str.length then (2, 3, 4, 5) else (3, 4, 5, 0)
    | none => (3, 4, 5, 0)
  else if n_matches = 7 then (3, 4, 5, 6)
  else (0, 0, 0, 0)

/-- The function `mm_gsm_parse_creg_response` on the match `info`, the out parameters holding
`out` before the call. -/
def mm_gsm_parse_creg_response (info : GMatchInfo) (out : CregOut) : CregResult :=
  let out :=
    match g_match_info_fetch info 1 with
    | some str => if (strstr "CGREG".toList str).isSome then { out with cgreg := true } else out
    | none => out
  let (istat, ilac, ici, iact) := cregIndices info
  let (stat, success) := parse_uint (g_match_info_fetch info istat) 10 0 5
  if !success then
    ⟨false, out,
      some (.modem_general "Could not parse the registration status response")⟩
  else
    let lac := if ilac ≠ 0 then (parse_uint (g_match_info_fetch info ilac) 16 1 0xFFFF).1 else 0
    let ci := if ici ≠ 0 then (parse_uint (g_match_info_fetch info ici) 16 1 0x0FFFFFFE).1 else 0
    let act : Int :=
      if iact ≠ 0 then
        let r := parse_uint (g_match_info_fetch info iact) 10 0 7
        if r.2 then (r.1 : Int) else -1
      else -1
    let out := { out with reg_state := stat % 2 ^ 32 }
    let out := if stat ≠ 4 then { out with lac := lac, ci := ci, act := act } else out
    ⟨true, out, none⟩

/-! ### The registration replies the properties are stated for -/

/-- The character of a decimal digit. -/
def digitChar (n : Nat) : Char := Char.ofNat (48 + n)

/-- A hexadecimal digit, in either case. -/
def isxdigit (c : Char) : Bool := "0123456789abcdefABCDEF".toList.contains c

/-- The value of a hexadecimal digit: its position among `0123456789abcdef`,
the case put aside. -/
def xdigitVal (c : Char) : Nat := "0123456789abcdef".toList.indexOf c.toLower

/-- The number a text of hexadecimal digits denotes. -/
def hexValue (s : CStr) : Nat := Nat.ofDigits 16 (s.reverse.map xdigitVal)

/-- The number a text of decimal digits denotes. -/
def decimalValue (s : CStr) : Nat := Nat.ofDigits 10 (s.reverse.map fun c => c.toNat - 48)

/-- A registration reply: the tag (`+CGREG` or `+CREG`), the mode digit `<n>`,
the status, the location-area code and the cell id as hexadecimal texts, each
quoted or not, and the access technology. -/
structure RegReply where
  cgreg : Bool
  mode : Char
  stat : Nat
  lac : CStr
  lacQuoted : Bool
  ci : CStr
  ciQuoted : Bool
  act : Nat

/-- A field as the reply writes it. -/
def fieldText (inQuotes : Bool) (s : CStr) : CStr := if inQuotes then quoted s else s

/-- The tag of the reply, without its `+`. -/
def RegReply.tag (r : RegReply) : CStr := if r.cgreg then "CGREG".toList else "CREG".toList

/-- The fields of the reply in grammar `g` (0 for `CREG1` up to 5 for `CREG6`):
`<stat>`, `<n>,<stat>`, `<stat>,<lac>,<ci>`, `<n>,<stat>,<lac>,<ci>`,
`<stat>,<lac>,<ci>,<AcT>`, `<n>,<stat>,<lac>,<ci>,<AcT>`. -/
def RegReply.fields (r : RegReply) (g : Fin 6) : CStr :=
  let s := digitChar r.stat
  let lac := fieldText r.lacQuoted r.lac
  let ci := fieldText r.ciQuoted r.ci
  let a := digitChar r.act
  match g with
  | 0 => [s]
  | 1 => [r.mode, ',', s]
  | 2 => s :: ',' :: (lac ++ ',' :: ci)
  | 3 => r.mode :: ',' :: s :: ',' :: (lac ++ ',' :: ci)
  | 4 => s :: ',' :: (lac ++ ',' :: (ci ++ [',', a]))
  | 5 => r.mode :: ',' :: s :: ',' :: (lac ++ ',' :: (ci ++ [',', a]))

/-- The reply text in grammar `g`, as a solicited reply (`+CREG: ...`) or as an
unsolicited one (the same between two `\r\n`). -/
def RegReply.text (r : RegReply) (solicited : Bool) (g : Fin 6) : CStr :=
  if solicited then '+' :: (r.tag ++ ':' :: ' ' :: r.fields g)
  else '\r' :: '\n' :: '+' :: (r.tag ++ ':' :: ' ' :: (r.fields g ++ ['\r', '\n']))

/-- A reply within the ranges of the claim: a status in 0..5 other than 4, a
mode digit, a location-area code in 1..0xFFFF and a cell id in 1..0x0FFFFFFE
written with hexadecimal digits, an access technology in 0..7. -/
def RegReply.inRange (r : RegReply) : Bool :=
  decide (r.stat ≤ 5) && decide (r.stat ≠ 4) && isdigit r.mode &&
    r.lac.all isxdigit && decide (1 ≤ hexValue r.lac) && decide (hexValue r.lac ≤ 0xFFFF) &&
    r.ci.all isxdigit && decide (1 ≤ hexValue r.ci) && decide (hexValue r.ci ≤ 0x0FFFFFFE) &&
    decide (r.act ≤ 7)

/-- The six grammars, in the order of `mm_gsm_creg_regex_get`. -/
def cregGrammar (g : Fin 6) : List Re :=
  match g with
  | 0 => CREG1
  | 1 => CREG2
  | 2 => CREG3
  | 3 => CREG4
  | 4 => CREG5
  | 5 => CREG6

/-- The out parameters expected after the reply is parsed in grammar `g`: the
status, the location-area code and the cell id (0 in the grammars without
them), the access technology (-1 in the grammars without it), and the CGREG
flag set for the `+CGREG` tag. -/
def RegReply.expected (r : RegReply) (g : Fin 6) (out : CregOut) : CregOut :=
  { reg_state := r.stat
    lac := if 2 ≤ g.val then hexValue r.lac else 0
    ci := if 2 ≤ g.val then hexValue r.ci else 0
    act := if 4 ≤ g.val then (r.act : Int) else -1
    cgreg := r.cgreg || out.cgreg }

/-- A grammar followed by the end `E` of the expression, as one expression. -/
def cregWith (grammar : List Re) (E : Re) : Re :=
  match grammar ++ [E] with
  | a :: as => Re.cat a as
  | [] => E

/-- The texts the groups of the reply capture in grammar `g`, the tag first. -/
def RegReply.groups (r : RegReply) (g : Fin 6) : List CStr :=
  let s := [digitChar r.stat]
  let lac := fieldText r.lacQuoted r.lac
  let ci := fieldText r.ciQuoted r.ci
  let a := [digitChar r.act]
  match g with
  | 0 => [r.tag, s]
  | 1 => [r.tag, [r.mode], s]
  | 2 => [r.tag, s, lac, ci]
  | 3 => [r.tag, [r.mode], s, lac, ci]
  | 4 => [r.tag, s, lac, ci, a]
  | 5 => [r.tag, [r.mode], s, lac, ci, a]

/-- What the end of an expression must be for the grammars to be followed by
it: it cannot start at a field character, and the text `e` it is to match does
not start with one nor with a digit. -/
structure CregEnd (E : Re) (e : CStr) : Prop where
  field : ∀ x t, notCommaSpace x = true → E.run (x :: t) = []
  head : ∀ y t, e = y :: t → notCommaSpace y = false ∧ isdigit y = false

/-- The registration state read from given fields, in the words of the spec:
the status must be an integer in 0..5, otherwise the parse fails; the
location-area code and the cell id are hexadecimal (1..0xFFFF, 1..0x0FFFFFFE)
and the access technology decimal (0..7), each omitted (0, 0, -1) when
malformed or absent; with status 4 none of the three is reported.  The CGREG
flag is set when the tag holds `CGREG`. -/
def cregFromFields (tag stat lac ci : CStr) (act : Option CStr) (out : CregOut) : CregResult :=
  let out := if (strstr "CGREG".toList tag).isSome then { out with cgreg := true } else out
  let st := parse_uint (some stat) 10 0 5
  if st.2 then
    if st.1 = 4 then ⟨true, { out with reg_state := st.1 % 2 ^ 32 }, none⟩
    else
      ⟨true,
        { out with
          reg_state := st.1 % 2 ^ 32
          lac := (parse_uint (some lac) 16 1 0xFFFF).1
          ci := (parse_uint (some ci) 16 1 0x0FFFFFFE).1
          act :=
            match act with
            | some a => if (parse_uint (some a) 10 0 7).2 then ((parse_uint (some a) 10 0 7).1 : Int)
              else -1
            | none => -1 },
        none⟩
  else ⟨false, out, some (.modem_general "Could not parse the registration status response")⟩

/-! ## The MBIM port guard (`mm-mbim-port.c`) -/

/-- The private data of an `MMMbimPort`: the in-progress flag and the device
handle (`none` for NULL), a handle being identified by a number. -/
structure MMMbimPort where
  in_progress : Bool
  mbim_device : Option Nat
  deriving DecidableEq, Repr

/-- The asynchronous calls into the MBIM library, each completed later by its
callback. -/
inductive MbimCall where
  | mbim_device_new
  | mbim_device_open
  | mbim_device_close
  deriving DecidableEq, Repr

/-- What a function of the port does besides changing the port: it completes
the operation with a result (`port_context_complete_and_free`), or it starts a
call into the MBIM library and returns. -/
inductive PortAction where
  | complete (result : Except GError Unit)
  | start (call : MbimCall)

/-- The error of a request made while an operation is in progress. -/
def errorInProgress : GError :=
  .core_in_progress "MBIM device open/close operation in progress"

/-- The function `mm_mbim_port_open`. -/
def mm_mbim_port_open (self : MMMbimPort) : MMMbimPort × PortAction :=
  if self.in_progress then (self, .complete (.error errorInProgress))
  else if self.mbim_device.isSome then (self, .complete (.ok ()))
  else ({ self with in_progress := true }, .start .mbim_device_new)

/-- The function `mbim_device_new_ready`, the callback of `mbim_device_new`: `res` is what
`mbim_device_new_finish` gives, a device or an error. -/
def mbim_device_new_ready (self : MMMbimPort) (res : Except GError Nat) :
    MMMbimPort × PortAction :=
  match res with
  | .error error => ({ self with mbim_device := none }, .complete (.error error))
  | .ok device => ({ self with mbim_device := some device }, .start .mbim_device_open)

/-- The function `mbim_device_open_ready`, the callback of `mbim_device_open`. -/
def mbim_device_open_ready (self : MMMbimPort) (res : Except GError Unit) :
    MMMbimPort × PortAction :=
  let self := { self with in_progress := false }
  match res with
  | .error error => ({ self with mbim_device := none }, .complete (.error error))
  | .ok _ => (self, .complete (.ok ()))

/-- The function `mm_mbim_port_is_open`. -/
def mm_mbim_port_is_open (self : MMMbimPort) : Bool := self.mbim_device.isSome

/-- The function `mm_mbim_port_close`. -/
def mm_mbim_port_close (self : MMMbimPort) : MMMbimPort × PortAction :=
  if self.in_progress then (self, .complete (.error errorInProgress))
  else if self.mbim_device.isNone then (self, .complete (.ok ()))
  else ({ in_progress := true, mbim_device := none }, .start .mbim_device_close)

/-- The function `mbim_device_close_ready`, the callback of `mbim_device_close`. -/
def mbim_device_close_ready (_self : MMMbimPort) (res : Except GError Unit) :
    MMMbimPort × PortAction :=
  ({ in_progress := false, mbim_device := none }, .complete res)

/-- A port together with the library calls in flight: those started whose
callback has not run yet. -/
structure PortSystem where
  port : MMMbimPort
  inflight : List MbimCall

/-- The port as `mm_mbim_port_init` leaves it, nothing in flight. -/
def PortSystem.init : PortSystem := ⟨⟨false, none⟩, []⟩

/-- What can happen to a port: a caller asks to open or to close it, or the
library completes a call in flight with its result. -/
inductive PortEvent where
  | open_request
  | close_request
  | new_done (res : Except GError Nat)
  | open_done (res : Except GError Unit)
  | close_done (res : Except GError Unit)

/-- The in-flight calls after a function of the port has acted. -/
def afterAction (inflight : List MbimCall) (a : PortAction) : List MbimCall :=
  match a with
  | .complete _ => inflight
  | .start call => inflight ++ [call]

/-- One event on the system, with the result reported to a caller if the event
completes an operation.  A completion is possible only for a call in flight
(otherwise `none`: the event cannot happen). -/
def PortSystem.step (s : PortSystem) (ev : PortEvent) :
    Option (PortSystem × Option (Except GError Unit)) :=
  let fin (inflight : List MbimCall) (r : MMMbimPort × PortAction) :
      PortSystem × Option (Except GError Unit) :=
    (⟨r.1, afterAction inflight r.2⟩,
      match r.2 with
      | .complete result => some result
      | .start _ => none)
  match ev with
  | .open_request => some (fin s.inflight (mm_mbim_port_open s.port))
  | .close_request => some (fin s.inflight (mm_mbim_port_close s.port))
  | .new_done res =>
    if .mbim_device_new ∈ s.inflight then
      some (fin (s.inflight.erase .mbim_device_new) (mbim_device_new_ready s.port res))
    else none
  | .open_done res =>
    if .mbim_device_open ∈ s.inflight then
      some (fin (s.inflight.erase .mbim_device_open) (mbim_device_open_ready s.port res))
    else none
  | .close_done res =>
    if .mbim_device_close ∈ s.inflight then
      some (fin (s.inflight.erase .mbim_device_close) (mbim_device_close_ready s.port res))
    else none

/-- The system after a sequence of events from a given state, an event that
cannot happen being passed over. -/
def PortSystem.run : List PortEvent → PortSystem → PortSystem
  | [], s => s
  | ev :: evs, s =>
    match s.step ev with
    | some (s', _) => PortSystem.run evs s'
    | none => PortSystem.run evs s

/-- What holds of a port in every reachable state: at most one library call is
in flight, and only while the in-progress flag is set. -/
def PortSystem.guarded (s : PortSystem) : Prop :=
  s.inflight.length ≤ 1 ∧ (s.inflight ≠ [] → s.port.in_progress = true)

/-- The forms the port takes in the states reached from the initial one: idle
and closed; creating the device; left with the in-progress flag set and nothing
in flight by a failed creation; opening the device; idle and open; closing. -/
def PortSystem.shaped (s : PortSystem) : Prop :=
  s = ⟨⟨false, none⟩, []⟩ ∨ s = ⟨⟨true, none⟩, [.mbim_device_new]⟩ ∨
  s = ⟨⟨true, none⟩, []⟩ ∨ (∃ d, s = ⟨⟨true, some d⟩, [.mbim_device_open]⟩) ∨
  (∃ d, s = ⟨⟨false, some d⟩, []⟩) ∨ s = ⟨⟨true, none⟩, [.mbim_device_close]⟩

/-! ## GPS enable and disable sequences (`mm-shared-cinterion.c`) -/

/-- The type `FeatureSupport`. -/
inductive FeatureSupport where
  | FEATURE_SUPPORT_UNKNOWN
  | FEATURE_NOT_SUPPORTED
  | FEATURE_SUPPORTED
  deriving DecidableEq, Repr

/-- Modelled from the spec: the bit of the raw GPS source in the
`MMModemLocationSource` mask, whose declaration is not among the sources (the
spec says a source set is a bitmask of named feature bits); the value is the
one of libmm-glib. -/
def MM_MODEM_LOCATION_SOURCE_GPS_RAW : Nat := 2

/-- Modelled from the spec: the bit of the NMEA GPS source in the
`MMModemLocationSource` mask, whose declaration is not among the sources. -/
def MM_MODEM_LOCATION_SOURCE_GPS_NMEA : Nat := 4

/-- Modelled from the spec: the bit of the unmanaged GPS source in the
`MMModemLocationSource` mask, whose declaration is not among the sources. -/
def MM_MODEM_LOCATION_SOURCE_GPS_UNMANAGED : Nat := 16

/-- The complement `~source` of a 32-bit mask. -/
def maskNot (source : Nat) : Nat := 0xFFFFFFFF ^^^ (source % 2 ^ 32)

/-- The private data of the shared Cinterion interface. -/
structure Private where
  supported_sources : Nat
  enabled_sources : Nat
  sgpss_support : FeatureSupport
  sgpsc_support : FeatureSupport
  deriving DecidableEq, Repr

/-- The GPS data port of the modem as the sequences see it: whether
`mm_base_modem_peek_port_gps` gives a port, and what `mm_port_serial_open`
returns on it. -/
structure GpsPort where
  present : Bool
  open_result : Except GError Unit

/-- What a sequence does that can be observed: it sends an AT command (and
waits for its reply), schedules its next step after a delay in milliseconds,
opens or closes the GPS data port, completes its task with a result, or stops
on a failed assertion. -/
inductive Action where
  | at_command (command : String)
  | timeout_add (interval : Nat)
  | serial_open
  | serial_close
  | task_return (result : Except GError Unit)
  | assert_failed

/-- The constant `MAX_SGPSC_ENGINE_RETRIES`. -/
def MAX_SGPSC_ENGINE_RETRIES : Nat := 3

/-- The constant `GPS_COMMAND_TIMEOUT_DEFAULT_MS`. -/
def GPS_COMMAND_TIMEOUT_DEFAULT_MS : Nat := 100

/-- The constant `GPS_COMMAND_TIMEOUT_ENGINE_MS`. -/
def GPS_COMMAND_TIMEOUT_ENGINE_MS : Nat := 2000

/-- The constant `ENABLE_LOCATION_GATHERING_GPS_STEP_FIRST`. -/
def ENABLE_LOCATION_GATHERING_GPS_STEP_FIRST : Nat := 0

/-- The constant `ENABLE_LOCATION_GATHERING_GPS_STEP_SGPSS`. -/
def ENABLE_LOCATION_GATHERING_GPS_STEP_SGPSS : Nat := 1

/-- The constant `ENABLE_LOCATION_GATHERING_GPS_STEP_SGPSC_OUTPUT`. -/
def ENABLE_LOCATION_GATHERING_GPS_STEP_SGPSC_OUTPUT : Nat := 2

/-- The constant `ENABLE_LOCATION_GATHERING_GPS_STEP_SGPSC_ANTENNA`. -/
def ENABLE_LOCATION_GATHERING_GPS_STEP_SGPSC_ANTENNA : Nat := 3

/-- The constant `ENABLE_LOCATION_GATHERING_GPS_STEP_SGPSC_ENGINE`. -/
def ENABLE_LOCATION_GATHERING_GPS_STEP_SGPSC_ENGINE : Nat := 4

/-- The constant `ENABLE_LOCATION_GATHERING_GPS_STEP_LAST`. -/
def ENABLE_LOCATION_GATHERING_GPS_STEP_LAST : Nat := 5

/-- The type `EnableLocationGatheringContext`. -/
structure EnableLocationGatheringContext where
  source : Nat
  gps_step : Nat
  sgpsc_engine_retries : Nat
  deriving DecidableEq, Repr

/-- How a call of a step function ends: a command has been sent and its
callback is awaited, or the task has been completed (with what was done and the
private data left), or an assertion failed, or nothing was done (a step number
past the last case of the `switch`). -/
inductive StepOutcome (Ctx : Type) where
  | command (command : String) (ctx : Ctx)
  | done (actions : List Action) (priv : Private)
  | aborted
  | nothing

/-- The assertions at the start of each step: exactly one of the two dialects
is supported. -/
def oneDialect (priv : Private) : Bool :=
  (priv.sgpss_support = .FEATURE_SUPPORTED || priv.sgpsc_support = .FEATURE_SUPPORTED) &&
    !(priv.sgpss_support = .FEATURE_SUPPORTED && priv.sgpsc_support = .FEATURE_SUPPORTED)

/-- The `switch` of `enable_location_gathering_context_gps_step`, entered at the
case of `ctx.gps_step` and falling through the cases that send no command; the
fuel counts the cases. -/
def enableSwitch (priv : Private) (port : GpsPort) :
    Nat → EnableLocationGatheringContext → StepOutcome EnableLocationGatheringContext
  | 0, _ => .nothing
  | fuel + 1, ctx =>
    match ctx.gps_step with
    | 0 => enableSwitch priv port fuel { ctx with gps_step := ctx.gps_step + 1 }
    | 1 =>
      if priv.sgpss_support = .FEATURE_SUPPORTED then .command "AT^SGPSS=4" ctx
      else enableSwitch priv port fuel { ctx with gps_step := ctx.gps_step + 1 }
    | 2 =>
      if priv.sgpsc_support = .FEATURE_SUPPORTED then
        .command "AT^SGPSC=\"NMEA/Output\",\"on\"" ctx
      else enableSwitch priv port fuel { ctx with gps_step := ctx.gps_step + 1 }
    | 3 =>
      if priv.sgpsc_support = .FEATURE_SUPPORTED then
        .command "AT^SGPSC=\"Power/Antenna\",\"on\"" ctx
      else enableSwitch priv port fuel { ctx with gps_step := ctx.gps_step + 1 }
    | 4 =>
      if priv.sgpsc_support = .FEATURE_SUPPORTED then
        .command "AT^SGPSC=\"Engine\",\"1\"" ctx
      else enableSwitch priv port fuel { ctx with gps_step := ctx.gps_step + 1 }
    | 5 =>
      if ctx.source &&& (MM_MODEM_LOCATION_SOURCE_GPS_NMEA |||
          MM_MODEM_LOCATION_SOURCE_GPS_RAW) ≠ 0 then
        if !port.present then
          .done [.task_return (.error (.core_failed "Couldn't open raw GPS serial port"))] priv
        else
          match port.open_result with
          | .error error => .done [.serial_open, .task_return (.error error)] priv
          | .ok _ =>
            .done [.serial_open, .task_return (.ok ())]
              { priv with enabled_sources := priv.enabled_sources ||| ctx.source }
      else
        .done [.task_return (.ok ())]
          { priv with enabled_sources := priv.enabled_sources ||| ctx.source }
    | _ => .nothing

/-- The function `enable_location_gathering_context_gps_step`. -/
def enable_location_gathering_context_gps_step (priv : Private) (port : GpsPort)
    (ctx : EnableLocationGatheringContext) : StepOutcome EnableLocationGatheringContext :=
  if oneDialect priv then enableSwitch priv port 6 ctx else .aborted

/-- How `enable_sgpsc_or_sgpss_ready` ends: the next step is scheduled after a
delay, or the task is completed with the error of the command. -/
inductive ReadyOutcome where
  | schedule (interval : Nat) (ctx : EnableLocationGatheringContext)
  | failed (error : GError)
  deriving DecidableEq, Repr

/-- The delay `enable_sgpsc_or_sgpss_ready` passes to `g_timeout_add`. -/
def scheduleDelay (ctx : EnableLocationGatheringContext) : Nat :=
  if ctx.gps_step = ENABLE_LOCATION_GATHERING_GPS_STEP_SGPSC_ENGINE then
    GPS_COMMAND_TIMEOUT_ENGINE_MS
  else GPS_COMMAND_TIMEOUT_DEFAULT_MS

/-- The function `enable_sgpsc_or_sgpss_ready`, the callback of every command of the enable
sequence, `res` being what `mm_base_modem_at_command_finish` gives. -/
def enable_sgpsc_or_sgpss_ready (ctx : EnableLocationGatheringContext)
    (res : Except GError Unit) : ReadyOutcome :=
  match res with
  | .error error =>
    if ctx.gps_step = ENABLE_LOCATION_GATHERING_GPS_STEP_SGPSC_ENGINE then
      let ctx := { ctx with sgpsc_engine_retries := ctx.sgpsc_engine_retries + 1 }
      if ctx.sgpsc_engine_retries < MAX_SGPSC_ENGINE_RETRIES then
        .schedule (scheduleDelay ctx) ctx
      else .failed error
    else .failed error
  | .ok _ =>
    let ctx := { ctx with gps_step := ctx.gps_step + 1 }
    .schedule (scheduleDelay ctx) ctx

/-- What a run of a sequence leaves: what it did, in order, and the private
data. -/
structure SequenceRun where
  actions : List Action
  priv : Private

/-- The enable sequence run from a context, the commands it sends being
answered in order by the listed results: each command is sent, its callback
runs with the next result and either schedules the next step, which then runs,
or completes the task.  With no result left the sequence waits for its
command. -/
def enableRun (priv : Private) (port : GpsPort) :
    List (Except GError Unit) → EnableLocationGatheringContext → SequenceRun
  | [], ctx =>
    match enable_location_gathering_context_gps_step priv port ctx with
    | .command command _ => ⟨[.at_command command], priv⟩
    | .done actions priv' => ⟨actions, priv'⟩
    | .aborted => ⟨[.assert_failed], priv⟩
    | .nothing => ⟨[], priv⟩
  | res :: rest, ctx =>
    match enable_location_gathering_context_gps_step priv port ctx with
    | .command command ctx =>
      match enable_sgpsc_or_sgpss_ready ctx res with
      | .schedule interval ctx =>
        let r := enableRun priv port rest ctx
        ⟨.at_command command :: .timeout_add interval :: r.actions, r.priv⟩
      | .failed error => ⟨[.at_command command, .task_return (.error error)], priv⟩
    | .done actions priv' => ⟨actions, priv'⟩
    | .aborted => ⟨[.assert_failed], priv⟩
    | .nothing => ⟨[], priv⟩

/-- The context `mm_shared_cinterion_enable_location_gathering` creates. -/
def enableContext (source : Nat) : EnableLocationGatheringContext :=
  ⟨source, ENABLE_LOCATION_GATHERING_GPS_STEP_FIRST, 0⟩

/-- The constant `DISABLE_LOCATION_GATHERING_GPS_STEP_FIRST`. -/
def DISABLE_LOCATION_GATHERING_GPS_STEP_FIRST : Nat := 0

/-- The constant `DISABLE_LOCATION_GATHERING_GPS_STEP_SGPSS`. -/
def DISABLE_LOCATION_GATHERING_GPS_STEP_SGPSS : Nat := 1

/-- The constant `DISABLE_LOCATION_GATHERING_GPS_STEP_SGPSC_ENGINE`. -/
def DISABLE_LOCATION_GATHERING_GPS_STEP_SGPSC_ENGINE : Nat := 2

/-- The constant `DISABLE_LOCATION_GATHERING_GPS_STEP_SGPSC_ANTENNA`. -/
def DISABLE_LOCATION_GATHERING_GPS_STEP_SGPSC_ANTENNA : Nat := 3

/-- The constant `DISABLE_LOCATION_GATHERING_GPS_STEP_SGPSC_OUTPUT`. -/
def DISABLE_LOCATION_GATHERING_GPS_STEP_SGPSC_OUTPUT : Nat := 4

/-- The constant `DISABLE_LOCATION_GATHERING_GPS_STEP_LAST`. -/
def DISABLE_LOCATION_GATHERING_GPS_STEP_LAST : Nat := 5

/-- The type `DisableLocationGatheringContext`. -/
structure DisableLocationGatheringContext where
  source : Nat
  gps_step : Nat
  sgpss_error : Option GError
  sgpsc_error : Option GError
  deriving DecidableEq, Repr

/-- The `switch` of `disable_location_gathering_context_gps_step`, entered at
the case of `ctx.gps_step` and falling through the cases that send no command;
the fuel counts the cases. -/
def disableSwitch (priv : Private) (port : GpsPort) :
    Nat → DisableLocationGatheringContext → StepOutcome DisableLocationGatheringContext
  | 0, _ => .nothing
  | fuel + 1, ctx =>
    match ctx.gps_step with
    | 0 => disableSwitch priv port fuel { ctx with gps_step := ctx.gps_step + 1 }
    | 1 =>
      if priv.sgpss_support = .FEATURE_SUPPORTED then .command "AT^SGPSS=0" ctx
      else disableSwitch priv port fuel { ctx with gps_step := ctx.gps_step + 1 }
    | 2 =>
      if priv.sgpsc_support = .FEATURE_SUPPORTED then
        .command "AT^SGPSC=\"Engine\",\"0\"" ctx
      else disableSwitch priv port fuel { ctx with gps_step := ctx.gps_step + 1 }
    | 3 =>
      if priv.sgpsc_support = .FEATURE_SUPPORTED then
        .command "AT^SGPSC=\"Power/Antenna\",\"off\"" ctx
      else disableSwitch priv port fuel { ctx with gps_step := ctx.gps_step + 1 }
    | 4 =>
      if priv.sgpsc_support = .FEATURE_SUPPORTED then
        .command "AT^SGPSC=\"NMEA/Output\",\"off\"" ctx
      else disableSwitch priv port fuel { ctx with gps_step := ctx.gps_step + 1 }
    | 5 =>
      let closing : List Action :=
        if ctx.source &&& (MM_MODEM_LOCATION_SOURCE_GPS_NMEA |||
            MM_MODEM_LOCATION_SOURCE_GPS_RAW) ≠ 0 then
          if port.present then [.serial_close] else []
        else []
      match ctx.sgpss_error with
      | some error => .done (closing ++ [.task_return (.error error)]) priv
      | none =>
        match ctx.sgpsc_error with
        | some error => .done (closing ++ [.task_return (.error error)]) priv
        | none =>
          .done (closing ++ [.task_return (.ok ())])
            { priv with enabled_sources := priv.enabled_sources &&& maskNot ctx.source }
    | _ => .nothing

/-- The function `disable_location_gathering_context_gps_step`. -/
def disable_location_gathering_context_gps_step (priv : Private) (port : GpsPort)
    (ctx : DisableLocationGatheringContext) : StepOutcome DisableLocationGatheringContext :=
  if oneDialect priv then disableSwitch priv port 6 ctx else .aborted

/-- The function `disable_sgpsc_ready` up to its call of the next step: the error of the
command is stored unless one is stored already, and the step number goes up;
`res` is what `mm_base_modem_at_command_finish` gives. -/
def disable_sgpsc_ready (ctx : DisableLocationGatheringContext) (res : Except GError Unit) :
    DisableLocationGatheringContext :=
  let ctx :=
    match res with
    | .error error =>
      match ctx.sgpsc_error with
      | none => { ctx with sgpsc_error := some error }
      | some _ => ctx
    | .ok _ => ctx
  { ctx with gps_step := ctx.gps_step + 1 }

/-- The function `disable_sgpss_ready` up to its call of the next step: `none` when the
assertion that no `^SGPSS` error is stored fails; otherwise the error of the
command, if any, is stored and the step number goes up. -/
def disable_sgpss_ready (ctx : DisableLocationGatheringContext) (res : Except GError Unit) :
    Option DisableLocationGatheringContext :=
  match ctx.sgpss_error with
  | some _ => none
  | none =>
    let ctx :=
      match res with
      | .error error => { ctx with sgpss_error := some error }
      | .ok _ => ctx
    some { ctx with gps_step := ctx.gps_step + 1 }

/-- The callback given with a command of the disable sequence:
`disable_sgpss_ready` for `AT^SGPSS=0` (sent at step 1), `disable_sgpsc_ready`
for the three `^SGPSC` commands. -/
def disableReady (ctx : DisableLocationGatheringContext) (res : Except GError Unit) :
    Option DisableLocationGatheringContext :=
  if ctx.gps_step = DISABLE_LOCATION_GATHERING_GPS_STEP_SGPSS then disable_sgpss_ready ctx res
  else some (disable_sgpsc_ready ctx res)

/-- The disable sequence run from a context, the commands it sends being
answered in order by the listed results: each command is sent, its callback
runs with the next result and calls the next step.  With no result left the
sequence waits for its command. -/
def disableRun (priv : Private) (port : GpsPort) :
    List (Except GError Unit) → DisableLocationGatheringContext → SequenceRun
  | [], ctx =>
    match disable_location_gathering_context_gps_step priv port ctx with
    | .command command _ => ⟨[.at_command command], priv⟩
    | .done actions priv' => ⟨actions, priv'⟩
    | .aborted => ⟨[.assert_failed], priv⟩
    | .nothing => ⟨[], priv⟩
  | res :: rest, ctx =>
    match disable_location_gathering_context_gps_step priv port ctx with
    | .command command ctx =>
      match disableReady ctx res with
      | some ctx =>
        let r := disableRun priv port rest ctx
        ⟨.at_command command :: r.actions, r.priv⟩
      | none => ⟨[.at_command command, .assert_failed], priv⟩
    | .done actions priv' => ⟨actions, priv'⟩
    | .aborted => ⟨[.assert_failed], priv⟩
    | .nothing => ⟨[], priv⟩

/-- The context `mm_shared_cinterion_disable_location_gathering` creates. -/
def disableContext (source : Nat) : DisableLocationGatheringContext :=
  ⟨source, DISABLE_LOCATION_GATHERING_GPS_STEP_FIRST, none, none⟩

/-- The first error among the results of the commands, if any. -/
def firstError : List (Except GError Unit) → Option GError
  | [] => none
  | .error error :: _ => some error
  | .ok _ :: rest => firstError rest

/-- The result a task reports: the error if there is one, success otherwise. -/
def resultOf (error : Option GError) : Except GError Unit :=
  match error with
  | some e => .error e
  | none => .ok ()


/-! ### Enable and disable requests -/

/-- The AT commands among the actions of a run, in the order they are sent. -/
def commandsOf (actions : List Action) : List String :=
  actions.filterMap fun a =>
    match a with
    | .at_command command => some command
    | _ => none

/-- Whether command `a` is issued before command `b` in a trace of commands:
`b` occurs after the first occurrence of `a`. -/
def issuedBefore (a b : String) (trace : List String) : Bool :=
  ((trace.dropWhile fun c => c != a).drop 1).contains b

/-- The result a task reports: that of the first `g_task_return_*` among the
actions, `none` while the task has not completed. -/
def reported : List Action → Option (Except GError Unit)
  | [] => none
  | .task_return result :: _ => some result
  | _ :: rest => reported rest

/-- The mask `MM_MODEM_LOCATION_SOURCE_GPS_NMEA | MM_MODEM_LOCATION_SOURCE_GPS_RAW |
MM_MODEM_LOCATION_SOURCE_GPS_UNMANAGED` of the three GPS sources. -/
def gpsSources : Nat :=
  MM_MODEM_LOCATION_SOURCE_GPS_NMEA ||| MM_MODEM_LOCATION_SOURCE_GPS_RAW |||
    MM_MODEM_LOCATION_SOURCE_GPS_UNMANAGED

/-- The parent implementation of the location interface
(`iface_modem_location_parent`) as the requests see it: the result its
`enable_location_gathering` reports for a source, and that of its
`disable_location_gathering`, `none` when the parent does not implement it. -/
structure ParentLocation where
  enable_location_gathering : Nat → Except GError Unit
  disable_location_gathering : Option (Nat → Except GError Unit)

/-- What a request leaves: the source handed over to the parent implementation
when the request was forwarded, what this layer did, in order, and the private
data. -/
structure RequestRun where
  forwarded : Option Nat
  actions : List Action
  priv : Private

/-- The function `mm_shared_cinterion_enable_location_gathering`, the commands
of the sequence being answered in order by the listed results. -/
def mm_shared_cinterion_enable_location_gathering (priv : Private) (port : GpsPort)
    (parent : ParentLocation) (source : Nat) (results : List (Except GError Unit)) :
    RequestRun :=
  if priv.supported_sources &&& source = 0 then
    ⟨some source, [.task_return (parent.enable_location_gathering source)], priv⟩
  else if source &&& gpsSources = 0 then ⟨none, [.assert_failed], priv⟩
  else if priv.enabled_sources &&& gpsSources ≠ 0 then
    ⟨none, [.task_return (.ok ())],
      { priv with enabled_sources := priv.enabled_sources ||| source }⟩
  else
    let r := enableRun priv port results (enableContext source)
    ⟨none, r.actions, r.priv⟩

/-- The function `mm_shared_cinterion_disable_location_gathering`, the commands
of the sequence being answered in order by the listed results. -/
def mm_shared_cinterion_disable_location_gathering (priv : Private) (port : GpsPort)
    (parent : ParentLocation) (source : Nat) (results : List (Except GError Unit)) :
    RequestRun :=
  if priv.supported_sources &&& source = 0 then
    match parent.disable_location_gathering with
    | some disable => ⟨some source, [.task_return (disable source)], priv⟩
    | none => ⟨none, [.task_return (.ok ())], priv⟩
  else if source &&& gpsSources = 0 then ⟨none, [.assert_failed], priv⟩
  else if (priv.enabled_sources &&& maskNot source) &&& gpsSources ≠ 0 then
    ⟨none, [.task_return (.ok ())],
      { priv with enabled_sources := priv.enabled_sources &&& maskNot source }⟩
  else
    let r := disableRun priv port results (disableContext source)
    ⟨none, r.actions, r.priv⟩

/-- A request on the location interface, with the results its commands get. -/
inductive LocationRequest where
  | enable (source : Nat) (results : List (Except GError Unit))
  | disable (source : Nat) (results : List (Except GError Unit))

/-- The modem between requests: the private data and whether the GPS data port
is open. -/
structure LocationState where
  priv : Private
  gps_open : Bool

/-- Modelled from the spec: the effect on the GPS data port of
`mm_port_serial_open` and `mm_port_serial_close`, which are not among the
sources (the spec has the last step open or close a dedicated data port): the
port is open after an open that succeeds and closed after a close; a failed
open and every other action leave it as it was. -/
def portAfter (port : GpsPort) : Bool → List Action → Bool
  | isOpen, [] => isOpen
  | isOpen, .serial_open :: rest =>
    match port.open_result with
    | .ok _ => portAfter port true rest
    | .error _ => portAfter port isOpen rest
  | _, .serial_close :: rest => portAfter port false rest
  | isOpen, _ :: rest => portAfter port isOpen rest

/-- The run of one request. -/
def LocationRequest.run (port : GpsPort) (parent : ParentLocation) (priv : Private) :
    LocationRequest → RequestRun
  | .enable source results =>
    mm_shared_cinterion_enable_location_gathering priv port parent source results
  | .disable source results =>
    mm_shared_cinterion_disable_location_gathering priv port parent source results

/-- The modem after one request. -/
def LocationState.step (port : GpsPort) (parent : ParentLocation) (s : LocationState)
    (request : LocationRequest) : LocationState :=
  let r := request.run port parent s.priv
  ⟨r.priv, portAfter port s.gps_open r.actions⟩

/-- The modem after the listed requests, each completed before the next. -/
def LocationState.after (port : GpsPort) (parent : ParentLocation) (s : LocationState)
    (requests : List LocationRequest) : LocationState :=
  requests.foldl (LocationState.step port parent) s

/-! ### Loading the location capabilities (the probe of the GPS features) -/

/-- The private data `get_private` creates: no source supported or enabled,
both dialects unknown. -/
def Private.init : Private :=
  ⟨0, 0, .FEATURE_SUPPORT_UNKNOWN, .FEATURE_SUPPORT_UNKNOWN⟩

/-- What the probe does that can be observed: it sends a test command and waits
for its reply, sends a command without waiting for a reply (no callback), adds
the handler of the NMEA traces to the GPS data port, or completes its task with
a set of sources or with an error. -/
inductive ProbeAction where
  | test_command (command : String)
  | fire_command (command : String)
  | add_trace_handler
  | return_int (sources : Nat)
  | return_error (error : GError)
  deriving DecidableEq, Repr

/-- What a run of the probe leaves: what it did, in order, and the private
data. -/
structure ProbeRun where
  actions : List ProbeAction
  priv : Private
  deriving DecidableEq, Repr

/-- The function `sgpsc_test_ready` up to its call of `probe_gps_features`, `res`
being what `mm_base_modem_at_command_finish` gives (the reply or an error). -/
def sgpsc_test_ready (priv : Private) (res : Except GError CStr) : ProbeRun :=
  match res with
  | .error _ => ⟨[], { priv with sgpsc_support := .FEATURE_NOT_SUPPORTED }⟩
  | .ok _ =>
    ⟨[.fire_command "AT^SGPSC=\"Engine\",\"0\"",
        .fire_command "AT^SGPSC=\"Power/Antenna\",\"off\"",
        .fire_command "AT^SGPSC=\"NMEA/Output\",\"off\""],
      { priv with sgpsc_support := .FEATURE_SUPPORTED }⟩

/-- The function `sgpss_test_ready` up to its call of `probe_gps_features`. -/
def sgpss_test_ready (priv : Private) (res : Except GError CStr) : ProbeRun :=
  match res with
  | .error _ => ⟨[], { priv with sgpss_support := .FEATURE_NOT_SUPPORTED }⟩
  | .ok _ =>
    ⟨[.fire_command "AT^SGPSS=0"],
      { priv with
        sgpss_support := .FEATURE_SUPPORTED
        sgpsc_support := .FEATURE_NOT_SUPPORTED }⟩

/-- How a call of `probe_gps_features` ends: one of the two test commands has
been sent and its callback is awaited, or the task has been completed. -/
inductive ProbeStep where
  | test_sgpss
  | test_sgpsc
  | done (run : ProbeRun)
  deriving DecidableEq, Repr

/-- The function `probe_gps_features`, `sources` being the sources of the parent
kept as the data of the task. -/
def probe_gps_features (priv : Private) (sources : Nat) : ProbeStep :=
  if priv.sgpss_support = .FEATURE_SUPPORT_UNKNOWN then .test_sgpss
  else if priv.sgpsc_support = .FEATURE_SUPPORT_UNKNOWN then .test_sgpsc
  else if priv.sgpss_support = .FEATURE_SUPPORTED ∨ priv.sgpsc_support = .FEATURE_SUPPORTED then
    let priv :=
      if sources &&& MM_MODEM_LOCATION_SOURCE_GPS_NMEA = 0 then
        { priv with
          supported_sources := priv.supported_sources ||| MM_MODEM_LOCATION_SOURCE_GPS_NMEA }
      else priv
    let priv :=
      if sources &&& MM_MODEM_LOCATION_SOURCE_GPS_RAW = 0 then
        { priv with
          supported_sources := priv.supported_sources ||| MM_MODEM_LOCATION_SOURCE_GPS_RAW }
      else priv
    let priv :=
      if sources &&& MM_MODEM_LOCATION_SOURCE_GPS_UNMANAGED = 0 then
        { priv with
          supported_sources :=
            priv.supported_sources ||| MM_MODEM_LOCATION_SOURCE_GPS_UNMANAGED }
      else priv
    .done ⟨[.add_trace_handler, .return_int (sources ||| priv.supported_sources)], priv⟩
  else .done ⟨[.return_int sources], priv⟩

/-- The probe run from a call of `probe_gps_features`, the test commands it
sends being answered in order by the listed results: each test command is
sent, its callback runs with the next result and calls `probe_gps_features`
again.  With no result left the probe waits for its command. -/
def probeRun (sources : Nat) : List (Except GError CStr) → Private → ProbeRun
  | [], priv =>
    match probe_gps_features priv sources with
    | .test_sgpss => ⟨[.test_command "AT^SGPSS=?"], priv⟩
    | .test_sgpsc => ⟨[.test_command "AT^SGPSC=?"], priv⟩
    | .done run => run
  | res :: rest, priv =>
    match probe_gps_features priv sources with
    | .test_sgpss =>
      let r := sgpss_test_ready priv res
      let r' := probeRun sources rest r.priv
      ⟨.test_command "AT^SGPSS=?" :: (r.actions ++ r'.actions), r'.priv⟩
    | .test_sgpsc =>
      let r := sgpsc_test_ready priv res
      let r' := probeRun sources rest r.priv
      ⟨.test_command "AT^SGPSC=?" :: (r.actions ++ r'.actions), r'.priv⟩
    | .done run => run

/-- The function `parent_load_capabilities_ready`, the callback of the parent's
`load_capabilities`: `res` is what the parent's `load_capabilities_finish`
gives, its sources or an error. -/
def parent_load_capabilities_ready (priv : Private) (port : GpsPort)
    (res : Except GError Nat) (results : List (Except GError CStr)) : ProbeRun :=
  match res with
  | .error error => ⟨[.return_error error], priv⟩
  | .ok sources =>
    if !port.present then ⟨[.return_int sources], priv⟩
    else probeRun sources results priv

/-- The function `mm_shared_cinterion_location_load_capabilities`: the parent loads its
capabilities and `parent_load_capabilities_ready` goes on with its result. -/
def mm_shared_cinterion_location_load_capabilities (priv : Private) (port : GpsPort)
    (parent_result : Except GError Nat) (results : List (Except GError CStr)) : ProbeRun :=
  parent_load_capabilities_ready priv port parent_result results

/-- What the probe reports: the sources or the error its task is completed
with, `none` while it waits for a test command. -/
def probeReported : List ProbeAction → Option (Except GError Nat)
  | [] => none
  | .return_int sources :: _ => some (.ok sources)
  | .return_error error :: _ => some (.error error)
  | _ :: rest => probeReported rest

/-- The test commands among the actions of a probe, in the order sent. -/
def testCommandsOf (actions : List ProbeAction) : List String :=
  actions.filterMap fun a =>
    match a with
    | .test_command command => some command
    | _ => none

/-- What happens to a modem of the shared Cinterion interface: its location
capabilities are loaded, or a source is enabled or disabled. -/
inductive ModemEvent where
  | load_capabilities (parent_result : Except GError Nat)
      (results : List (Except GError CStr))
  | request (r : LocationRequest)

/-- The private data after one event. -/
def ModemEvent.apply (port : GpsPort) (parent : ParentLocation) (priv : Private) :
    ModemEvent → Private
  | .load_capabilities parent_result results =>
    (mm_shared_cinterion_location_load_capabilities priv port parent_result results).priv
  | .request r => (r.run port parent priv).priv

/-- The private data after the listed events, from the data `get_private`
creates. -/
def modemAfter (port : GpsPort) (parent : ParentLocation) (events : List ModemEvent) :
    Private :=
  events.foldl (ModemEvent.apply port parent) Private.init

/-- The GPS sources the parent does not report among `sources`: those this
layer takes as its own when a dialect is supported. -/
def ownSources (sources : Nat) : Nat :=
  (if sources &&& MM_MODEM_LOCATION_SOURCE_GPS_NMEA = 0 then
      MM_MODEM_LOCATION_SOURCE_GPS_NMEA else 0) |||
    (if sources &&& MM_MODEM_LOCATION_SOURCE_GPS_RAW = 0 then
      MM_MODEM_LOCATION_SOURCE_GPS_RAW else 0) |||
    (if sources &&& MM_MODEM_LOCATION_SOURCE_GPS_UNMANAGED = 0 then
      MM_MODEM_LOCATION_SOURCE_GPS_UNMANAGED else 0)

/-- What holds of the private data in every state the probe and the requests
reach: `^SGPSC` is looked at only once `^SGPSS` is known, `^SGPSS` supported
leaves `^SGPSC` unsupported, and sources are recorded only with a supported
dialect. -/
structure Private.probed (p : Private) : Prop where
  order : p.sgpss_support = .FEATURE_SUPPORT_UNKNOWN →
    p.sgpsc_support = .FEATURE_SUPPORT_UNKNOWN
  exclusive : p.sgpss_support = .FEATURE_SUPPORTED → p.sgpsc_support = .FEATURE_NOT_SUPPORTED
  recorded : p.supported_sources ≠ 0 →
    p.sgpss_support = .FEATURE_SUPPORTED ∨ p.sgpsc_support = .FEATURE_SUPPORTED

/-- Whether a result is a success. -/
def succeeded {α : Type} (res : Except GError α) : Bool :=
  match res with
  | .ok _ => true
  | .error _ => false

/-! ### The settings of the `^SGPSC` commands -/

/-- The setting an `^SGPSC` command of the sequences writes: the first
parameter of the command, `none` for any other command. -/
def sgpscSetting (command : String) : Option String :=
  if command = "AT^SGPSC=\"NMEA/Output\",\"on\"" ∨ command = "AT^SGPSC=\"NMEA/Output\",\"off\""
  then some "NMEA/Output"
  else if command = "AT^SGPSC=\"Power/Antenna\",\"on\"" ∨
      command = "AT^SGPSC=\"Power/Antenna\",\"off\"" then some "Power/Antenna"
  else if command = "AT^SGPSC=\"Engine\",\"1\"" ∨ command = "AT^SGPSC=\"Engine\",\"0\""
  then some "Engine"
  else none

/-- The first `n` outcomes of an endless sequence of command outcomes. -/
def outcomes {α : Type} (f : Nat → α) (n : Nat) : List α := (List.range n).map f

/-- The number of commands the enable sequence can still send from a context:
the `^SGPSS` command if that dialect is supported and its step is not passed;
with the `^SGPSC` dialect the Output and the Antenna command if their steps are
not passed, and as many Engine commands as attempts are left. -/
def enableCommandsLeft (priv : Private) (ctx : EnableLocationGatheringContext) : Nat :=
  (if priv.sgpss_support = .FEATURE_SUPPORTED ∧
      ctx.gps_step ≤ ENABLE_LOCATION_GATHERING_GPS_STEP_SGPSS then 1 else 0) +
    (if priv.sgpsc_support = .FEATURE_SUPPORTED then
      (if ctx.gps_step ≤ ENABLE_LOCATION_GATHERING_GPS_STEP_SGPSC_OUTPUT then 1 else 0) +
        (if ctx.gps_step ≤ ENABLE_LOCATION_GATHERING_GPS_STEP_SGPSC_ANTENNA then 1 else 0) +
        (if ctx.gps_step ≤ ENABLE_LOCATION_GATHERING_GPS_STEP_SGPSC_ENGINE then
          MAX_SGPSC_ENGINE_RETRIES - ctx.sgpsc_engine_retries else 0)
    else 0)

/-! ## The custom init of the Longcheer plugin (`mm-plugin-longcheer.c`) -/

/-- The type `LongcheerCustomInitContext`, its port left out. -/
structure LongcheerCustomInitContext where
  retries : Nat
  deriving DecidableEq, Repr

/-- What the custom init does that can be observed: it sends `AT+GMR` and waits
for the reply, or it completes its task with a result. -/
inductive InitAction where
  | at_command (command : String)
  | task_return (result : Except GError Unit)

/-- How a call of `longcheer_custom_init_step` ends: the task is completed, or
the command has been sent and `gmr_ready` is awaited, the context being as the
step left it. -/
inductive InitStep where
  | done (result : Except GError Unit)
  | command (ctx : LongcheerCustomInitContext)

/-- The function `longcheer_custom_init_step`, `cancelled` being what
`g_cancellable_is_cancelled` returns when the step looks at it. -/
def longcheer_custom_init_step (cancelled : Bool) (ctx : LongcheerCustomInitContext) :
    InitStep :=
  if cancelled then .done (.ok ())
  else if ctx.retries = 0 then
    .done (.error (.core_failed "Couldn't get device revision information"))
  else .command { ctx with retries := ctx.retries - 1 }

/-- How `gmr_ready` ends: it calls the step again, or it completes the task. -/
inductive GmrOutcome where
  | retry
  | done (result : Except GError Unit)

/-- The function `gmr_ready`, the callback of `AT+GMR`: `res` is what
`mm_port_serial_at_command_finish` gives, and `strip` stands for
`mm_strip_tag (response, "AT+GMR")`, a helper that is not among the sources
(`none` for NULL). -/
def gmr_ready (strip : CStr → Option CStr) (res : Except GError CStr) : GmrOutcome :=
  match res with
  | .error _ => .retry
  | .ok response =>
    match strip response with
    | some ('L' :: _) =>
      .done (.error (.core_unsupported "X200 cannot be supported with the Longcheer plugin"))
    | _ => .done (.ok ())

/-- The custom init run from its step number `n`, the commands it sends being
answered in order by the listed results; `cancelled k` is what the `k`-th call of
the step finds when it looks at the cancellable.  With no result left the
sequence waits for its command. -/
def customInitRun (strip : CStr → Option CStr) (cancelled : Nat → Bool) :
    Nat → List (Except GError CStr) → LongcheerCustomInitContext → List InitAction
  | n, [], ctx =>
    match longcheer_custom_init_step (cancelled n) ctx with
    | .done result => [.task_return result]
    | .command _ => [.at_command "AT+GMR"]
  | n, res :: rest, ctx =>
    match longcheer_custom_init_step (cancelled n) ctx with
    | .done result => [.task_return result]
    | .command ctx =>
      match gmr_ready strip res with
      | .retry => .at_command "AT+GMR" :: customInitRun strip cancelled (n + 1) rest ctx
      | .done result => [.at_command "AT+GMR", .task_return result]

/-- The function `longcheer_custom_init` for a device with the given vendor and
product. -/
def longcheer_custom_init (strip : CStr → Option CStr) (vendor product : Nat)
    (cancelled : Nat → Bool) (results : List (Except GError CStr)) : List InitAction :=
  if vendor ≠ 0x1bbb ∨ product ≠ 0x0000 then [.task_return (.ok ())]
  else customInitRun strip cancelled 0 results ⟨3⟩

/-- The commands among the actions of the custom init, in the order sent. -/
def initCommandsOf (actions : List InitAction) : List String :=
  actions.filterMap fun a =>
    match a with
    | .at_command command => some command
    | _ => none

/-- The result the custom init reports, `none` while it waits for a reply. -/
def initReported : List InitAction → Option (Except GError Unit)
  | [] => none
  | .task_return result :: _ => some result
  | _ :: rest => initReported rest

/-! ## The signal quality of the Huawei plugin (`mm-modem-huawei-gsm.c`) -/

/-- The GLib macro `CLAMP (x, low, high)`:
`(((x) > (high)) ? (high) : (((x) < (low)) ? (low) : (x)))`. -/
def CLAMP (x low high : Int) : Int :=
  if x > high then high else if x < low then low else x

/-- The conversion of a `long` to `int` (32 bits, two's complement). -/
def toInt32 (i : Int) : Int := (i + 2 ^ 31) % 2 ^ 32 - 2 ^ 31

/-- The C library `atoi (str)`: `strtol (str, NULL, 10)` converted to `int`. -/
def atoi (str : CStr) : Int := toInt32 (strtol str 10)

/-- The body of `handle_signal_quality_change` after `atoi`, `quality` being the
`int` read from the message: 99 gives 0, any other value is clamped to 0..31
and scaled with the division of C (it truncates); the result is what
`mm_generic_gsm_update_signal_quality` is given, through the cast to
`guint32`. -/
def normalizedQuality (quality : Int) : Nat :=
  let quality := if quality = 99 then 0 else Int.tdiv (CLAMP quality 0 31 * 100) 31
  (quality % 2 ^ 32).toNat

/-- The function `handle_signal_quality_change`: the quality given to
`mm_generic_gsm_update_signal_quality` for a match of the `^RSSI` message,
group 1 holding the raw value (`none` when the match has no group 1). -/
def handle_signal_quality_change (match_info : GMatchInfo) : Option Nat :=
  (g_match_info_fetch match_info 1).map fun str => normalizedQuality (atoi str)
/-! # Theorems -/

/-! ## The matcher -/

theorem take_consumed (xs r : CStr) : (xs ++ r).take ((xs ++ r).length - r.length) = xs := by
  simp

theorem run_seq_chr_cons (c : Char) (b : Re) (s : CStr) :
    (Re.seq (.chr c) b).run (c :: s) = b.run s := by
  simp [Re.run]

theorem run_seq_chr_ne (c x : Char) (b : Re) (s : CStr) (h : x ≠ c) :
    (Re.seq (.chr c) b).run (x :: s) = [] := by
  simp [Re.run, h]

theorem run_seq_chr_nil (c : Char) (b : Re) : (Re.seq (.chr c) b).run [] = [] := by
  simp [Re.run]

theorem run_seq_grp_cls (n : Nat) (p : Char → Bool) (b : Re) (x : Char) (s : CStr) :
    (Re.seq (.grp n (.cls p)) b).run (x :: s) =
      if p x then (b.run s).map (fun q => ((n, [x]) :: q.1, q.2)) else [] := by
  by_cases h : p x <;> simp [Re.run, h]

theorem starL_flatMap {β : Type} (p : Char → Bool) (f : CStr → List β) (xs r : CStr)
    (hf : ∀ x ∈ xs, p x = true ∧ ∀ t, f (x :: t) = [])
    (hr : ∀ y t, r = y :: t → p y = false) :
    (starL p (xs ++ r)).flatMap f = f r := by
  induction xs with
  | nil =>
    cases r with
    | nil => simp [starL]
    | cons y t => simp [starL, hr y t rfl]
  | cons x xs ih =>
    have h1 := hf x (List.mem_cons_self _ _)
    have ih' := ih (fun y hy => hf y (List.mem_cons_of_mem _ hy))
    simp [starL, h1.1, h1.2, ih']

theorem starG_flatMap {β : Type} (p : Char → Bool) (f : CStr → List β) (xs r : CStr)
    (hf : ∀ x ∈ xs, p x = true ∧ ∀ t, f (x :: t) = [])
    (hr : ∀ y t, r = y :: t → p y = false) :
    (starG p (xs ++ r)).flatMap f = f r := by
  induction xs with
  | nil =>
    cases r with
    | nil => simp [starG]
    | cons y t => simp [starG, hr y t rfl]
  | cons x xs ih =>
    have h1 := hf x (List.mem_cons_self _ _)
    have ih' := ih (fun y hy => hf y (List.mem_cons_of_mem _ hy))
    simp [starG, h1.1, h1.2, ih']

/-- A captured field `p*` delimited by what follows it: when the continuation
cannot start inside the field and the field ends where the class ends, lazy and
greedy repetition both capture the whole field. -/
theorem run_seq_grp_star (lazy : Bool) (n : Nat) (p : Char → Bool) (b : Re) (xs r : CStr)
    (hp : ∀ x ∈ xs, p x = true) (hb : ∀ x ∈ xs, ∀ t, b.run (x :: t) = [])
    (hr : ∀ y t, r = y :: t → p y = false) :
    (Re.seq (.grp n (.star lazy p)) b).run (xs ++ r) =
      (b.run r).map (fun q => ((n, xs) :: q.1, q.2)) := by
  have key : (Re.seq (.grp n (.star lazy p)) b).run (xs ++ r) =
      ((if lazy then starL p (xs ++ r) else starG p (xs ++ r))).flatMap
        (fun s' => (b.run s').map
          (fun q => ((n, (xs ++ r).take ((xs ++ r).length - s'.length)) :: q.1, q.2))) := by
    simp [Re.run, List.flatMap_map, List.map_flatMap]
  rw [key]
  have hf : ∀ x ∈ xs, p x = true ∧ ∀ t, (fun s' : CStr => (b.run s').map
      (fun q => ((n, (xs ++ r).take ((xs ++ r).length - s'.length)) :: q.1, q.2)))
      (x :: t) = [] := by
    intro x hx
    exact ⟨hp x hx, fun t => by simp [hb x hx t]⟩
  cases lazy with
  | true =>
    simp only [if_true]
    rw [starL_flatMap p _ xs r hf hr, take_consumed]
  | false =>
    simp only [Bool.false_eq_true, if_false]
    rw [starG_flatMap p _ xs r hf hr, take_consumed]

theorem run_seq_opt_chr (c : Char) (b : Re) (s : CStr) :
    (Re.seq (.opt true (.chr c)) b).run s =
      b.run s ++ (match s with
        | x :: t => if x = c then b.run t else []
        | [] => []) := by
  cases s with
  | nil => simp [Re.run]
  | cons x t => by_cases h : x = c <;> simp [Re.run, h]

theorem notIn_ne (l : List Char) (x c : Char) (h : notIn l x = true) (hc : c ∈ l) : x ≠ c := by
  intro e
  subst e
  simp [notIn, hc] at h

theorem regexSearch_fail (re : Re) (c : Char) (cs : CStr) (h : re.run (c :: cs) = []) :
    regexSearch re (c :: cs) = regexSearch re cs := by
  simp [regexSearch, h]

theorem regexSearch_hit (re : Re) (c : Char) (cs : CStr) (q : Caps × CStr)
    (qs : List (Caps × CStr)) (h : re.run (c :: cs) = q :: qs) :
    regexSearch re (c :: cs) = some (mkMatchInfo re (c :: cs) q, q.2) := by
  simp [regexSearch, h]

/-- The search passes over characters at which no match can start. -/
theorem regexSearch_skip (re : Re) (xs r : CStr)
    (h : ∀ x ∈ xs, ∀ t, re.run (x :: t) = []) :
    regexSearch re (xs ++ r) = regexSearch re r := by
  induction xs with
  | nil => rfl
  | cons x xs ih =>
    rw [List.cons_append, regexSearch_fail re x _ (h x (List.mem_cons_self _ _) _)]
    exact ih (fun y hy => h y (List.mem_cons_of_mem _ hy))

/-- The iteration over the matches never runs out of fuel: any fuel above the
length of the subject gives the same matches. -/
theorem matchesFrom_fuel (re : Re) :
    ∀ (f1 f2 : Nat) (s : CStr), s.length < f1 → s.length < f2 →
      matchesFrom re f1 s = matchesFrom re f2 s := by
  intro f1
  induction f1 with
  | zero => intro f2 s h1 _; omega
  | succ n ih =>
    intro f2 s h1 h2
    cases f2 with
    | zero => omega
    | succ m =>
      simp only [matchesFrom]
      cases hs : regexSearch re s with
      | none => rfl
      | some q =>
        obtain ⟨info, rest⟩ := q
        by_cases hl : rest.length < s.length
        · simp only [hl, if_true]
          rw [ih m rest (by omega) (by omega)]
        · simp only [hl, if_false]

theorem g_regex_match_all_eq (re : Re) (s : CStr) :
    g_regex_match_all re s =
      match regexSearch re s with
      | none => []
      | some (info, rest) =>
        if rest.length < s.length then info :: g_regex_match_all re rest else [info] := by
  cases hs : regexSearch re s with
  | none => simp [g_regex_match_all, matchesFrom, hs]
  | some q =>
    obtain ⟨info, rest⟩ := q
    have h1 : g_regex_match_all re s =
        if rest.length < s.length then info :: matchesFrom re s.length rest else [info] := by
      simp [g_regex_match_all, matchesFrom, hs]
    rw [h1]
    by_cases hl : rest.length < s.length
    · simp only [hl, if_true]
      rw [g_regex_match_all, matchesFrom_fuel re s.length (rest.length + 1) rest hl (by omega)]
    · simp only [hl, if_false]

theorem starL_length (p : Char → Bool) (s r : CStr) (h : r ∈ starL p s) :
    r.length ≤ s.length := by
  induction s with
  | nil => simp [starL] at h; simp [h]
  | cons c cs ih =>
    simp only [starL, List.mem_cons] at h
    rcases h with h | h
    · simp [h]
    · by_cases hc : p c = true
      · simp only [hc, if_true] at h
        have := ih h
        simp only [List.length_cons]
        omega
      · simp [hc] at h

theorem starG_length (p : Char → Bool) (s r : CStr) (h : r ∈ starG p s) :
    r.length ≤ s.length := by
  induction s with
  | nil => simp [starG] at h; simp [h]
  | cons c cs ih =>
    simp only [starG, List.mem_append, List.mem_singleton] at h
    rcases h with h | h
    · by_cases hc : p c = true
      · simp only [hc, if_true] at h
        have := ih h
        simp only [List.length_cons]
        omega
      · simp [hc] at h
    · simp [h]

/-- Every result of the matcher leaves a suffix of the subject. -/
theorem run_length_le (re : Re) : ∀ (s : CStr) (q : Caps × CStr), q ∈ re.run s →
    q.2.length ≤ s.length := by
  induction re with
  | chr c =>
    intro s q h
    cases s with
    | nil => simp [Re.run] at h
    | cons x xs =>
      by_cases hx : x = c
      · simp [Re.run, hx] at h; simp [h]
      · simp [Re.run, hx] at h
  | cls p =>
    intro s q h
    cases s with
    | nil => simp [Re.run] at h
    | cons x xs =>
      by_cases hx : p x = true
      · simp [Re.run, hx] at h; simp [h]
      · simp [Re.run, hx] at h
  | seq a b iha ihb =>
    intro s q h
    simp only [Re.run, List.mem_flatMap, List.mem_map] at h
    obtain ⟨r1, h1, r2, h2, rfl⟩ := h
    have := iha s r1 h1
    have := ihb r1.2 r2 h2
    simp only
    omega
  | alt a b iha ihb =>
    intro s q h
    simp only [Re.run, List.mem_append] at h
    rcases h with h | h
    · exact iha s q h
    · exact ihb s q h
  | star lazy p =>
    intro s q h
    simp only [Re.run, List.mem_map] at h
    obtain ⟨r, hr, rfl⟩ := h
    cases lazy with
    | true => exact starL_length p s r (by simpa using hr)
    | false => exact starG_length p s r (by simpa using hr)
  | opt lazy a iha =>
    intro s q h
    cases lazy with
    | true =>
      simp only [Re.run, if_true, List.mem_cons] at h
      rcases h with h | h
      · simp [h]
      · exact iha s q h
    | false =>
      simp only [Re.run, Bool.false_eq_true, if_false, List.mem_append,
        List.mem_singleton] at h
      rcases h with h | h
      · exact iha s q h
      · simp [h]
  | grp n a iha =>
    intro s q h
    simp only [Re.run, List.mem_map] at h
    obtain ⟨r, hr, rfl⟩ := h
    exact iha s r hr
  | eos =>
    intro s q h
    by_cases hs : s = [] ∨ s = ['\n']
    · simp [Re.run, hs] at h; simp [h]
    · simp [Re.run, hs] at h

/-- An expression that begins with a literal character never matches the empty
text. -/
theorem run_seq_chr_length_lt (c : Char) (b : Re) (s : CStr) (q : Caps × CStr)
    (h : q ∈ (Re.seq (.chr c) b).run s) : q.2.length < s.length := by
  cases s with
  | nil => simp [Re.run] at h
  | cons x xs =>
    by_cases hx : x = c
    · subst hx
      rw [run_seq_chr_cons] at h
      have := run_length_le b xs q h
      simp only [List.length_cons]
      omega
    · rw [run_seq_chr_ne _ _ _ _ hx] at h
      simp at h

theorem regexSearch_length_lt (re : Re)
    (hre : ∀ (s : CStr) (q : Caps × CStr), q ∈ re.run s → q.2.length < s.length) :
    ∀ (s : CStr) (info : GMatchInfo) (rest : CStr),
      regexSearch re s = some (info, rest) → rest.length < s.length := by
  intro s
  induction s with
  | nil =>
    intro info rest h
    cases hr : re.run [] with
    | nil => simp [regexSearch, hr] at h
    | cons q qs =>
      have := hre [] q (by simp [hr])
      simp at this
  | cons c cs ih =>
    intro info rest h
    cases hr : re.run (c :: cs) with
    | nil =>
      rw [regexSearch_fail re c cs hr] at h
      have := ih info rest h
      simp only [List.length_cons]
      omega
    | cons q qs =>
      rw [regexSearch_hit re c cs q qs hr] at h
      simp only [Option.some.injEq, Prod.mk.injEq] at h
      rw [← h.2]
      exact hre (c :: cs) q (by simp [hr])

/-- After a match the iteration goes on in the rest of the subject. -/
theorem g_regex_match_all_hit (re : Re) (c : Char) (cs : CStr) (q : Caps × CStr)
    (qs : List (Caps × CStr)) (h : re.run (c :: cs) = q :: qs)
    (hq : q.2.length < (c :: cs).length) :
    g_regex_match_all re (c :: cs) =
      mkMatchInfo re (c :: cs) q :: g_regex_match_all re q.2 := by
  rw [g_regex_match_all_eq, regexSearch_hit re c cs q qs h]
  simp only [hq, if_true]

/-- The iteration passes over a character at which no match starts. -/
theorem g_regex_match_all_fail (re : Re)
    (hre : ∀ (s : CStr) (q : Caps × CStr), q ∈ re.run s → q.2.length < s.length)
    (c : Char) (cs : CStr) (h : re.run (c :: cs) = []) :
    g_regex_match_all re (c :: cs) = g_regex_match_all re cs := by
  rw [g_regex_match_all_eq, g_regex_match_all_eq re cs, regexSearch_fail re c cs h]
  cases hs : regexSearch re cs with
  | none => rfl
  | some r =>
    obtain ⟨info, rest⟩ := r
    have := regexSearch_length_lt re hre cs info rest hs
    have h2 : rest.length < (c :: cs).length := by
      simp only [List.length_cons]
      omega
    simp only [this, h2, if_true]

theorem g_regex_match_all_skip (re : Re)
    (hre : ∀ (s : CStr) (q : Caps × CStr), q ∈ re.run s → q.2.length < s.length)
    (xs r : CStr) (h : ∀ x ∈ xs, ∀ t, re.run (x :: t) = []) :
    g_regex_match_all re (xs ++ r) = g_regex_match_all re r := by
  induction xs with
  | nil => rfl
  | cons x xs ih =>
    rw [List.cons_append, g_regex_match_all_fail re hre x _ (h x (List.mem_cons_self _ _) _)]
    exact ih (fun y hy => h y (List.mem_cons_of_mem _ hy))

theorem g_regex_match_all_nil (re : Re) (h : re.run [] = []) : g_regex_match_all re [] = [] := by
  simp [g_regex_match_all, matchesFrom, regexSearch, h]

/-! ## Operator scan replies -/

theorem umts_consumes (s : CStr) (q : Caps × CStr) (h : q ∈ scanRegexUmts.run s) :
    q.2.length < s.length :=
  run_seq_chr_length_lt _ _ s q h

theorem preUmts_consumes (s : CStr) (q : Caps × CStr) (h : q ∈ scanRegexPreUmts.run s) :
    q.2.length < s.length :=
  run_seq_chr_length_lt _ _ s q h

theorem umts_run_nil : scanRegexUmts.run [] = [] := by
  simp [scanRegexUmts, Re.cat, Re.run]

theorem preUmts_run_nil : scanRegexPreUmts.run [] = [] := by
  simp [scanRegexPreUmts, Re.cat, Re.run]

theorem umts_run_ne (x : Char) (t : CStr) (h : x ≠ '(') : scanRegexUmts.run (x :: t) = [] := by
  simp [scanRegexUmts, Re.cat, run_seq_chr_ne _ _ _ _ h]

theorem preUmts_run_ne (x : Char) (t : CStr) (h : x ≠ '(') :
    scanRegexPreUmts.run (x :: t) = [] := by
  simp [scanRegexPreUmts, Re.cat, run_seq_chr_ne _ _ _ _ h]

/-- The technology-aware expression on `(d,f2,f3,f4` followed by `r`: the three
fields are captured whole and the match goes on with `[\)]?,(\d)\)` at `r`. -/
theorem umts_run_fields (d : Char) (f2 f3 f4 r : CStr) (hd : isdigit d = true)
    (h2 : ∀ x ∈ f2, notIn [',', ')'] x = true)
    (h3 : ∀ x ∈ f3, notIn [',', ')'] x = true)
    (h4 : ∀ x ∈ f4, notIn [',', ')'] x = true)
    (hr : ∀ y t, r = y :: t → notIn [',', ')'] y = false) :
    scanRegexUmts.run ('(' :: d :: ',' :: (f2 ++ ',' :: (f3 ++ ',' :: (f4 ++ r)))) =
      (scanRegexUmtsTail.run r).map
        (fun q => ((1, [d]) :: (2, f2) :: (3, f3) :: (4, f4) :: q.1, q.2)) := by
  have hc : ∀ (f : CStr), (∀ x ∈ f, notIn [',', ')'] x = true) →
      ∀ (b : Re), ∀ x ∈ f, ∀ t, (Re.seq (.chr ',') b).run (x :: t) = [] := by
    intro f hf b x hx t
    exact run_seq_chr_ne _ _ _ _ (notIn_ne _ _ _ (hf x hx) (by simp))
  simp only [scanRegexUmts, Re.cat]
  rw [run_seq_chr_cons, run_seq_grp_cls, if_pos hd, run_seq_chr_cons]
  rw [run_seq_grp_star true 2 _ _ f2 _ h2 (hc f2 h2 _) (by intro y t e; cases e; rfl)]
  rw [run_seq_chr_cons]
  rw [run_seq_grp_star true 3 _ _ f3 _ h3 (hc f3 h3 _) (by intro y t e; cases e; rfl)]
  rw [run_seq_chr_cons]
  rw [run_seq_grp_star true 4 _ _ f4 r h4 _ hr]
  · simp [scanRegexUmtsTail, Re.cat, List.map_map, Function.comp_def]
  · intro x hx t
    rw [run_seq_opt_chr]
    have hx1 := notIn_ne _ _ ',' (h4 x hx) (by simp)
    have hx2 := notIn_ne _ _ ')' (h4 x hx) (by simp)
    simp [run_seq_chr_ne _ _ _ _ hx1, hx2]

/-- The pre-UMTS expression on `(d,f2,f3,f4)`: one match, the four fields
captured whole. -/
theorem preUmts_run_fields (d : Char) (f2 f3 f4 r : CStr) (hd : isdigit d = true)
    (h2 : ∀ x ∈ f2, notIn [',', ')'] x = true)
    (h3 : ∀ x ∈ f3, notIn [',', ')'] x = true)
    (h4 : ∀ x ∈ f4, notIn [')'] x = true) :
    scanRegexPreUmts.run ('(' :: d :: ',' :: (f2 ++ ',' :: (f3 ++ ',' :: (f4 ++ ')' :: r)))) =
      [((1, [d]) :: (2, f2) :: (3, f3) :: (4, f4) :: [], r)] := by
  have hc : ∀ (f : CStr), (∀ x ∈ f, notIn [',', ')'] x = true) →
      ∀ (b : Re), ∀ x ∈ f, ∀ t, (Re.seq (.chr ',') b).run (x :: t) = [] := by
    intro f hf b x hx t
    exact run_seq_chr_ne _ _ _ _ (notIn_ne _ _ _ (hf x hx) (by simp))
  have h4b : ∀ x ∈ f4, ∀ t, (Re.chr ')').run (x :: t) = [] := by
    intro x hx t
    have := notIn_ne _ _ ')' (h4 x hx) (by simp)
    simp [Re.run, this]
  simp only [scanRegexPreUmts, Re.cat]
  rw [run_seq_chr_cons, run_seq_grp_cls, if_pos hd, run_seq_chr_cons]
  rw [run_seq_grp_star true 2 _ _ f2 _ h2 (hc f2 h2 _) (by intro y t e; cases e; rfl)]
  rw [run_seq_chr_cons]
  rw [run_seq_grp_star true 3 _ _ f3 _ h3 (hc f3 h3 _) (by intro y t e; cases e; rfl)]
  rw [run_seq_chr_cons]
  rw [run_seq_grp_star true 4 _ _ f4 _ h4 h4b (by intro y t e; cases e; rfl)]
  simp [Re.run]

theorem umtsTail_run_comma (a : Char) (r : CStr) (ha : isdigit a = true) :
    scanRegexUmtsTail.run (',' :: a :: ')' :: r) = [([(5, [a])], r)] := by
  simp [scanRegexUmtsTail, Re.cat, Re.run, ha]

theorem umtsTail_run_stray (a : Char) (r : CStr) (ha : isdigit a = true) :
    scanRegexUmtsTail.run (')' :: ',' :: a :: ')' :: r) = [([(5, [a])], r)] := by
  simp [scanRegexUmtsTail, Re.cat, Re.run, ha]

theorem umtsTail_run_trailer (r : CStr) (hr : isTrailer r = true) :
    scanRegexUmtsTail.run (')' :: r) = [] := by
  match r, hr with
  | [], _ => simp [scanRegexUmtsTail, Re.cat, Re.run]
  | [c], _ => simp [scanRegexUmtsTail, Re.cat, Re.run]
  | c :: d :: t, h =>
    simp only [isTrailer, Bool.and_eq_true, decide_eq_true_eq, Bool.not_eq_true'] at h
    simp [scanRegexUmtsTail, Re.cat, Re.run, h.2]

theorem isdigit_ne (x c : Char) (h : isdigit x = true) (hc : isdigit c = false) : x ≠ c := by
  intro e
  subst e
  rw [h] at hc
  cases hc

theorem g_strstrip_blanks (s : CStr)
    (hh : s.head?.all (fun c => !g_ascii_isspace c) = true)
    (hl : s.getLast?.all (fun c => !g_ascii_isspace c) = true) :
    g_strstrip (' ' :: (s ++ [' '])) = s := by
  cases s with
  | nil => simp [g_strstrip, g_strchug, g_strchomp, g_ascii_isspace, List.dropWhile]
  | cons c t =>
    have hc : g_ascii_isspace c = false := by simpa using hh
    have hb : g_ascii_isspace ' ' = true := by decide
    have h1 : g_strchug (' ' :: (c :: t ++ [' '])) = c :: t ++ [' '] := by
      rw [g_strchug, List.dropWhile_cons_of_pos hb, List.cons_append,
        List.dropWhile_cons_of_neg (by simp [hc])]
    rw [g_strstrip, h1, g_strchomp]
    have h2 : (c :: t ++ [' ']).reverse = ' ' :: (c :: t).reverse := by simp
    rw [h2]
    cases hr : (c :: t).reverse with
    | nil => simp at hr
    | cons y ys =>
      have hy : (c :: t).getLast? = some y := by
        rw [← List.head?_reverse, hr]
        rfl
      rw [hy] at hl
      have hy2 : g_ascii_isspace y = false := by simpa using hl
      have h3 : List.dropWhile g_ascii_isspace (' ' :: y :: ys) = y :: ys := by
        rw [List.dropWhile_cons_of_pos hb, List.dropWhile_cons_of_neg (by simp [hy2])]
      rw [h3, ← hr, List.reverse_reverse]

theorem unquote_quoted (s : CStr)
    (hh : s.head?.all (fun c => !g_ascii_isspace c) = true)
    (hl : s.getLast?.all (fun c => !g_ascii_isspace c) = true) :
    unquote (quoted s) = s := by
  have h1 : 2 ≤ (quoted s).length := by simp [quoted]
  have h2 : (quoted s).head? = some '"' := by simp [quoted]
  have h3 : (quoted s).getLast? = some '"' := by
    have : quoted s = ('"' :: s) ++ ['"'] := rfl
    rw [this, List.getLast?_concat]
  have h4 : ((quoted s).drop 1).dropLast = s := by
    simp [quoted]
  rw [unquote, if_pos ⟨h1, h2, h3⟩, h4]
  exact g_strstrip_blanks s hh hl

theorem unquote_single (c : Char) : unquote [c] = [c] := by
  simp [unquote]

theorem save_scan_value_text (hash : ScanRecord) (key : ScanTag) (info : GMatchInfo)
    (num : Nat) (q : CStr) (h : g_match_info_fetch info num = some q) :
    save_scan_value hash key info num =
      if unquote q = [] then hash else g_hash_table_insert hash key (unquote q) := by
  simp [save_scan_value, h]

theorem isdigit_not_space (c : Char) (h : isdigit c = true) : g_ascii_isspace c = false := by
  cases hs : g_ascii_isspace c with
  | false => rfl
  | true =>
    simp only [g_ascii_isspace, Bool.or_eq_true, decide_eq_true_eq] at hs
    rcases hs with (((hs | hs) | hs) | hs) | hs <;> (subst hs; revert h; decide)

theorem Operator.valid_iff (o : Operator) :
    o.valid = true ↔ isdigit o.status = true ∧ isNameText o.long = true ∧
      isNameText o.short = true ∧ 5 ≤ o.num.length ∧ (∀ c ∈ o.num, isdigit c = true) := by
  simp [Operator.valid, and_assoc]

theorem Operator.validFor_iff (umts : Bool) (o : Operator) :
    o.validFor umts = true ↔ o.valid = true ∧ (umts = true → isdigit o.act = true) := by
  cases umts <;> simp [Operator.validFor]

theorem isNameText_iff (s : CStr) :
    isNameText s = true ↔ (∀ c ∈ s, c ≠ ',' ∧ c ≠ '(' ∧ c ≠ ')') ∧
      s.head?.all (fun c => !g_ascii_isspace c) = true ∧
      s.getLast?.all (fun c => !g_ascii_isspace c) = true := by
  simp [isNameText, and_assoc]

theorem quoted_notIn (s : CStr) (h : ∀ c ∈ s, c ≠ ',' ∧ c ≠ ')') :
    ∀ x ∈ quoted s, notIn [',', ')'] x = true := by
  intro x hx
  simp only [quoted, List.mem_cons, List.mem_append, List.mem_singleton, List.not_mem_nil,
    or_false] at hx
  rcases hx with hx | hx | hx
  · subst hx; decide
  · have := h x hx
    simp [notIn, this.1, this.2]
  · subst hx; decide

theorem quoted_no_paren (s : CStr) (h : ∀ c ∈ s, c ≠ '(') : ∀ x ∈ quoted s, x ≠ '(' := by
  intro x hx
  simp only [quoted, List.mem_cons, List.mem_append, List.mem_singleton, List.not_mem_nil,
    or_false] at hx
  rcases hx with hx | hx | hx
  · subst hx; decide
  · exact h x hx
  · subst hx; decide

theorem notIn_weaken (x : Char) (h : notIn [',', ')'] x = true) : notIn [')'] x = true := by
  have := notIn_ne _ _ ')' h (by simp)
  simp [notIn, this]

theorem digits_ends (s : CStr) (h : ∀ c ∈ s, isdigit c = true) :
    s.head?.all (fun c => !g_ascii_isspace c) = true ∧
      s.getLast?.all (fun c => !g_ascii_isspace c) = true := by
  constructor
  · cases hs : s.head? with
    | none => rfl
    | some c => simp [isdigit_not_space c (h c (List.mem_of_mem_head? hs))]
  · cases hs : s.getLast? with
    | none => rfl
    | some c => simp [isdigit_not_space c (h c (List.mem_of_mem_getLast? hs))]

/-- The facts about a valid operator that the matcher needs. -/
theorem Operator.valid_facts (o : Operator) (h : o.valid = true) :
    isdigit o.status = true ∧
      (∀ x ∈ quoted o.long, notIn [',', ')'] x = true) ∧
      (∀ x ∈ quoted o.short, notIn [',', ')'] x = true) ∧
      (∀ x ∈ quoted o.num, notIn [',', ')'] x = true) ∧
      (∀ x ∈ quoted o.long, x ≠ '(') ∧ (∀ x ∈ quoted o.short, x ≠ '(') ∧
      (∀ x ∈ quoted o.num, x ≠ '(') := by
  rw [Operator.valid_iff, isNameText_iff, isNameText_iff] at h
  obtain ⟨h1, ⟨hl, _, _⟩, ⟨hs, _, _⟩, _, hn⟩ := h
  have hn2 : ∀ c ∈ o.num, c ≠ ',' ∧ c ≠ ')' := fun c hc =>
    ⟨isdigit_ne c ',' (hn c hc) (by decide), isdigit_ne c ')' (hn c hc) (by decide)⟩
  have hn3 : ∀ c ∈ o.num, c ≠ '(' := fun c hc => isdigit_ne c '(' (hn c hc) (by decide)
  exact ⟨h1, quoted_notIn _ (fun c hc => ⟨(hl c hc).1, (hl c hc).2.2⟩),
    quoted_notIn _ (fun c hc => ⟨(hs c hc).1, (hs c hc).2.2⟩), quoted_notIn _ hn2,
    quoted_no_paren _ (fun c hc => (hl c hc).2.1),
    quoted_no_paren _ (fun c hc => (hs c hc).2.1), quoted_no_paren _ hn3⟩

theorem render_eq (umts : Bool) (o : Operator) (r : CStr) :
    o.render umts ++ r = '(' :: o.status :: ',' :: (quoted o.long ++ ',' ::
      (quoted o.short ++ ',' :: (quoted o.num ++
        ((if umts then [',', o.act, ')'] else [')']) ++ r)))) := by
  simp [Operator.render]

/-- No match starts inside a record after its opening parenthesis. -/
theorem render_tail_no_paren (umts : Bool) (o : Operator) (h : o.validFor umts = true) :
    ∃ t, o.render umts = '(' :: t ∧ ∀ x ∈ t, x ≠ '(' := by
  rw [Operator.validFor_iff] at h
  obtain ⟨h, ha⟩ := h
  obtain ⟨h1, _, _, _, hl, hs, hn⟩ := o.valid_facts h
  refine ⟨_, rfl, ?_⟩
  intro x hx
  simp only [List.mem_cons, List.mem_append] at hx
  rcases hx with hx | hx | hx | hx | hx | hx | hx
  · subst hx; exact isdigit_ne _ _ h1 (by decide)
  · subst hx; decide
  · exact hl x hx
  · subst hx; decide
  · exact hs x hx
  · subst hx; decide
  · rcases hx with hx | hx
    · exact hn x hx
    · cases umts with
      | true =>
        simp only [if_true, List.mem_cons, List.not_mem_nil, or_false] at hx
        rcases hx with hx | hx | hx
        · subst hx; decide
        · subst hx; exact isdigit_ne _ _ (ha rfl) (by decide)
        · subst hx; decide
      | false =>
        simp only [Bool.false_eq_true, if_false, List.mem_singleton] at hx
        subst hx; decide

theorem umts_run_render (o : Operator) (h : o.valid = true) (ha : isdigit o.act = true)
    (r : CStr) :
    scanRegexUmts.run (o.render true ++ r) =
      [([(1, [o.status]), (2, quoted o.long), (3, quoted o.short), (4, quoted o.num),
        (5, [o.act])], r)] := by
  obtain ⟨h1, hl, hs, hn, _⟩ := o.valid_facts h
  rw [render_eq]
  simp only [if_true, List.cons_append, List.nil_append]
  rw [umts_run_fields _ _ _ _ _ h1 hl hs hn (by intro y t e; cases e; rfl),
    umtsTail_run_comma _ _ ha]
  rfl

theorem preUmts_run_render (o : Operator) (h : o.valid = true) (r : CStr) :
    scanRegexPreUmts.run (o.render false ++ r) =
      [([(1, [o.status]), (2, quoted o.long), (3, quoted o.short), (4, quoted o.num)], r)] := by
  obtain ⟨h1, hl, hs, hn, _⟩ := o.valid_facts h
  rw [render_eq]
  simp only [Bool.false_eq_true, if_false, List.cons_append, List.nil_append]
  rw [preUmts_run_fields _ _ _ _ _ h1 hl hs (fun x hx => notIn_weaken x (hn x hx))]

/-- The technology-aware expression does not match a pre-UMTS record that is
followed by the end of the text or by a comma and something other than a
digit. -/
theorem umts_run_render_pre_trailer (o : Operator) (h : o.valid = true) (r : CStr)
    (hr : isTrailer r = true) : scanRegexUmts.run (o.render false ++ r) = [] := by
  obtain ⟨h1, hl, hs, hn, _⟩ := o.valid_facts h
  rw [render_eq]
  simp only [Bool.false_eq_true, if_false, List.cons_append, List.nil_append]
  rw [umts_run_fields _ _ _ _ _ h1 hl hs hn (by intro y t e; cases e; rfl),
    umtsTail_run_trailer _ hr]
  rfl

/-- The technology-aware expression matches a pre-UMTS record together with a
stray `,d)` after it, the digit taken as the fifth group. -/
theorem umts_run_render_pre_stray (o : Operator) (h : o.valid = true) (d : Char)
    (hd : isdigit d = true) (r : CStr) :
    scanRegexUmts.run (o.render false ++ ',' :: d :: ')' :: r) =
      [([(1, [o.status]), (2, quoted o.long), (3, quoted o.short), (4, quoted o.num),
        (5, [d])], r)] := by
  obtain ⟨h1, hl, hs, hn, _⟩ := o.valid_facts h
  rw [render_eq]
  simp only [Bool.false_eq_true, if_false, List.cons_append, List.nil_append]
  rw [umts_run_fields _ _ _ _ _ h1 hl hs hn (by intro y t e; cases e; rfl),
    umtsTail_run_stray _ _ hd]
  rfl

theorem mkMatchInfo_umts (w r a b c d e : CStr) :
    mkMatchInfo scanRegexUmts (w ++ r) ([(1, a), (2, b), (3, c), (4, d), (5, e)], r) =
      [w, a, b, c, d, e] := by
  have hg : scanRegexUmts.groups = 5 := rfl
  rw [mkMatchInfo, hg]
  simp only [take_consumed]
  rfl

theorem mkMatchInfo_preUmts (w r a b c d : CStr) :
    mkMatchInfo scanRegexPreUmts (w ++ r) ([(1, a), (2, b), (3, c), (4, d)], r) =
      [w, a, b, c, d] := by
  have hg : scanRegexPreUmts.groups = 4 := rfl
  rw [mkMatchInfo, hg]
  simp only [take_consumed]
  rfl

theorem save_scan_value_quoted (hash : ScanRecord) (key : ScanTag) (info : GMatchInfo)
    (num : Nat) (s : CStr) (h : g_match_info_fetch info num = some (quoted s))
    (hh : s.head?.all (fun c => !g_ascii_isspace c) = true)
    (hl : s.getLast?.all (fun c => !g_ascii_isspace c) = true) :
    save_scan_value hash key info num =
      match textField s with
      | none => hash
      | some v => g_hash_table_insert hash key v := by
  rw [save_scan_value_text _ _ _ _ _ h, unquote_quoted _ hh hl]
  by_cases hs : s = [] <;> simp [textField, hs]

/-- The record built from the groups of a valid operator. -/
theorem scanRecordOfMatch_groups (umts : Bool) (o : Operator) (h : o.valid = true)
    (w : CStr) (a : Char) :
    scanRecordOfMatch umts (w :: o.groups (if umts then [[a]] else [])) =
      some { o.record false with
        access_tech := if umts ∧ '0' ≤ a ∧ a ≤ '6' then some [a] else none } := by
  rw [Operator.valid_iff, isNameText_iff, isNameText_iff] at h
  obtain ⟨_, ⟨_, hl1, hl2⟩, ⟨_, hs1, hs2⟩, h5, hn⟩ := h
  have hne : o.num ≠ [] := by
    intro e
    rw [e] at h5
    simp at h5
  have hall : (o.num.all fun c => isdigit c || decide (c = '-')) = true := by
    rw [List.all_eq_true]
    intro c hc
    simp [hn c hc]
  have hnum : textField o.num = some o.num := by simp [textField, hne]
  have e1 : save_scan_value ScanRecord.empty .STATUS (w :: o.groups (if umts then [[a]] else [])) 1
      = { ScanRecord.empty with status := some [o.status] } := by
    rw [save_scan_value_text _ _ (w :: o.groups (if umts then [[a]] else [])) 1 [o.status] rfl,
      unquote_single]
    rfl
  simp only [scanRecordOfMatch, e1]
  rw [save_scan_value_quoted _ _ (w :: o.groups (if umts then [[a]] else [])) 2 o.long rfl
    hl1 hl2]
  rw [save_scan_value_quoted _ _ (w :: o.groups (if umts then [[a]] else [])) 3 o.short rfl
    hs1 hs2]
  rw [save_scan_value_quoted _ _ (w :: o.groups (if umts then [[a]] else [])) 4 o.num rfl
    (digits_ends _ hn).1 (digits_ends _ hn).2, hnum]
  cases umts with
  | true =>
    have e5 : g_match_info_fetch (w :: o.groups [[a]]) 5 = some [a] := rfl
    simp only [if_true, e5, true_and]
    by_cases ha : '0' ≤ a ∧ a ≤ '6'
    · cases hL : textField o.long <;> cases hS : textField o.short <;>
        simp [hL, hS, ha, g_hash_table_insert, g_hash_table_lookup, h5, hall, Operator.record,
          ScanRecord.empty]
    · cases hL : textField o.long <;> cases hS : textField o.short <;>
        simp [hL, hS, ha, g_hash_table_insert, g_hash_table_lookup, h5, hall, Operator.record,
          ScanRecord.empty]
  | false =>
    cases hL : textField o.long <;> cases hS : textField o.short <;>
      simp [hL, hS, g_hash_table_insert, g_hash_table_lookup, h5, hall, Operator.record,
        ScanRecord.empty]

theorem g_regex_match_all_hit_at (re : Re) (s : CStr) (q : Caps × CStr)
    (qs : List (Caps × CStr)) (h : re.run s = q :: qs) (hq : q.2.length < s.length) :
    g_regex_match_all re s = mkMatchInfo re s q :: g_regex_match_all re q.2 := by
  cases s with
  | nil => simp at hq
  | cons c cs => exact g_regex_match_all_hit re c cs q qs h hq

theorem joinRecords_cons (a : CStr) (l : List CStr) (h : l ≠ []) :
    joinRecords (a :: l) = a ++ ',' :: joinRecords l := by
  cases l with
  | nil => exact absurd rfl h
  | cons b l => rfl

/-- The matches in a list of records each of which the expression matches
exactly, followed by any text: one match per record, then the matches of the
text that follows. -/
theorem g_regex_match_all_records {α : Type} (re : Re)
    (hre : ∀ (s : CStr) (q : Caps × CStr), q ∈ re.run s → q.2.length < s.length)
    (hcomma : ∀ t, re.run (',' :: t) = [])
    (rend : α → CStr) (inf : α → GMatchInfo) (ops : List α)
    (hrun : ∀ o ∈ ops, ∀ r, ∃ q qs, re.run (rend o ++ r) = q :: qs ∧ q.2 = r ∧
      mkMatchInfo re (rend o ++ r) q = inf o)
    (T : CStr) :
    g_regex_match_all re (joinRecords (ops.map rend) ++ T) =
      ops.map inf ++ g_regex_match_all re T := by
  induction ops with
  | nil => simp [joinRecords]
  | cons o os ih =>
    have ih' := ih (fun x hx => hrun x (List.mem_cons_of_mem _ hx))
    have step : ∀ r, g_regex_match_all re (rend o ++ r) = inf o :: g_regex_match_all re r := by
      intro r
      obtain ⟨q, qs, h1, h2, h3⟩ := hrun o (List.mem_cons_self _ _) r
      have hq := hre _ q (by rw [h1]; exact List.mem_cons_self _ _)
      rw [g_regex_match_all_hit_at re _ q qs h1 hq, h3, h2]
    cases os with
    | nil => simpa [joinRecords] using step T
    | cons o2 os' =>
      rw [List.map_cons, joinRecords_cons _ _ (by simp), List.append_assoc, step,
        List.cons_append, g_regex_match_all_fail re hre ',' _ (hcomma _), ih']
      rfl

/-- The search passes over a record at which the technology-aware expression
does not match. -/
theorem umts_skip_record (umts : Bool) (o : Operator) (h : o.validFor umts = true) (r : CStr)
    (hfail : scanRegexUmts.run (o.render umts ++ r) = []) :
    regexSearch scanRegexUmts (o.render umts ++ r) = regexSearch scanRegexUmts r ∧
      g_regex_match_all scanRegexUmts (o.render umts ++ r) =
        g_regex_match_all scanRegexUmts r := by
  obtain ⟨t, ht, hno⟩ := render_tail_no_paren umts o h
  rw [ht] at hfail ⊢
  rw [List.cons_append] at hfail ⊢
  constructor
  · rw [regexSearch_fail _ _ _ hfail]
    exact regexSearch_skip _ t r (fun x hx u => umts_run_ne x u (hno x hx))
  · rw [g_regex_match_all_fail _ umts_consumes _ _ hfail]
    exact g_regex_match_all_skip _ umts_consumes t r (fun x hx u => umts_run_ne x u (hno x hx))

theorem joinRecords_render_head (umts : Bool) (o : Operator) (os : List Operator) (T : CStr) :
    ∃ t, joinRecords ((o :: os).map (Operator.render umts)) ++ T = '(' :: t := by
  obtain ⟨X, hX⟩ : ∃ X, o.render umts = '(' :: X := ⟨_, rfl⟩
  cases os with
  | nil =>
    simp only [List.map_cons, List.map_nil, joinRecords, hX, List.cons_append]
    exact ⟨_, rfl⟩
  | cons o2 os' =>
    rw [List.map_cons, joinRecords_cons _ _ (by simp), hX]
    simp only [List.cons_append]
    exact ⟨_, rfl⟩

theorem isTrailer_comma_paren (t : CStr) : isTrailer (',' :: '(' :: t) = true := by
  simp [isTrailer]
  decide

/-- The technology-aware expression matches nowhere in a list of pre-UMTS
records followed by a trailer: the search goes on in the trailer. -/
theorem umts_search_preUmts_records (ops : List Operator) (hv : ∀ o ∈ ops, o.valid = true)
    (T : CStr) (hT : isTrailer T = true) :
    regexSearch scanRegexUmts (joinRecords (ops.map (Operator.render false)) ++ T) =
      regexSearch scanRegexUmts T := by
  induction ops with
  | nil => simp [joinRecords]
  | cons o os ih =>
    have ho : o.validFor false = true := by
      simp [Operator.validFor, hv o (List.mem_cons_self _ _)]
    have ih' := ih (fun x hx => hv x (List.mem_cons_of_mem _ hx))
    cases os with
    | nil =>
      simp only [List.map_cons, List.map_nil, joinRecords]
      exact (umts_skip_record false o ho T
        (umts_run_render_pre_trailer o (hv o (List.mem_cons_self _ _)) T hT)).1
    | cons o2 os' =>
      obtain ⟨t, ht⟩ := joinRecords_render_head false o2 os' T
      rw [List.map_cons, joinRecords_cons _ _ (by simp), List.append_assoc, List.cons_append]
      rw [(umts_skip_record false o ho _ (umts_run_render_pre_trailer o
        (hv o (List.mem_cons_self _ _)) _ (by rw [ht]; exact isTrailer_comma_paren t))).1]
      rw [regexSearch_fail _ _ _ (umts_run_ne ',' _ (by decide))]
      exact ih'

/-- The technology-aware expression on pre-UMTS records followed by a stray
`,d)`: one match, the last record with the digit as its fifth group. -/
theorem umts_all_preUmts_stray (ops : List Operator) (op : Operator) (d : Char)
    (hv : ∀ o ∈ ops, o.valid = true) (hop : op.valid = true) (hd : isdigit d = true) :
    g_regex_match_all scanRegexUmts
      (joinRecords ((ops ++ [op]).map (Operator.render false)) ++ [',', d, ')']) =
      [(op.render false ++ [',', d, ')']) :: op.groups [[d]]] := by
  induction ops with
  | nil =>
    simp only [List.nil_append, List.map_cons, List.map_nil, joinRecords]
    have h1 := umts_run_render_pre_stray op hop d hd []
    have e : op.render false ++ [',', d, ')'] = (op.render false ++ [',', d, ')']) ++ [] := by
      simp
    rw [g_regex_match_all_hit_at _ _ _ _ h1 (by simp)]
    rw [e, mkMatchInfo_umts, g_regex_match_all_nil _ umts_run_nil]
    simp [Operator.groups]
  | cons o os ih =>
    have ho : o.validFor false = true := by
      simp [Operator.validFor, hv o (List.mem_cons_self _ _)]
    have ih' := ih (fun x hx => hv x (List.mem_cons_of_mem _ hx))
    have hne : (os ++ [op]).map (Operator.render false) ≠ [] := by simp
    obtain ⟨y, ys, hy⟩ : ∃ y ys, os ++ [op] = y :: ys := by
      cases os with
      | nil => exact ⟨op, [], rfl⟩
      | cons a as => exact ⟨a, as ++ [op], rfl⟩
    obtain ⟨t, ht⟩ := joinRecords_render_head false y ys [',', d, ')']
    rw [List.cons_append, List.map_cons, joinRecords_cons _ _ hne, List.append_assoc,
      List.cons_append]
    rw [(umts_skip_record false o ho _ (umts_run_render_pre_trailer o
      (hv o (List.mem_cons_self _ _)) _
      (by rw [hy, ht]; exact isTrailer_comma_paren t))).2]
    rw [g_regex_match_all_fail _ umts_consumes _ _ (umts_run_ne ',' _ (by decide))]
    exact ih'

theorem g_regex_match_all_eq_nil_iff (re : Re) (s : CStr) :
    g_regex_match_all re s = [] ↔ regexSearch re s = none := by
  rw [g_regex_match_all_eq]
  cases hs : regexSearch re s with
  | none => simp
  | some q =>
    obtain ⟨info, rest⟩ := q
    by_cases hl : rest.length < s.length <;> simp [hl]

/-- What `mm_gsm_parse_scan_response` returns for a reply that begins with the
tag: the valid records of the technology-aware matches if there is any such
match, those of the pre-UMTS matches otherwise. -/
theorem mm_gsm_parse_scan_response_tagged (x : CStr) :
    mm_gsm_parse_scan_response ("+COPS: ".toList ++ x) =
      .ok (if g_regex_match_all scanRegexUmts x = [] then
          (g_regex_match_all scanRegexPreUmts x).filterMap (scanRecordOfMatch false)
        else (g_regex_match_all scanRegexUmts x).filterMap (scanRecordOfMatch true)) := by
  have h1 : strstr "+COPS: ".toList ("+COPS: ".toList ++ x) = some ("+COPS: ".toList ++ x) := by
    simp [strstr, startsWith]
  have h2 : ("+COPS: ".toList ++ x).drop 7 = x := by simp
  simp only [mm_gsm_parse_scan_response, h1, h2, g_regex_match]
  cases hs : regexSearch scanRegexUmts x with
  | none =>
    have := (g_regex_match_all_eq_nil_iff scanRegexUmts x).2 hs
    simp [this]
  | some q =>
    have : g_regex_match_all scanRegexUmts x ≠ [] := by
      rw [Ne, g_regex_match_all_eq_nil_iff, hs]
      simp
    simp [this]

/-- Records followed by a trailer that holds no record: the records are
returned, one per operator. -/
theorem scan_records_then_trailer (umts : Bool) (ops : List Operator) (T : CStr)
    (hne : ops ≠ []) (hv : ∀ o ∈ ops, o.validFor umts = true) (hT : isTrailer T = true)
    (hno : noRecordIn umts T = true) :
    mm_gsm_parse_scan_response
        ("+COPS: ".toList ++ (joinRecords (ops.map (Operator.render umts)) ++ T)) =
      .ok (ops.map (Operator.record umts)) := by
  rw [mm_gsm_parse_scan_response_tagged]
  cases umts with
  | true =>
    have hv' : ∀ o ∈ ops, o.valid = true ∧ isdigit o.act = true := by
      intro o ho
      have := (Operator.validFor_iff true o).1 (hv o ho)
      exact ⟨this.1, this.2 rfl⟩
    have hall := g_regex_match_all_records scanRegexUmts umts_consumes
      (fun t => umts_run_ne ',' t (by decide)) (Operator.render true)
      (fun o => o.render true :: o.groups [[o.act]]) ops
      (fun o ho r => ⟨_, [], umts_run_render o (hv' o ho).1 (hv' o ho).2 r, rfl,
        mkMatchInfo_umts _ _ _ _ _ _ _⟩) T
    have hnil : g_regex_match_all scanRegexUmts
        (joinRecords (ops.map (Operator.render true)) ++ T) ≠ [] := by
      rw [hall]
      cases ops with
      | nil => exact absurd rfl hne
      | cons o os => simp
    have hT2 : (g_regex_match_all scanRegexUmts T).filterMap (scanRecordOfMatch true) = [] := by
      simpa [noRecordIn] using hno
    rw [if_neg hnil, hall, List.filterMap_append, hT2, List.append_nil, List.filterMap_map]
    rw [← List.filterMap_eq_map]
    congr 1
    apply List.filterMap_congr
    intro o ho
    have := scanRecordOfMatch_groups true o (hv' o ho).1 (o.render true) o.act
    simp only [if_true] at this
    rw [Function.comp_apply, this, Function.comp_apply]
    simp [Operator.record]
  | false =>
    have hv' : ∀ o ∈ ops, o.valid = true := by
      intro o ho
      exact ((Operator.validFor_iff false o).1 (hv o ho)).1
    simp only [noRecordIn, Bool.false_eq_true, if_false, Bool.and_eq_true, Option.isNone_iff_eq_none,
      List.isEmpty_iff] at hno
    have hnone : regexSearch scanRegexUmts T = none := by
      have := hno.1
      simpa [g_regex_match] using this
    have hnil : g_regex_match_all scanRegexUmts
        (joinRecords (ops.map (Operator.render false)) ++ T) = [] := by
      rw [g_regex_match_all_eq_nil_iff, umts_search_preUmts_records ops hv' T hT, hnone]
    have hall := g_regex_match_all_records scanRegexPreUmts preUmts_consumes
      (fun t => preUmts_run_ne ',' t (by decide)) (Operator.render false)
      (fun o => o.render false :: o.groups []) ops
      (fun o ho r => ⟨_, [], preUmts_run_render o (hv' o ho) r, rfl,
        mkMatchInfo_preUmts _ _ _ _ _ _⟩) T
    rw [if_pos hnil, hall, List.filterMap_append, hno.2, List.append_nil, List.filterMap_map]
    rw [← List.filterMap_eq_map]
    congr 1
    apply List.filterMap_congr
    intro o ho
    have := scanRecordOfMatch_groups false o (hv' o ho) (o.render false) o.act
    simp only [Bool.false_eq_true, if_false] at this
    rw [Function.comp_apply, this, Function.comp_apply]
    simp [Operator.record]

/-- C1 (as stated, refuted): for the reply
`+COPS: (2,"T-Mobile","","310260"),(1,"AT&T","AT&T","310410"),0)` the function
returns one record, that of AT&T carrying access technology `0`, and so not
two records without an access-technology field. -/
theorem scan_stray_tuple_counterexample :
    mm_gsm_parse_scan_response
        "+COPS: (2,\"T-Mobile\",\"\",\"310260\"),(1,\"AT&T\",\"AT&T\",\"310410\"),0)".toList =
      .ok [⟨some "1".toList, some "AT&T".toList, some "AT&T".toList, some "310410".toList,
        some "0".toList⟩] ∧
    ¬ ∃ r1 r2 : ScanRecord,
      mm_gsm_parse_scan_response
          "+COPS: (2,\"T-Mobile\",\"\",\"310260\"),(1,\"AT&T\",\"AT&T\",\"310410\"),0)".toList =
        .ok [r1, r2] ∧ r1.access_tech = none ∧ r2.access_tech = none := by
  have h : mm_gsm_parse_scan_response
      "+COPS: (2,\"T-Mobile\",\"\",\"310260\"),(1,\"AT&T\",\"AT&T\",\"310410\"),0)".toList =
      .ok [⟨some "1".toList, some "AT&T".toList, some "AT&T".toList, some "310410".toList,
        some "0".toList⟩] := by
    rfl
  refine ⟨h, ?_⟩
  rintro ⟨r1, r2, h2, -, -⟩
  rw [h] at h2
  simp at h2

/-- C1 (amended): for every reply made of valid records in the pre-UMTS shape
followed by a stray `,d)` with `d` a digit, the technology-aware grammar matches
the last record together with the stray tuple, so `mm_gsm_parse_scan_response`
returns exactly one record: the last listed operator, carrying `d` as its
access technology when `d` is in 0..6 and none otherwise.  The operators listed
before it are not returned and the stray tuple gives no record of its own. -/
theorem scan_stray_tuple_last_record (ops : List Operator) (op : Operator) (d : Char)
    (hops : ∀ o ∈ ops, o.valid = true) (hop : op.valid = true) (hd : isdigit d = true) :
    mm_gsm_parse_scan_response
        ("+COPS: ".toList ++
          (joinRecords ((ops ++ [op]).map (Operator.render false)) ++ [',', d, ')'])) =
      .ok [{ op.record false with
        access_tech := if '0' ≤ d ∧ d ≤ '6' then some [d] else none }] := by
  rw [mm_gsm_parse_scan_response_tagged, umts_all_preUmts_stray ops op d hops hop hd]
  have := scanRecordOfMatch_groups true op hop (op.render false ++ [',', d, ')']) d
  simp only [if_true, true_and] at this
  simp [this]

/-- C1 (amended), at the reply of the claim: the two operators T-Mobile and AT&T
in the pre-UMTS shape followed by `,0)` give the single record of AT&T with
access technology `0`. -/
theorem scan_stray_tuple_last_record_witness :
    (∀ o ∈ [(⟨'2', "T-Mobile".toList, [], "310260".toList, '0'⟩ : Operator)], o.valid = true) ∧
    (⟨'1', "AT&T".toList, "AT&T".toList, "310410".toList, '0'⟩ : Operator).valid = true ∧
    isdigit '0' = true ∧
    mm_gsm_parse_scan_response
        "+COPS: (2,\"T-Mobile\",\"\",\"310260\"),(1,\"AT&T\",\"AT&T\",\"310410\"),0)".toList =
      .ok [⟨some "1".toList, some "AT&T".toList, some "AT&T".toList, some "310410".toList,
        some "0".toList⟩] :=
  ⟨by decide, by decide, by decide,
    scan_stray_tuple_last_record [⟨'2', "T-Mobile".toList, [], "310260".toList, '0'⟩]
      ⟨'1', "AT&T".toList, "AT&T".toList, "310410".toList, '0'⟩ '0'
      (by decide) (by decide) (by decide)⟩

/-- C2 (as stated, refuted): two valid pre-UMTS records followed by the
parameter tuples `,,(0,1,2,3,4),(0,1,2)` give no record at all, while the same
reply without the tuples gives both records: the five-field tuple is matched by
the technology-aware grammar, which is then the only grammar used. -/
theorem scan_trailing_tuples_counterexample :
    mm_gsm_parse_scan_response
        ("+COPS: (2,\"T-Mobile\",\"\",\"310260\"),(0,\"Cingular Wireless\",\"\",\"310410\")" ++
          ",,(0,1,2,3,4),(0,1,2)").toList = .ok [] ∧
    mm_gsm_parse_scan_response
        "+COPS: (2,\"T-Mobile\",\"\",\"310260\"),(0,\"Cingular Wireless\",\"\",\"310410\")".toList =
      .ok [⟨some "2".toList, some "T-Mobile".toList, none, some "310260".toList, none⟩,
        ⟨some "0".toList, some "Cingular Wireless".toList, none, some "310410".toList, none⟩] :=
  ⟨rfl, rfl⟩

theorem noRecordIn_nil (umts : Bool) : noRecordIn umts [] = true := by
  cases umts <;> rfl

/-- C2 (amended): for every reply made of valid operator records followed by a
trailer (a comma and then something other than a digit) that holds no record,
`mm_gsm_parse_scan_response` does not fail and returns exactly the records it
returns for the same reply without the trailer, one per operator and in order,
when the records are in the technology-aware shape, and also when they are in
the pre-UMTS shape and the technology-aware grammar matches nothing in the
trailer. -/
theorem scan_trailing_tuples_dropped (umts : Bool) (ops : List Operator) (T : CStr)
    (hne : ops ≠ []) (hv : ∀ o ∈ ops, o.validFor umts = true) (hT : isTrailer T = true)
    (hno : noRecordIn umts T = true) :
    mm_gsm_parse_scan_response
        ("+COPS: ".toList ++ (joinRecords (ops.map (Operator.render umts)) ++ T)) =
      mm_gsm_parse_scan_response
        ("+COPS: ".toList ++ joinRecords (ops.map (Operator.render umts))) ∧
    mm_gsm_parse_scan_response
        ("+COPS: ".toList ++ (joinRecords (ops.map (Operator.render umts)) ++ T)) =
      .ok (ops.map (Operator.record umts)) := by
  have h1 := scan_records_then_trailer umts ops T hne hv hT hno
  have h2 := scan_records_then_trailer umts ops [] hne hv rfl (noRecordIn_nil umts)
  rw [List.append_nil] at h2
  exact ⟨by rw [h1, h2], h1⟩

/-- C2 (amended), at two technology-aware records followed by the tuples of the
claim, `,,(0,1,2,3,4),(0,1,2)`: both records are returned, as without the
tuples. -/
theorem scan_trailing_tuples_dropped_witness :
    ([⟨'2', "Orange".toList, "Orange F".toList, "20801".toList, '2'⟩,
      ⟨'1', "SFR".toList, "SFR".toList, "20810".toList, '0'⟩] : List Operator) ≠ [] ∧
    (∀ o ∈ ([⟨'2', "Orange".toList, "Orange F".toList, "20801".toList, '2'⟩,
      ⟨'1', "SFR".toList, "SFR".toList, "20810".toList, '0'⟩] : List Operator),
      o.validFor true = true) ∧
    isTrailer ",,(0,1,2,3,4),(0,1,2)".toList = true ∧
    noRecordIn true ",,(0,1,2,3,4),(0,1,2)".toList = true ∧
    mm_gsm_parse_scan_response
        ("+COPS: (2,\"Orange\",\"Orange F\",\"20801\",2),(1,\"SFR\",\"SFR\",\"20810\",0)" ++
          ",,(0,1,2,3,4),(0,1,2)").toList =
      mm_gsm_parse_scan_response
        "+COPS: (2,\"Orange\",\"Orange F\",\"20801\",2),(1,\"SFR\",\"SFR\",\"20810\",0)".toList ∧
    mm_gsm_parse_scan_response
        ("+COPS: (2,\"Orange\",\"Orange F\",\"20801\",2),(1,\"SFR\",\"SFR\",\"20810\",0)" ++
          ",,(0,1,2,3,4),(0,1,2)").toList =
      .ok [⟨some "2".toList, some "Orange".toList, some "Orange F".toList,
          some "20801".toList, some "2".toList⟩,
        ⟨some "1".toList, some "SFR".toList, some "SFR".toList, some "20810".toList,
          some "0".toList⟩] :=
  ⟨List.cons_ne_nil _ _, by decide, by decide, by decide,
    scan_trailing_tuples_dropped true
      [⟨'2', "Orange".toList, "Orange F".toList, "20801".toList, '2'⟩,
        ⟨'1', "SFR".toList, "SFR".toList, "20810".toList, '0'⟩]
      ",,(0,1,2,3,4),(0,1,2)".toList (List.cons_ne_nil _ _) (by decide) (by decide)
      (by decide)⟩


/-! ## What a scan record holds -/

theorem save_scan_value_eq (hash : ScanRecord) (key : ScanTag) (info : GMatchInfo) (num : Nat) :
    save_scan_value hash key info num =
      match storedText info num with
      | some v => g_hash_table_insert hash key v
      | none => hash := by
  cases h : g_match_info_fetch info num with
  | none => simp [save_scan_value, storedText, h]
  | some q =>
    by_cases hq : unquote q = []
    · simp [save_scan_value, storedText, h, textField, hq]
    · simp [save_scan_value, storedText, h, textField, hq]

/-- The body of the loop in terms of what is stored for each group: the record
is kept when the stored operator number has at least 5 characters, all of them
digits or minus signs. -/
theorem scanRecordOfMatch_eq (umts : Bool) (info : GMatchInfo) :
    scanRecordOfMatch umts info =
      match storedText info 4 with
      | some tmp =>
        if 5 ≤ tmp.length ∧ tmp.all (fun c => isdigit c || c = '-') then
          some
            { status := storedText info 1
              oper_long := storedText info 2
              oper_short := storedText info 3
              oper_num := some tmp
              access_tech := storedAccessTech umts info }
        else none
      | none => none := by
  simp only [scanRecordOfMatch, save_scan_value_eq, storedAccessTech]
  rcases h5 : g_match_info_fetch info 5 with _ | ⟨_ | ⟨c5, _ | ⟨d5, t5⟩⟩⟩ <;>
    cases h1 : storedText info 1 <;> cases h2 : storedText info 2 <;>
    cases h3 : storedText info 3 <;> cases h4 : storedText info 4 <;>
    cases umts <;>
    simp [g_hash_table_insert, g_hash_table_lookup, ScanRecord.empty, h5]
  all_goals (by_cases hc : '0' ≤ c5 ∧ c5 ≤ '6' <;> simp [hc])


theorem regexSearch_eq_none_iff (re : Re) (s : CStr) :
    regexSearch re s = none ↔ ∀ t ∈ s.tails, re.run t = [] := by
  induction s with
  | nil =>
    cases h : re.run [] <;> simp [regexSearch, h]
  | cons c cs ih =>
    cases h : re.run (c :: cs) with
    | nil => simp [regexSearch, h, ih]
    | cons q qs => simp [regexSearch, h]

/-- What `mm_gsm_parse_scan_response` returns for a reply that holds the tag,
`found` being the reply from the first tag on: the valid records of the
technology-aware matches in the text after the tag if there is any such match,
those of the pre-UMTS matches otherwise. -/
theorem mm_gsm_parse_scan_response_found (reply found : CStr)
    (h : strstr "+COPS: ".toList reply = some found) :
    mm_gsm_parse_scan_response reply =
      .ok (if g_regex_match scanRegexUmts (found.drop 7) = none then
          (g_regex_match_all scanRegexPreUmts (found.drop 7)).filterMap (scanRecordOfMatch false)
        else
          (g_regex_match_all scanRegexUmts (found.drop 7)).filterMap (scanRecordOfMatch true)) := by
  simp only [mm_gsm_parse_scan_response, h]
  cases hs : g_regex_match scanRegexUmts (found.drop 7) <;> simp

theorem scanRecordOfMatch_isSome (umts : Bool) (info : GMatchInfo) :
    (scanRecordOfMatch umts info).isSome = true ↔
      ∃ num, storedText info 4 = some num ∧ 5 ≤ num.length ∧
        ∀ c ∈ num, isdigit c = true ∨ c = '-' := by
  rw [scanRecordOfMatch_eq]
  cases h4 : storedText info 4 with
  | none => simp
  | some tmp =>
    by_cases hv : 5 ≤ tmp.length ∧ (tmp.all fun c => isdigit c || decide (c = '-')) = true
    · simp only [hv, and_self, if_true, Option.isSome_some, true_iff]
      refine ⟨tmp, rfl, hv.1, ?_⟩
      simpa using hv.2
    · simp only [hv, if_false, Option.isSome_none, Bool.false_eq_true, false_iff]
      rintro ⟨num, hn, h5, hall⟩
      cases hn
      exact hv ⟨h5, by simpa using hall⟩

theorem scanRecordOfMatch_some (umts : Bool) (info : GMatchInfo) (r : ScanRecord)
    (h : scanRecordOfMatch umts info = some r) :
    r = { status := storedText info 1
          oper_long := storedText info 2
          oper_short := storedText info 3
          oper_num := storedText info 4
          access_tech := storedAccessTech umts info } ∧
      ∃ num, storedText info 4 = some num ∧ 5 ≤ num.length ∧
        ∀ c ∈ num, isdigit c = true ∨ c = '-' := by
  have hs := (scanRecordOfMatch_isSome umts info).1 (by rw [h]; rfl)
  refine ⟨?_, hs⟩
  rw [scanRecordOfMatch_eq] at h
  obtain ⟨num, hn, h5, hall⟩ := hs
  rw [hn] at h ⊢
  simp only at h
  split at h
  · cases h; rfl
  · cases h

theorem storedText_ne_nil (info : GMatchInfo) (num : Nat) (v : CStr)
    (h : storedText info num = some v) :
    v ≠ [] ∧ ∃ q, g_match_info_fetch info num = some q ∧ v = unquote q := by
  cases hq : g_match_info_fetch info num with
  | none => simp [storedText, hq] at h
  | some q =>
    simp only [storedText, hq, Option.some_bind, textField] at h
    split at h
    · cases h
    · rename_i hne
      cases h
      exact ⟨hne, q, rfl, rfl⟩

theorem g_strchomp_snoc_blank (s : CStr) : g_strchomp (s ++ [' ']) = g_strchomp s := by
  have hb : g_ascii_isspace ' ' = true := by decide
  simp [g_strchomp, List.dropWhile_cons_of_pos hb]

theorem g_strstrip_snoc_blank (s : CStr) : g_strstrip (s ++ [' ']) = g_strstrip s := by
  have hb : g_ascii_isspace ' ' = true := by decide
  induction s with
  | nil => simp [g_strstrip, g_strchug, g_strchomp, List.dropWhile_cons_of_pos hb]
  | cons c t ih =>
    by_cases hc : g_ascii_isspace c = true
    · simp only [g_strstrip, g_strchug, List.cons_append, List.dropWhile_cons_of_pos hc] at ih ⊢
      exact ih
    · simp only [g_strstrip, g_strchug, List.cons_append, List.dropWhile_cons_of_neg hc]
      exact g_strchomp_snoc_blank (c :: t)

/-- Stripping does not see the blanks that replace the quotes. -/
theorem g_strstrip_between_blanks (s : CStr) : g_strstrip (' ' :: (s ++ [' '])) = g_strstrip s := by
  have hb : g_ascii_isspace ' ' = true := by decide
  have h1 : g_strstrip (' ' :: (s ++ [' '])) = g_strstrip (s ++ [' ']) := by
    simp only [g_strstrip, g_strchug, List.dropWhile_cons_of_pos hb]
  rw [h1, g_strstrip_snoc_blank]

/-- A text wrapped in quotes is stored without them and stripped. -/
theorem unquote_quoted_strip (s : CStr) : unquote (quoted s) = g_strstrip s := by
  have h1 : 2 ≤ (quoted s).length := by simp [quoted]
  have h2 : (quoted s).head? = some '"' := by simp [quoted]
  have h3 : (quoted s).getLast? = some '"' := by
    have : quoted s = ('"' :: s) ++ ['"'] := rfl
    rw [this, List.getLast?_concat]
  have h4 : ((quoted s).drop 1).dropLast = s := by
    simp [quoted]
  rw [unquote, if_pos ⟨h1, h2, h3⟩, h4]
  exact g_strstrip_between_blanks s

theorem g_strstrip_all_space (s : CStr) (h : ∀ c ∈ s, g_ascii_isspace c = true) :
    g_strstrip s = [] := by
  have : g_strchug s = [] := by
    rw [g_strchug, List.dropWhile_eq_nil_iff]
    exact h
  rw [g_strstrip, this]
  rfl

theorem dropWhile_head (p : Char → Bool) (l : CStr) :
    (l.dropWhile p).head?.all (fun c => !p c) = true := by
  induction l with
  | nil => rfl
  | cons c t ih =>
    by_cases hc : p c = true
    · rw [List.dropWhile_cons_of_pos hc]
      exact ih
    · rw [List.dropWhile_cons_of_neg hc]
      simpa using hc

/-- A stripped text has no white space at either end. -/
theorem g_strstrip_ends (s : CStr) :
    (g_strstrip s).head?.all (fun c => !g_ascii_isspace c) = true ∧
      (g_strstrip s).getLast?.all (fun c => !g_ascii_isspace c) = true := by
  have hlast : ∀ l : CStr, (g_strchomp l).getLast?.all (fun c => !g_ascii_isspace c) = true := by
    intro l
    rw [g_strchomp, List.getLast?_reverse]
    exact dropWhile_head _ _
  refine ⟨?_, hlast _⟩
  have hpre : g_strchomp (g_strchug s) <+: g_strchug s := by
    rw [g_strchomp]
    have := List.dropWhile_suffix g_ascii_isspace (l := (g_strchug s).reverse)
    have h2 := List.reverse_prefix.2 this
    rwa [List.reverse_reverse] at h2
  obtain ⟨t, ht⟩ := hpre
  have hh := dropWhile_head g_ascii_isspace s
  rw [g_strstrip]
  cases hc : g_strchomp (g_strchug s) with
  | nil => rfl
  | cons a u =>
    rw [hc] at ht
    rw [g_strchug] at ht
    rw [← ht] at hh
    simpa using hh

theorem strstr_some (needle : CStr) :
    ∀ (s found : CStr), strstr needle s = some found →
      ∃ before, s = before ++ found ∧ startsWith needle found = true := by
  intro s
  induction s with
  | nil =>
    intro found h
    simp only [strstr] at h
    split at h
    · rename_i hn
      cases h
      exact ⟨[], rfl, by rw [hn]; rfl⟩
    · cases h
  | cons c cs ih =>
    intro found h
    simp only [strstr] at h
    split at h
    · rename_i hs
      cases h
      exact ⟨[], rfl, hs⟩
    · obtain ⟨before, hb, hs⟩ := ih found h
      exact ⟨c :: before, by rw [hb]; rfl, hs⟩

theorem startsWith_eq (needle : CStr) :
    ∀ s : CStr, startsWith needle s = true → s = needle ++ s.drop needle.length := by
  induction needle with
  | nil => intro s _; rfl
  | cons a p ih =>
    intro s h
    cases s with
    | nil => simp [startsWith] at h
    | cons b t =>
      simp only [startsWith, Bool.and_eq_true, decide_eq_true_eq] at h
      rw [h.1]
      simp only [List.length_cons, List.drop_succ_cons, List.cons_append, List.cons.injEq,
        true_and]
      exact ih t h.2

/-- C13 (as stated, refuted): the record of an operator whose numeric id is
`310-260` is returned, its minus sign not being the leading character. -/
theorem scan_oper_num_minus_counterexample :
    mm_gsm_parse_scan_response "+COPS: (2,\"A\",\"B\",\"310-260\",2)".toList =
      .ok [⟨some "2".toList, some "A".toList, some "B".toList, some "310-260".toList,
        some "2".toList⟩] ∧
    ¬ ("310-260".toList.all isdigit = true ∨
      ∃ t, "310-260".toList = '-' :: t ∧ t.all isdigit = true) := by
  refine ⟨rfl, ?_⟩
  rintro (h | ⟨t, ht, -⟩)
  · revert h
    decide
  · revert ht
    simp

/-- C13 (amended): for every reply that holds the tag, the list returned is made
of the matches of one grammar in the text after the tag, each match giving a
record exactly when the operator number stored for it is present, at least 5
characters long and composed solely of decimal digits and minus signs, in any
number and at any place; the record then carries that operator number.  So every
record of the list has such an operator number, and every matched candidate
without one is left out. -/
theorem scan_oper_num_policy (reply found : CStr)
    (htag : strstr "+COPS: ".toList reply = some found) :
    ∃ umts : Bool,
      mm_gsm_parse_scan_response reply =
        .ok ((g_regex_match_all (if umts then scanRegexUmts else scanRegexPreUmts)
          (found.drop 7)).filterMap (scanRecordOfMatch umts)) ∧
      (∀ info, (scanRecordOfMatch umts info).isSome = true ↔
        ∃ num, storedText info 4 = some num ∧ 5 ≤ num.length ∧
          ∀ c ∈ num, isdigit c = true ∨ c = '-') ∧
      (∀ info r, scanRecordOfMatch umts info = some r → r.oper_num = storedText info 4) ∧
      ∀ records, mm_gsm_parse_scan_response reply = .ok records →
        ∀ r ∈ records, ∃ num, r.oper_num = some num ∧ 5 ≤ num.length ∧
          ∀ c ∈ num, isdigit c = true ∨ c = '-' := by
  have hrec : ∀ (umts : Bool) (l : List GMatchInfo), ∀ r ∈ l.filterMap (scanRecordOfMatch umts),
      ∃ num, r.oper_num = some num ∧ 5 ≤ num.length ∧
        ∀ c ∈ num, isdigit c = true ∨ c = '-' := by
    intro umts l r hr
    obtain ⟨info, -, hi⟩ := List.mem_filterMap.1 hr
    obtain ⟨hr2, num, hn, h5, hall⟩ := scanRecordOfMatch_some umts info r hi
    exact ⟨num, by rw [hr2]; exact hn, h5, hall⟩
  have hp := mm_gsm_parse_scan_response_found reply found htag
  by_cases hm : g_regex_match scanRegexUmts (found.drop 7) = none
  · rw [if_pos hm] at hp
    refine ⟨false, hp, scanRecordOfMatch_isSome false,
      fun info r h => by rw [(scanRecordOfMatch_some false info r h).1], ?_⟩
    intro records hrs r hr
    rw [hp] at hrs
    cases hrs
    exact hrec false _ r hr
  · rw [if_neg hm] at hp
    refine ⟨true, hp, scanRecordOfMatch_isSome true,
      fun info r h => by rw [(scanRecordOfMatch_some true info r h).1], ?_⟩
    intro records hrs r hr
    rw [hp] at hrs
    cases hrs
    exact hrec true _ r hr

/-- C13 (amended), at the reply `+COPS: (2,"A","B","310-260",2)`. -/
theorem scan_oper_num_policy_witness :
    strstr "+COPS: ".toList "+COPS: (2,\"A\",\"B\",\"310-260\",2)".toList =
      some "+COPS: (2,\"A\",\"B\",\"310-260\",2)".toList ∧
    ∃ umts : Bool,
      mm_gsm_parse_scan_response "+COPS: (2,\"A\",\"B\",\"310-260\",2)".toList =
        .ok ((g_regex_match_all (if umts then scanRegexUmts else scanRegexPreUmts)
          ("+COPS: (2,\"A\",\"B\",\"310-260\",2)".toList.drop 7)).filterMap
            (scanRecordOfMatch umts)) ∧
      (∀ info, (scanRecordOfMatch umts info).isSome = true ↔
        ∃ num, storedText info 4 = some num ∧ 5 ≤ num.length ∧
          ∀ c ∈ num, isdigit c = true ∨ c = '-') ∧
      (∀ info r, scanRecordOfMatch umts info = some r → r.oper_num = storedText info 4) ∧
      ∀ records,
        mm_gsm_parse_scan_response "+COPS: (2,\"A\",\"B\",\"310-260\",2)".toList =
          .ok records →
        ∀ r ∈ records, ∃ num, r.oper_num = some num ∧ 5 ≤ num.length ∧
          ∀ c ∈ num, isdigit c = true ∨ c = '-' :=
  ⟨rfl, scan_oper_num_policy "+COPS: (2,\"A\",\"B\",\"310-260\",2)".toList
    "+COPS: (2,\"A\",\"B\",\"310-260\",2)".toList rfl⟩

/-- C14 (as stated, refuted): in `+COPS: (2, ,"B","31026")` the long name is
sent without quotes and is a single blank; it is stored as captured, a blank
string, although nothing is left of it after trimming. -/
theorem scan_blank_field_counterexample :
    mm_gsm_parse_scan_response "+COPS: (2, ,\"B\",\"31026\")".toList =
      .ok [⟨some "2".toList, some " ".toList, some "B".toList, some "31026".toList, none⟩] ∧
    g_strstrip " ".toList = [] :=
  ⟨rfl, rfl⟩

/-- C14 (amended): for every match and every group `q` captured in it: the
quotes are removed only when the captured text is wrapped in a pair of quote
characters (its first and last character), and then the white space at both
ends of what was between them is trimmed too; a text not so wrapped is stored
as captured, untrimmed.  The tag is stored only when the text to store is not
empty, so that an empty field, and a quoted field that is empty or all white
space, is absent; and every field present in a record built from the match is a
non-empty text. -/
theorem scan_field_unquoting (info : GMatchInfo) (num : Nat) (q : CStr)
    (hq : g_match_info_fetch info num = some q) :
    (unquote q ≠ q → 2 ≤ q.length ∧ q.head? = some '"' ∧ q.getLast? = some '"') ∧
    (¬ (2 ≤ q.length ∧ q.head? = some '"' ∧ q.getLast? = some '"') → unquote q = q) ∧
    (∀ s, q = quoted s →
      unquote q = g_strstrip s ∧
        (unquote q).head?.all (fun c => !g_ascii_isspace c) = true ∧
        (unquote q).getLast?.all (fun c => !g_ascii_isspace c) = true ∧
        ((∀ c ∈ s, g_ascii_isspace c = true) → storedText info num = none)) ∧
    (∀ hash key, save_scan_value hash key info num =
      if unquote q = [] then hash else g_hash_table_insert hash key (unquote q)) ∧
    (∀ umts r key v, scanRecordOfMatch umts info = some r →
      g_hash_table_lookup r key = some v → v ≠ []) := by
  have h2 : ¬ (2 ≤ q.length ∧ q.head? = some '"' ∧ q.getLast? = some '"') → unquote q = q := by
    intro h
    rw [unquote, if_neg h]
  refine ⟨?_, h2, ?_, ?_, ?_⟩
  · intro h
    by_contra hw
    exact h (h2 hw)
  · intro s hs
    subst hs
    rw [unquote_quoted_strip]
    refine ⟨rfl, (g_strstrip_ends s).1, (g_strstrip_ends s).2, ?_⟩
    intro hall
    simp [storedText, hq, unquote_quoted_strip, g_strstrip_all_space s hall, textField]
  · intro hash key
    exact save_scan_value_text hash key info num q hq
  · intro umts r key v hr hv
    obtain ⟨hr2, tmp, -, -, -⟩ := scanRecordOfMatch_some umts info r hr
    subst hr2
    cases key with
    | STATUS => exact (storedText_ne_nil info 1 v hv).1
    | OPER_LONG => exact (storedText_ne_nil info 2 v hv).1
    | OPER_SHORT => exact (storedText_ne_nil info 3 v hv).1
    | OPER_NUM => exact (storedText_ne_nil info 4 v hv).1
    | ACCESS_TECH =>
      simp only [g_hash_table_lookup, storedAccessTech] at hv
      split at hv
      · split at hv
        · split at hv
          · cases hv
            simp
          · cases hv
        · cases hv
      · cases hv

/-- C14 (amended), at the quoted long name of a match of
`(2," Orange ","Orange F","20801",2)`: it is stored trimmed, as `Orange`. -/
theorem scan_field_unquoting_witness :
    g_match_info_fetch
        ["(2,\" Orange \",\"Orange F\",\"20801\",2)".toList, "2".toList, "\" Orange \"".toList,
          "\"Orange F\"".toList, "\"20801\"".toList, "2".toList] 2 =
      some "\" Orange \"".toList ∧
    unquote "\" Orange \"".toList = "Orange".toList ∧
    save_scan_value ScanRecord.empty .OPER_LONG
        ["(2,\" Orange \",\"Orange F\",\"20801\",2)".toList, "2".toList, "\" Orange \"".toList,
          "\"Orange F\"".toList, "\"20801\"".toList, "2".toList] 2 =
      ⟨none, some "Orange".toList, none, none, none⟩ :=
  ⟨rfl, rfl,
    ((scan_field_unquoting
      ["(2,\" Orange \",\"Orange F\",\"20801\",2)".toList, "2".toList, "\" Orange \"".toList,
        "\"Orange F\"".toList, "\"20801\"".toList, "2".toList] 2 "\" Orange \"".toList
      rfl).2.2.2.1 ScanRecord.empty .OPER_LONG).trans rfl⟩

/-- C15 (as stated, refuted): in the reply `+COPS: ,,(0,1,3),(0,2)` neither
grammar matches anything after the tag, and the function does not fail: it
returns the empty list. -/
theorem scan_no_match_counterexample :
    g_regex_match scanRegexUmts ("+COPS: ,,(0,1,3),(0,2)".toList.drop 7) = none ∧
    g_regex_match scanRegexPreUmts ("+COPS: ,,(0,1,3),(0,2)".toList.drop 7) = none ∧
    mm_gsm_parse_scan_response "+COPS: ,,(0,1,3),(0,2)".toList = .ok [] :=
  ⟨rfl, rfl, rfl⟩

/-- C15 (amended): for every scan reply text that holds the tag `+COPS: ` and in
which neither the technology-aware nor the technology-unaware grammar matches
any record, `mm_gsm_parse_scan_response` does not fail: it returns the empty
list. -/
theorem scan_no_match_empty (reply found : CStr)
    (htag : strstr "+COPS: ".toList reply = some found)
    (hu : g_regex_match scanRegexUmts (found.drop 7) = none)
    (hp : g_regex_match scanRegexPreUmts (found.drop 7) = none) :
    mm_gsm_parse_scan_response reply = .ok [] ∧
      ∀ e, mm_gsm_parse_scan_response reply ≠ .error e := by
  have h := mm_gsm_parse_scan_response_found reply found htag
  rw [if_pos hu] at h
  have hnil : g_regex_match_all scanRegexPreUmts (found.drop 7) = [] := by
    rw [g_regex_match_all_eq_nil_iff]
    simpa [g_regex_match] using hp
  rw [hnil] at h
  refine ⟨h, ?_⟩
  intro e he
  rw [h] at he
  cases he

/-- C15 (amended), at the reply `+COPS: ,,(0,1,3),(0,2)`. -/
theorem scan_no_match_empty_witness :
    strstr "+COPS: ".toList "+COPS: ,,(0,1,3),(0,2)".toList =
      some "+COPS: ,,(0,1,3),(0,2)".toList ∧
    g_regex_match scanRegexUmts ("+COPS: ,,(0,1,3),(0,2)".toList.drop 7) = none ∧
    g_regex_match scanRegexPreUmts ("+COPS: ,,(0,1,3),(0,2)".toList.drop 7) = none ∧
    mm_gsm_parse_scan_response "+COPS: ,,(0,1,3),(0,2)".toList = .ok [] :=
  ⟨rfl, rfl, rfl,
    (scan_no_match_empty "+COPS: ,,(0,1,3),(0,2)".toList "+COPS: ,,(0,1,3),(0,2)".toList
      rfl rfl rfl).1⟩

/-- C17: for every reply that holds the tag, the grammars are applied to the
text that follows the first `+COPS: ` of the reply; when the technology-aware
grammar matches at no position of that text the records are those of the
matches of the pre-UMTS grammar, and when it matches at some position the
records are those of its own matches, of which there is at least one, the
pre-UMTS grammar not being used. -/
theorem scan_grammar_selection (reply found : CStr)
    (htag : strstr "+COPS: ".toList reply = some found) :
    (∃ before, reply = before ++ ("+COPS: ".toList ++ found.drop 7)) ∧
    ((∀ t ∈ (found.drop 7).tails, scanRegexUmts.run t = []) →
      mm_gsm_parse_scan_response reply =
        .ok ((g_regex_match_all scanRegexPreUmts (found.drop 7)).filterMap
          (scanRecordOfMatch false))) ∧
    ((∃ t ∈ (found.drop 7).tails, scanRegexUmts.run t ≠ []) →
      g_regex_match_all scanRegexUmts (found.drop 7) ≠ [] ∧
      mm_gsm_parse_scan_response reply =
        .ok ((g_regex_match_all scanRegexUmts (found.drop 7)).filterMap
          (scanRecordOfMatch true))) := by
  have h := mm_gsm_parse_scan_response_found reply found htag
  have hiff : g_regex_match scanRegexUmts (found.drop 7) = none ↔
      ∀ t ∈ (found.drop 7).tails, scanRegexUmts.run t = [] := by
    rw [← regexSearch_eq_none_iff]
    simp [g_regex_match]
  refine ⟨?_, ?_, ?_⟩
  · obtain ⟨before, hb, hs⟩ := strstr_some _ reply found htag
    refine ⟨before, ?_⟩
    have := startsWith_eq _ found hs
    rw [hb]
    congr 1
  · intro hno
    rw [if_pos (hiff.2 hno)] at h
    exact h
  · rintro ⟨t, ht, hne⟩
    have hm : ¬ g_regex_match scanRegexUmts (found.drop 7) = none := by
      intro hn
      exact hne (hiff.1 hn t ht)
    rw [if_neg hm] at h
    refine ⟨?_, h⟩
    rw [Ne, g_regex_match_all_eq_nil_iff]
    simpa [g_regex_match] using hm

/-- C17, at the reply `+COPS: (2,"T-Mobile","","310260"),(0,"Cingular Wireless","","310410")`
in the pre-UMTS shape: the technology-aware grammar matches nowhere and the two
records come from the pre-UMTS grammar. -/
theorem scan_grammar_selection_witness :
    strstr "+COPS: ".toList
        "+COPS: (2,\"T-Mobile\",\"\",\"310260\"),(0,\"Cingular Wireless\",\"\",\"310410\")".toList =
      some
        "+COPS: (2,\"T-Mobile\",\"\",\"310260\"),(0,\"Cingular Wireless\",\"\",\"310410\")".toList ∧
    (∀ t ∈ ("+COPS: (2,\"T-Mobile\",\"\",\"310260\"),(0,\"Cingular Wireless\",\"\",\"310410\")".toList.drop
        7).tails, scanRegexUmts.run t = []) ∧
    mm_gsm_parse_scan_response
        "+COPS: (2,\"T-Mobile\",\"\",\"310260\"),(0,\"Cingular Wireless\",\"\",\"310410\")".toList =
      .ok ((g_regex_match_all scanRegexPreUmts
        ("+COPS: (2,\"T-Mobile\",\"\",\"310260\"),(0,\"Cingular Wireless\",\"\",\"310410\")".toList.drop
          7)).filterMap (scanRecordOfMatch false)) :=
  ⟨rfl, (regexSearch_eq_none_iff _ _).1 rfl,
    (scan_grammar_selection
      "+COPS: (2,\"T-Mobile\",\"\",\"310260\"),(0,\"Cingular Wireless\",\"\",\"310410\")".toList
      "+COPS: (2,\"T-Mobile\",\"\",\"310260\"),(0,\"Cingular Wireless\",\"\",\"310410\")".toList
      rfl).2.1 ((regexSearch_eq_none_iff _ _).1 rfl)⟩

/-- C18: for every match: a record built from it in the technology-aware
format carries the access-technology tag exactly when group 5 of the match is a
single character in `'0'..'6'`, which is then the value stored; for every other
value, a digit 7..9 among them, the tag is left out, and whether the record is
built and what its other fields are does not depend on that group at all; a
record built in the pre-UMTS format never carries the tag. -/
theorem scan_access_tech_tag (info info' : GMatchInfo)
    (hsame : ∀ n, 0 < n → n < 5 → g_match_info_fetch info n = g_match_info_fetch info' n) :
    (∀ r, scanRecordOfMatch true info = some r →
      (∀ v, r.access_tech = some v ↔
        ∃ c, g_match_info_fetch info 5 = some [c] ∧ '0' ≤ c ∧ c ≤ '6' ∧ v = [c]) ∧
      ((¬ ∃ c, g_match_info_fetch info 5 = some [c] ∧ '0' ≤ c ∧ c ≤ '6') →
        r.access_tech = none)) ∧
    (∀ r, scanRecordOfMatch false info = some r → r.access_tech = none) ∧
    (scanRecordOfMatch true info).map (fun r => { r with access_tech := none }) =
      scanRecordOfMatch false info ∧
    (scanRecordOfMatch true info).map (fun r => { r with access_tech := none }) =
      (scanRecordOfMatch true info').map (fun r => { r with access_tech := none }) ∧
    (∀ reply found records, strstr "+COPS: ".toList reply = some found →
      g_regex_match scanRegexUmts (found.drop 7) = none →
      mm_gsm_parse_scan_response reply = .ok records → ∀ r ∈ records, r.access_tech = none) := by
  have hact : ∀ v, storedAccessTech true info = some v ↔
      ∃ c, g_match_info_fetch info 5 = some [c] ∧ '0' ≤ c ∧ c ≤ '6' ∧ v = [c] := by
    intro v
    simp only [storedAccessTech, if_true]
    split
    · rename_i c hc
      split
      · rename_i hr
        constructor
        · intro h
          cases h
          exact ⟨c, hc, hr.1, hr.2, rfl⟩
        · rintro ⟨c', h1, -, -, h4⟩
          rw [hc] at h1
          cases h1
          rw [h4]
      · rename_i hr
        constructor
        · intro h
          cases h
        · rintro ⟨c', h1, h2, h3, -⟩
          rw [hc] at h1
          cases h1
          exact absurd ⟨h2, h3⟩ hr
    · rename_i hx
      constructor
      · intro h
        cases h
      · rintro ⟨c', h1, -⟩
        exact absurd h1 (hx c')
  have hst : ∀ n, 0 < n → n < 5 → storedText info n = storedText info' n := by
    intro n h0 hn
    simp only [storedText, hsame n h0 hn]
  have hclear : ∀ (i : GMatchInfo) (umts : Bool),
      (scanRecordOfMatch umts i).map (fun r => { r with access_tech := none }) =
        match storedText i 4 with
        | some tmp =>
          if 5 ≤ tmp.length ∧ tmp.all (fun c => isdigit c || c = '-') then
            some ⟨storedText i 1, storedText i 2, storedText i 3, some tmp, none⟩
          else none
        | none => none := by
    intro i umts
    rw [scanRecordOfMatch_eq]
    cases storedText i 4 with
    | none => rfl
    | some tmp =>
      simp only
      split <;> rfl
  refine ⟨?_, ?_, ?_, ?_, ?_⟩
  · intro r hr
    have hr2 := (scanRecordOfMatch_some true info r hr).1
    have ha : r.access_tech = storedAccessTech true info := by rw [hr2]
    refine ⟨fun v => by rw [ha]; exact hact v, ?_⟩
    intro hno
    rw [ha]
    cases hv : storedAccessTech true info with
    | none => rfl
    | some v =>
      obtain ⟨c, h1, h2, h3, -⟩ := (hact v).1 hv
      exact absurd ⟨c, h1, h2, h3⟩ hno
  · intro r hr
    rw [(scanRecordOfMatch_some false info r hr).1]
    rfl
  · rw [hclear info true, ← hclear info false]
    rw [scanRecordOfMatch_eq]
    cases storedText info 4 with
    | none => rfl
    | some tmp =>
      simp only
      split <;> rfl
  · rw [hclear info true, hclear info' true, hst 1 (by decide) (by decide),
      hst 2 (by decide) (by decide), hst 3 (by decide) (by decide),
      hst 4 (by decide) (by decide)]
  · intro reply found records htag hnone hrs r hr
    have h := mm_gsm_parse_scan_response_found reply found htag
    rw [if_pos hnone, hrs] at h
    cases h
    obtain ⟨i, -, hi⟩ := List.mem_filterMap.1 hr
    rw [(scanRecordOfMatch_some false i r hi).1]
    rfl

/-- C18, at two matches of the technology-aware grammar that differ in their
access technology only, `7` and `2`: the first record has no access-technology
tag, the second has `2`, and they are the same otherwise. -/
theorem scan_access_tech_tag_witness :
    (∀ n, 0 < n → n < 5 →
      g_match_info_fetch ["(2,\"Orange\",\"Orange F\",\"20801\",7)".toList, "2".toList,
          "\"Orange\"".toList, "\"Orange F\"".toList, "\"20801\"".toList, "7".toList] n =
        g_match_info_fetch ["(2,\"Orange\",\"Orange F\",\"20801\",2)".toList, "2".toList,
          "\"Orange\"".toList, "\"Orange F\"".toList, "\"20801\"".toList, "2".toList] n) ∧
    scanRecordOfMatch true ["(2,\"Orange\",\"Orange F\",\"20801\",7)".toList, "2".toList,
        "\"Orange\"".toList, "\"Orange F\"".toList, "\"20801\"".toList, "7".toList] =
      some ⟨some "2".toList, some "Orange".toList, some "Orange F".toList,
        some "20801".toList, none⟩ ∧
    scanRecordOfMatch true ["(2,\"Orange\",\"Orange F\",\"20801\",2)".toList, "2".toList,
        "\"Orange\"".toList, "\"Orange F\"".toList, "\"20801\"".toList, "2".toList] =
      some ⟨some "2".toList, some "Orange".toList, some "Orange F".toList,
        some "20801".toList, some "2".toList⟩ ∧
    (scanRecordOfMatch true ["(2,\"Orange\",\"Orange F\",\"20801\",7)".toList, "2".toList,
        "\"Orange\"".toList, "\"Orange F\"".toList, "\"20801\"".toList, "7".toList]).map
        (fun r => { r with access_tech := none }) =
      (scanRecordOfMatch true ["(2,\"Orange\",\"Orange F\",\"20801\",2)".toList, "2".toList,
        "\"Orange\"".toList, "\"Orange F\"".toList, "\"20801\"".toList, "2".toList]).map
        (fun r => { r with access_tech := none }) :=
  ⟨by intro n h0 hn; interval_cases n <;> rfl, rfl, rfl,
    (scan_access_tech_tag _ _ (by intro n h0 hn; interval_cases n <;> rfl)).2.2.2.1⟩

/-! ## Replies in the technology-aware shape -/

theorem Operator.wellFormed_iff (o : Operator) :
    o.wellFormed = true ↔ isdigit o.status = true ∧
      (∀ c ∈ o.long, c ≠ ',' ∧ c ≠ '(' ∧ c ≠ ')') ∧
      (∀ c ∈ o.short, c ≠ ',' ∧ c ≠ '(' ∧ c ≠ ')') ∧ 5 ≤ o.num.length ∧
      (∀ c ∈ o.num, isdigit c = true) ∧ '0' ≤ o.act ∧ o.act ≤ '6' := by
  simp [Operator.wellFormed, isQuotable, and_assoc]

theorem digit_of_range (c : Char) (h : '0' ≤ c ∧ c ≤ '6') : isdigit c = true := by
  obtain ⟨h1, h2⟩ := h
  have h1' : (48 : UInt32) ≤ c.val := h1
  have h2' : c.val.toNat ≤ 54 := h2
  have h3 : c.val.toNat ≤ 57 := Nat.le_trans h2' (by decide)
  simp only [isdigit, Char.isDigit, Bool.and_eq_true, decide_eq_true_eq]
  exact ⟨h1', h3⟩

/-- The technology-aware expression matches a well-formed record whole,
whatever follows it. -/
theorem umts_run_wellFormed (o : Operator) (h : o.wellFormed = true) (r : CStr) :
    scanRegexUmts.run (o.render true ++ r) =
      [([(1, [o.status]), (2, quoted o.long), (3, quoted o.short), (4, quoted o.num),
        (5, [o.act])], r)] := by
  rw [Operator.wellFormed_iff] at h
  obtain ⟨h1, hl, hs, -, hn, ha⟩ := h
  have hn2 : ∀ c ∈ o.num, c ≠ ',' ∧ c ≠ ')' := fun c hc =>
    ⟨isdigit_ne c ',' (hn c hc) (by decide), isdigit_ne c ')' (hn c hc) (by decide)⟩
  rw [render_eq]
  simp only [if_true, List.cons_append, List.nil_append]
  rw [umts_run_fields _ _ _ _ _ h1
      (quoted_notIn _ (fun c hc => ⟨(hl c hc).1, (hl c hc).2.2⟩))
      (quoted_notIn _ (fun c hc => ⟨(hs c hc).1, (hs c hc).2.2⟩))
      (quoted_notIn _ hn2) (by intro y t e; cases e; rfl),
    umtsTail_run_comma _ _ (digit_of_range _ ha)]
  rfl

theorem storedText_quoted (info : GMatchInfo) (num : Nat) (s : CStr)
    (h : g_match_info_fetch info num = some (quoted s)) :
    storedText info num = textField (g_strstrip s) := by
  simp [storedText, h, unquote_quoted_strip]

/-- The record built from the groups of a well-formed record: the names are
stored trimmed. -/
theorem scanRecordOfMatch_wellFormed (o : Operator) (h : o.wellFormed = true) (w : CStr) :
    scanRecordOfMatch true (w :: o.groups [[o.act]]) = some (o.trimmed.record true) := by
  rw [Operator.wellFormed_iff] at h
  obtain ⟨-, -, -, h5, hn, ha⟩ := h
  have hne : o.num ≠ [] := by
    intro e
    rw [e] at h5
    simp at h5
  have hstrip : g_strstrip o.num = o.num := by
    rw [← unquote_quoted_strip]
    exact unquote_quoted _ (digits_ends _ hn).1 (digits_ends _ hn).2
  have hall : (o.num.all fun c => isdigit c || decide (c = '-')) = true := by
    rw [List.all_eq_true]
    intro c hc
    simp [hn c hc]
  have s1 : storedText (w :: o.groups [[o.act]]) 1 = some [o.status] := by
    simp [storedText, Operator.groups, g_match_info_fetch, unquote_single, textField]
  have s2 : storedText (w :: o.groups [[o.act]]) 2 = textField (g_strstrip o.long) :=
    storedText_quoted _ _ _ rfl
  have s3 : storedText (w :: o.groups [[o.act]]) 3 = textField (g_strstrip o.short) :=
    storedText_quoted _ _ _ rfl
  have s4 : storedText (w :: o.groups [[o.act]]) 4 = some o.num := by
    rw [storedText_quoted (w :: o.groups [[o.act]]) 4 o.num rfl, hstrip]
    simp [textField, hne]
  have s5 : storedAccessTech true (w :: o.groups [[o.act]]) = some [o.act] := by
    simp [storedAccessTech, Operator.groups, g_match_info_fetch, ha]
  rw [scanRecordOfMatch_eq, s4]
  simp only [h5, hall, and_self, if_true, s1, s2, s3, s5]
  simp [Operator.record, Operator.trimmed, ha]

/-- C16 (as stated, refuted): a quoted long name that is not empty and holds no
comma and no parenthesis may be a blank; for `+COPS: (2," ","Orange F","20801",2)`
the record returned carries no long name. -/
theorem scan_umts_blank_name_counterexample :
    (⟨'2', " ".toList, "Orange F".toList, "20801".toList, '2'⟩ : Operator).wellFormed = true ∧
    " ".toList ≠ [] ∧
    (⟨'2', " ".toList, "Orange F".toList, "20801".toList, '2'⟩ : Operator).render true =
      "(2,\" \",\"Orange F\",\"20801\",2)".toList ∧
    mm_gsm_parse_scan_response "+COPS: (2,\" \",\"Orange F\",\"20801\",2)".toList =
      .ok [⟨some "2".toList, none, some "Orange F".toList, some "20801".toList,
        some "2".toList⟩] :=
  ⟨by decide, by decide, rfl, rfl⟩

/-- C16 (amended): for every scan reply that is a comma-separated list of
records in the UMTS shape (status digit, quoted long and short names without
commas or parentheses, quoted numeric id of at least 5 digits, access-technology
digit in 0..6), `mm_gsm_parse_scan_response` returns one record per input
record, in input order, each carrying the status, the long and the short name
with the quotes removed and the white space at both ends trimmed, the numeric id
and the access-technology digit; a name of which nothing is left after trimming
gives no tag. -/
theorem scan_umts_records (ops : List Operator) (hv : ∀ o ∈ ops, o.wellFormed = true) :
    mm_gsm_parse_scan_response
        ("+COPS: ".toList ++ joinRecords (ops.map (Operator.render true))) =
      .ok (ops.map fun o => o.trimmed.record true) ∧
    ∀ o ∈ ops,
      (o.trimmed.record true).status = some [o.status] ∧
      (o.trimmed.record true).oper_long = textField (g_strstrip o.long) ∧
      (o.trimmed.record true).oper_short = textField (g_strstrip o.short) ∧
      (o.trimmed.record true).oper_num = some o.num ∧
      (o.trimmed.record true).access_tech = some [o.act] := by
  constructor
  · rw [mm_gsm_parse_scan_response_tagged]
    have hall := g_regex_match_all_records scanRegexUmts umts_consumes
      (fun t => umts_run_ne ',' t (by decide)) (Operator.render true)
      (fun o => o.render true :: o.groups [[o.act]]) ops
      (fun o ho r => ⟨_, [], umts_run_wellFormed o (hv o ho) r, rfl,
        mkMatchInfo_umts _ _ _ _ _ _ _⟩) []
    rw [List.append_nil, g_regex_match_all_nil _ umts_run_nil, List.append_nil] at hall
    cases ops with
    | nil =>
      simp [joinRecords, g_regex_match_all_nil _ umts_run_nil,
        g_regex_match_all_nil _ preUmts_run_nil]
    | cons o os =>
      have hnil : g_regex_match_all scanRegexUmts
          (joinRecords ((o :: os).map (Operator.render true))) ≠ [] := by
        rw [hall]
        simp
      rw [if_neg hnil, hall, List.filterMap_map]
      rw [← List.filterMap_eq_map]
      congr 1
      apply List.filterMap_congr
      intro x hx
      rw [Function.comp_apply, scanRecordOfMatch_wellFormed x (hv x hx), Function.comp_apply]
  · intro o ho
    have ha := ((Operator.wellFormed_iff o).1 (hv o ho)).2.2.2.2.2
    simp [Operator.record, Operator.trimmed, ha]

/-- C16 (amended), at the reply of the claim,
`+COPS: (2,"Orange","Orange F","20801",2),(1,"SFR","SFR","20810",0)`: two records,
with access technology 2 and 0. -/
theorem scan_umts_records_witness :
    (∀ o ∈ ([⟨'2', "Orange".toList, "Orange F".toList, "20801".toList, '2'⟩,
      ⟨'1', "SFR".toList, "SFR".toList, "20810".toList, '0'⟩] : List Operator),
      o.wellFormed = true) ∧
    mm_gsm_parse_scan_response
        "+COPS: (2,\"Orange\",\"Orange F\",\"20801\",2),(1,\"SFR\",\"SFR\",\"20810\",0)".toList =
      .ok [⟨some "2".toList, some "Orange".toList, some "Orange F".toList,
          some "20801".toList, some "2".toList⟩,
        ⟨some "1".toList, some "SFR".toList, some "SFR".toList, some "20810".toList,
          some "0".toList⟩] :=
  ⟨by decide,
    (scan_umts_records
      [⟨'2', "Orange".toList, "Orange F".toList, "20801".toList, '2'⟩,
        ⟨'1', "SFR".toList, "SFR".toList, "20810".toList, '0'⟩] (by decide)).1⟩

/-! ### When the parse of a scan reply fails -/

/-- The C library `strstr` returns NULL exactly when the needle does not occur
in the text. -/
theorem strstr_eq_none_iff (needle : CStr) :
    ∀ s : CStr, strstr needle s = none ↔ ¬ List.IsInfix needle s := by
  have hpre : ∀ (p s : CStr), startsWith p s = true ↔ List.IsPrefix p s := by
    intro p
    induction p with
    | nil => intro s; simp [startsWith]
    | cons a p ih =>
      intro s
      cases s with
      | nil => simp [startsWith]
      | cons b s =>
        simp only [startsWith, Bool.and_eq_true, decide_eq_true_eq, ih, List.cons_prefix_cons]
  intro s
  induction s with
  | nil =>
    simp only [strstr, List.infix_nil]
    by_cases h : needle = [] <;> simp [h]
  | cons c cs ih =>
    simp only [strstr]
    by_cases hs : startsWith needle (c :: cs) = true
    · simp only [hs, if_true, reduceCtorEq, false_iff, not_not]
      exact ((hpre _ _).1 hs).isInfix
    · simp only [hs, Bool.false_eq_true, if_false, ih]
      have hnp : ¬ List.IsPrefix needle (c :: cs) := fun h => hs ((hpre _ _).2 h)
      rw [List.infix_cons_iff]
      simp [hnp]

/-- C36: the parse of a scan reply fails, an error being set and no list
returned, exactly when the tag `+COPS: ` does not occur in the reply, and the
error is then the general error that the results could not be parsed; for
every reply in which the tag occurs the parse gives a list, which may be empty
(it is for the reply that holds the tag and nothing else, and for a reply with
nothing but parameter tuples after the tag). -/
theorem scan_error_iff_no_tag (reply : CStr) :
    ((∃ e, mm_gsm_parse_scan_response reply = .error e) ↔
      ¬ List.IsInfix "+COPS: ".toList reply) ∧
    (¬ List.IsInfix "+COPS: ".toList reply →
      mm_gsm_parse_scan_response reply =
        .error (.modem_general "Could not parse scan results.")) ∧
    (List.IsInfix "+COPS: ".toList reply →
      ∃ records, mm_gsm_parse_scan_response reply = .ok records) ∧
    mm_gsm_parse_scan_response "+COPS: ".toList = .ok [] ∧
    mm_gsm_parse_scan_response "+COPS: ,,(0,1,3),(0,2)".toList = .ok [] := by
  have hiff := strstr_eq_none_iff "+COPS: ".toList reply
  cases hs : strstr "+COPS: ".toList reply with
  | none =>
    have hno := hiff.1 hs
    have he : mm_gsm_parse_scan_response reply =
        .error (.modem_general "Could not parse scan results.") := by
      simp only [mm_gsm_parse_scan_response, hs]
    refine ⟨⟨fun _ => hno, fun _ => ⟨_, he⟩⟩, fun _ => he, fun h => absurd h hno, rfl,
      rfl⟩
  | some found =>
    have hin : List.IsInfix "+COPS: ".toList reply := by
      by_contra h
      rw [hiff.2 h] at hs
      cases hs
    have hok := mm_gsm_parse_scan_response_found reply found hs
    refine ⟨⟨?_, fun h => absurd hin h⟩, fun h => absurd hin h, fun _ => ⟨_, hok⟩, rfl,
      rfl⟩
    rintro ⟨e, he⟩
    rw [hok] at he
    cases he

/-! ### Replies that send empty names without quotes -/

theorem bareName_facts (s : CStr)
    (h1 : ∀ x ∈ quoted s, notIn [',', ')'] x = true) (h2 : ∀ x ∈ quoted s, x ≠ '(') :
    (∀ x ∈ bareName s, notIn [',', ')'] x = true) ∧ (∀ x ∈ bareName s, x ≠ '(') := by
  simp only [bareName]
  split
  · exact ⟨fun x hx => (by cases hx), fun x hx => (by cases hx)⟩
  · exact ⟨h1, h2⟩

theorem renderBare_eq (o : Operator) (r : CStr) :
    o.renderBare ++ r = '(' :: o.status :: ',' :: (bareName o.long ++ ',' ::
      (bareName o.short ++ ',' :: (quoted o.num ++ ')' :: r))) := by
  simp [Operator.renderBare]

/-- The pre-UMTS expression matches a record with bare names exactly. -/
theorem preUmts_run_renderBare (o : Operator) (h : o.valid = true) (r : CStr) :
    scanRegexPreUmts.run (o.renderBare ++ r) =
      [([(1, [o.status]), (2, bareName o.long), (3, bareName o.short), (4, quoted o.num)],
        r)] := by
  obtain ⟨h1, hl, hs, hn, hl2, hs2, _⟩ := o.valid_facts h
  rw [renderBare_eq]
  rw [preUmts_run_fields _ _ _ _ _ h1 (bareName_facts _ hl hl2).1 (bareName_facts _ hs hs2).1
    (fun x hx => notIn_weaken x (hn x hx))]

/-- The technology-aware expression does not match a record with bare names
that is followed by the end of the text or by a comma and something other than
a digit. -/
theorem umts_run_renderBare_trailer (o : Operator) (h : o.valid = true) (r : CStr)
    (hr : isTrailer r = true) : scanRegexUmts.run (o.renderBare ++ r) = [] := by
  obtain ⟨h1, hl, hs, hn, hl2, hs2, _⟩ := o.valid_facts h
  rw [renderBare_eq]
  rw [umts_run_fields _ _ _ _ _ h1 (bareName_facts _ hl hl2).1 (bareName_facts _ hs hs2).1 hn
    (by intro y t e; cases e; rfl), umtsTail_run_trailer _ hr]
  rfl

theorem renderBare_tail_no_paren (o : Operator) (h : o.valid = true) :
    ∃ t, o.renderBare = '(' :: t ∧ ∀ x ∈ t, x ≠ '(' := by
  obtain ⟨h1, hl, hs, _, hl2, hs2, hn2⟩ := o.valid_facts h
  refine ⟨_, rfl, ?_⟩
  intro x hx
  simp only [List.mem_cons, List.mem_append, List.mem_singleton, List.not_mem_nil,
    or_false] at hx
  rcases hx with hx | hx | hx | hx | hx | hx | hx | hx
  · subst hx; exact isdigit_ne _ _ h1 (by decide)
  · subst hx; decide
  · exact (bareName_facts _ hl hl2).2 x hx
  · subst hx; decide
  · exact (bareName_facts _ hs hs2).2 x hx
  · subst hx; decide
  · exact hn2 x hx
  · subst hx; decide

theorem umts_skip_bare (o : Operator) (h : o.valid = true) (r : CStr)
    (hfail : scanRegexUmts.run (o.renderBare ++ r) = []) :
    regexSearch scanRegexUmts (o.renderBare ++ r) = regexSearch scanRegexUmts r := by
  obtain ⟨t, ht, hno⟩ := renderBare_tail_no_paren o h
  rw [ht] at hfail ⊢
  rw [List.cons_append] at hfail ⊢
  rw [regexSearch_fail _ _ _ hfail]
  exact regexSearch_skip _ t r (fun x hx u => umts_run_ne x u (hno x hx))

theorem joinRecords_renderBare_head (o : Operator) (os : List Operator) (T : CStr) :
    ∃ t, joinRecords ((o :: os).map Operator.renderBare) ++ T = '(' :: t := by
  obtain ⟨X, hX⟩ : ∃ X, o.renderBare = '(' :: X := ⟨_, rfl⟩
  cases os with
  | nil =>
    simp only [List.map_cons, List.map_nil, joinRecords, hX, List.cons_append]
    exact ⟨_, rfl⟩
  | cons o2 os' =>
    rw [List.map_cons, joinRecords_cons _ _ (by simp), hX]
    simp only [List.cons_append]
    exact ⟨_, rfl⟩

/-- The technology-aware expression matches nowhere in a list of records with
bare names followed by a trailer: the search goes on in the trailer. -/
theorem umts_search_bare_records (ops : List Operator) (hv : ∀ o ∈ ops, o.valid = true)
    (T : CStr) (hT : isTrailer T = true) :
    regexSearch scanRegexUmts (joinRecords (ops.map Operator.renderBare) ++ T) =
      regexSearch scanRegexUmts T := by
  induction ops with
  | nil => simp [joinRecords]
  | cons o os ih =>
    have ho := hv o (List.mem_cons_self _ _)
    have ih' := ih (fun x hx => hv x (List.mem_cons_of_mem _ hx))
    cases os with
    | nil =>
      simp only [List.map_cons, List.map_nil, joinRecords]
      exact umts_skip_bare o ho T (umts_run_renderBare_trailer o ho T hT)
    | cons o2 os' =>
      obtain ⟨t, ht⟩ := joinRecords_renderBare_head o2 os' T
      rw [List.map_cons, joinRecords_cons _ _ (by simp), List.append_assoc, List.cons_append]
      rw [umts_skip_bare o ho _ (umts_run_renderBare_trailer o ho _
        (by rw [ht]; exact isTrailer_comma_paren t))]
      rw [regexSearch_fail _ _ _ (umts_run_ne ',' _ (by decide))]
      exact ih'

theorem save_scan_value_bare (hash : ScanRecord) (key : ScanTag) (info : GMatchInfo)
    (num : Nat) (s : CStr) (h : g_match_info_fetch info num = some (bareName s))
    (hh : s.head?.all (fun c => !g_ascii_isspace c) = true)
    (hl : s.getLast?.all (fun c => !g_ascii_isspace c) = true) :
    save_scan_value hash key info num =
      match textField s with
      | none => hash
      | some v => g_hash_table_insert hash key v := by
  by_cases hs : s = []
  · subst hs
    rw [save_scan_value_text _ _ _ _ _ h]
    simp [bareName, unquote, textField]
  · have hb : bareName s = quoted s := by simp [bareName, hs]
    rw [hb] at h
    exact save_scan_value_quoted hash key info num s h hh hl

/-- The record built from the groups of a valid operator written with bare
names. -/
theorem scanRecordOfMatch_bare (o : Operator) (h : o.valid = true) (w : CStr) :
    scanRecordOfMatch false [w, [o.status], bareName o.long, bareName o.short, quoted o.num] =
      some (o.record false) := by
  rw [Operator.valid_iff, isNameText_iff, isNameText_iff] at h
  obtain ⟨_, ⟨_, hl1, hl2⟩, ⟨_, hs1, hs2⟩, h5, hn⟩ := h
  have hne : o.num ≠ [] := by
    intro e
    rw [e] at h5
    simp at h5
  have hall : (o.num.all fun c => isdigit c || decide (c = '-')) = true := by
    rw [List.all_eq_true]
    intro c hc
    simp [hn c hc]
  have hnum : textField o.num = some o.num := by simp [textField, hne]
  have e1 : save_scan_value ScanRecord.empty .STATUS
      [w, [o.status], bareName o.long, bareName o.short, quoted o.num] 1
      = { ScanRecord.empty with status := some [o.status] } := by
    rw [save_scan_value_text _ _
      [w, [o.status], bareName o.long, bareName o.short, quoted o.num] 1 [o.status] rfl,
      unquote_single]
    rfl
  simp only [scanRecordOfMatch, e1]
  rw [save_scan_value_bare _ _ [w, [o.status], bareName o.long, bareName o.short, quoted o.num]
    2 o.long rfl hl1 hl2]
  rw [save_scan_value_bare _ _ [w, [o.status], bareName o.long, bareName o.short, quoted o.num]
    3 o.short rfl hs1 hs2]
  rw [save_scan_value_quoted _ _
    [w, [o.status], bareName o.long, bareName o.short, quoted o.num] 4 o.num rfl
    (digits_ends _ hn).1 (digits_ends _ hn).2, hnum]
  cases hL : textField o.long <;> cases hS : textField o.short <;>
    simp [hL, hS, g_hash_table_insert, g_hash_table_lookup, h5, hall, Operator.record,
      ScanRecord.empty]

/-- C37: for every scan reply made of valid operator records in the pre-UMTS
shape in which an empty name is sent without quotes, followed by a trailer (a
comma and then something other than a digit) that holds no record, the
function returns one record per operator, in order, each with its status, its
names without the quotes (no tag for an empty name), its numeric id, and no
access-technology tag; nothing is returned for the trailer. -/
theorem scan_bare_names (ops : List Operator) (T : CStr)
    (hv : ∀ o ∈ ops, o.valid = true) (hT : isTrailer T = true)
    (hno : noRecordIn false T = true) :
    mm_gsm_parse_scan_response
        ("+COPS: ".toList ++ (joinRecords (ops.map Operator.renderBare) ++ T)) =
      .ok (ops.map (Operator.record false)) ∧
    ∀ o ∈ ops,
      (o.record false).status = some [o.status] ∧
      (o.record false).oper_long = textField o.long ∧
      (o.record false).oper_short = textField o.short ∧
      (o.short = [] → (o.record false).oper_short = none) ∧
      (o.record false).oper_num = some o.num ∧
      (o.record false).access_tech = none := by
  constructor
  · rw [mm_gsm_parse_scan_response_tagged]
    simp only [noRecordIn, Bool.false_eq_true, if_false, Bool.and_eq_true,
      Option.isNone_iff_eq_none, List.isEmpty_iff] at hno
    have hnone : regexSearch scanRegexUmts T = none := by
      have := hno.1
      simpa [g_regex_match] using this
    have hnil : g_regex_match_all scanRegexUmts
        (joinRecords (ops.map Operator.renderBare) ++ T) = [] := by
      rw [g_regex_match_all_eq_nil_iff, umts_search_bare_records ops hv T hT, hnone]
    have hall := g_regex_match_all_records scanRegexPreUmts preUmts_consumes
      (fun t => preUmts_run_ne ',' t (by decide)) Operator.renderBare
      (fun o => [o.renderBare, [o.status], bareName o.long, bareName o.short, quoted o.num]) ops
      (fun o ho r => ⟨_, [], preUmts_run_renderBare o (hv o ho) r, rfl,
        mkMatchInfo_preUmts _ _ _ _ _ _⟩) T
    rw [if_pos hnil, hall, List.filterMap_append, hno.2, List.append_nil, List.filterMap_map]
    rw [← List.filterMap_eq_map]
    congr 1
    apply List.filterMap_congr
    intro o ho
    rw [Function.comp_apply, scanRecordOfMatch_bare o (hv o ho), Function.comp_apply]
  · intro o _
    refine ⟨rfl, rfl, rfl, ?_, rfl, ?_⟩
    · intro h
      simp [Operator.record, textField, h]
    · simp [Operator.record]

/-- C37, at the reply of the claim,
`+COPS: (2,"T - Mobile",,"31026"),(1,"Einstein PCS",,"31064"),(1,"Cingular",,"31041"),,(0,1,3),(0,2)`:
three records, each with status, long name and numeric id only. -/
theorem scan_bare_names_witness :
    "+COPS: (2,\"T - Mobile\",,\"31026\"),(1,\"Einstein PCS\",,\"31064\"),(1,\"Cingular\",,\"31041\"),,(0,1,3),(0,2)".toList =
      "+COPS: ".toList ++ (joinRecords
        (([⟨'2', "T - Mobile".toList, [], "31026".toList, '0'⟩,
          ⟨'1', "Einstein PCS".toList, [], "31064".toList, '0'⟩,
          ⟨'1', "Cingular".toList, [], "31041".toList, '0'⟩] : List Operator).map
          Operator.renderBare) ++ ",,(0,1,3),(0,2)".toList) ∧
    mm_gsm_parse_scan_response
        ("+COPS: ".toList ++ (joinRecords
          (([⟨'2', "T - Mobile".toList, [], "31026".toList, '0'⟩,
            ⟨'1', "Einstein PCS".toList, [], "31064".toList, '0'⟩,
            ⟨'1', "Cingular".toList, [], "31041".toList, '0'⟩] : List Operator).map
            Operator.renderBare) ++ ",,(0,1,3),(0,2)".toList)) =
      .ok [⟨some "2".toList, some "T - Mobile".toList, none, some "31026".toList, none⟩,
        ⟨some "1".toList, some "Einstein PCS".toList, none, some "31064".toList, none⟩,
        ⟨some "1".toList, some "Cingular".toList, none, some "31041".toList, none⟩] :=
  ⟨by decide,
    (scan_bare_names
      [⟨'2', "T - Mobile".toList, [], "31026".toList, '0'⟩,
        ⟨'1', "Einstein PCS".toList, [], "31064".toList, '0'⟩,
        ⟨'1', "Cingular".toList, [], "31041".toList, '0'⟩]
      ",,(0,1,3),(0,2)".toList (by decide) (by decide) (by decide)).1⟩
/-! ## Registration replies -/

theorem isxdigit_mem (c : Char) (h : isxdigit c = true) :
    c ∈ "0123456789abcdefABCDEF".toList := by
  simpa [isxdigit] using h

/-- What the parsers need of a hexadecimal digit. -/
theorem isxdigit_facts (c : Char) (h : isxdigit c = true) :
    digitVal c = some (xdigitVal c) ∧ xdigitVal c < 16 ∧ isspace c = false ∧
      notCommaSpace c = true ∧ c ≠ '"' ∧ c ≠ '+' ∧ c ≠ '-' ∧ c ≠ 'x' ∧ c ≠ 'X' := by
  have key : ∀ c ∈ "0123456789abcdefABCDEF".toList,
      digitVal c = some (xdigitVal c) ∧ xdigitVal c < 16 ∧ isspace c = false ∧
      notCommaSpace c = true ∧ c ≠ '"' ∧ c ≠ '+' ∧ c ≠ '-' ∧ c ≠ 'x' ∧ c ≠ 'X' := by
    decide
  exact key c (isxdigit_mem c h)

theorem hexValue_cons (c : Char) (t : CStr) :
    hexValue (c :: t) = 16 ^ t.length * xdigitVal c + hexValue t := by
  simp [hexValue, Nat.ofDigits_append, Nat.add_comm]

/-- The digit loop of `strtol` reads a text of hexadecimal digits to its end
and gives the number it denotes. -/
theorem digitsValue_hex (txt : CStr) (h : ∀ c ∈ txt, isxdigit c = true) :
    ∀ acc, digitsValue 16 acc txt = acc * 16 ^ txt.length + hexValue txt := by
  induction txt with
  | nil => intro acc; simp [digitsValue, hexValue]
  | cons c t ih =>
    intro acc
    obtain ⟨h1, h2, _⟩ := isxdigit_facts c (h c (List.mem_cons_self _ _))
    rw [digitsValue, h1]
    simp only [h2, if_true]
    rw [ih (fun x hx => h x (List.mem_cons_of_mem _ hx)), hexValue_cons, List.length_cons]
    ring

theorem strtol_hex (txt : CStr) (h : ∀ c ∈ txt, isxdigit c = true) :
    strtol txt 16 = min (hexValue txt : Int) LONG_MAX := by
  cases txt with
  | nil => simp [strtol, digitsValue, hexValue]
  | cons c t =>
    obtain ⟨_, _, hs, _, _, hp, hm, _⟩ := isxdigit_facts c (h c (List.mem_cons_self _ _))
    have h0 : List.dropWhile isspace (c :: t) = c :: t :=
      List.dropWhile_cons_of_neg (by simp [hs])
    have hx : ¬ ((t.head? = some 'x') ∨ (t.head? = some 'X')) := by
      cases t with
      | nil => simp
      | cons d u =>
        obtain ⟨_, _, _, _, _, _, _, hx1, hx2⟩ :=
          isxdigit_facts d (h d (List.mem_cons_of_mem _ (List.mem_cons_self _ _)))
        simp [hx1, hx2]
    simp only [strtol, h0, List.head?_cons, Option.some.injEq, hm, hp, or_self, if_false,
      List.drop_one, List.tail_cons, hx, and_false]
    rw [digitsValue_hex _ h]
    simp

theorem takeWhile_no_quote (txt r : CStr) (h : ∀ c ∈ txt, c ≠ '"') :
    (txt ++ '"' :: r).takeWhile (fun c => c != '"') = txt ∧
      txt.takeWhile (fun c => c != '"') = txt := by
  induction txt with
  | nil => simp
  | cons c t ih =>
    have hc := h c (List.mem_cons_self _ _)
    have ih' := ih (fun x hx => h x (List.mem_cons_of_mem _ hx))
    simp [List.takeWhile_cons, hc, ih'.1, ih'.2]

/-- The function `parse_uint` on a hexadecimal field, quoted or not, whose value is within the
range: the value, valid. -/
theorem parse_uint_hex (q : Bool) (txt : CStr) (nmin nmax : Nat)
    (h : ∀ c ∈ txt, isxdigit c = true) (h1 : nmin ≤ hexValue txt) (h2 : hexValue txt ≤ nmax)
    (h3 : 1 ≤ nmin) (h4 : nmax < 2 ^ 32) :
    parse_uint (some (fieldText q txt)) 16 nmin nmax = (hexValue txt, true) := by
  have hq : ∀ c ∈ txt, c ≠ '"' := fun c hc => (isxdigit_facts c (h c hc)).2.2.2.2.1
  have hne : txt ≠ [] := by
    intro e
    rw [e] at h1
    simp [hexValue] at h1
    omega
  have hlen : txt.length ≠ 0 := by simpa using hne
  have hstr : ((if (fieldText q txt).head? = some '"' then (fieldText q txt).drop 1
      else fieldText q txt).takeWhile (fun c => c != '"')) = txt := by
    cases q with
    | true =>
      simp only [fieldText, if_true, quoted, List.head?_cons, List.drop_one, List.tail_cons]
      exact (takeWhile_no_quote txt [] hq).1
    | false =>
      have : txt.head? ≠ some '"' := by
        cases txt with
        | nil => simp
        | cons c t => simpa using hq c (List.mem_cons_self _ _)
      simp only [fieldText, Bool.false_eq_true, if_false, this]
      exact (takeWhile_no_quote txt [] hq).2
  have hv : toGulong (strtol txt 16) = hexValue txt := by
    rw [strtol_hex txt h, toGulong, LONG_MAX]
    have : (hexValue txt : Int) ≤ 2 ^ 63 - 1 := by
      have : hexValue txt < 2 ^ 32 := by omega
      omega
    rw [min_eq_left this]
    have h5 : ((hexValue txt : Int) % 2 ^ 64) = hexValue txt := by
      apply Int.emod_eq_of_lt
      · omega
      · have : hexValue txt < 2 ^ 32 := by omega
        omega
    rw [h5]
    simp
  have hg1 : toGulong (nmin : Int) = nmin := by
    rw [toGulong]
    have : ((nmin : Int) % 2 ^ 64) = nmin := by
      apply Int.emod_eq_of_lt <;> omega
    rw [this]
    simp
  have hg2 : toGulong (nmax : Int) = nmax := by
    rw [toGulong]
    have : ((nmax : Int) % 2 ^ 64) = nmax := by
      apply Int.emod_eq_of_lt <;> omega
    rw [this]
    simp
  simp only [parse_uint, hstr, hlen, ne_eq, not_false_eq_true, if_true, hv, hg1, hg2]
  have hlt : hexValue txt < 4294967296 := by
    have : (2 : Nat) ^ 32 = 4294967296 := by norm_num
    omega
  simp [h1, h2, Nat.mod_eq_of_lt hlt]

/-- The function `parse_uint` on one decimal digit with the range `0..nmax`. -/
theorem parse_uint_digit (n : Nat) (hn : n ≤ 9) :
    parse_uint (some [digitChar n]) 10 0 5 = (if n ≤ 5 then n else 0, decide (n ≤ 5)) ∧
      parse_uint (some [digitChar n]) 10 0 7 = (if n ≤ 7 then n else 0, decide (n ≤ 7)) := by
  have key : ∀ n < 10,
      parse_uint (some [digitChar n]) 10 0 5 = (if n ≤ 5 then n else 0, decide (n ≤ 5)) ∧
      parse_uint (some [digitChar n]) 10 0 7 = (if n ≤ 7 then n else 0, decide (n ≤ 7)) := by
    decide
  exact key n (by omega)

/-- A repetition `p*` delimited by what follows it, outside a group. -/
theorem run_seq_star (lazy : Bool) (p : Char → Bool) (b : Re) (xs r : CStr)
    (hp : ∀ x ∈ xs, p x = true) (hb : ∀ x ∈ xs, ∀ t, b.run (x :: t) = [])
    (hr : ∀ y t, r = y :: t → p y = false) :
    (Re.seq (.star lazy p) b).run (xs ++ r) = b.run r := by
  have key : (Re.seq (.star lazy p) b).run (xs ++ r) =
      ((if lazy then starL p (xs ++ r) else starG p (xs ++ r))).flatMap (fun s' => b.run s') := by
    simp [Re.run, List.flatMap_map]
  rw [key]
  have hf : ∀ x ∈ xs, p x = true ∧ ∀ t, (fun s' : CStr => b.run s') (x :: t) = [] :=
    fun x hx => ⟨hp x hx, fun t => hb x hx t⟩
  cases lazy with
  | true =>
    simp only [if_true]
    rw [starL_flatMap p _ xs r hf hr]
  | false =>
    simp only [Bool.false_eq_true, if_false]
    rw [starG_flatMap p _ xs r hf hr]

theorem run_seq_spaces (b : Re) (r : CStr) (hr : ∀ y t, r = y :: t → isspace y = false) :
    (Re.seq reSpaces b).run r = b.run r := by
  have := run_seq_star false isspace b [] r (by simp) (by simp) hr
  simpa [reSpaces] using this

theorem run_comma_spaces (b : Re) (r : CStr) (hr : ∀ y t, r = y :: t → isspace y = false) :
    (Re.seq (.chr ',') (.seq reSpaces b)).run (',' :: r) = b.run r := by
  rw [run_seq_chr_cons, run_seq_spaces b r hr]

theorem run_spaces_comma_spaces (b : Re) (r : CStr)
    (hr : ∀ y t, r = y :: t → isspace y = false) :
    (Re.seq reSpaces (.seq (.chr ',') (.seq reSpaces b))).run (',' :: r) = b.run r := by
  rw [run_seq_spaces _ _ (by intro y t e; cases e; decide), run_comma_spaces b r hr]

/-- A field `[^,\s]*` followed by `\s*,\s*`. -/
theorem run_field_comma (n : Nat) (b : Re) (f r : CStr)
    (hf : ∀ x ∈ f, notCommaSpace x = true) (hr : ∀ y t, r = y :: t → isspace y = false) :
    (Re.seq (.grp n (.star false notCommaSpace))
        (.seq reSpaces (.seq (.chr ',') (.seq reSpaces b)))).run (f ++ ',' :: r) =
      (b.run r).map (fun q => ((n, f) :: q.1, q.2)) := by
  rw [run_seq_grp_star false n _ _ f _ hf _ (by intro y t e; cases e; decide),
    run_spaces_comma_spaces b r hr]
  intro x hx t
  have hx' := hf x hx
  simp only [notCommaSpace, Bool.not_eq_true', Bool.or_eq_false_iff, decide_eq_false_iff_not]
    at hx'
  rw [run_seq_spaces _ _ (by intro y u e; cases e; exact hx'.2)]
  exact run_seq_chr_ne _ _ _ _ hx'.1

/-- A field `[^,\s]*` followed by the end of the expression. -/
theorem run_field_end (n : Nat) (E : Re) (f e : CStr)
    (hf : ∀ x ∈ f, notCommaSpace x = true)
    (hE : ∀ x t, notCommaSpace x = true → E.run (x :: t) = [])
    (he : ∀ y t, e = y :: t → notCommaSpace y = false) :
    (Re.seq (.grp n (.star false notCommaSpace)) E).run (f ++ e) =
      (E.run e).map (fun q => ((n, f) :: q.1, q.2)) :=
  run_seq_grp_star false n _ _ f e hf (fun x hx t => hE x t (hf x hx)) he

/-- The expression `(\d{1,2})` on one digit followed by the end of the expression. -/
theorem run_digit12_end (n : Nat) (E : Re) (d : Char) (e : CStr) (hd : isdigit d = true)
    (he : ∀ y t, e = y :: t → isdigit y = false) :
    (Re.seq (.grp n reDigit12) E).run (d :: e) =
      (E.run e).map (fun q => ((n, [d]) :: q.1, q.2)) := by
  cases e with
  | nil => simp [Re.run, reDigit12, hd]
  | cons y t =>
    have := he y t rfl
    simp [Re.run, reDigit12, hd, this]

theorem isdigit_not_isspace (c : Char) (h : isdigit c = true) : isspace c = false := by
  cases hs : isspace c with
  | false => rfl
  | true =>
    simp only [isspace, g_ascii_isspace, Bool.or_eq_true, decide_eq_true_eq] at hs
    rcases hs with ((((hs | hs) | hs) | hs) | hs) | hs <;> (subst hs; revert h; decide)

/-- The head `\+(CREG|CGREG):\s*` and the first digit of the six expressions. -/
theorem run_creg_head (cgreg : Bool) (b : Re) (d : Char) (r : CStr) (hd : isdigit d = true) :
    (Re.seq (.chr '+') (.seq (.grp 1 (.alt (Re.lit 'C' "REG".toList) (Re.lit 'C' "GREG".toList)))
        (.seq (.chr ':') (.seq reSpaces (.seq (.grp 2 (.cls isdigit)) b))))).run
        ('+' :: ((if cgreg then "CGREG".toList else "CREG".toList) ++ ':' :: ' ' :: d :: r)) =
      (b.run r).map (fun q =>
        ((1, if cgreg then "CGREG".toList else "CREG".toList) :: (2, [d]) :: q.1, q.2)) := by
  have hsp : ∀ t, (Re.seq (.grp 2 (.cls isdigit)) b).run (' ' :: t) = [] := by
    intro t
    rw [run_seq_grp_cls]
    rfl
  have h1 := run_seq_star false isspace (Re.seq (.grp 2 (.cls isdigit)) b) [' '] (d :: r)
    (by decide) (by intro x hx t; simp only [List.mem_singleton] at hx; subst hx; exact hsp t)
    (by intro y t e; cases e; exact isdigit_not_isspace d hd)
  have h2 := run_seq_grp_cls 2 isdigit b d r
  rw [if_pos hd] at h2
  cases cgreg with
  | true =>
    simp only [cregHead, Re.cat, Re.lit, List.cons_append, List.nil_append, List.map, if_true,
      String.toList, reSpaces] at h1 ⊢
    simp [Re.run] at h1 h2 ⊢
    simp [h1, h2, List.map_map, Function.comp_def]
  | false =>
    simp only [cregHead, Re.cat, Re.lit, List.cons_append, List.nil_append, List.map,
      Bool.false_eq_true, if_false, String.toList, reSpaces] at h1 ⊢
    simp [Re.run] at h1 h2 ⊢
    simp [h1, h2, List.map_map, Function.comp_def]

theorem head_append_not_space (f rest : CStr) (hf : ∀ x ∈ f, isspace x = false)
    (hr : ∀ y t, rest = y :: t → isspace y = false) :
    ∀ y t, f ++ rest = y :: t → isspace y = false := by
  intro y t e
  cases f with
  | nil => exact hr y t e
  | cons c u =>
    simp only [List.cons_append, List.cons.injEq] at e
    rw [← e.1]
    exact hf c (List.mem_cons_self _ _)

theorem notCommaSpace_not_space (x : Char) (h : notCommaSpace x = true) : isspace x = false := by
  simp only [notCommaSpace, Bool.not_eq_true', Bool.or_eq_false_iff] at h
  exact h.2

theorem fieldText_chars (q : Bool) (txt : CStr) (h : ∀ c ∈ txt, isxdigit c = true) :
    ∀ x ∈ fieldText q txt, notCommaSpace x = true := by
  intro x hx
  cases q with
  | false => exact (isxdigit_facts x (h x hx)).2.2.2.1
  | true =>
    simp only [fieldText, if_true, quoted, List.mem_cons, List.mem_append, List.mem_singleton,
      List.not_mem_nil, or_false] at hx
    rcases hx with hx | hx | hx
    · subst hx; decide
    · exact (isxdigit_facts x (h x hx)).2.2.2.1
    · subst hx; decide

theorem digitChar_isdigit (n : Nat) (h : n ≤ 9) : isdigit (digitChar n) = true := by
  have key : ∀ n < 10, isdigit (digitChar n) = true := by decide
  exact key n (by omega)

theorem hexValue_pos_ne_nil (txt : CStr) (h : 1 ≤ hexValue txt) : txt ≠ [] := by
  intro e
  rw [e] at h
  simp [hexValue] at h

theorem fieldText_ne_nil (q : Bool) (txt : CStr) (h : txt ≠ []) : fieldText q txt ≠ [] := by
  cases q with
  | false => simpa [fieldText] using h
  | true => simp [fieldText, quoted]

/-- The facts about a reply within the ranges that the matcher needs. -/
theorem RegReply.inRange_facts (r : RegReply) (h : r.inRange = true) :
    r.stat ≤ 5 ∧ r.stat ≠ 4 ∧ isdigit r.mode = true ∧ (∀ c ∈ r.lac, isxdigit c = true) ∧
      1 ≤ hexValue r.lac ∧ hexValue r.lac ≤ 0xFFFF ∧ (∀ c ∈ r.ci, isxdigit c = true) ∧
      1 ≤ hexValue r.ci ∧ hexValue r.ci ≤ 0x0FFFFFFE ∧ r.act ≤ 7 := by
  simpa [RegReply.inRange, and_assoc] using h

theorem cregEnd_solicited : CregEnd .eos [] := by
  refine ⟨?_, by simp⟩
  intro x t hx
  have hs := notCommaSpace_not_space x hx
  have : x ≠ '\n' := by
    intro e
    subst e
    revert hs
    decide
  simp [Re.run, this]

theorem cregEnd_unsolicited : CregEnd (.seq (.chr '\r') (.chr '\n')) ['\r', '\n'] := by
  refine ⟨?_, ?_⟩
  · intro x t hx
    have hs := notCommaSpace_not_space x hx
    have : x ≠ '\r' := by
      intro e
      subst e
      revert hs
      decide
    exact run_seq_chr_ne _ _ _ _ this
  · intro y t e
    cases e
    decide

theorem run_creg1 (E : Re) (e : CStr) (r : RegReply) (h : r.inRange = true) :
    (cregWith (cregGrammar 0) E).run ('+' :: (r.tag ++ ':' :: ' ' :: (r.fields 0 ++ e))) =
      (E.run e).map (fun q => ((r.groups 0).enumFrom 1 ++ q.1, q.2)) := by
  obtain ⟨h1, _, hm, hl, hl1, _, hc, hc1, _, ha⟩ := r.inRange_facts h
  have hs := digitChar_isdigit r.stat (by omega)
  simp only [cregWith, cregGrammar, CREG1, cregHead, Re.cat, RegReply.fields, RegReply.tag,
    List.cons_append, List.nil_append]
  rw [run_creg_head r.cgreg _ _ _ hs]
  rfl

theorem run_creg2 (E : Re) (e : CStr) (r : RegReply) (h : r.inRange = true) :
    (cregWith (cregGrammar 1) E).run ('+' :: (r.tag ++ ':' :: ' ' :: (r.fields 1 ++ e))) =
      (E.run e).map (fun q => ((r.groups 1).enumFrom 1 ++ q.1, q.2)) := by
  obtain ⟨h1, _, hm, hl, hl1, _, hc, hc1, _, ha⟩ := r.inRange_facts h
  have hs := digitChar_isdigit r.stat (by omega)
  simp only [cregWith, cregGrammar, CREG2, cregHead, Re.cat, RegReply.fields, RegReply.tag,
    List.cons_append, List.nil_append]
  rw [run_creg_head r.cgreg _ _ _ hm,
    run_comma_spaces _ _ (by intro y t e; cases e; exact isdigit_not_isspace _ hs),
    run_seq_grp_cls, if_pos hs]
  simp [List.map_map, Function.comp_def, RegReply.groups, RegReply.tag, List.enumFrom]

/-- The head of a field followed by more text is not white space. -/
theorem fieldText_head (q : Bool) (txt rest : CStr) (h : ∀ c ∈ txt, isxdigit c = true)
    (hne : txt ≠ []) : ∀ y t, fieldText q txt ++ rest = y :: t → isspace y = false := by
  intro y t e
  have hne' := fieldText_ne_nil q txt hne
  cases hf : fieldText q txt with
  | nil => exact absurd hf hne'
  | cons c u =>
    rw [hf] at e
    simp only [List.cons_append, List.cons.injEq] at e
    rw [← e.1]
    exact notCommaSpace_not_space c (fieldText_chars q txt h c (by rw [hf]; exact List.mem_cons_self _ _))

theorem run_creg3 (E : Re) (e : CStr) (hE : CregEnd E e) (r : RegReply)
    (h : r.inRange = true) :
    (cregWith (cregGrammar 2) E).run ('+' :: (r.tag ++ ':' :: ' ' :: (r.fields 2 ++ e))) =
      (E.run e).map (fun q => ((r.groups 2).enumFrom 1 ++ q.1, q.2)) := by
  obtain ⟨h1, _, hm, hl, hl1, _, hc, hc1, _, ha⟩ := r.inRange_facts h
  have hs := digitChar_isdigit r.stat (by omega)
  simp only [cregWith, cregGrammar, CREG3, cregHead, Re.cat, RegReply.fields, RegReply.tag,
    List.cons_append, List.nil_append, List.append_assoc]
  rw [run_creg_head r.cgreg _ _ _ hs,
    run_comma_spaces _ _ (fieldText_head _ _ _ hl (hexValue_pos_ne_nil _ hl1)),
    run_field_comma _ _ _ _ (fieldText_chars _ _ hl)
      (fieldText_head _ _ _ hc (hexValue_pos_ne_nil _ hc1)),
    run_field_end _ _ _ _ (fieldText_chars _ _ hc) hE.field (fun y t he => (hE.head y t he).1)]
  simp [List.map_map, Function.comp_def, RegReply.groups, RegReply.tag, List.enumFrom]

theorem run_creg4 (E : Re) (e : CStr) (hE : CregEnd E e) (r : RegReply)
    (h : r.inRange = true) :
    (cregWith (cregGrammar 3) E).run ('+' :: (r.tag ++ ':' :: ' ' :: (r.fields 3 ++ e))) =
      (E.run e).map (fun q => ((r.groups 3).enumFrom 1 ++ q.1, q.2)) := by
  obtain ⟨h1, _, hm, hl, hl1, _, hc, hc1, _, ha⟩ := r.inRange_facts h
  have hs := digitChar_isdigit r.stat (by omega)
  simp only [cregWith, cregGrammar, CREG4, cregHead, Re.cat, RegReply.fields, RegReply.tag,
    List.cons_append, List.nil_append, List.append_assoc]
  rw [run_creg_head r.cgreg _ _ _ hm,
    run_comma_spaces _ _ (by intro y t e; cases e; exact isdigit_not_isspace _ hs),
    run_seq_grp_cls, if_pos hs,
    run_spaces_comma_spaces _ _ (fieldText_head _ _ _ hl (hexValue_pos_ne_nil _ hl1)),
    run_field_comma _ _ _ _ (fieldText_chars _ _ hl)
      (fieldText_head _ _ _ hc (hexValue_pos_ne_nil _ hc1)),
    run_field_end _ _ _ _ (fieldText_chars _ _ hc) hE.field (fun y t he => (hE.head y t he).1)]
  simp [List.map_map, Function.comp_def, RegReply.groups, RegReply.tag, List.enumFrom]

theorem run_creg5 (E : Re) (e : CStr) (hE : CregEnd E e) (r : RegReply)
    (h : r.inRange = true) :
    (cregWith (cregGrammar 4) E).run ('+' :: (r.tag ++ ':' :: ' ' :: (r.fields 4 ++ e))) =
      (E.run e).map (fun q => ((r.groups 4).enumFrom 1 ++ q.1, q.2)) := by
  obtain ⟨h1, _, hm, hl, hl1, _, hc, hc1, _, ha⟩ := r.inRange_facts h
  have hs := digitChar_isdigit r.stat (by omega)
  have hact := digitChar_isdigit r.act (by omega)
  simp only [cregWith, cregGrammar, CREG5, cregHead, Re.cat, RegReply.fields, RegReply.tag,
    List.cons_append, List.nil_append, List.append_assoc]
  rw [run_creg_head r.cgreg _ _ _ hs,
    run_spaces_comma_spaces _ _ (fieldText_head _ _ _ hl (hexValue_pos_ne_nil _ hl1)),
    run_field_comma _ _ _ _ (fieldText_chars _ _ hl)
      (fieldText_head _ _ _ hc (hexValue_pos_ne_nil _ hc1)),
    run_field_comma _ _ _ _ (fieldText_chars _ _ hc)
      (by intro y t e; cases e; exact isdigit_not_isspace _ hact),
    run_digit12_end _ _ _ _ hact (fun y t he => (hE.head y t he).2)]
  simp [List.map_map, Function.comp_def, RegReply.groups, RegReply.tag, List.enumFrom]

theorem run_creg6 (E : Re) (e : CStr) (hE : CregEnd E e) (r : RegReply)
    (h : r.inRange = true) :
    (cregWith (cregGrammar 5) E).run ('+' :: (r.tag ++ ':' :: ' ' :: (r.fields 5 ++ e))) =
      (E.run e).map (fun q => ((r.groups 5).enumFrom 1 ++ q.1, q.2)) := by
  obtain ⟨h1, _, hm, hl, hl1, _, hc, hc1, _, ha⟩ := r.inRange_facts h
  have hs := digitChar_isdigit r.stat (by omega)
  have hact := digitChar_isdigit r.act (by omega)
  simp only [cregWith, cregGrammar, CREG6, cregHead, Re.cat, RegReply.fields, RegReply.tag,
    List.cons_append, List.nil_append, List.append_assoc]
  rw [run_creg_head r.cgreg _ _ _ hm,
    run_comma_spaces _ _ (by intro y t e; cases e; exact isdigit_not_isspace _ hs),
    run_seq_grp_cls, if_pos hs,
    run_spaces_comma_spaces _ _ (fieldText_head _ _ _ hl (hexValue_pos_ne_nil _ hl1)),
    run_field_comma _ _ _ _ (fieldText_chars _ _ hl)
      (fieldText_head _ _ _ hc (hexValue_pos_ne_nil _ hc1)),
    run_field_comma _ _ _ _ (fieldText_chars _ _ hc)
      (by intro y t e; cases e; exact isdigit_not_isspace _ hact),
    run_digit12_end _ _ _ _ hact (fun y t he => (hE.head y t he).2)]
  simp [List.map_map, Function.comp_def, RegReply.groups, RegReply.tag, List.enumFrom]

/-- Each of the six grammars, followed by the end of the expression, matches
the reply written in it in one way, its groups capturing the fields. -/
theorem run_creg (g : Fin 6) (E : Re) (e : CStr) (hE : CregEnd E e) (r : RegReply)
    (h : r.inRange = true) :
    (cregWith (cregGrammar g) E).run ('+' :: (r.tag ++ ':' :: ' ' :: (r.fields g ++ e))) =
      (E.run e).map (fun q => ((r.groups g).enumFrom 1 ++ q.1, q.2)) := by
  fin_cases g
  · exact run_creg1 E e r h
  · exact run_creg2 E e r h
  · exact run_creg3 E e hE r h
  · exact run_creg4 E e hE r h
  · exact run_creg5 E e hE r h
  · exact run_creg6 E e hE r h

theorem cregRegex_solicited (g : Fin 6) :
    cregRegex true (cregGrammar g) = cregWith (cregGrammar g) .eos := rfl

theorem cregRegex_unsolicited (g : Fin 6) :
    cregRegex false (cregGrammar g) =
      .seq (.chr '\r') (.seq (.chr '\n')
        (cregWith (cregGrammar g) (.seq (.chr '\r') (.chr '\n')))) := by
  fin_cases g <;> rfl

theorem mkMatchInfo_creg (solicited : Bool) (g : Fin 6) (r : RegReply) (s : CStr) :
    mkMatchInfo (cregRegex solicited (cregGrammar g)) s ((r.groups g).enumFrom 1 ++ [], []) =
      s :: r.groups g := by
  have h1 : s.take (s.length - ([] : CStr).length) = s := by simp
  cases solicited <;> fin_cases g <;> simp only [mkMatchInfo, h1] <;> rfl

/-- The expression of a grammar finds the reply written in that grammar, its
groups holding the fields of the reply. -/
theorem g_regex_match_creg (solicited : Bool) (g : Fin 6) (r : RegReply)
    (h : r.inRange = true) :
    g_regex_match (cregRegex solicited (cregGrammar g)) (r.text solicited g) =
      some (r.text solicited g :: r.groups g) := by
  cases solicited with
  | true =>
    have hrun := run_creg g .eos [] cregEnd_solicited r h
    have he : Re.eos.run [] = [([], [])] := by simp [Re.run]
    rw [he, List.append_nil] at hrun
    simp only [RegReply.text, if_true, g_regex_match]
    rw [regexSearch_hit _ _ _ _ [] (by rw [cregRegex_solicited]; exact hrun)]
    simp only [Option.map_some', List.map_cons, List.map_nil]
    exact congrArg some (mkMatchInfo_creg true g r _)
  | false =>
    have hrun := run_creg g _ ['\r', '\n'] cregEnd_unsolicited r h
    have he : (Re.seq (.chr '\r') (.chr '\n')).run ['\r', '\n'] = [([], [])] := by
      simp [Re.run]
    rw [he] at hrun
    simp only [RegReply.text, Bool.false_eq_true, if_false, g_regex_match]
    rw [regexSearch_hit _ _ _ _ [] (by
      rw [cregRegex_unsolicited, run_seq_chr_cons, run_seq_chr_cons]; exact hrun)]
    simp only [Option.map_some', List.map_cons, List.map_nil]
    exact congrArg some (mkMatchInfo_creg false g r _)

theorem tag_has_cgreg (r : RegReply) : (strstr "CGREG".toList r.tag).isSome = r.cgreg := by
  cases h : r.cgreg <;> simp only [RegReply.tag, h] <;> rfl

theorem strchr_quote_digit (n : Nat) (h : n ≤ 9) : strchr '"' [digitChar n] = none := by
  have key : ∀ n < 10, strchr '"' [digitChar n] = none := by decide
  exact key n (by omega)

theorem strchr_quote_field (q : Bool) (txt : CStr) (h : ∀ c ∈ txt, isxdigit c = true) :
    (strchr '"' (fieldText q txt)).isSome = q := by
  cases q with
  | true => simp [fieldText, quoted, strchr]
  | false =>
    have : ∀ l : CStr, (∀ c ∈ l, c ≠ '"') → strchr '"' l = none := by
      intro l
      induction l with
      | nil => intro _; rfl
      | cons c t ih =>
        intro hl
        simp [strchr, hl c (List.mem_cons_self _ _),
          ih (fun x hx => hl x (List.mem_cons_of_mem _ hx))]
    simp [fieldText, this txt (fun c hc => (isxdigit_facts c (h c hc)).2.2.2.2.1)]

theorem parse_uint_lac (q : Bool) (txt : CStr) (h : ∀ c ∈ txt, isxdigit c = true)
    (h1 : 1 ≤ hexValue txt) (h2 : hexValue txt ≤ 0xFFFF) :
    parse_uint (some (fieldText q txt)) 16 1 0xFFFF = (hexValue txt, true) := by
  have := parse_uint_hex q txt 1 0xFFFF h h1 h2 (by norm_num) (by norm_num)
  simpa using this

theorem parse_uint_ci (q : Bool) (txt : CStr) (h : ∀ c ∈ txt, isxdigit c = true)
    (h1 : 1 ≤ hexValue txt) (h2 : hexValue txt ≤ 0x0FFFFFFE) :
    parse_uint (some (fieldText q txt)) 16 1 0x0FFFFFFE = (hexValue txt, true) := by
  have := parse_uint_hex q txt 1 0x0FFFFFFE h h1 h2 (by norm_num) (by norm_num)
  simpa using this

/-- The groups of a reply within the ranges give back its status, location-area
code, cell id and access technology; with six groups the third one must show a
location-area code (quoted, or longer than one character) for the grammar
`CREG5`. -/
theorem parse_creg_groups (g : Fin 6) (r : RegReply) (out : CregOut) (w : CStr)
    (h : r.inRange = true) (h5 : g = 4 → r.lacQuoted = true ∨ 1 < r.lac.length) :
    mm_gsm_parse_creg_response (w :: r.groups g) out = ⟨true, r.expected g out, none⟩ := by
  obtain ⟨h1, h4, hm, hl, hl1, hl2, hc, hc1, hc2, ha⟩ := r.inRange_facts h
  have hst : parse_uint (some [digitChar r.stat]) 10 0 5 = (r.stat, true) := by
    have := (parse_uint_digit r.stat (by omega)).1
    simpa [h1] using this
  have hact : parse_uint (some [digitChar r.act]) 10 0 7 = (r.act, true) := by
    have := (parse_uint_digit r.act (by omega)).2
    simpa [ha] using this
  have hlac := parse_uint_lac r.lacQuoted r.lac hl hl1 hl2
  have hci := parse_uint_ci r.ciQuoted r.ci hc hc1 hc2
  have htag : (strstr ['C', 'G', 'R', 'E', 'G'] r.tag).isSome = r.cgreg := tag_has_cgreg r
  have hmod : r.stat < 4294967296 := by omega
  have hq3 := strchr_quote_digit r.stat (by omega)
  have hq4 := strchr_quote_field r.lacQuoted r.lac hl
  have hlen : (fieldText r.lacQuoted r.lac).length = r.lac.length + if r.lacQuoted then 2 else 0 := by
    cases r.lacQuoted <;> simp [fieldText, quoted]
  fin_cases g
  · simp [mm_gsm_parse_creg_response, cregIndices, g_match_info_fetch,
      g_match_info_get_match_count, RegReply.groups, RegReply.expected, hst, htag, hmod, h4]
    cases hcg : r.cgreg <;> simp [hcg] at htag ⊢
  · simp [mm_gsm_parse_creg_response, cregIndices, g_match_info_fetch,
      g_match_info_get_match_count, RegReply.groups, RegReply.expected, hst, htag, hmod, h4]
    cases hcg : r.cgreg <;> simp [hcg] at htag ⊢
  · simp [mm_gsm_parse_creg_response, cregIndices, g_match_info_fetch,
      g_match_info_get_match_count, RegReply.groups, RegReply.expected, hst, htag, hmod, h4,
      hlac, hci]
    cases hcg : r.cgreg <;> simp [hcg] at htag ⊢
  · simp [mm_gsm_parse_creg_response, cregIndices, g_match_info_fetch,
      g_match_info_get_match_count, RegReply.groups, RegReply.expected, hst, htag, hmod, h4,
      hlac, hci, hq3]
    cases hcg : r.cgreg <;> simp [hcg] at htag ⊢
  · have h5' := h5 rfl
    have hcond : (strchr '"' (fieldText r.lacQuoted r.lac)).isSome = true ∨
        1 < (fieldText r.lacQuoted r.lac).length := by
      rcases h5' with hq | hq
      · left; rw [hq4, hq]
      · right; rw [hlen]; omega
    simp [mm_gsm_parse_creg_response, cregIndices, g_match_info_fetch,
      g_match_info_get_match_count, RegReply.groups, RegReply.expected, hst, htag, hmod, h4,
      hlac, hci, hact, hcond]
    cases hcg : r.cgreg <;> simp [hcg] at htag ⊢
  · simp [mm_gsm_parse_creg_response, cregIndices, g_match_info_fetch,
      g_match_info_get_match_count, RegReply.groups, RegReply.expected, hst, htag, hmod, h4,
      hlac, hci, hact]
    cases hcg : r.cgreg <;> simp [hcg] at htag ⊢

/-- C3 (as stated, refuted): `+CREG: 2,5,1A,3` is a reply of the grammar `CREG5`
(status 2, location-area code 5 and cell id 0x1A written unquoted, access
technology 3, all within the ranges), but from the groups `CREG5` captures the
function returns status 5, location-area code 0x1A, cell id 3 and no access
technology: the one-character third group is taken as the status. -/
theorem creg_short_lac_counterexample :
    (⟨false, '0', 2, "5".toList, false, "1A".toList, false, 3⟩ : RegReply).inRange = true ∧
    (⟨false, '0', 2, "5".toList, false, "1A".toList, false, 3⟩ : RegReply).text true 4 =
      "+CREG: 2,5,1A,3".toList ∧
    (g_regex_match (cregRegex true CREG5) "+CREG: 2,5,1A,3".toList).map
        (fun info => mm_gsm_parse_creg_response info ⟨0, 0, 0, 0, false⟩) =
      some ⟨true, ⟨5, 0x1A, 3, -1, false⟩, none⟩ := by
  refine ⟨by decide, by decide, by decide⟩

/-- C3 (amended): for each of the six registration grammars, solicited or
unsolicited, for both tags, and for every reply text of that grammar built from
a status digit in 0..5 other than 4, a location-area code in 1..0xFFFF and a
cell id in 1..0x0FFFFFFE written in hexadecimal (quoted or unquoted) and an
access technology in 0..7, where for `CREG5` the location-area code is quoted
or longer than one character: the expression of the grammar matches the text
and `mm_gsm_parse_creg_response` on its groups succeeds and returns exactly the
status, the location-area code, the cell id and the access technology (0, 0
and -1 for the fields the grammar does not have), the CGREG flag set for the
`+CGREG` tag. -/
theorem creg_reply_parsed (solicited : Bool) (g : Fin 6) (r : RegReply) (out : CregOut)
    (h : r.inRange = true) (h5 : g = 4 → r.lacQuoted = true ∨ 1 < r.lac.length) :
    (mm_gsm_creg_regex_get solicited)[g.val]? = some (cregRegex solicited (cregGrammar g)) ∧
    (g_regex_match (cregRegex solicited (cregGrammar g)) (r.text solicited g)).map
        (fun info => mm_gsm_parse_creg_response info out) =
      some ⟨true, r.expected g out, none⟩ := by
  constructor
  · fin_cases g <;> rfl
  · rw [g_regex_match_creg solicited g r h, Option.map_some',
      parse_creg_groups g r out _ h h5]

/-- C3 (amended), at the reply of the claim: `+CREG: 2,"1A2B","00010203",2` in
the grammar `CREG5` gives status 2, location-area code 0x1A2B, cell id
0x00010203 and access technology 2. -/
theorem creg_reply_parsed_witness :
    (⟨false, '0', 2, "1A2B".toList, true, "00010203".toList, true, 2⟩ : RegReply).inRange
      = true ∧
    ((4 : Fin 6) = 4 → true = true ∨ 1 < "1A2B".toList.length) ∧
    (mm_gsm_creg_regex_get true)[4]? = some (cregRegex true CREG5) ∧
    (g_regex_match (cregRegex true CREG5) "+CREG: 2,\"1A2B\",\"00010203\",2".toList).map
        (fun info => mm_gsm_parse_creg_response info ⟨0, 0, 0, 0, false⟩) =
      some ⟨true, ⟨2, 0x1A2B, 0x00010203, 2, false⟩, none⟩ :=
  ⟨by decide, fun _ => Or.inl rfl,
    creg_reply_parsed true 4 ⟨false, '0', 2, "1A2B".toList, true, "00010203".toList, true, 2⟩
      ⟨0, 0, 0, 0, false⟩ (by decide) (fun _ => Or.inl rfl)⟩

/-- C4: with six groups (the whole match, the tag and four fields) the third
group decides: if it holds a quote or is longer than one character, the status,
the location-area code, the cell id and the access technology are read from
groups 2, 3, 4 and 5; otherwise the status, the location-area code and the cell
id are read from groups 3, 4 and 5 and no access technology is read (-1). -/
theorem creg_six_groups (g0 g1 g2 g3 g4 g5 : CStr) (out : CregOut) :
    cregIndices [g0, g1, g2, g3, g4, g5] =
      (if '"' ∈ g3 ∨ 1 < g3.length then (2, 3, 4, 5) else (3, 4, 5, 0)) ∧
    mm_gsm_parse_creg_response [g0, g1, g2, g3, g4, g5] out =
      if '"' ∈ g3 ∨ 1 < g3.length then cregFromFields g1 g2 g3 g4 (some g5) out
      else cregFromFields g1 g3 g4 g5 none out := by
  have hq : ∀ l : CStr, (strchr '"' l).isSome = true ↔ '"' ∈ l := by
    intro l
    induction l with
    | nil => simp [strchr]
    | cons c t ih =>
      by_cases hc : c = '"'
      · simp [strchr, hc]
      · have hc' : ¬ '"' = c := fun e => hc e.symm
        simp [strchr, hc, hc', ih]
  have hidx : cregIndices [g0, g1, g2, g3, g4, g5] =
      (if '"' ∈ g3 ∨ 1 < g3.length then (2, 3, 4, 5) else (3, 4, 5, 0)) := by
    simp [cregIndices, g_match_info_get_match_count, g_match_info_fetch, hq]
  refine ⟨hidx, ?_⟩
  by_cases hc : '"' ∈ g3 ∨ 1 < g3.length
  · rw [if_pos hc] at hidx ⊢
    simp only [mm_gsm_parse_creg_response, hidx, cregFromFields, g_match_info_fetch]
    cases h1 : (parse_uint (some g2) 10 0 5).2 <;>
      by_cases h2 : (parse_uint (some g2) 10 0 5).1 = 4 <;>
      simp [h1, h2]
  · rw [if_neg hc] at hidx ⊢
    simp only [mm_gsm_parse_creg_response, hidx, cregFromFields, g_match_info_fetch]
    cases h1 : (parse_uint (some g3) 10 0 5).2 <;>
      by_cases h2 : (parse_uint (some g3) 10 0 5).1 = 4 <;>
      simp [h1, h2]

theorem isdigit_range (c : Char) (h : isdigit c = true) : 48 ≤ c.toNat ∧ c.toNat ≤ 57 := by
  simp only [isdigit, Char.isDigit, Bool.and_eq_true, decide_eq_true_eq] at h
  obtain ⟨h1, h2⟩ := h
  have h1' : (48 : UInt32).toNat ≤ c.val.toNat := h1
  have h2' : c.val.toNat ≤ (57 : UInt32).toNat := h2
  exact ⟨h1', h2'⟩

theorem digitVal_digit (c : Char) (h : isdigit c = true) :
    digitVal c = some (c.toNat - 48) ∧ c.toNat - 48 < 10 := by
  obtain ⟨h1, h2⟩ := isdigit_range c h
  have a1 : '0' ≤ c := by
    show ('0' : Char).val.toNat ≤ c.val.toNat
    exact h1
  have a2 : c ≤ '9' := by
    show c.val.toNat ≤ ('9' : Char).val.toNat
    exact h2
  refine ⟨by simp [digitVal, a1, a2], by omega⟩

theorem decimalValue_cons (c : Char) (t : CStr) :
    decimalValue (c :: t) = 10 ^ t.length * (c.toNat - 48) + decimalValue t := by
  simp [decimalValue, Nat.ofDigits_append, Nat.add_comm]

/-- The digit loop of `strtol` reads a text of decimal digits to its end and
gives the number it denotes. -/
theorem digitsValue_dec (txt : CStr) (h : ∀ c ∈ txt, isdigit c = true) :
    ∀ acc, digitsValue 10 acc txt = acc * 10 ^ txt.length + decimalValue txt := by
  induction txt with
  | nil => intro acc; simp [digitsValue, decimalValue]
  | cons c t ih =>
    intro acc
    obtain ⟨h1, h2⟩ := digitVal_digit c (h c (List.mem_cons_self _ _))
    rw [digitsValue, h1]
    simp only [h2, if_true]
    rw [ih (fun x hx => h x (List.mem_cons_of_mem _ hx)), decimalValue_cons, List.length_cons]
    ring

theorem strtol_dec (txt : CStr) (h : ∀ c ∈ txt, isdigit c = true) :
    strtol txt 10 = min (decimalValue txt : Int) LONG_MAX := by
  cases txt with
  | nil => simp [strtol, digitsValue, decimalValue]
  | cons c t =>
    have hc := h c (List.mem_cons_self _ _)
    have h0 : List.dropWhile isspace (c :: t) = c :: t :=
      List.dropWhile_cons_of_neg (by simp [isdigit_not_isspace c hc])
    have hm : c ≠ '-' := isdigit_ne c '-' hc (by decide)
    have hp : c ≠ '+' := isdigit_ne c '+' hc (by decide)
    have h16 : ¬ ((10 : Nat) = 16) := by decide
    simp only [strtol, h0, List.head?_cons, Option.some.injEq, hm, hp, or_self, if_false,
      h16, false_and]
    rw [digitsValue_dec _ h]
    simp

theorem toGulong_nat (n : Nat) (h : n < 2 ^ 64) : toGulong (n : Int) = n := by
  have h1 : ((n : Int) % 2 ^ 64) = (n : Int) := by
    apply Int.emod_eq_of_lt
    · exact Int.ofNat_nonneg n
    · exact_mod_cast h
  rw [toGulong, h1]
  simp

/-- The text `parse_uint` reads from a field of hexadecimal digits, quoted or
not: the digits. -/
theorem parse_uint_text (q : Bool) (txt : CStr) (hq : ∀ c ∈ txt, c ≠ '"') :
    ((if (fieldText q txt).head? = some '"' then (fieldText q txt).drop 1
      else fieldText q txt).takeWhile (fun c => c != '"')) = txt := by
  cases q with
  | true =>
    simp only [fieldText, if_true, quoted, List.head?_cons, List.drop_one, List.tail_cons]
    exact (takeWhile_no_quote txt [] hq).1
  | false =>
    have : txt.head? ≠ some '"' := by
      cases txt with
      | nil => simp
      | cons c t => simpa using hq c (List.mem_cons_self _ _)
    simp only [fieldText, Bool.false_eq_true, if_false, this]
    exact (takeWhile_no_quote txt [] hq).2

/-- The function `parse_uint` on a hexadecimal field, quoted or not, whose
value is outside the range, and on an empty one: not valid. -/
theorem parse_uint_hex_outside (q : Bool) (txt : CStr) (nmin nmax : Nat)
    (h : ∀ c ∈ txt, isxdigit c = true)
    (hout : ¬ (nmin ≤ hexValue txt ∧ hexValue txt ≤ nmax))
    (h3 : nmin < nmax) (h4 : nmax < 2 ^ 32) :
    parse_uint (some (fieldText q txt)) 16 nmin nmax = (0, false) := by
  have hq : ∀ c ∈ txt, c ≠ '"' := fun c hc => (isxdigit_facts c (h c hc)).2.2.2.2.1
  have hstr := parse_uint_text q txt hq
  have hg1 : toGulong (nmin : Int) = nmin := toGulong_nat nmin (by omega)
  have hg2 : toGulong (nmax : Int) = nmax := toGulong_nat nmax (by omega)
  have hne : ¬ ((nmin : Int) = (nmax : Int)) := by
    intro e
    have : nmin = nmax := by exact_mod_cast e
    omega
  simp only [parse_uint, hstr, hne, false_or, hg1, hg2]
  by_cases hlen : txt.length ≠ 0
  · rw [if_pos hlen]
    have hv : ¬ (nmin ≤ toGulong (strtol txt 16) ∧ toGulong (strtol txt 16) ≤ nmax) := by
      rw [strtol_hex txt h, LONG_MAX]
      by_cases hb : (hexValue txt : Int) ≤ 2 ^ 63 - 1
      · rw [min_eq_left hb]
        rw [toGulong_nat _ (by omega)]
        exact hout
      · rw [min_eq_right (by omega)]
        have : toGulong (2 ^ 63 - 1) = 2 ^ 63 - 1 := by decide
        rw [this]
        omega
    rw [if_neg hv]
  · rw [if_neg hlen]

/-- The function `parse_uint` on an access technology written with decimal
digits: valid exactly when the number is at most 7. -/
theorem parse_uint_act (txt : CStr) (hne : txt ≠ []) (h : ∀ c ∈ txt, isdigit c = true) :
    parse_uint (some txt) 10 0 7 =
      if decimalValue txt ≤ 7 then (decimalValue txt, true) else (0, false) := by
  have hq : ∀ c ∈ txt, c ≠ '"' := fun c hc => isdigit_ne c '"' (h c hc) (by decide)
  have hstr := parse_uint_text false txt hq
  simp only [fieldText, Bool.false_eq_true, if_false] at hstr
  have hlen : txt.length ≠ 0 := by simpa using hne
  have hg0 : toGulong 0 = 0 := by decide
  have hg7 : toGulong 7 = 7 := by decide
  have h07 : ¬ ((0 : Int) = 7) := by decide
  simp only [parse_uint, hstr, hlen, ne_eq, not_false_eq_true, if_true, hg0, hg7, h07,
    false_or, Nat.zero_le, true_and]
  rw [strtol_dec txt h, LONG_MAX]
  by_cases hb : (decimalValue txt : Int) ≤ 2 ^ 63 - 1
  · rw [min_eq_left hb, toGulong_nat _ (by omega)]
    by_cases h7 : decimalValue txt ≤ 7
    · rw [if_pos h7, if_pos h7, Nat.mod_eq_of_lt (by omega)]
    · rw [if_neg h7, if_neg h7]
  · rw [min_eq_right (by omega)]
    have e : toGulong (2 ^ 63 - 1) = 2 ^ 63 - 1 := by decide
    rw [e]
    have h7 : ¬ decimalValue txt ≤ 7 := by omega
    rw [if_neg h7, if_neg (by decide)]

/-- C20: when the status read from the status field is 4 (unknown),
`mm_gsm_parse_creg_response` succeeds without an error and writes status 4;
the location-area code, the cell id and the access technology are not written,
whatever the reply holds for them: the three outputs are as the caller passed
them. -/
theorem creg_unknown_status (info : GMatchInfo) (out : CregOut)
    (hstat : parse_uint (g_match_info_fetch info (cregIndices info).1) 10 0 5 = (4, true)) :
    (mm_gsm_parse_creg_response info out).success = true ∧
    (mm_gsm_parse_creg_response info out).error = none ∧
    (mm_gsm_parse_creg_response info out).out.reg_state = 4 ∧
    (mm_gsm_parse_creg_response info out).out.lac = out.lac ∧
    (mm_gsm_parse_creg_response info out).out.ci = out.ci ∧
    (mm_gsm_parse_creg_response info out).out.act = out.act := by
  revert hstat
  simp only [mm_gsm_parse_creg_response]
  rcases cregIndices info with ⟨istat, ilac, ici, iact⟩
  simp only
  intro hstat
  rw [hstat]
  cases g_match_info_fetch info 1 with
  | none => simp
  | some str =>
    by_cases hs : (strstr ['C', 'G', 'R', 'E', 'G'] str).isSome = true <;> simp [hs]

/-- C20, at the reply `+CREG: 4,"1A2B","00010203",2` of the grammar `CREG5`, the
outputs holding 11, 22 and 33 before the call: the status written is 4 and the
three outputs still hold 11, 22 and 33. -/
theorem creg_unknown_status_witness :
    g_regex_match (cregRegex true CREG5) "+CREG: 4,\"1A2B\",\"00010203\",2".toList =
      some ["+CREG: 4,\"1A2B\",\"00010203\",2".toList, "CREG".toList, "4".toList,
        "\"1A2B\"".toList, "\"00010203\"".toList, "2".toList] ∧
    parse_uint (g_match_info_fetch ["+CREG: 4,\"1A2B\",\"00010203\",2".toList, "CREG".toList,
        "4".toList, "\"1A2B\"".toList, "\"00010203\"".toList, "2".toList]
      (cregIndices ["+CREG: 4,\"1A2B\",\"00010203\",2".toList, "CREG".toList, "4".toList,
        "\"1A2B\"".toList, "\"00010203\"".toList, "2".toList]).1) 10 0 5 = (4, true) ∧
    mm_gsm_parse_creg_response ["+CREG: 4,\"1A2B\",\"00010203\",2".toList, "CREG".toList,
        "4".toList, "\"1A2B\"".toList, "\"00010203\"".toList, "2".toList]
        ⟨0, 11, 22, 33, false⟩ =
      ⟨true, ⟨4, 11, 22, 33, false⟩, none⟩ ∧
    (mm_gsm_parse_creg_response ["+CREG: 4,\"1A2B\",\"00010203\",2".toList, "CREG".toList,
        "4".toList, "\"1A2B\"".toList, "\"00010203\"".toList, "2".toList]
        ⟨0, 11, 22, 33, false⟩).out.lac = 11 :=
  ⟨by decide, by decide, by decide,
    (creg_unknown_status ["+CREG: 4,\"1A2B\",\"00010203\",2".toList, "CREG".toList,
      "4".toList, "\"1A2B\"".toList, "\"00010203\"".toList, "2".toList]
      ⟨0, 11, 22, 33, false⟩ (by decide)).2.2.2.1⟩
/-! ## The MBIM port guard -/

/-- C7 (the code at the failing input): an open request is admitted and the
device creation then fails with `e`.  The operation has completed with that
error and nothing is in flight, but the in-progress flag is still set, so the
next open request and the next close request are both rejected as in
progress. -/
theorem mbim_new_failure_leaves_in_progress (e : GError) :
    (PortSystem.init.step .open_request).map
        (fun r => (r.1.port, r.1.inflight)) =
      some (⟨true, none⟩, [.mbim_device_new]) ∧
    (PortSystem.run [.open_request, .new_done (.error e)] PortSystem.init).port =
      ⟨true, none⟩ ∧
    (PortSystem.run [.open_request, .new_done (.error e)] PortSystem.init).inflight = [] ∧
    mm_mbim_port_open
        (PortSystem.run [.open_request, .new_done (.error e)] PortSystem.init).port =
      (⟨true, none⟩, .complete (.error errorInProgress)) ∧
    mm_mbim_port_close
        (PortSystem.run [.open_request, .new_done (.error e)] PortSystem.init).port =
      (⟨true, none⟩, .complete (.error errorInProgress)) := by
  refine ⟨rfl, rfl, rfl, rfl, rfl⟩

theorem inflight_singleton (l : List MbimCall) (c : MbimCall) (h1 : l.length ≤ 1)
    (h2 : c ∈ l) : l = [c] := by
  match l, h1, h2 with
  | [x], _, h2 =>
    have : c = x := by simpa using h2
    rw [this]
  | _ :: _ :: _, h1, _ => simp at h1

/-- Every event keeps the port guarded. -/
theorem PortSystem.step_guarded (s : PortSystem) (ev : PortEvent) (hs : s.guarded)
    (s' : PortSystem) (r : Option (Except GError Unit)) (h : s.step ev = some (s', r)) :
    s'.guarded := by
  obtain ⟨port, inflight⟩ := s
  obtain ⟨flag, dev⟩ := port
  obtain ⟨h1, h2⟩ := hs
  simp only at h1 h2
  cases ev with
  | open_request =>
    cases flag with
    | true =>
      simp [PortSystem.step, mm_mbim_port_open, afterAction] at h
      rw [← h.1]
      exact ⟨h1, h2⟩
    | false =>
      have hnil : inflight = [] := by
        by_contra hne
        have := h2 hne
        simp at this
      subst hnil
      cases dev with
      | none =>
        simp [PortSystem.step, mm_mbim_port_open, afterAction] at h
        rw [← h.1]
        simp [PortSystem.guarded]
      | some d =>
        simp [PortSystem.step, mm_mbim_port_open, afterAction] at h
        rw [← h.1]
        simp [PortSystem.guarded]
  | close_request =>
    cases flag with
    | true =>
      simp [PortSystem.step, mm_mbim_port_close, afterAction] at h
      rw [← h.1]
      exact ⟨h1, h2⟩
    | false =>
      have hnil : inflight = [] := by
        by_contra hne
        have := h2 hne
        simp at this
      subst hnil
      cases dev with
      | none =>
        simp [PortSystem.step, mm_mbim_port_close, afterAction] at h
        rw [← h.1]
        simp [PortSystem.guarded]
      | some d =>
        simp [PortSystem.step, mm_mbim_port_close, afterAction] at h
        rw [← h.1]
        simp [PortSystem.guarded]
  | new_done res =>
    by_cases hm : MbimCall.mbim_device_new ∈ inflight
    · have hl := inflight_singleton inflight _ h1 hm
      subst hl
      have hf : flag = true := by simpa using h2 (by simp)
      subst hf
      cases res with
      | error e =>
        simp [PortSystem.step, mbim_device_new_ready, afterAction] at h
        rw [← h.1]
        simp [PortSystem.guarded]
      | ok d =>
        simp [PortSystem.step, mbim_device_new_ready, afterAction] at h
        rw [← h.1]
        simp [PortSystem.guarded]
    · simp [PortSystem.step, hm] at h
  | open_done res =>
    by_cases hm : MbimCall.mbim_device_open ∈ inflight
    · have hl := inflight_singleton inflight _ h1 hm
      subst hl
      cases res with
      | error e =>
        simp [PortSystem.step, mbim_device_open_ready, afterAction] at h
        rw [← h.1]
        simp [PortSystem.guarded]
      | ok d =>
        simp [PortSystem.step, mbim_device_open_ready, afterAction] at h
        rw [← h.1]
        simp [PortSystem.guarded]
    · simp [PortSystem.step, hm] at h
  | close_done res =>
    by_cases hm : MbimCall.mbim_device_close ∈ inflight
    · have hl := inflight_singleton inflight _ h1 hm
      subst hl
      simp [PortSystem.step, mbim_device_close_ready, afterAction] at h
      rw [← h.1]
      simp [PortSystem.guarded]
    · simp [PortSystem.step, hm] at h

theorem PortSystem.run_guarded (evs : List PortEvent) :
    ∀ s : PortSystem, s.guarded → (PortSystem.run evs s).guarded := by
  induction evs with
  | nil => intro s hs; exact hs
  | cons ev evs ih =>
    intro s hs
    simp only [PortSystem.run]
    cases h : s.step ev with
    | none => exact ih s hs
    | some p =>
      obtain ⟨s', r⟩ := p
      exact ih s' (PortSystem.step_guarded s ev hs s' r h)

/-- C8: a request made while the in-progress flag is set, open or close, fails
at once with the in-progress error, starts no library call and leaves the port
(flag and device handle) as it was; and in every state reached from the initial
one by any sequence of requests and completions, at most one library call is in
flight, and the flag is set while one is. -/
theorem mbim_port_busy_rejected (self : MMMbimPort) (evs : List PortEvent)
    (h : self.in_progress = true) :
    mm_mbim_port_open self = (self, .complete (.error errorInProgress)) ∧
    mm_mbim_port_close self = (self, .complete (.error errorInProgress)) ∧
    (PortSystem.run evs PortSystem.init).inflight.length ≤ 1 ∧
    ((PortSystem.run evs PortSystem.init).inflight ≠ [] →
      (PortSystem.run evs PortSystem.init).port.in_progress = true) := by
  have hg := PortSystem.run_guarded evs PortSystem.init (by simp [PortSystem.guarded, PortSystem.init])
  refine ⟨by simp [mm_mbim_port_open, h], by simp [mm_mbim_port_close, h], hg.1, hg.2⟩

/-- C8, at a port whose open is in flight: after an admitted open request the
creation of the device is in flight and the flag is set; a second open and a
close are rejected and change nothing. -/
theorem mbim_port_busy_rejected_witness :
    (PortSystem.run [.open_request] PortSystem.init).port.in_progress = true ∧
    (PortSystem.run [.open_request] PortSystem.init).inflight = [.mbim_device_new] ∧
    mm_mbim_port_open (PortSystem.run [.open_request] PortSystem.init).port =
      ((PortSystem.run [.open_request] PortSystem.init).port,
        .complete (.error errorInProgress)) ∧
    mm_mbim_port_close (PortSystem.run [.open_request] PortSystem.init).port =
      ((PortSystem.run [.open_request] PortSystem.init).port,
        .complete (.error errorInProgress)) ∧
    (PortSystem.run [.open_request, .open_request, .close_request]
      PortSystem.init).inflight.length ≤ 1 :=
  ⟨rfl, rfl,
    (mbim_port_busy_rejected (PortSystem.run [.open_request] PortSystem.init).port
      [.open_request, .open_request, .close_request] rfl).1,
    (mbim_port_busy_rejected (PortSystem.run [.open_request] PortSystem.init).port
      [.open_request, .open_request, .close_request] rfl).2.1,
    (mbim_port_busy_rejected (PortSystem.run [.open_request] PortSystem.init).port
      [.open_request, .open_request, .close_request] rfl).2.2.1⟩


/-! ## The MBIM port: requests already satisfied, and failed opens -/

/-- Every event takes a state of one of the reachable forms to such a state. -/
theorem PortSystem.step_shaped (s : PortSystem) (ev : PortEvent) (hs : s.shaped)
    (s' : PortSystem) (r : Option (Except GError Unit)) (h : s.step ev = some (s', r)) :
    s'.shaped := by
  rcases hs with rfl | rfl | rfl | ⟨d, rfl⟩ | ⟨d, rfl⟩ | rfl
  · cases ev <;>
      simp [PortSystem.step, mm_mbim_port_open, mm_mbim_port_close, afterAction] at h <;>
      (rw [← h.1]; simp [PortSystem.shaped])
  · cases ev with
    | new_done res =>
      cases res <;>
        simp [PortSystem.step, mbim_device_new_ready, afterAction] at h <;>
        (rw [← h.1]; simp [PortSystem.shaped])
    | open_request | close_request | open_done res | close_done res =>
      simp [PortSystem.step, mm_mbim_port_open, mm_mbim_port_close, afterAction] at h <;>
        (rw [← h.1]; simp [PortSystem.shaped])
  · cases ev <;>
      simp [PortSystem.step, mm_mbim_port_open, mm_mbim_port_close, afterAction] at h <;>
      (rw [← h.1]; simp [PortSystem.shaped])
  · cases ev with
    | open_done res =>
      cases res <;>
        simp [PortSystem.step, mbim_device_open_ready, afterAction] at h <;>
        (rw [← h.1]; simp [PortSystem.shaped])
    | open_request | close_request | new_done res | close_done res =>
      simp [PortSystem.step, mm_mbim_port_open, mm_mbim_port_close, afterAction] at h <;>
        (rw [← h.1]; simp [PortSystem.shaped])
  · cases ev <;>
      simp [PortSystem.step, mm_mbim_port_open, mm_mbim_port_close, afterAction] at h <;>
      (rw [← h.1]; simp [PortSystem.shaped])
  · cases ev with
    | close_done res =>
      simp [PortSystem.step, mbim_device_close_ready, afterAction] at h
      rw [← h.1]
      simp [PortSystem.shaped]
    | open_request | close_request | new_done res | open_done res =>
      simp [PortSystem.step, mm_mbim_port_open, mm_mbim_port_close, afterAction] at h <;>
        (rw [← h.1]; simp [PortSystem.shaped])

/-- Every state reached from the initial one has one of the reachable forms. -/
theorem PortSystem.run_shaped (evs : List PortEvent) :
    ∀ s : PortSystem, s.shaped → (PortSystem.run evs s).shaped := by
  induction evs with
  | nil => intro s hs; exact hs
  | cons ev evs ih =>
    intro s hs
    simp only [PortSystem.run]
    cases h : s.step ev with
    | none => exact ih s hs
    | some p =>
      obtain ⟨s', r⟩ := p
      exact ih s' (PortSystem.step_shaped s ev hs s' r h)

/-- C27 (the code at the failing input): an open request on the idle closed port
is admitted and the device creation then fails with `e`.  Nothing is in flight
and the port holds no device handle, and yet a close request does not complete
with success: it is rejected as in progress, the in-progress flag having been
left set.  Apart from that state the property holds: with the flag clear, an
open request on a port holding a handle and a close request on a port holding
none complete at once with success, start no library call and leave the port
as it was; in every state reached from the initial one with nothing in flight,
an open request on a port holding a handle does so, and a close request on a
port holding none does so unless the port is the one left by a failed
creation, flag set and no handle. -/
theorem mbim_close_blocked_after_failed_creation (e : GError) (evs : List PortEvent) :
    (PortSystem.run [.open_request, .new_done (.error e)] PortSystem.init).inflight = [] ∧
    (PortSystem.run [.open_request, .new_done (.error e)] PortSystem.init).port.mbim_device =
      none ∧
    mm_mbim_port_close
        (PortSystem.run [.open_request, .new_done (.error e)] PortSystem.init).port =
      ((PortSystem.run [.open_request, .new_done (.error e)] PortSystem.init).port,
        .complete (.error errorInProgress)) ∧
    ((PortSystem.run [.open_request, .new_done (.error e)] PortSystem.init).step
        .close_request).map (fun r => r.2) = some (some (.error errorInProgress)) ∧
    (∀ self : MMMbimPort, self.in_progress = false →
      (self.mbim_device.isSome = true →
        mm_mbim_port_open self = (self, .complete (.ok ()))) ∧
      (self.mbim_device = none → mm_mbim_port_close self = (self, .complete (.ok ())))) ∧
    ((PortSystem.run evs PortSystem.init).inflight = [] →
      (PortSystem.run evs PortSystem.init).port.mbim_device.isSome = true →
      mm_mbim_port_open (PortSystem.run evs PortSystem.init).port =
        ((PortSystem.run evs PortSystem.init).port, .complete (.ok ()))) ∧
    ((PortSystem.run evs PortSystem.init).inflight = [] →
      (PortSystem.run evs PortSystem.init).port.mbim_device = none →
      mm_mbim_port_close (PortSystem.run evs PortSystem.init).port =
          ((PortSystem.run evs PortSystem.init).port, .complete (.ok ())) ∨
        ((PortSystem.run evs PortSystem.init).port = ⟨true, none⟩ ∧
          mm_mbim_port_close (PortSystem.run evs PortSystem.init).port =
            ((PortSystem.run evs PortSystem.init).port,
              .complete (.error errorInProgress)))) := by
  have hs := PortSystem.run_shaped evs PortSystem.init (Or.inl rfl)
  refine ⟨rfl, rfl, rfl, rfl, ?_, ?_, ?_⟩
  · intro self h
    constructor
    · intro hd
      simp [mm_mbim_port_open, h, hd]
    · intro hd
      simp [mm_mbim_port_close, h, hd]
  · intro hi hd
    rcases hs with h | h | h | ⟨d, h⟩ | ⟨d, h⟩ | h <;> rw [h] at hi hd ⊢
    · cases hd
    · cases hi
    · cases hd
    · cases hi
    · rfl
    · cases hi
  · intro hi hd
    rcases hs with h | h | h | ⟨d, h⟩ | ⟨d, h⟩ | h <;> rw [h] at hi hd ⊢
    · exact Or.inl rfl
    · cases hi
    · exact Or.inr ⟨rfl, rfl⟩
    · cases hi
    · cases hd
    · cases hi

/-- C28: an open operation that fails, at the creation of the device or at its
opening, completes with the error of that stage and leaves the port without a
device handle: `mm_mbim_port_is_open` is false afterwards, whatever handle the
port held; and whenever one of the two callbacks completes the operation with
an error, the port holds no handle afterwards. -/
theorem mbim_open_failure_discards_device (self : MMMbimPort) :
    (∀ e, mbim_device_new_ready self (.error e) =
      ({ self with mbim_device := none }, .complete (.error e))) ∧
    (∀ e, mbim_device_open_ready self (.error e) =
      (⟨false, none⟩, .complete (.error e))) ∧
    (∀ res e, (mbim_device_new_ready self res).2 = .complete (.error e) →
      res = .error e ∧ (mbim_device_new_ready self res).1.mbim_device = none ∧
        mm_mbim_port_is_open (mbim_device_new_ready self res).1 = false) ∧
    (∀ res e, (mbim_device_open_ready self res).2 = .complete (.error e) →
      res = .error e ∧ (mbim_device_open_ready self res).1.mbim_device = none ∧
        mm_mbim_port_is_open (mbim_device_open_ready self res).1 = false) := by
  refine ⟨fun e => rfl, fun e => rfl, ?_, ?_⟩
  · intro res e h
    cases res with
    | error e' =>
      simp only [mbim_device_new_ready, PortAction.complete.injEq, Except.error.injEq] at h
      subst h
      exact ⟨rfl, rfl, rfl⟩
    | ok d =>
      simp [mbim_device_new_ready] at h
  · intro res e h
    cases res with
    | error e' =>
      simp only [mbim_device_open_ready, PortAction.complete.injEq, Except.error.injEq] at h
      subst h
      exact ⟨rfl, rfl, rfl⟩
    | ok d =>
      simp [mbim_device_open_ready] at h


/-! ## The MBIM port: what `mm_mbim_port_is_open` tells -/

/-- While a close is in flight, a request or a completion other than that of
the close leaves the port and the calls in flight as they are. -/
theorem PortSystem.run_closing (evs : List PortEvent)
    (h : ∀ ev ∈ evs, ∀ res, ev ≠ .close_done res) :
    PortSystem.run evs ⟨⟨true, none⟩, [.mbim_device_close]⟩ =
      ⟨⟨true, none⟩, [.mbim_device_close]⟩ := by
  induction evs with
  | nil => rfl
  | cons ev evs ih =>
    have ih' := ih (fun x hx => h x (List.mem_cons_of_mem _ hx))
    cases ev with
    | open_request => simpa [PortSystem.run, PortSystem.step, mm_mbim_port_open, afterAction]
        using ih'
    | close_request => simpa [PortSystem.run, PortSystem.step, mm_mbim_port_close, afterAction]
        using ih'
    | new_done res => simpa [PortSystem.run, PortSystem.step] using ih'
    | open_done res => simpa [PortSystem.run, PortSystem.step] using ih'
    | close_done res => exact absurd rfl (h _ (List.mem_cons_self _ _) res)

/-- C38: `mm_mbim_port_is_open` tells whether the port holds a device handle.  After an
open request is admitted and the device `d` is created, the opening of the
device being still in flight, it returns true while the in-progress flag is
set.  A close request admitted on an open port takes the handle away at once:
from then on, through any further requests, until the close completes, it
returns false while the flag is set; the completion of the close clears the
flag. -/
theorem mbim_is_open_is_handle (d : Nat) (self : MMMbimPort) :
    mm_mbim_port_is_open self = self.mbim_device.isSome ∧
    (PortSystem.run [.open_request, .new_done (.ok d)] PortSystem.init).port =
      ⟨true, some d⟩ ∧
    (PortSystem.run [.open_request, .new_done (.ok d)] PortSystem.init).inflight =
      [.mbim_device_open] ∧
    mm_mbim_port_is_open
      (PortSystem.run [.open_request, .new_done (.ok d)] PortSystem.init).port = true ∧
    (self.in_progress = false → self.mbim_device.isSome = true →
      mm_mbim_port_close self = (⟨true, none⟩, .start .mbim_device_close) ∧
      mm_mbim_port_is_open (mm_mbim_port_close self).1 = false ∧
      (mm_mbim_port_close self).1.in_progress = true) ∧
    (PortSystem.run [.open_request, .new_done (.ok d), .open_done (.ok ()), .close_request]
      PortSystem.init) = ⟨⟨true, none⟩, [.mbim_device_close]⟩ ∧
    (∀ evs : List PortEvent, (∀ ev ∈ evs, ∀ res, ev ≠ .close_done res) →
      (PortSystem.run evs ⟨⟨true, none⟩, [.mbim_device_close]⟩).port = ⟨true, none⟩ ∧
      mm_mbim_port_is_open
        (PortSystem.run evs ⟨⟨true, none⟩, [.mbim_device_close]⟩).port = false) ∧
    (∀ res, mbim_device_close_ready ⟨true, none⟩ res = (⟨false, none⟩, .complete res)) := by
  refine ⟨rfl, rfl, rfl, rfl, ?_, rfl, ?_, fun res => rfl⟩
  · intro h1 h2
    have h3 : self.mbim_device.isNone = false := by
      cases hd : self.mbim_device with
      | none => rw [hd] at h2; cases h2
      | some x => rfl
    simp [mm_mbim_port_close, h1, h3, mm_mbim_port_is_open]
  · intro evs h
    rw [PortSystem.run_closing evs h]
    exact ⟨rfl, rfl⟩
/-! ## GPS enable and disable sequences -/

/-- C6: in the enable sequence with the `^SGPSC` dialect supported, when the
Output and Antenna commands succeed and the Engine command fails with `e1`,
`e2` and `e3`, whatever results would follow: the Engine command is sent
exactly 3 times, each retry scheduled after the long delay, the errors `e1` and
`e2` are discarded, the task is completed with the error `e3`, the GPS data port
is not opened, nothing is sent to undo the Output and Antenna steps, and the
private data (the enabled sources among them) is left as it was. -/
theorem enable_engine_retries_exhausted (priv : Private) (port : GpsPort) (source : Nat)
    (e1 e2 e3 : GError) (rest : List (Except GError Unit))
    (hss : priv.sgpss_support ≠ .FEATURE_SUPPORTED)
    (hsc : priv.sgpsc_support = .FEATURE_SUPPORTED) :
    (enableRun priv port (.ok () :: .ok () :: .error e1 :: .error e2 :: .error e3 :: rest)
        (enableContext source)).actions =
      [.at_command "AT^SGPSC=\"NMEA/Output\",\"on\"", .timeout_add 100,
        .at_command "AT^SGPSC=\"Power/Antenna\",\"on\"", .timeout_add 2000,
        .at_command "AT^SGPSC=\"Engine\",\"1\"", .timeout_add 2000,
        .at_command "AT^SGPSC=\"Engine\",\"1\"", .timeout_add 2000,
        .at_command "AT^SGPSC=\"Engine\",\"1\"", .task_return (.error e3)] ∧
    (enableRun priv port (.ok () :: .ok () :: .error e1 :: .error e2 :: .error e3 :: rest)
        (enableContext source)).priv = priv := by
  have h1 : oneDialect priv = true := by simp [oneDialect, hss, hsc]
  simp [enableRun, enable_location_gathering_context_gps_step, h1, enableSwitch, hss, hsc,
    enableContext, enable_sgpsc_or_sgpss_ready, scheduleDelay,
    ENABLE_LOCATION_GATHERING_GPS_STEP_FIRST, ENABLE_LOCATION_GATHERING_GPS_STEP_SGPSC_ENGINE,
    MAX_SGPSC_ENGINE_RETRIES, GPS_COMMAND_TIMEOUT_ENGINE_MS, GPS_COMMAND_TIMEOUT_DEFAULT_MS]

/-- C6, at a modem with the `^SGPSC` dialect, the NMEA source requested and the
Engine command failing three times with error 767. -/
theorem enable_engine_retries_exhausted_witness :
    FeatureSupport.FEATURE_NOT_SUPPORTED ≠ FeatureSupport.FEATURE_SUPPORTED ∧
    (enableRun ⟨22, 0, .FEATURE_NOT_SUPPORTED, .FEATURE_SUPPORTED⟩ ⟨true, .ok ()⟩
        [.ok (), .ok (), .error (.external 767), .error (.external 767),
          .error (.external 767)]
        (enableContext MM_MODEM_LOCATION_SOURCE_GPS_NMEA)).actions =
      [.at_command "AT^SGPSC=\"NMEA/Output\",\"on\"", .timeout_add 100,
        .at_command "AT^SGPSC=\"Power/Antenna\",\"on\"", .timeout_add 2000,
        .at_command "AT^SGPSC=\"Engine\",\"1\"", .timeout_add 2000,
        .at_command "AT^SGPSC=\"Engine\",\"1\"", .timeout_add 2000,
        .at_command "AT^SGPSC=\"Engine\",\"1\"", .task_return (.error (.external 767))] ∧
    (enableRun ⟨22, 0, .FEATURE_NOT_SUPPORTED, .FEATURE_SUPPORTED⟩ ⟨true, .ok ()⟩
        [.ok (), .ok (), .error (.external 767), .error (.external 767),
          .error (.external 767)]
        (enableContext MM_MODEM_LOCATION_SOURCE_GPS_NMEA)).priv =
      ⟨22, 0, .FEATURE_NOT_SUPPORTED, .FEATURE_SUPPORTED⟩ :=
  ⟨by decide,
    enable_engine_retries_exhausted ⟨22, 0, .FEATURE_NOT_SUPPORTED, .FEATURE_SUPPORTED⟩
      ⟨true, .ok ()⟩ MM_MODEM_LOCATION_SOURCE_GPS_NMEA (.external 767) (.external 767)
      (.external 767) [] (by decide) rfl⟩

/-- C10 (as stated, refuted): after the successful Antenna step, which is not
the Engine step, the next step is scheduled after 2000 ms, not 100 ms; and
after the successful Engine step the next step is scheduled after 100 ms, not
2000 ms. -/
theorem enable_delay_counterexample :
    enable_sgpsc_or_sgpss_ready
        ⟨MM_MODEM_LOCATION_SOURCE_GPS_NMEA, ENABLE_LOCATION_GATHERING_GPS_STEP_SGPSC_ANTENNA, 0⟩
        (.ok ()) =
      .schedule 2000
        ⟨MM_MODEM_LOCATION_SOURCE_GPS_NMEA, ENABLE_LOCATION_GATHERING_GPS_STEP_SGPSC_ENGINE, 0⟩ ∧
    enable_sgpsc_or_sgpss_ready
        ⟨MM_MODEM_LOCATION_SOURCE_GPS_NMEA, ENABLE_LOCATION_GATHERING_GPS_STEP_SGPSC_ENGINE, 0⟩
        (.ok ()) =
      .schedule 100
        ⟨MM_MODEM_LOCATION_SOURCE_GPS_NMEA, ENABLE_LOCATION_GATHERING_GPS_STEP_LAST, 0⟩ := by
  decide

/-- C10 (amended): in the enable sequence the delay is chosen by the step that
comes next.  After the successful `^SGPSS` step and after the successful NMEA
Output step the next step is scheduled with the short delay (100 ms); after the
successful Antenna step the Engine step is scheduled with the long delay
(2000 ms); after the successful Engine step the last step is scheduled with the
short delay (100 ms). -/
theorem enable_delay_by_next_step (source retries : Nat) :
    enable_sgpsc_or_sgpss_ready ⟨source, ENABLE_LOCATION_GATHERING_GPS_STEP_SGPSS, retries⟩
        (.ok ()) =
      .schedule GPS_COMMAND_TIMEOUT_DEFAULT_MS
        ⟨source, ENABLE_LOCATION_GATHERING_GPS_STEP_SGPSC_OUTPUT, retries⟩ ∧
    enable_sgpsc_or_sgpss_ready
        ⟨source, ENABLE_LOCATION_GATHERING_GPS_STEP_SGPSC_OUTPUT, retries⟩ (.ok ()) =
      .schedule GPS_COMMAND_TIMEOUT_DEFAULT_MS
        ⟨source, ENABLE_LOCATION_GATHERING_GPS_STEP_SGPSC_ANTENNA, retries⟩ ∧
    enable_sgpsc_or_sgpss_ready
        ⟨source, ENABLE_LOCATION_GATHERING_GPS_STEP_SGPSC_ANTENNA, retries⟩ (.ok ()) =
      .schedule GPS_COMMAND_TIMEOUT_ENGINE_MS
        ⟨source, ENABLE_LOCATION_GATHERING_GPS_STEP_SGPSC_ENGINE, retries⟩ ∧
    enable_sgpsc_or_sgpss_ready
        ⟨source, ENABLE_LOCATION_GATHERING_GPS_STEP_SGPSC_ENGINE, retries⟩ (.ok ()) =
      .schedule GPS_COMMAND_TIMEOUT_DEFAULT_MS
        ⟨source, ENABLE_LOCATION_GATHERING_GPS_STEP_LAST, retries⟩ ∧
    GPS_COMMAND_TIMEOUT_DEFAULT_MS = 100 ∧ GPS_COMMAND_TIMEOUT_ENGINE_MS = 2000 := by
  refine ⟨rfl, rfl, rfl, rfl, rfl, rfl⟩

/-- The last step of the disable sequence, whatever errors are stored: the GPS
data port is closed when the source includes GPS_NMEA or GPS_RAW, then the
`^SGPSS` error is reported if there is one, else the `^SGPSC` error if there is
one, else success, the source being cleared from the enabled mask on success
only. -/
theorem disable_last_step (priv : Private) (port : GpsPort) (source : Nat)
    (se sc : Option GError) (hone : oneDialect priv = true) (hport : port.present = true) :
    disable_location_gathering_context_gps_step priv port
        ⟨source, DISABLE_LOCATION_GATHERING_GPS_STEP_LAST, se, sc⟩ =
      .done
        ((if source &&& (MM_MODEM_LOCATION_SOURCE_GPS_NMEA |||
            MM_MODEM_LOCATION_SOURCE_GPS_RAW) ≠ 0 then [Action.serial_close] else []) ++
          [.task_return (resultOf (se <|> sc))])
        (if (se <|> sc).isSome then priv
          else { priv with enabled_sources := priv.enabled_sources &&& maskNot source }) := by
  cases se <;> cases sc <;>
    simp [disable_location_gathering_context_gps_step, hone, disableSwitch, hport, resultOf,
      DISABLE_LOCATION_GATHERING_GPS_STEP_LAST]

theorem disableRun_done (priv : Private) (port : GpsPort)
    (ctx : DisableLocationGatheringContext) (actions : List Action) (priv' : Private)
    (h : disable_location_gathering_context_gps_step priv port ctx = .done actions priv')
    (rest : List (Except GError Unit)) :
    disableRun priv port rest ctx = ⟨actions, priv'⟩ := by
  cases rest <;> simp [disableRun, h]

/-- Once no command is left to send, the disable sequence ends with its last
step, whatever results are still listed. -/
theorem disableRun_last (priv : Private) (port : GpsPort) (source n : Nat)
    (se sc : Option GError) (rest : List (Except GError Unit))
    (hone : oneDialect priv = true) (hport : port.present = true)
    (hn : n = 5 ∨ (priv.sgpsc_support ≠ .FEATURE_SUPPORTED ∧ n = 2)) :
    disableRun priv port rest ⟨source, n, se, sc⟩ =
      ⟨(if source &&& (MM_MODEM_LOCATION_SOURCE_GPS_NMEA |||
            MM_MODEM_LOCATION_SOURCE_GPS_RAW) ≠ 0 then [Action.serial_close] else []) ++
          [.task_return (resultOf (se <|> sc))],
        if (se <|> sc).isSome then priv
          else { priv with enabled_sources := priv.enabled_sources &&& maskNot source }⟩ := by
  have h5 := disable_last_step priv port source se sc hone hport
  apply disableRun_done
  rcases hn with hn | ⟨hsc, hn⟩
  · subst hn
    exact h5
  · subst hn
    rw [← h5]
    simp [disable_location_gathering_context_gps_step, hone, disableSwitch, hsc,
      DISABLE_LOCATION_GATHERING_GPS_STEP_LAST]

/-- C9: in the disable sequence, for every combination of results of its
commands (one `^SGPSS` command, or three `^SGPSC` commands, by the dialect
supported) and with the GPS data port present: every command is sent whatever
the earlier ones returned; at the last step the port is closed whenever the
requested source includes GPS_NMEA or GPS_RAW, also after errors; the result
reported is the first error among the results of the commands, success if there
is none; the requested source is cleared from the enabled mask exactly when the
result is success.  At the last step the stored `^SGPSS` error is looked at
before the stored `^SGPSC` error. -/
theorem disable_result (priv : Private) (port : GpsPort) (source : Nat)
    (outs rest : List (Except GError Unit)) (se sc : Option GError)
    (hone : oneDialect priv = true) (hport : port.present = true)
    (hlen : outs.length = if priv.sgpss_support = .FEATURE_SUPPORTED then 1 else 3) :
    (disableRun priv port (outs ++ rest) (disableContext source)).actions =
      (if priv.sgpss_support = .FEATURE_SUPPORTED then [Action.at_command "AT^SGPSS=0"]
        else [.at_command "AT^SGPSC=\"Engine\",\"0\"",
          .at_command "AT^SGPSC=\"Power/Antenna\",\"off\"",
          .at_command "AT^SGPSC=\"NMEA/Output\",\"off\""]) ++
        (if source &&& (MM_MODEM_LOCATION_SOURCE_GPS_NMEA |||
            MM_MODEM_LOCATION_SOURCE_GPS_RAW) ≠ 0 then [Action.serial_close] else []) ++
        [.task_return (resultOf (firstError outs))] ∧
    (disableRun priv port (outs ++ rest) (disableContext source)).priv =
      (if (firstError outs).isSome then priv
        else { priv with enabled_sources := priv.enabled_sources &&& maskNot source }) ∧
    disable_location_gathering_context_gps_step priv port
        ⟨source, DISABLE_LOCATION_GATHERING_GPS_STEP_LAST, se, sc⟩ =
      .done
        ((if source &&& (MM_MODEM_LOCATION_SOURCE_GPS_NMEA |||
            MM_MODEM_LOCATION_SOURCE_GPS_RAW) ≠ 0 then [Action.serial_close] else []) ++
          [.task_return (resultOf (se <|> sc))])
        (if (se <|> sc).isSome then priv
          else { priv with enabled_sources := priv.enabled_sources &&& maskNot source }) := by
  refine ⟨?_, ?_, disable_last_step priv port source se sc hone hport⟩
  · by_cases hss : priv.sgpss_support = .FEATURE_SUPPORTED
    · have hsc : priv.sgpsc_support ≠ .FEATURE_SUPPORTED := by
        intro h
        simp [oneDialect, hss, h] at hone
      rw [if_pos hss] at hlen
      match outs, hlen with
      | [o], _ =>
        cases o <;>
          simp [disableRun, disable_location_gathering_context_gps_step, hone, disableSwitch,
            hss, hsc, hport, disableContext, disableReady, disable_sgpss_ready,
            disable_sgpsc_ready, firstError, resultOf,
            DISABLE_LOCATION_GATHERING_GPS_STEP_FIRST, DISABLE_LOCATION_GATHERING_GPS_STEP_SGPSS,
            disableRun_last priv port source 2 _ _ rest hone hport (Or.inr ⟨hsc, rfl⟩)]
    · have hsc : priv.sgpsc_support = .FEATURE_SUPPORTED := by
        by_contra h
        simp [oneDialect, hss, h] at hone
      rw [if_neg hss] at hlen
      match outs, hlen with
      | [o1, o2, o3], _ =>
        cases o1 <;> cases o2 <;> cases o3 <;>
          simp [disableRun, disable_location_gathering_context_gps_step, hone, disableSwitch,
            hss, hsc, hport, disableContext, disableReady, disable_sgpss_ready,
            disable_sgpsc_ready, firstError, resultOf,
            DISABLE_LOCATION_GATHERING_GPS_STEP_FIRST, DISABLE_LOCATION_GATHERING_GPS_STEP_SGPSS,
            disableRun_last priv port source 5 _ _ rest hone hport (Or.inl rfl)]
  · by_cases hss : priv.sgpss_support = .FEATURE_SUPPORTED
    · have hsc : priv.sgpsc_support ≠ .FEATURE_SUPPORTED := by
        intro h
        simp [oneDialect, hss, h] at hone
      rw [if_pos hss] at hlen
      match outs, hlen with
      | [o], _ =>
        cases o <;>
          simp [disableRun, disable_location_gathering_context_gps_step, hone, disableSwitch,
            hss, hsc, hport, disableContext, disableReady, disable_sgpss_ready,
            disable_sgpsc_ready, firstError, resultOf,
            DISABLE_LOCATION_GATHERING_GPS_STEP_FIRST, DISABLE_LOCATION_GATHERING_GPS_STEP_SGPSS,
            disableRun_last priv port source 2 _ _ rest hone hport (Or.inr ⟨hsc, rfl⟩)]
    · have hsc : priv.sgpsc_support = .FEATURE_SUPPORTED := by
        by_contra h
        simp [oneDialect, hss, h] at hone
      rw [if_neg hss] at hlen
      match outs, hlen with
      | [o1, o2, o3], _ =>
        cases o1 <;> cases o2 <;> cases o3 <;>
          simp [disableRun, disable_location_gathering_context_gps_step, hone, disableSwitch,
            hss, hsc, hport, disableContext, disableReady, disable_sgpss_ready,
            disable_sgpsc_ready, firstError, resultOf,
            DISABLE_LOCATION_GATHERING_GPS_STEP_FIRST, DISABLE_LOCATION_GATHERING_GPS_STEP_SGPSS,
            disableRun_last priv port source 5 _ _ rest hone hport (Or.inl rfl)]

/-- C9, at a modem with the `^SGPSC` dialect and NMEA and raw GPS enabled, the
NMEA source being disabled: the Engine command succeeds, the Antenna command
fails with error 1 and the Output command with error 2.  All three commands are
sent, the port is closed, error 1 is reported and the enabled mask is kept. -/
theorem disable_result_witness :
    oneDialect ⟨22, 6, .FEATURE_NOT_SUPPORTED, .FEATURE_SUPPORTED⟩ = true ∧
    (disableRun ⟨22, 6, .FEATURE_NOT_SUPPORTED, .FEATURE_SUPPORTED⟩ ⟨true, .ok ()⟩
        [.ok (), .error (.external 1), .error (.external 2)]
        (disableContext MM_MODEM_LOCATION_SOURCE_GPS_NMEA)).actions =
      [.at_command "AT^SGPSC=\"Engine\",\"0\"",
        .at_command "AT^SGPSC=\"Power/Antenna\",\"off\"",
        .at_command "AT^SGPSC=\"NMEA/Output\",\"off\"", .serial_close,
        .task_return (.error (.external 1))] ∧
    (disableRun ⟨22, 6, .FEATURE_NOT_SUPPORTED, .FEATURE_SUPPORTED⟩ ⟨true, .ok ()⟩
        [.ok (), .error (.external 1), .error (.external 2)]
        (disableContext MM_MODEM_LOCATION_SOURCE_GPS_NMEA)).priv =
      ⟨22, 6, .FEATURE_NOT_SUPPORTED, .FEATURE_SUPPORTED⟩ :=
  ⟨by decide,
    (disable_result ⟨22, 6, .FEATURE_NOT_SUPPORTED, .FEATURE_SUPPORTED⟩ ⟨true, .ok ()⟩
      MM_MODEM_LOCATION_SOURCE_GPS_NMEA [.ok (), .error (.external 1), .error (.external 2)] []
      none none (by decide) rfl rfl).1,
    (disable_result ⟨22, 6, .FEATURE_NOT_SUPPORTED, .FEATURE_SUPPORTED⟩ ⟨true, .ok ()⟩
      MM_MODEM_LOCATION_SOURCE_GPS_NMEA [.ok (), .error (.external 1), .error (.external 2)] []
      none none (by decide) rfl rfl).2.1⟩

theorem enableSwitch_last (priv : Private) (port : GpsPort) (source retries n : Nat) :
    ∃ actions priv', enableSwitch priv port (n + 1) ⟨source, 5, retries⟩ =
      .done actions priv' := by
  simp only [enableSwitch]
  split
  · split
    · exact ⟨_, _, rfl⟩
    · split
      · exact ⟨_, _, rfl⟩
      · exact ⟨_, _, rfl⟩
  · exact ⟨_, _, rfl⟩

theorem enableSwitch_fuel (priv : Private) (port : GpsPort) :
    ∀ (fuel : Nat) (ctx : EnableLocationGatheringContext),
      ctx.gps_step ≤ 5 → 5 < fuel + ctx.gps_step →
      (∃ command ctx', enableSwitch priv port fuel ctx = .command command ctx') ∨
        ∃ actions priv', enableSwitch priv port fuel ctx = .done actions priv' := by
  intro fuel
  induction fuel with
  | zero => intro ctx h1 h2; omega
  | succ n ih =>
    intro ctx h1 h2
    obtain ⟨source, step, retries⟩ := ctx
    simp only at h1 h2
    interval_cases step
    · simp only [enableSwitch]
      exact ih _ (by simp) (by simp only; omega)
    · simp only [enableSwitch]
      split
      · exact Or.inl ⟨_, _, rfl⟩
      · exact ih _ (by simp) (by simp only; omega)
    · simp only [enableSwitch]
      split
      · exact Or.inl ⟨_, _, rfl⟩
      · exact ih _ (by simp) (by simp only; omega)
    · simp only [enableSwitch]
      split
      · exact Or.inl ⟨_, _, rfl⟩
      · exact ih _ (by simp) (by simp only; omega)
    · simp only [enableSwitch]
      split
      · exact Or.inl ⟨_, _, rfl⟩
      · exact ih _ (by simp) (by simp only; omega)
    · exact Or.inr (enableSwitch_last priv port source retries n)

/-- The enable step never falls out of its `switch` without a case: for every
step number of the enumeration it sends a command or completes the task, the
fuel given to the `switch` being enough. -/
theorem enableSwitch_decides (priv : Private) (port : GpsPort)
    (ctx : EnableLocationGatheringContext)
    (h : ctx.gps_step ≤ ENABLE_LOCATION_GATHERING_GPS_STEP_LAST) :
    (∃ command ctx', enableSwitch priv port 6 ctx = .command command ctx') ∨
      ∃ actions priv', enableSwitch priv port 6 ctx = .done actions priv' :=
  enableSwitch_fuel priv port 6 ctx h (by omega)

theorem disableSwitch_last (priv : Private) (port : GpsPort) (source n : Nat)
    (se sc : Option GError) :
    ∃ actions priv', disableSwitch priv port (n + 1) ⟨source, 5, se, sc⟩ =
      .done actions priv' := by
  cases se <;> cases sc <;> exact ⟨_, _, rfl⟩

theorem disableSwitch_fuel (priv : Private) (port : GpsPort) :
    ∀ (fuel : Nat) (ctx : DisableLocationGatheringContext),
      ctx.gps_step ≤ 5 → 5 < fuel + ctx.gps_step →
      (∃ command ctx', disableSwitch priv port fuel ctx = .command command ctx') ∨
        ∃ actions priv', disableSwitch priv port fuel ctx = .done actions priv' := by
  intro fuel
  induction fuel with
  | zero => intro ctx h1 h2; omega
  | succ n ih =>
    intro ctx h1 h2
    obtain ⟨source, step, se, sc⟩ := ctx
    simp only at h1 h2
    interval_cases step
    · simp only [disableSwitch]
      exact ih _ (by simp) (by simp only; omega)
    · simp only [disableSwitch]
      split
      · exact Or.inl ⟨_, _, rfl⟩
      · exact ih _ (by simp) (by simp only; omega)
    · simp only [disableSwitch]
      split
      · exact Or.inl ⟨_, _, rfl⟩
      · exact ih _ (by simp) (by simp only; omega)
    · simp only [disableSwitch]
      split
      · exact Or.inl ⟨_, _, rfl⟩
      · exact ih _ (by simp) (by simp only; omega)
    · simp only [disableSwitch]
      split
      · exact Or.inl ⟨_, _, rfl⟩
      · exact ih _ (by simp) (by simp only; omega)
    · exact Or.inr (disableSwitch_last priv port source n se sc)

/-- The disable step never falls out of its `switch` without a case. -/
theorem disableSwitch_decides (priv : Private) (port : GpsPort)
    (ctx : DisableLocationGatheringContext)
    (h : ctx.gps_step ≤ DISABLE_LOCATION_GATHERING_GPS_STEP_LAST) :
    (∃ command ctx', disableSwitch priv port 6 ctx = .command command ctx') ∨
      ∃ actions priv', disableSwitch priv port 6 ctx = .done actions priv' :=
  disableSwitch_fuel priv port 6 ctx h (by omega)


/-! ## Enable and disable requests -/

theorem enableRun_done (priv : Private) (port : GpsPort)
    (ctx : EnableLocationGatheringContext) (actions : List Action) (priv' : Private)
    (h : enable_location_gathering_context_gps_step priv port ctx = .done actions priv')
    (rest : List (Except GError Unit)) :
    enableRun priv port rest ctx = ⟨actions, priv'⟩ := by
  cases rest <;> simp [enableRun, h]

/-- The last step of the enable sequence: it sends no command; it reports
success only after the GPS data port has been opened when the source includes
GPS_NMEA or GPS_RAW, and then the source is added to the enabled mask. -/
theorem enable_last_step (priv : Private) (port : GpsPort) (source retries : Nat)
    (hone : oneDialect priv = true) :
    ∃ actions priv',
      enable_location_gathering_context_gps_step priv port
        ⟨source, ENABLE_LOCATION_GATHERING_GPS_STEP_LAST, retries⟩ = .done actions priv' ∧
      commandsOf actions = [] ∧
      (reported actions = some (.ok ()) →
        priv' = { priv with enabled_sources := priv.enabled_sources ||| source } ∧
        (source &&& (MM_MODEM_LOCATION_SOURCE_GPS_NMEA |||
            MM_MODEM_LOCATION_SOURCE_GPS_RAW) ≠ 0 →
          port.present = true ∧ port.open_result = .ok () ∧
            actions = [.serial_open, .task_return (.ok ())])) := by
  simp only [enable_location_gathering_context_gps_step, hone, if_true,
    ENABLE_LOCATION_GATHERING_GPS_STEP_LAST, enableSwitch]
  by_cases hs : source &&& (MM_MODEM_LOCATION_SOURCE_GPS_NMEA |||
      MM_MODEM_LOCATION_SOURCE_GPS_RAW) ≠ 0
  · rw [if_pos hs]
    by_cases hp : port.present = true
    · simp only [hp, Bool.not_true, Bool.false_eq_true, if_false]
      cases ho : port.open_result with
      | error e =>
        exact ⟨_, _, rfl, rfl, by simp [reported]⟩
      | ok u =>
        exact ⟨_, _, rfl, rfl, by simp [reported]⟩
    · simp only [hp, Bool.not_false, if_true]
      exact ⟨_, _, rfl, rfl, by simp [reported]⟩
  · rw [if_neg hs]
    exact ⟨_, _, rfl, rfl, by simp [reported, hs]⟩

/-- The commands of the enable sequence with the `^SGPSC` dialect when every
command succeeds. -/
theorem enable_commands_sgpsc (priv : Private) (port : GpsPort) (source : Nat)
    (rest : List (Except GError Unit))
    (hss : priv.sgpss_support ≠ .FEATURE_SUPPORTED)
    (hsc : priv.sgpsc_support = .FEATURE_SUPPORTED) :
    commandsOf (enableRun priv port (.ok () :: .ok () :: .ok () :: rest)
        (enableContext source)).actions =
      ["AT^SGPSC=\"NMEA/Output\",\"on\"", "AT^SGPSC=\"Power/Antenna\",\"on\"",
        "AT^SGPSC=\"Engine\",\"1\""] := by
  have h1 : oneDialect priv = true := by simp [oneDialect, hss, hsc]
  obtain ⟨acts, p, h5, hc, -⟩ := enable_last_step priv port source 0 h1
  have h6 := enableRun_done priv port _ acts p h5 rest
  simp only [ENABLE_LOCATION_GATHERING_GPS_STEP_LAST] at h6
  simp [enableRun, enable_location_gathering_context_gps_step, h1, enableSwitch, hss, hsc,
    enableContext, enable_sgpsc_or_sgpss_ready, scheduleDelay,
    ENABLE_LOCATION_GATHERING_GPS_STEP_FIRST, ENABLE_LOCATION_GATHERING_GPS_STEP_SGPSC_ENGINE,
    GPS_COMMAND_TIMEOUT_ENGINE_MS, GPS_COMMAND_TIMEOUT_DEFAULT_MS, h6, commandsOf, hc]
  simpa [commandsOf] using hc

/-- What the `switch` of the enable sequence can end with: a command sent from
a context with the same source, or the last step. -/
theorem enableSwitch_cases (priv : Private) (port : GpsPort) :
    ∀ (fuel : Nat) (ctx : EnableLocationGatheringContext),
      (∀ command ctx', enableSwitch priv port fuel ctx = .command command ctx' →
        ctx'.source = ctx.source) ∧
      (∀ actions priv', enableSwitch priv port fuel ctx = .done actions priv' →
        commandsOf actions = [] ∧
        (reported actions = some (.ok ()) →
          priv' = { priv with enabled_sources := priv.enabled_sources ||| ctx.source } ∧
          (ctx.source &&& (MM_MODEM_LOCATION_SOURCE_GPS_NMEA |||
              MM_MODEM_LOCATION_SOURCE_GPS_RAW) ≠ 0 →
            port.present = true ∧ port.open_result = .ok () ∧
              actions = [.serial_open, .task_return (.ok ())]))) := by
  intro fuel
  induction fuel with
  | zero =>
    intro ctx
    constructor
    · intro c ctx' h
      simp [enableSwitch] at h
    · intro a p h
      simp [enableSwitch] at h
  | succ n ih =>
    intro ctx
    obtain ⟨source, step, retries⟩ := ctx
    have hnext := ih ⟨source, step + 1, retries⟩
    simp only at hnext
    match step with
    | 0 =>
      simp only [enableSwitch]
      exact hnext
    | 1 =>
      simp only [enableSwitch]
      split
      · exact ⟨fun c ctx' h => by cases h; rfl, fun a p h => by cases h⟩
      · exact hnext
    | 2 =>
      simp only [enableSwitch]
      split
      · exact ⟨fun c ctx' h => by cases h; rfl, fun a p h => by cases h⟩
      · exact hnext
    | 3 =>
      simp only [enableSwitch]
      split
      · exact ⟨fun c ctx' h => by cases h; rfl, fun a p h => by cases h⟩
      · exact hnext
    | 4 =>
      simp only [enableSwitch]
      split
      · exact ⟨fun c ctx' h => by cases h; rfl, fun a p h => by cases h⟩
      · exact hnext
    | 5 =>
      simp only [enableSwitch]
      refine ⟨?_, ?_⟩
      · intro c ctx' h
        split at h
        · split at h
          · cases h
          · split at h <;> cases h
        · cases h
      · intro a p h
        split at h
        · rename_i hs
          split at h
          · cases h
            exact ⟨rfl, by simp [reported]⟩
          · rename_i hp
            split at h
            · cases h
              exact ⟨rfl, by simp [reported]⟩
            · rename_i ho
              cases h
              refine ⟨rfl, ?_⟩
              intro _
              refine ⟨rfl, ?_⟩
              intro _
              simp at hp
              exact ⟨hp, ho, rfl⟩
        · rename_i hs
          cases h
          exact ⟨rfl, by simp [reported, hs]⟩
    | k + 6 =>
      simp only [enableSwitch]
      exact ⟨fun c ctx' h => (by cases h), fun a p h => (by cases h)⟩
theorem enable_ready_source (ctx ctx' : EnableLocationGatheringContext)
    (res : Except GError Unit) (interval : Nat)
    (h : enable_sgpsc_or_sgpss_ready ctx res = .schedule interval ctx') :
    ctx'.source = ctx.source := by
  cases res with
  | error e =>
    simp only [enable_sgpsc_or_sgpss_ready] at h
    split at h
    · split at h
      · cases h; rfl
      · cases h
    · cases h
  | ok u =>
    simp only [enable_sgpsc_or_sgpss_ready] at h
    cases h; rfl

/-- A run of the enable sequence for a source that includes GPS_NMEA or GPS_RAW
reports success only after opening the GPS data port. -/
theorem enableRun_success (priv : Private) (port : GpsPort) (source : Nat)
    (hsrc : source &&& (MM_MODEM_LOCATION_SOURCE_GPS_NMEA |||
      MM_MODEM_LOCATION_SOURCE_GPS_RAW) ≠ 0) :
    ∀ (results : List (Except GError Unit)) (ctx : EnableLocationGatheringContext)
      (isOpen : Bool), ctx.source = source →
      reported (enableRun priv port results ctx).actions = some (.ok ()) →
      portAfter port isOpen (enableRun priv port results ctx).actions = true ∧
        port.present = true ∧ port.open_result = .ok () ∧
        (enableRun priv port results ctx).priv =
          { priv with enabled_sources := priv.enabled_sources ||| source } := by
  have hdone : ∀ (ctx : EnableLocationGatheringContext) (isOpen : Bool) actions priv',
      ctx.source = source →
      enable_location_gathering_context_gps_step priv port ctx = .done actions priv' →
      reported actions = some (.ok ()) →
      portAfter port isOpen actions = true ∧ port.present = true ∧
        port.open_result = .ok () ∧
        priv' = { priv with enabled_sources := priv.enabled_sources ||| source } := by
    intro ctx isOpen actions priv' hc h hr
    simp only [enable_location_gathering_context_gps_step] at h
    split at h
    · obtain ⟨-, h2⟩ := (enableSwitch_cases priv port 6 ctx).2 actions priv' h
      obtain ⟨hp, h3⟩ := h2 hr
      rw [hc] at hp h3
      obtain ⟨h4, h5, h6⟩ := h3 hsrc
      refine ⟨?_, h4, h5, hp⟩
      rw [h6]
      simp [portAfter, h5]
    · cases h
  have hcmd : ∀ (ctx ctx' : EnableLocationGatheringContext) command,
      enable_location_gathering_context_gps_step priv port ctx = .command command ctx' →
      ctx'.source = ctx.source := by
    intro ctx ctx' command h
    simp only [enable_location_gathering_context_gps_step] at h
    split at h
    · exact (enableSwitch_cases priv port 6 ctx).1 command ctx' h
    · cases h
  intro results
  induction results with
  | nil =>
    intro ctx isOpen hc hr
    cases h : enable_location_gathering_context_gps_step priv port ctx with
    | command c ctx' => simp [enableRun, h, reported] at hr
    | done a p =>
      simp only [enableRun, h] at hr ⊢
      exact hdone ctx isOpen a p hc h hr
    | aborted => simp [enableRun, h, reported] at hr
    | nothing => simp [enableRun, h, reported] at hr
  | cons res rest ih =>
    intro ctx isOpen hc hr
    cases h : enable_location_gathering_context_gps_step priv port ctx with
    | command c ctx' =>
      cases h2 : enable_sgpsc_or_sgpss_ready ctx' res with
      | schedule i ctx'' =>
        simp only [enableRun, h, h2, reported] at hr ⊢
        have hs : ctx''.source = source := by
          rw [enable_ready_source _ _ _ _ h2, hcmd _ _ _ h, hc]
        simpa [portAfter] using ih ctx'' isOpen hs hr
      | failed e => simp [enableRun, h, h2, reported] at hr
    | done a p =>
      simp only [enableRun, h] at hr ⊢
      exact hdone ctx isOpen a p hc h hr
    | aborted => simp [enableRun, h, reported] at hr
    | nothing => simp [enableRun, h, reported] at hr

/-- C11 (as stated, refuted): with the `^SGPSC` dialect supported and every
command succeeding, the commands sent are NMEA Output, Antenna, Engine in this
order; the Engine command is the last one, so it is not issued before the NMEA
Output command. -/
theorem enable_order_counterexample :
    commandsOf (enableRun ⟨22, 0, .FEATURE_NOT_SUPPORTED, .FEATURE_SUPPORTED⟩ ⟨true, .ok ()⟩
        [.ok (), .ok (), .ok ()] (enableContext MM_MODEM_LOCATION_SOURCE_GPS_NMEA)).actions =
      ["AT^SGPSC=\"NMEA/Output\",\"on\"", "AT^SGPSC=\"Power/Antenna\",\"on\"",
        "AT^SGPSC=\"Engine\",\"1\""] ∧
    ¬ (issuedBefore "AT^SGPSC=\"Power/Antenna\",\"on\"" "AT^SGPSC=\"Engine\",\"1\""
        (commandsOf (enableRun ⟨22, 0, .FEATURE_NOT_SUPPORTED, .FEATURE_SUPPORTED⟩
          ⟨true, .ok ()⟩ [.ok (), .ok (), .ok ()]
          (enableContext MM_MODEM_LOCATION_SOURCE_GPS_NMEA)).actions) = true ∧
      issuedBefore "AT^SGPSC=\"Engine\",\"1\"" "AT^SGPSC=\"NMEA/Output\",\"on\""
        (commandsOf (enableRun ⟨22, 0, .FEATURE_NOT_SUPPORTED, .FEATURE_SUPPORTED⟩
          ⟨true, .ok ()⟩ [.ok (), .ok (), .ok ()]
          (enableContext MM_MODEM_LOCATION_SOURCE_GPS_NMEA)).actions) = true) := by
  decide

/-- C11 (amended): in the trace of commands issued by the enable sequence with
the `^SGPSC` dialect supported and every command succeeding, the NMEA Output
command is issued before the Antenna command and the Antenna command is issued
before the Engine command; the Engine command is not issued before the NMEA
Output command. -/
theorem enable_order_output_antenna_engine (priv : Private) (port : GpsPort) (source : Nat)
    (rest : List (Except GError Unit))
    (hss : priv.sgpss_support ≠ .FEATURE_SUPPORTED)
    (hsc : priv.sgpsc_support = .FEATURE_SUPPORTED) :
    issuedBefore "AT^SGPSC=\"NMEA/Output\",\"on\"" "AT^SGPSC=\"Power/Antenna\",\"on\""
        (commandsOf (enableRun priv port (.ok () :: .ok () :: .ok () :: rest)
          (enableContext source)).actions) = true ∧
    issuedBefore "AT^SGPSC=\"Power/Antenna\",\"on\"" "AT^SGPSC=\"Engine\",\"1\""
        (commandsOf (enableRun priv port (.ok () :: .ok () :: .ok () :: rest)
          (enableContext source)).actions) = true ∧
    issuedBefore "AT^SGPSC=\"Engine\",\"1\"" "AT^SGPSC=\"NMEA/Output\",\"on\""
        (commandsOf (enableRun priv port (.ok () :: .ok () :: .ok () :: rest)
          (enableContext source)).actions) = false := by
  rw [enable_commands_sgpsc priv port source rest hss hsc]
  decide

/-- C11 (amended), at a modem with the `^SGPSC` dialect and the NMEA source
requested. -/
theorem enable_order_output_antenna_engine_witness :
    FeatureSupport.FEATURE_NOT_SUPPORTED ≠ FeatureSupport.FEATURE_SUPPORTED ∧
    issuedBefore "AT^SGPSC=\"NMEA/Output\",\"on\"" "AT^SGPSC=\"Power/Antenna\",\"on\""
        (commandsOf (enableRun ⟨22, 0, .FEATURE_NOT_SUPPORTED, .FEATURE_SUPPORTED⟩
          ⟨true, .ok ()⟩ [.ok (), .ok (), .ok ()]
          (enableContext MM_MODEM_LOCATION_SOURCE_GPS_NMEA)).actions) = true ∧
    issuedBefore "AT^SGPSC=\"Power/Antenna\",\"on\"" "AT^SGPSC=\"Engine\",\"1\""
        (commandsOf (enableRun ⟨22, 0, .FEATURE_NOT_SUPPORTED, .FEATURE_SUPPORTED⟩
          ⟨true, .ok ()⟩ [.ok (), .ok (), .ok ()]
          (enableContext MM_MODEM_LOCATION_SOURCE_GPS_NMEA)).actions) = true ∧
    issuedBefore "AT^SGPSC=\"Engine\",\"1\"" "AT^SGPSC=\"NMEA/Output\",\"on\""
        (commandsOf (enableRun ⟨22, 0, .FEATURE_NOT_SUPPORTED, .FEATURE_SUPPORTED⟩
          ⟨true, .ok ()⟩ [.ok (), .ok (), .ok ()]
          (enableContext MM_MODEM_LOCATION_SOURCE_GPS_NMEA)).actions) = false :=
  ⟨by decide,
    enable_order_output_antenna_engine ⟨22, 0, .FEATURE_NOT_SUPPORTED, .FEATURE_SUPPORTED⟩
      ⟨true, .ok ()⟩ MM_MODEM_LOCATION_SOURCE_GPS_NMEA [] (by decide) rfl⟩

/-- C12 (as stated, refuted): not every enable request for GPS_NMEA or GPS_RAW
that reports success leaves the GPS data port open.  From the state with no
source enabled and the port closed, the unmanaged GPS source is enabled (the
sequence runs and does not open the port), then GPS_NMEA is requested: a GPS
source being enabled already, success is reported at once and the port is still
closed. -/
theorem enable_success_port_counterexample :
    ¬ ∀ (port : GpsPort) (parent : ParentLocation) (priv : Private)
        (requests : List LocationRequest) (source : Nat) (results : List (Except GError Unit)),
        priv.enabled_sources = 0 →
        source &&& (MM_MODEM_LOCATION_SOURCE_GPS_NMEA ||| MM_MODEM_LOCATION_SOURCE_GPS_RAW) ≠ 0 →
        reported ((LocationRequest.enable source results).run port parent
            (LocationState.after port parent ⟨priv, false⟩ requests).priv).actions =
          some (.ok ()) →
        (LocationState.after port parent ⟨priv, false⟩
            (requests ++ [.enable source results])).gps_open = true := by
  intro h
  have h1 := h ⟨true, .ok ()⟩ ⟨fun _ => .ok (), none⟩
    ⟨22, 0, .FEATURE_NOT_SUPPORTED, .FEATURE_SUPPORTED⟩
    [.enable MM_MODEM_LOCATION_SOURCE_GPS_UNMANAGED [.ok (), .ok (), .ok ()]]
    MM_MODEM_LOCATION_SOURCE_GPS_NMEA [] rfl (by decide) rfl
  exact Bool.false_ne_true h1

/-- C12 (amended): for an enable request of a source this layer supports that
includes GPS_NMEA or GPS_RAW and that reports success: when no GPS source is in
the enabled mask at the request, the sequence has opened the GPS data port, the
open having succeeded, and the port is open afterwards; when a GPS source is in
the enabled mask already, success is reported at once with nothing else done
and the port is left as it was. -/
theorem enable_success_port_open (priv : Private) (port : GpsPort) (parent : ParentLocation)
    (source : Nat) (results : List (Except GError Unit)) (isOpen : Bool)
    (hsup : priv.supported_sources &&& source ≠ 0)
    (hsrc : source &&& (MM_MODEM_LOCATION_SOURCE_GPS_NMEA |||
      MM_MODEM_LOCATION_SOURCE_GPS_RAW) ≠ 0)
    (hok : reported ((LocationRequest.enable source results).run port parent priv).actions =
      some (.ok ())) :
    (priv.enabled_sources &&& gpsSources = 0 →
      (LocationState.step port parent ⟨priv, isOpen⟩ (.enable source results)).gps_open = true ∧
        port.present = true ∧ port.open_result = .ok ()) ∧
    (priv.enabled_sources &&& gpsSources ≠ 0 →
      ((LocationRequest.enable source results).run port parent priv).actions =
          [.task_return (.ok ())] ∧
        (LocationState.step port parent ⟨priv, isOpen⟩ (.enable source results)).gps_open =
          isOpen) := by
  simp only [LocationRequest.run, mm_shared_cinterion_enable_location_gathering,
    LocationState.step, if_neg hsup] at hok ⊢
  by_cases hg : source &&& gpsSources = 0
  · simp [hg, reported] at hok
  · simp only [if_neg hg] at hok ⊢
    constructor
    · intro hnone
      have hn : ¬ priv.enabled_sources &&& gpsSources ≠ 0 := by simp [hnone]
      simp only [if_neg hn] at hok ⊢
      obtain ⟨h1, h2, h3, -⟩ :=
        enableRun_success priv port source hsrc results (enableContext source) isOpen rfl hok
      exact ⟨h1, h2, h3⟩
    · intro hsome
      simp only [if_pos hsome]
      exact ⟨trivial, rfl⟩

/-- C12 (amended), at a modem with the `^SGPSC` dialect, nothing enabled and
the port closed, the NMEA source being enabled and every command succeeding:
the port is open afterwards. -/
theorem enable_success_port_open_witness :
    (22 : Nat) &&& MM_MODEM_LOCATION_SOURCE_GPS_NMEA ≠ 0 ∧
    MM_MODEM_LOCATION_SOURCE_GPS_NMEA &&& (MM_MODEM_LOCATION_SOURCE_GPS_NMEA |||
      MM_MODEM_LOCATION_SOURCE_GPS_RAW) ≠ 0 ∧
    reported ((LocationRequest.enable MM_MODEM_LOCATION_SOURCE_GPS_NMEA
        [.ok (), .ok (), .ok ()]).run ⟨true, .ok ()⟩ ⟨fun _ => .ok (), none⟩
        ⟨22, 0, .FEATURE_NOT_SUPPORTED, .FEATURE_SUPPORTED⟩).actions = some (.ok ()) ∧
    (LocationState.step ⟨true, .ok ()⟩ ⟨fun _ => .ok (), none⟩
      ⟨⟨22, 0, .FEATURE_NOT_SUPPORTED, .FEATURE_SUPPORTED⟩, false⟩
      (.enable MM_MODEM_LOCATION_SOURCE_GPS_NMEA [.ok (), .ok (), .ok ()])).gps_open = true :=
  ⟨by decide, by decide, rfl,
    ((enable_success_port_open ⟨22, 0, .FEATURE_NOT_SUPPORTED, .FEATURE_SUPPORTED⟩
      ⟨true, .ok ()⟩ ⟨fun _ => .ok (), none⟩ MM_MODEM_LOCATION_SOURCE_GPS_NMEA
      [.ok (), .ok (), .ok ()] false (by decide) (by decide) rfl).1 (by decide)).1⟩

/-! ## The probe of the GPS features -/

theorem and_two_pow_eq_zero (P k : Nat) : P &&& 2 ^ k = 0 ↔ P.testBit k = false := by
  rw [Nat.and_two_pow]
  cases h : P.testBit k <;> simp

theorem or_two_pow_of_testBit (P k : Nat) (h : P.testBit k = true) : P ||| 2 ^ k = P := by
  apply Nat.eq_of_testBit_eq
  intro i
  rw [Nat.testBit_or, Nat.testBit_two_pow]
  by_cases hk : k = i
  · subst hk
    simp [h]
  · simp [hk]

/-- A mask united with the GPS sources the mask does not hold is the mask
united with the three GPS sources, and those sources are not in the mask. -/
theorem ownSources_spec (P : Nat) :
    P ||| ownSources P = P ||| gpsSources ∧ ownSources P &&& P = 0 ∧
      ownSources P &&& gpsSources = ownSources P ∧
      (ownSources P &&& MM_MODEM_LOCATION_SOURCE_GPS_NMEA ≠ 0 ↔
        P &&& MM_MODEM_LOCATION_SOURCE_GPS_NMEA = 0) ∧
      (ownSources P &&& MM_MODEM_LOCATION_SOURCE_GPS_RAW ≠ 0 ↔
        P &&& MM_MODEM_LOCATION_SOURCE_GPS_RAW = 0) ∧
      (ownSources P &&& MM_MODEM_LOCATION_SOURCE_GPS_UNMANAGED ≠ 0 ↔
        P &&& MM_MODEM_LOCATION_SOURCE_GPS_UNMANAGED = 0) := by
  have e2 : MM_MODEM_LOCATION_SOURCE_GPS_RAW = 2 ^ 1 := rfl
  have e4 : MM_MODEM_LOCATION_SOURCE_GPS_NMEA = 2 ^ 2 := rfl
  have e16 : MM_MODEM_LOCATION_SOURCE_GPS_UNMANAGED = 2 ^ 4 := rfl
  simp only [ownSources, gpsSources, e2, e4, e16, and_two_pow_eq_zero]
  cases h1 : P.testBit 1 <;> cases h2 : P.testBit 2 <;> cases h4 : P.testBit 4 <;>
    simp only [eq_self_iff_true, Bool.true_eq_false, if_true, if_false, Nat.or_zero,
      Nat.zero_or, iff_true, iff_false, not_not, ne_eq] <;>
    refine ⟨?_, ?_, ?_, ?_, ?_, ?_⟩ <;>
    first
      | decide
      | (apply Nat.eq_of_testBit_eq
         intro i
         simp only [Nat.testBit_or, Nat.testBit_and, Nat.testBit_two_pow, Nat.zero_testBit]
         by_cases i1 : 1 = i <;> by_cases i2 : 2 = i <;> by_cases i4 : 4 = i <;>
           first
             | (subst i1; simp [h1])
             | (subst i2; simp [h2])
             | (subst i4; simp [h4])
             | simp [i1, i2, i4])

/-- What a call of `probe_gps_features` does, by the flags: a flag still
unknown is tested, `^SGPSS` first; with both known the task is completed, the
flags being left as they are and the sources of this layer recorded when a
dialect is supported. -/
theorem probe_gps_features_eq (priv : Private) (sources : Nat) :
    probe_gps_features priv sources =
      if priv.sgpss_support = .FEATURE_SUPPORT_UNKNOWN then .test_sgpss
      else if priv.sgpsc_support = .FEATURE_SUPPORT_UNKNOWN then .test_sgpsc
      else if priv.sgpss_support = .FEATURE_SUPPORTED ∨
          priv.sgpsc_support = .FEATURE_SUPPORTED then
        .done ⟨[.add_trace_handler,
            .return_int (sources ||| (priv.supported_sources ||| ownSources sources))],
          { priv with supported_sources := priv.supported_sources ||| ownSources sources }⟩
      else .done ⟨[.return_int sources], priv⟩ := by
  simp only [probe_gps_features, ownSources]
  by_cases h1 : sources &&& MM_MODEM_LOCATION_SOURCE_GPS_NMEA = 0 <;>
    by_cases h2 : sources &&& MM_MODEM_LOCATION_SOURCE_GPS_RAW = 0 <;>
    by_cases h3 : sources &&& MM_MODEM_LOCATION_SOURCE_GPS_UNMANAGED = 0 <;>
    simp only [h1, h2, h3, if_true, if_false, Nat.or_zero, Nat.zero_or, Nat.or_assoc]

/-- A flag that is known is kept. -/
theorem probeRun_known (sources : Nat) (results : List (Except GError CStr)) (priv : Private)
    (h1 : priv.sgpss_support ≠ .FEATURE_SUPPORT_UNKNOWN)
    (h2 : priv.sgpsc_support ≠ .FEATURE_SUPPORT_UNKNOWN) :
    probeRun sources results priv =
      if priv.sgpss_support = .FEATURE_SUPPORTED ∨
          priv.sgpsc_support = .FEATURE_SUPPORTED then
        ⟨[.add_trace_handler,
            .return_int (sources ||| (priv.supported_sources ||| ownSources sources))],
          { priv with supported_sources := priv.supported_sources ||| ownSources sources }⟩
      else ⟨[.return_int sources], priv⟩ := by
  by_cases h : priv.sgpss_support = .FEATURE_SUPPORTED ∨
      priv.sgpsc_support = .FEATURE_SUPPORTED <;>
    cases results <;>
    simp only [probeRun, probe_gps_features_eq, if_neg h1, if_neg h2, h, if_true, if_false]

theorem probeRun_test_sgpss (sources : Nat) (res : Except GError CStr)
    (rest : List (Except GError CStr)) (priv : Private)
    (h1 : priv.sgpss_support = .FEATURE_SUPPORT_UNKNOWN) :
    probeRun sources (res :: rest) priv =
      ⟨.test_command "AT^SGPSS=?" :: ((sgpss_test_ready priv res).actions ++
          (probeRun sources rest (sgpss_test_ready priv res).priv).actions),
        (probeRun sources rest (sgpss_test_ready priv res).priv).priv⟩ := by
  rw [probeRun, probe_gps_features_eq, if_pos h1]

theorem probeRun_test_sgpsc (sources : Nat) (res : Except GError CStr)
    (rest : List (Except GError CStr)) (priv : Private)
    (h1 : priv.sgpss_support ≠ .FEATURE_SUPPORT_UNKNOWN)
    (h2 : priv.sgpsc_support = .FEATURE_SUPPORT_UNKNOWN) :
    probeRun sources (res :: rest) priv =
      ⟨.test_command "AT^SGPSC=?" :: ((sgpsc_test_ready priv res).actions ++
          (probeRun sources rest (sgpsc_test_ready priv res).priv).actions),
        (probeRun sources rest (sgpsc_test_ready priv res).priv).priv⟩ := by
  rw [probeRun, probe_gps_features_eq, if_neg h1, if_pos h2]

/-- The probe from private data with `^SGPSS` known and `^SGPSC` unknown, the
`^SGPSC` test being answered. -/
theorem probeRun_sgpsc (sources : Nat) (res : Except GError CStr)
    (rest : List (Except GError CStr)) (priv : Private)
    (h1 : priv.sgpss_support = .FEATURE_NOT_SUPPORTED)
    (h2 : priv.sgpsc_support = .FEATURE_SUPPORT_UNKNOWN) :
    probeRun sources (res :: rest) priv =
      match res with
      | .ok _ =>
        ⟨[.test_command "AT^SGPSC=?", .fire_command "AT^SGPSC=\"Engine\",\"0\"",
            .fire_command "AT^SGPSC=\"Power/Antenna\",\"off\"",
            .fire_command "AT^SGPSC=\"NMEA/Output\",\"off\"", .add_trace_handler,
            .return_int (sources ||| (priv.supported_sources ||| ownSources sources))],
          { priv with
            sgpsc_support := .FEATURE_SUPPORTED
            supported_sources := priv.supported_sources ||| ownSources sources }⟩
      | .error _ =>
        ⟨[.test_command "AT^SGPSC=?", .return_int sources],
          { priv with sgpsc_support := .FEATURE_NOT_SUPPORTED }⟩ := by
  rw [probeRun_test_sgpsc _ _ _ _ (by rw [h1]; decide) h2]
  cases res with
  | ok reply =>
    rw [probeRun_known _ _ _ (by simp [sgpsc_test_ready, h1]) (by simp [sgpsc_test_ready])]
    simp [sgpsc_test_ready, h1]
  | error e =>
    rw [probeRun_known _ _ _ (by simp [sgpsc_test_ready, h1]) (by simp [sgpsc_test_ready])]
    simp [sgpsc_test_ready, h1]

/-- The probe from private data with both flags unknown, two results being
listed: `^SGPSS` is tested; when the test succeeds `^SGPSC` is marked
unsupported without a test; when it fails `^SGPSC` is tested. -/
theorem probeRun_unknown (sources : Nat) (r1 r2 : Except GError CStr)
    (rest : List (Except GError CStr)) (priv : Private)
    (h1 : priv.sgpss_support = .FEATURE_SUPPORT_UNKNOWN)
    (h2 : priv.sgpsc_support = .FEATURE_SUPPORT_UNKNOWN) :
    probeRun sources (r1 :: r2 :: rest) priv =
      match r1, r2 with
      | .ok _, _ =>
        ⟨[.test_command "AT^SGPSS=?", .fire_command "AT^SGPSS=0", .add_trace_handler,
            .return_int (sources ||| (priv.supported_sources ||| ownSources sources))],
          { priv with
            sgpss_support := .FEATURE_SUPPORTED
            sgpsc_support := .FEATURE_NOT_SUPPORTED
            supported_sources := priv.supported_sources ||| ownSources sources }⟩
      | .error _, .ok _ =>
        ⟨[.test_command "AT^SGPSS=?", .test_command "AT^SGPSC=?",
            .fire_command "AT^SGPSC=\"Engine\",\"0\"",
            .fire_command "AT^SGPSC=\"Power/Antenna\",\"off\"",
            .fire_command "AT^SGPSC=\"NMEA/Output\",\"off\"", .add_trace_handler,
            .return_int (sources ||| (priv.supported_sources ||| ownSources sources))],
          { priv with
            sgpss_support := .FEATURE_NOT_SUPPORTED
            sgpsc_support := .FEATURE_SUPPORTED
            supported_sources := priv.supported_sources ||| ownSources sources }⟩
      | .error _, .error _ =>
        ⟨[.test_command "AT^SGPSS=?", .test_command "AT^SGPSC=?", .return_int sources],
          { priv with
            sgpss_support := .FEATURE_NOT_SUPPORTED
            sgpsc_support := .FEATURE_NOT_SUPPORTED }⟩ := by
  rw [probeRun_test_sgpss _ _ _ _ h1]
  cases r1 with
  | ok reply =>
    rw [probeRun_known _ _ _ (by simp [sgpss_test_ready]) (by simp [sgpss_test_ready])]
    simp [sgpss_test_ready]
  | error e =>
    have hp : sgpss_test_ready priv (.error e) =
        ⟨[], { priv with sgpss_support := .FEATURE_NOT_SUPPORTED }⟩ := rfl
    simp only [hp, List.nil_append]
    rw [probeRun_sgpsc sources r2 rest { priv with sgpss_support := .FEATURE_NOT_SUPPORTED }
      rfl h2]
    cases r2 <;> rfl

theorem Private.init_probed : Private.init.probed :=
  ⟨fun _ => rfl, fun h => (by cases h), fun h => absurd rfl h⟩

theorem probeReported_append_fire (l : List ProbeAction) (r : List ProbeAction)
    (h : ∀ a ∈ l, ∃ c, a = .fire_command c ∨ a = .test_command c) :
    probeReported (l ++ r) = probeReported r := by
  induction l with
  | nil => rfl
  | cons a l ih =>
    obtain ⟨c, hc | hc⟩ := h a (List.mem_cons_self _ _)
    · subst hc
      exact ih (fun x hx => h x (List.mem_cons_of_mem _ hx))
    · subst hc
      exact ih (fun x hx => h x (List.mem_cons_of_mem _ hx))

theorem test_ready_actions (priv : Private) (res : Except GError CStr) :
    (∀ a ∈ (sgpss_test_ready priv res).actions, ∃ c, a = .fire_command c ∨ a = .test_command c) ∧
    (∀ a ∈ (sgpsc_test_ready priv res).actions,
      ∃ c, a = .fire_command c ∨ a = .test_command c) := by
  cases res <;> simp [sgpss_test_ready, sgpsc_test_ready]

/-- Along a run of the probe, with any results and however far it gets: what
holds of the private data keeps holding, a flag that is known keeps its value,
the enabled sources are not touched and no error is reported. -/
theorem probeRun_probed (sources : Nat) :
    ∀ (results : List (Except GError CStr)) (priv : Private), priv.probed →
      (probeRun sources results priv).priv.probed ∧
      (priv.sgpss_support ≠ .FEATURE_SUPPORT_UNKNOWN →
        (probeRun sources results priv).priv.sgpss_support = priv.sgpss_support) ∧
      (priv.sgpsc_support ≠ .FEATURE_SUPPORT_UNKNOWN →
        (probeRun sources results priv).priv.sgpsc_support = priv.sgpsc_support) ∧
      (probeRun sources results priv).priv.enabled_sources = priv.enabled_sources ∧
      ∀ e, probeReported (probeRun sources results priv).actions ≠ some (.error e) := by
  intro results
  induction results with
  | nil =>
    intro priv hp
    by_cases h1 : priv.sgpss_support = .FEATURE_SUPPORT_UNKNOWN
    · have : probeRun sources [] priv = ⟨[.test_command "AT^SGPSS=?"], priv⟩ := by
        rw [probeRun, probe_gps_features_eq, if_pos h1]
      rw [this]
      exact ⟨hp, fun _ => rfl, fun _ => rfl, rfl, fun e h => (by cases h)⟩
    · by_cases h2 : priv.sgpsc_support = .FEATURE_SUPPORT_UNKNOWN
      · have : probeRun sources [] priv = ⟨[.test_command "AT^SGPSC=?"], priv⟩ := by
          rw [probeRun, probe_gps_features_eq, if_neg h1, if_pos h2]
        rw [this]
        exact ⟨hp, fun _ => rfl, fun _ => rfl, rfl, fun e h => (by cases h)⟩
      · rw [probeRun_known sources [] priv h1 h2]
        split
        · rename_i hs
          exact ⟨⟨hp.order, hp.exclusive, fun _ => hs⟩, fun _ => rfl, fun _ => rfl, rfl,
            fun e h => (by cases h)⟩
        · exact ⟨hp, fun _ => rfl, fun _ => rfl, rfl, fun e h => (by cases h)⟩
  | cons res rest ih =>
    intro priv hp
    have hzero : priv.sgpsc_support = .FEATURE_SUPPORT_UNKNOWN → priv.supported_sources = 0 := by
      intro h2
      by_contra hne
      rcases hp.recorded hne with h | h
      · have := hp.exclusive h
        rw [h2] at this
        cases this
      · rw [h2] at h
        cases h
    by_cases h1 : priv.sgpss_support = .FEATURE_SUPPORT_UNKNOWN
    · have h2 := hp.order h1
      rw [probeRun_test_sgpss sources res rest priv h1]
      simp only
      have hp1 : (sgpss_test_ready priv res).priv.probed := by
        cases res with
        | ok reply =>
          exact ⟨fun h => (by cases h), fun _ => rfl, fun _ => Or.inl rfl⟩
        | error e =>
          exact ⟨fun h => (by cases h), fun h => (by cases h),
            fun h => absurd (hzero h2) h⟩
      obtain ⟨i1, -, -, i4, i5⟩ := ih _ hp1
      refine ⟨i1, fun h => absurd h1 h, fun h => absurd h2 h, ?_, ?_⟩
      · rw [i4]
        cases res <;> rfl
      · intro e
        have : probeReported (ProbeAction.test_command "AT^SGPSS=?" ::
            ((sgpss_test_ready priv res).actions ++
              (probeRun sources rest (sgpss_test_ready priv res).priv).actions)) =
            probeReported (probeRun sources rest (sgpss_test_ready priv res).priv).actions := by
          show probeReported ((sgpss_test_ready priv res).actions ++ _) = _
          exact probeReported_append_fire _ _ (test_ready_actions priv res).1
        rw [this]
        exact i5 e
    · by_cases h2 : priv.sgpsc_support = .FEATURE_SUPPORT_UNKNOWN
      · rw [probeRun_test_sgpsc sources res rest priv h1 h2]
        simp only
        have hns : priv.sgpss_support ≠ .FEATURE_SUPPORTED := by
          intro h
          have := hp.exclusive h
          rw [h2] at this
          cases this
        have hp1 : (sgpsc_test_ready priv res).priv.probed := by
          cases res with
          | ok reply =>
            exact ⟨fun h => absurd h h1, fun h => absurd h hns, fun _ => Or.inr rfl⟩
          | error e =>
            exact ⟨fun h => absurd h h1, fun _ => rfl, fun h => absurd (hzero h2) h⟩
        have hss : (sgpsc_test_ready priv res).priv.sgpss_support = priv.sgpss_support := by
          cases res <;> rfl
        obtain ⟨i1, i2, -, i4, i5⟩ := ih _ hp1
        refine ⟨i1, fun _ => ?_, fun h => absurd h2 h, ?_, ?_⟩
        · rw [i2 (by rw [hss]; exact h1), hss]
        · rw [i4]
          cases res <;> rfl
        · intro e
          have : probeReported (ProbeAction.test_command "AT^SGPSC=?" ::
              ((sgpsc_test_ready priv res).actions ++
                (probeRun sources rest (sgpsc_test_ready priv res).priv).actions)) =
              probeReported (probeRun sources rest (sgpsc_test_ready priv res).priv).actions := by
            show probeReported ((sgpsc_test_ready priv res).actions ++ _) = _
            exact probeReported_append_fire _ _ (test_ready_actions priv res).2
          rw [this]
          exact i5 e
      · rw [probeRun_known sources (res :: rest) priv h1 h2]
        split
        · rename_i hs
          exact ⟨⟨hp.order, hp.exclusive, fun _ => hs⟩, fun _ => rfl, fun _ => rfl, rfl,
            fun e h => (by cases h)⟩
        · exact ⟨hp, fun _ => rfl, fun _ => rfl, rfl, fun e h => (by cases h)⟩

/-- The private data a completed `switch` of the enable sequence leaves differs
from the one it found in the enabled sources at most. -/
theorem enableSwitch_features (priv : Private) (port : GpsPort) :
    ∀ (fuel : Nat) (ctx : EnableLocationGatheringContext) (actions : List Action)
      (priv' : Private), enableSwitch priv port fuel ctx = .done actions priv' →
      ∃ enabled, priv' = { priv with enabled_sources := enabled } := by
  intro fuel
  induction fuel with
  | zero =>
    intro ctx a p h
    simp [enableSwitch] at h
  | succ n ih =>
    intro ctx a p h
    obtain ⟨source, step, retries⟩ := ctx
    have hnext := ih ⟨source, step + 1, retries⟩ a p
    match step with
    | 0 =>
      simp only [enableSwitch] at h
      exact hnext h
    | 1 =>
      simp only [enableSwitch] at h
      split at h
      · cases h
      · exact hnext h
    | 2 =>
      simp only [enableSwitch] at h
      split at h
      · cases h
      · exact hnext h
    | 3 =>
      simp only [enableSwitch] at h
      split at h
      · cases h
      · exact hnext h
    | 4 =>
      simp only [enableSwitch] at h
      split at h
      · cases h
      · exact hnext h
    | 5 =>
      simp only [enableSwitch] at h
      split at h
      · split at h
        · cases h
          exact ⟨_, rfl⟩
        · split at h
          · cases h
            exact ⟨_, rfl⟩
          · cases h
            exact ⟨_, rfl⟩
      · cases h
        exact ⟨_, rfl⟩
    | k + 6 =>
      simp only [enableSwitch] at h
      cases h

theorem disableSwitch_features (priv : Private) (port : GpsPort) :
    ∀ (fuel : Nat) (ctx : DisableLocationGatheringContext) (actions : List Action)
      (priv' : Private), disableSwitch priv port fuel ctx = .done actions priv' →
      ∃ enabled, priv' = { priv with enabled_sources := enabled } := by
  intro fuel
  induction fuel with
  | zero =>
    intro ctx a p h
    simp [disableSwitch] at h
  | succ n ih =>
    intro ctx a p h
    obtain ⟨source, step, se, sc⟩ := ctx
    have hnext := ih ⟨source, step + 1, se, sc⟩ a p
    match step with
    | 0 =>
      simp only [disableSwitch] at h
      exact hnext h
    | 1 =>
      simp only [disableSwitch] at h
      split at h
      · cases h
      · exact hnext h
    | 2 =>
      simp only [disableSwitch] at h
      split at h
      · cases h
      · exact hnext h
    | 3 =>
      simp only [disableSwitch] at h
      split at h
      · cases h
      · exact hnext h
    | 4 =>
      simp only [disableSwitch] at h
      split at h
      · cases h
      · exact hnext h
    | 5 =>
      simp only [disableSwitch] at h
      split at h
      · cases h
        exact ⟨_, rfl⟩
      · split at h
        · cases h
          exact ⟨_, rfl⟩
        · cases h
          exact ⟨_, rfl⟩
    | k + 6 =>
      simp only [disableSwitch] at h
      cases h

/-- A run of the enable sequence, however far it gets, leaves the supported
sources and the two support flags as they were. -/
theorem enableRun_features (priv : Private) (port : GpsPort) :
    ∀ (results : List (Except GError Unit)) (ctx : EnableLocationGatheringContext),
      ∃ enabled, (enableRun priv port results ctx).priv =
        { priv with enabled_sources := enabled } := by
  have hdone : ∀ (ctx : EnableLocationGatheringContext) actions priv',
      enable_location_gathering_context_gps_step priv port ctx = .done actions priv' →
      ∃ enabled, priv' = { priv with enabled_sources := enabled } := by
    intro ctx actions priv' h
    simp only [enable_location_gathering_context_gps_step] at h
    split at h
    · exact enableSwitch_features priv port 6 ctx actions priv' h
    · cases h
  intro results
  induction results with
  | nil =>
    intro ctx
    cases h : enable_location_gathering_context_gps_step priv port ctx with
    | command c ctx' => exact ⟨priv.enabled_sources, by simp [enableRun, h]⟩
    | done a p =>
      simp only [enableRun, h]
      exact hdone ctx a p h
    | aborted => exact ⟨priv.enabled_sources, by simp [enableRun, h]⟩
    | nothing => exact ⟨priv.enabled_sources, by simp [enableRun, h]⟩
  | cons res rest ih =>
    intro ctx
    cases h : enable_location_gathering_context_gps_step priv port ctx with
    | command c ctx' =>
      cases h2 : enable_sgpsc_or_sgpss_ready ctx' res with
      | schedule i ctx'' =>
        simp only [enableRun, h, h2]
        exact ih ctx''
      | failed e => exact ⟨priv.enabled_sources, by simp [enableRun, h, h2]⟩
    | done a p =>
      simp only [enableRun, h]
      exact hdone ctx a p h
    | aborted => exact ⟨priv.enabled_sources, by simp [enableRun, h]⟩
    | nothing => exact ⟨priv.enabled_sources, by simp [enableRun, h]⟩

/-- A run of the disable sequence, however far it gets, leaves the supported
sources and the two support flags as they were. -/
theorem disableRun_features (priv : Private) (port : GpsPort) :
    ∀ (results : List (Except GError Unit)) (ctx : DisableLocationGatheringContext),
      ∃ enabled, (disableRun priv port results ctx).priv =
        { priv with enabled_sources := enabled } := by
  have hdone : ∀ (ctx : DisableLocationGatheringContext) actions priv',
      disable_location_gathering_context_gps_step priv port ctx = .done actions priv' →
      ∃ enabled, priv' = { priv with enabled_sources := enabled } := by
    intro ctx actions priv' h
    simp only [disable_location_gathering_context_gps_step] at h
    split at h
    · exact disableSwitch_features priv port 6 ctx actions priv' h
    · cases h
  intro results
  induction results with
  | nil =>
    intro ctx
    cases h : disable_location_gathering_context_gps_step priv port ctx with
    | command c ctx' => exact ⟨priv.enabled_sources, by simp [disableRun, h]⟩
    | done a p =>
      simp only [disableRun, h]
      exact hdone ctx a p h
    | aborted => exact ⟨priv.enabled_sources, by simp [disableRun, h]⟩
    | nothing => exact ⟨priv.enabled_sources, by simp [disableRun, h]⟩
  | cons res rest ih =>
    intro ctx
    cases h : disable_location_gathering_context_gps_step priv port ctx with
    | command c ctx' =>
      cases h2 : disableReady ctx' res with
      | some ctx'' =>
        simp only [disableRun, h, h2]
        exact ih ctx''
      | none => exact ⟨priv.enabled_sources, by simp [disableRun, h, h2]⟩
    | done a p =>
      simp only [disableRun, h]
      exact hdone ctx a p h
    | aborted => exact ⟨priv.enabled_sources, by simp [disableRun, h]⟩
    | nothing => exact ⟨priv.enabled_sources, by simp [disableRun, h]⟩

/-- A request, enable or disable, leaves the supported sources and the two
support flags as they were. -/
theorem request_features (port : GpsPort) (parent : ParentLocation) (priv : Private)
    (request : LocationRequest) :
    ∃ enabled, (request.run port parent priv).priv =
      { priv with enabled_sources := enabled } := by
  cases request with
  | enable source results =>
    simp only [LocationRequest.run, mm_shared_cinterion_enable_location_gathering]
    split
    · exact ⟨priv.enabled_sources, rfl⟩
    · split
      · exact ⟨priv.enabled_sources, rfl⟩
      · split
        · exact ⟨_, rfl⟩
        · exact enableRun_features priv port results (enableContext source)
  | disable source results =>
    simp only [LocationRequest.run, mm_shared_cinterion_disable_location_gathering]
    split
    · split
      · exact ⟨priv.enabled_sources, rfl⟩
      · exact ⟨priv.enabled_sources, rfl⟩
    · split
      · exact ⟨priv.enabled_sources, rfl⟩
      · split
        · exact ⟨_, rfl⟩
        · exact disableRun_features priv port results (disableContext source)

/-- Every event keeps what holds of the private data, keeps a flag that is
known, and the state after any events is reached that way. -/
theorem ModemEvent.apply_probed (port : GpsPort) (parent : ParentLocation) (priv : Private)
    (ev : ModemEvent) (hp : priv.probed) :
    (ev.apply port parent priv).probed ∧
      (priv.sgpss_support ≠ .FEATURE_SUPPORT_UNKNOWN →
        (ev.apply port parent priv).sgpss_support = priv.sgpss_support) ∧
      (priv.sgpsc_support ≠ .FEATURE_SUPPORT_UNKNOWN →
        (ev.apply port parent priv).sgpsc_support = priv.sgpsc_support) := by
  cases ev with
  | load_capabilities parent_result results =>
    simp only [ModemEvent.apply, mm_shared_cinterion_location_load_capabilities,
      parent_load_capabilities_ready]
    cases parent_result with
    | error e => exact ⟨hp, fun _ => rfl, fun _ => rfl⟩
    | ok sources =>
      simp only
      split
      · exact ⟨hp, fun _ => rfl, fun _ => rfl⟩
      · obtain ⟨i1, i2, i3, -, -⟩ := probeRun_probed sources results priv hp
        exact ⟨i1, i2, i3⟩
  | request r =>
    obtain ⟨enabled, he⟩ := request_features port parent priv r
    simp only [ModemEvent.apply, he]
    exact ⟨⟨hp.order, hp.exclusive, hp.recorded⟩, fun _ => trivial, fun _ => trivial⟩

theorem modemAfter_snoc (port : GpsPort) (parent : ParentLocation) (events : List ModemEvent)
    (ev : ModemEvent) :
    modemAfter port parent (events ++ [ev]) =
      ev.apply port parent (modemAfter port parent events) := by
  simp [modemAfter, List.foldl_append]

theorem modemAfter_probed (port : GpsPort) (parent : ParentLocation) :
    ∀ events : List ModemEvent, (modemAfter port parent events).probed := by
  intro events
  induction events using List.reverseRecOn with
  | nil => exact Private.init_probed
  | append_singleton l ev ih =>
    rw [modemAfter_snoc]
    exact (ModemEvent.apply_probed port parent _ ev ih).1
/-- The probe completes its task with an error from no private data and no
results of the test commands. -/
theorem probeRun_no_error (sources : Nat) :
    ∀ (results : List (Except GError CStr)) (priv : Private) (e : GError),
      probeReported (probeRun sources results priv).actions ≠ some (.error e) := by
  intro results
  induction results with
  | nil =>
    intro priv e
    by_cases h1 : priv.sgpss_support = .FEATURE_SUPPORT_UNKNOWN
    · have : probeRun sources [] priv = ⟨[.test_command "AT^SGPSS=?"], priv⟩ := by
        rw [probeRun, probe_gps_features_eq, if_pos h1]
      rw [this]
      exact fun h => (by cases h)
    · by_cases h2 : priv.sgpsc_support = .FEATURE_SUPPORT_UNKNOWN
      · have : probeRun sources [] priv = ⟨[.test_command "AT^SGPSC=?"], priv⟩ := by
          rw [probeRun, probe_gps_features_eq, if_neg h1, if_pos h2]
        rw [this]
        exact fun h => (by cases h)
      · rw [probeRun_known sources [] priv h1 h2]
        split
        · exact fun h => (by cases h)
        · exact fun h => (by cases h)
  | cons res rest ih =>
    intro priv e
    by_cases h1 : priv.sgpss_support = .FEATURE_SUPPORT_UNKNOWN
    · rw [probeRun_test_sgpss sources res rest priv h1]
      have : probeReported (ProbeAction.test_command "AT^SGPSS=?" ::
          ((sgpss_test_ready priv res).actions ++
            (probeRun sources rest (sgpss_test_ready priv res).priv).actions)) =
          probeReported (probeRun sources rest (sgpss_test_ready priv res).priv).actions := by
        show probeReported ((sgpss_test_ready priv res).actions ++ _) = _
        exact probeReported_append_fire _ _ (test_ready_actions priv res).1
      simp only [this]
      exact ih _ e
    · by_cases h2 : priv.sgpsc_support = .FEATURE_SUPPORT_UNKNOWN
      · rw [probeRun_test_sgpsc sources res rest priv h1 h2]
        have : probeReported (ProbeAction.test_command "AT^SGPSC=?" ::
            ((sgpsc_test_ready priv res).actions ++
              (probeRun sources rest (sgpsc_test_ready priv res).priv).actions)) =
            probeReported (probeRun sources rest (sgpsc_test_ready priv res).priv).actions := by
          show probeReported ((sgpsc_test_ready priv res).actions ++ _) = _
          exact probeReported_append_fire _ _ (test_ready_actions priv res).2
        simp only [this]
        exact ih _ e
      · rw [probeRun_known sources (res :: rest) priv h1 h2]
        split
        · exact fun h => (by cases h)
        · exact fun h => (by cases h)

/-- The callbacks of the test commands look at the success of the command
only. -/
theorem test_ready_congr (priv : Private) (res res' : Except GError CStr)
    (h : succeeded res = succeeded res') :
    sgpss_test_ready priv res = sgpss_test_ready priv res' ∧
      sgpsc_test_ready priv res = sgpsc_test_ready priv res' := by
  cases res <;> cases res' <;> first | exact ⟨rfl, rfl⟩ | (simp [succeeded] at h)

/-- Two lists of results that agree on which commands succeed give the same
run of the probe. -/
theorem probeRun_congr (sources : Nat) :
    ∀ (results results' : List (Except GError CStr)) (priv : Private),
      results.map succeeded = results'.map succeeded →
      probeRun sources results priv = probeRun sources results' priv := by
  intro results
  induction results with
  | nil =>
    intro results' priv h
    cases results' with
    | nil => rfl
    | cons a l => simp at h
  | cons res rest ih =>
    intro results' priv h
    cases results' with
    | nil => simp at h
    | cons res' rest' =>
      simp only [List.map_cons, List.cons.injEq] at h
      obtain ⟨hs, hrest⟩ := h
      obtain ⟨e1, e2⟩ := test_ready_congr priv res res' hs
      by_cases h1 : priv.sgpss_support = .FEATURE_SUPPORT_UNKNOWN
      · rw [probeRun_test_sgpss sources res rest priv h1,
          probeRun_test_sgpss sources res' rest' priv h1, e1, ih rest' _ hrest]
      · by_cases h2 : priv.sgpsc_support = .FEATURE_SUPPORT_UNKNOWN
        · rw [probeRun_test_sgpsc sources res rest priv h1 h2,
            probeRun_test_sgpsc sources res' rest' priv h1 h2, e2, ih rest' _ hrest]
        · rw [probeRun_known sources (res :: rest) priv h1 h2,
            probeRun_known sources (res' :: rest') priv h1 h2]

theorem ownSources_or_self (s P : Nat) :
    s ||| ownSources P ||| ownSources P = s ||| ownSources P := by
  rw [Nat.or_assoc, Nat.or_self]

/-- The private data a run of the probe leaves after more results is the one
the probe leaves when it goes on, with these results, from where the shorter
run left it. -/
theorem probeRun_append_priv (sources : Nat) :
    ∀ (rs rs' : List (Except GError CStr)) (priv : Private),
      (probeRun sources (rs ++ rs') priv).priv =
        (probeRun sources rs' (probeRun sources rs priv).priv).priv := by
  have hknown : ∀ (rs rs' : List (Except GError CStr)) (priv : Private),
      priv.sgpss_support ≠ .FEATURE_SUPPORT_UNKNOWN →
      priv.sgpsc_support ≠ .FEATURE_SUPPORT_UNKNOWN →
      (probeRun sources (rs ++ rs') priv).priv =
        (probeRun sources rs' (probeRun sources rs priv).priv).priv := by
    intro rs rs' priv h1 h2
    rw [probeRun_known sources (rs ++ rs') priv h1 h2, probeRun_known sources rs priv h1 h2]
    by_cases hs : priv.sgpss_support = .FEATURE_SUPPORTED ∨
        priv.sgpsc_support = .FEATURE_SUPPORTED
    · rw [if_pos hs]
      simp only
      rw [probeRun_known sources rs'
        { priv with supported_sources := priv.supported_sources ||| ownSources sources } h1 h2,
        if_pos hs]
      simp only [ownSources_or_self]
    · rw [if_neg hs]
      simp only
      rw [probeRun_known sources rs' _ h1 h2, if_neg hs]
  intro rs
  induction rs with
  | nil =>
    intro rs' priv
    by_cases h1 : priv.sgpss_support = .FEATURE_SUPPORT_UNKNOWN
    · have : probeRun sources [] priv = ⟨[.test_command "AT^SGPSS=?"], priv⟩ := by
        rw [probeRun, probe_gps_features_eq, if_pos h1]
      rw [this]
      rfl
    · by_cases h2 : priv.sgpsc_support = .FEATURE_SUPPORT_UNKNOWN
      · have : probeRun sources [] priv = ⟨[.test_command "AT^SGPSC=?"], priv⟩ := by
          rw [probeRun, probe_gps_features_eq, if_neg h1, if_pos h2]
        rw [this]
        rfl
      · exact hknown [] rs' priv h1 h2
  | cons res rest ih =>
    intro rs' priv
    by_cases h1 : priv.sgpss_support = .FEATURE_SUPPORT_UNKNOWN
    · rw [List.cons_append, probeRun_test_sgpss sources res (rest ++ rs') priv h1,
        probeRun_test_sgpss sources res rest priv h1]
      exact ih rs' _
    · by_cases h2 : priv.sgpsc_support = .FEATURE_SUPPORT_UNKNOWN
      · rw [List.cons_append, probeRun_test_sgpsc sources res (rest ++ rs') priv h1 h2,
          probeRun_test_sgpsc sources res rest priv h1 h2]
        exact ih rs' _
      · exact hknown (res :: rest) rs' priv h1 h2

theorem enableSwitch_ne_aborted (priv : Private) (port : GpsPort) :
    ∀ (fuel : Nat) (ctx : EnableLocationGatheringContext),
      enableSwitch priv port fuel ctx ≠ .aborted := by
  intro fuel
  induction fuel with
  | zero =>
    intro ctx h
    simp [enableSwitch] at h
  | succ n ih =>
    intro ctx h
    obtain ⟨source, step, retries⟩ := ctx
    have hnext := ih ⟨source, step + 1, retries⟩
    match step with
    | 0 =>
      simp only [enableSwitch] at h
      exact hnext h
    | 1 =>
      simp only [enableSwitch] at h
      split at h
      · cases h
      · exact hnext h
    | 2 =>
      simp only [enableSwitch] at h
      split at h
      · cases h
      · exact hnext h
    | 3 =>
      simp only [enableSwitch] at h
      split at h
      · cases h
      · exact hnext h
    | 4 =>
      simp only [enableSwitch] at h
      split at h
      · cases h
      · exact hnext h
    | 5 =>
      simp only [enableSwitch] at h
      split at h
      · split at h
        · cases h
        · split at h <;> cases h
      · cases h
    | k + 6 =>
      simp only [enableSwitch] at h
      cases h

theorem disableSwitch_ne_aborted (priv : Private) (port : GpsPort) :
    ∀ (fuel : Nat) (ctx : DisableLocationGatheringContext),
      disableSwitch priv port fuel ctx ≠ .aborted := by
  intro fuel
  induction fuel with
  | zero =>
    intro ctx h
    simp [disableSwitch] at h
  | succ n ih =>
    intro ctx h
    obtain ⟨source, step, se, sc⟩ := ctx
    have hnext := ih ⟨source, step + 1, se, sc⟩
    match step with
    | 0 =>
      simp only [disableSwitch] at h
      exact hnext h
    | 1 =>
      simp only [disableSwitch] at h
      split at h
      · cases h
      · exact hnext h
    | 2 =>
      simp only [disableSwitch] at h
      split at h
      · cases h
      · exact hnext h
    | 3 =>
      simp only [disableSwitch] at h
      split at h
      · cases h
      · exact hnext h
    | 4 =>
      simp only [disableSwitch] at h
      split at h
      · cases h
      · exact hnext h
    | 5 =>
      simp only [disableSwitch] at h
      split at h
      · cases h
      · split at h <;> cases h
    | k + 6 =>
      simp only [disableSwitch] at h
      cases h

/-- Private data that hold a recorded source and satisfy what holds in every
state reached pass the two assertions of the step functions. -/
theorem probed_oneDialect (p : Private) (hp : p.probed) (h : p.supported_sources ≠ 0) :
    oneDialect p = true := by
  have hex := hp.exclusive
  have hrec := hp.recorded h
  simp only [oneDialect]
  rcases hrec with h1 | h2
  · have h3 := hex h1
    simp [h1, h3]
  · by_cases h1 : p.sgpss_support = .FEATURE_SUPPORTED
    · have h3 := hex h1
      rw [h3] at h2
      cases h2
    · simp [h1, h2]

/-- C21: in every state reached from the private data as created (both
dialects unknown, no source recorded) by capability probes, with any results
of the test commands and however far each probe gets, and by enable and
disable requests, `^SGPSS` and `^SGPSC` are never both marked supported; and
whenever the mask of supported sources is not empty exactly one of the two is
supported, so that the two assertions at the start of the enable step and of
the disable step hold: neither step function stops on them, whatever the
context. -/
theorem probe_dialects_exclusive (port : GpsPort) (parent : ParentLocation)
    (events : List ModemEvent) :
    ¬ ((modemAfter port parent events).sgpss_support = .FEATURE_SUPPORTED ∧
        (modemAfter port parent events).sgpsc_support = .FEATURE_SUPPORTED) ∧
    ((modemAfter port parent events).supported_sources ≠ 0 →
      oneDialect (modemAfter port parent events) = true ∧
      ((modemAfter port parent events).sgpss_support = .FEATURE_SUPPORTED ∨
        (modemAfter port parent events).sgpsc_support = .FEATURE_SUPPORTED) ∧
      (∀ ctx, enable_location_gathering_context_gps_step (modemAfter port parent events)
        port ctx ≠ .aborted) ∧
      (∀ ctx, disable_location_gathering_context_gps_step (modemAfter port parent events)
        port ctx ≠ .aborted)) := by
  have hp := modemAfter_probed port parent events
  refine ⟨?_, ?_⟩
  · rintro ⟨h1, h2⟩
    have h3 := hp.exclusive h1
    rw [h3] at h2
    cases h2
  · intro h
    have ho := probed_oneDialect _ hp h
    refine ⟨ho, hp.recorded h, ?_, ?_⟩
    · intro ctx
      simp only [enable_location_gathering_context_gps_step, ho, if_true]
      exact enableSwitch_ne_aborted _ _ _ _
    · intro ctx
      simp only [disable_location_gathering_context_gps_step, ho, if_true]
      exact disableSwitch_ne_aborted _ _ _ _

/-- C22: from private data with both dialects unknown and no source recorded,
the parent having reported the sources `P`, `r1` being the result of the
`^SGPSS` test and `r2` the one of the `^SGPSC` test (sent only when the first
fails): the probe reports `P` united with the three GPS sources if there is
a GPS data port and one of the two tests succeeds, and exactly `P` otherwise;
the sources it records as its own are then those of the three GPS sources
that `P` does not hold (none when it reports `P` alone), a set that shares no
bit with `P`. -/
theorem probe_reported_sources (priv : Private) (port : GpsPort) (P : Nat)
    (r1 r2 : Except GError CStr) (rest : List (Except GError CStr))
    (h1 : priv.sgpss_support = .FEATURE_SUPPORT_UNKNOWN)
    (h2 : priv.sgpsc_support = .FEATURE_SUPPORT_UNKNOWN)
    (h0 : priv.supported_sources = 0) :
    probeReported (mm_shared_cinterion_location_load_capabilities priv port (.ok P)
        (r1 :: r2 :: rest)).actions =
      some (.ok (if port.present && (succeeded r1 || succeeded r2) then P ||| gpsSources
        else P)) ∧
    (mm_shared_cinterion_location_load_capabilities priv port (.ok P)
        (r1 :: r2 :: rest)).priv.supported_sources =
      (if port.present && (succeeded r1 || succeeded r2) then ownSources P else 0) ∧
    testCommandsOf (mm_shared_cinterion_location_load_capabilities priv port (.ok P)
        (r1 :: r2 :: rest)).actions =
      (if !port.present then [] else if succeeded r1 then ["AT^SGPSS=?"]
        else ["AT^SGPSS=?", "AT^SGPSC=?"]) ∧
    ownSources P &&& P = 0 ∧ ownSources P &&& gpsSources = ownSources P ∧
    (ownSources P &&& MM_MODEM_LOCATION_SOURCE_GPS_NMEA ≠ 0 ↔
      P &&& MM_MODEM_LOCATION_SOURCE_GPS_NMEA = 0) ∧
    (ownSources P &&& MM_MODEM_LOCATION_SOURCE_GPS_RAW ≠ 0 ↔
      P &&& MM_MODEM_LOCATION_SOURCE_GPS_RAW = 0) ∧
    (ownSources P &&& MM_MODEM_LOCATION_SOURCE_GPS_UNMANAGED ≠ 0 ↔
      P &&& MM_MODEM_LOCATION_SOURCE_GPS_UNMANAGED = 0) := by
  obtain ⟨s1, s2, s3, s4, s5, s6⟩ := ownSources_spec P
  refine ⟨?_, ?_, ?_, s2, s3, s4, s5, s6⟩
  all_goals
    simp only [mm_shared_cinterion_location_load_capabilities, parent_load_capabilities_ready]
    cases hpres : port.present
    · simp [probeReported, testCommandsOf, h0]
    · rw [probeRun_unknown P r1 r2 rest priv h1 h2]
      cases r1 <;> cases r2 <;>
        simp [probeReported, testCommandsOf, succeeded, h0, s1]

/-- C22, at a modem with a GPS data port whose parent reports the source 1: the
`^SGPSS` test fails and the `^SGPSC` test succeeds; the probe reports 23, the
parent's source with the three GPS sources, and records the three GPS sources
(22) as its own. -/
theorem probe_reported_sources_witness :
    probeReported (mm_shared_cinterion_location_load_capabilities Private.init
        ⟨true, .ok ()⟩ (.ok 1) [.error (.external 1), .ok [], .ok []]).actions =
      some (.ok 23) ∧
    (mm_shared_cinterion_location_load_capabilities Private.init
        ⟨true, .ok ()⟩ (.ok 1) [.error (.external 1), .ok [], .ok []]).priv.supported_sources =
      22 := by
  have h := probe_reported_sources Private.init ⟨true, .ok ()⟩ 1 (.error (.external 1))
    (.ok []) [.ok []] rfl rfl rfl
  exact ⟨h.1, h.2.1⟩

/-- C23: the probe completes with an error exactly when the parent's load of
the capabilities gives one, and the error is that one; it is then the only
thing done: no test command is sent and the private data are left as they
were.  A test command that fails does nothing but mark its dialect as not
supported, and with both tests failing the probe reports the sources of the
parent.  The run depends on the results of the test commands through their
success or failure only: two lists of results that agree on it give the same
run, whatever the replies hold. -/
theorem probe_error_only_from_parent (priv : Private) (port : GpsPort)
    (parent_result : Except GError Nat) (results : List (Except GError CStr)) :
    (∀ e, probeReported (mm_shared_cinterion_location_load_capabilities priv port
        parent_result results).actions = some (.error e) ↔ parent_result = .error e) ∧
    (∀ e, mm_shared_cinterion_location_load_capabilities priv port (.error e) results =
      ⟨[.return_error e], priv⟩) ∧
    (∀ e, sgpss_test_ready priv (.error e) =
        ⟨[], { priv with sgpss_support := .FEATURE_NOT_SUPPORTED }⟩ ∧
      sgpsc_test_ready priv (.error e) =
        ⟨[], { priv with sgpsc_support := .FEATURE_NOT_SUPPORTED }⟩) ∧
    (∀ P e1 e2 rest, priv.sgpss_support = .FEATURE_SUPPORT_UNKNOWN →
      priv.sgpsc_support = .FEATURE_SUPPORT_UNKNOWN →
      probeRun P (.error e1 :: .error e2 :: rest) priv =
        ⟨[.test_command "AT^SGPSS=?", .test_command "AT^SGPSC=?", .return_int P],
          { priv with
            sgpss_support := .FEATURE_NOT_SUPPORTED
            sgpsc_support := .FEATURE_NOT_SUPPORTED }⟩) ∧
    (∀ results', results.map succeeded = results'.map succeeded →
      mm_shared_cinterion_location_load_capabilities priv port parent_result results =
        mm_shared_cinterion_location_load_capabilities priv port parent_result results') := by
  refine ⟨?_, fun e => rfl, fun e => ⟨rfl, rfl⟩, ?_, ?_⟩
  · intro e
    cases parent_result with
    | error e' =>
      simp only [mm_shared_cinterion_location_load_capabilities,
        parent_load_capabilities_ready, probeReported]
      constructor
      · intro h
        cases h
        rfl
      · intro h
        cases h
        rfl
    | ok sources =>
      simp only [mm_shared_cinterion_location_load_capabilities,
        parent_load_capabilities_ready]
      constructor
      · intro h
        exfalso
        split at h
        · cases h
        · exact probeRun_no_error sources results priv e h
      · intro h
        cases h
  · intro P e1 e2 rest h1 h2
    rw [probeRun_unknown P (.error e1) (.error e2) rest priv h1 h2]
  · intro results' h
    cases parent_result with
    | error e' => rfl
    | ok sources =>
      simp only [mm_shared_cinterion_location_load_capabilities,
        parent_load_capabilities_ready]
      rw [probeRun_congr sources results results' priv h]

/-- C30: along the runs of the probe and of the enable and disable sequences
from the private data as created, a support flag that is known (not supported
or supported) keeps its value: between two points of a run of the probe (after
the results `rs` and after the further results `rs'`), from before any event
to after it, and along every run of the enable and of the disable sequence,
which leave both flags as they find them.  So a flag changes from unknown
only, and never back to unknown. -/
theorem support_flags_settle (port : GpsPort) (parent : ParentLocation)
    (events : List ModemEvent) :
    (∀ (sources : Nat) (rs rs' : List (Except GError CStr)),
      ((probeRun sources rs (modemAfter port parent events)).priv.sgpss_support ≠
          .FEATURE_SUPPORT_UNKNOWN →
        (probeRun sources (rs ++ rs') (modemAfter port parent events)).priv.sgpss_support =
          (probeRun sources rs (modemAfter port parent events)).priv.sgpss_support) ∧
      ((probeRun sources rs (modemAfter port parent events)).priv.sgpsc_support ≠
          .FEATURE_SUPPORT_UNKNOWN →
        (probeRun sources (rs ++ rs') (modemAfter port parent events)).priv.sgpsc_support =
          (probeRun sources rs (modemAfter port parent events)).priv.sgpsc_support)) ∧
    (∀ ev : ModemEvent,
      ((modemAfter port parent events).sgpss_support ≠ .FEATURE_SUPPORT_UNKNOWN →
        (modemAfter port parent (events ++ [ev])).sgpss_support =
          (modemAfter port parent events).sgpss_support) ∧
      ((modemAfter port parent events).sgpsc_support ≠ .FEATURE_SUPPORT_UNKNOWN →
        (modemAfter port parent (events ++ [ev])).sgpsc_support =
          (modemAfter port parent events).sgpsc_support)) ∧
    (∀ (priv : Private) (results : List (Except GError Unit))
        (ctx : EnableLocationGatheringContext),
      (enableRun priv port results ctx).priv.sgpss_support = priv.sgpss_support ∧
      (enableRun priv port results ctx).priv.sgpsc_support = priv.sgpsc_support) ∧
    (∀ (priv : Private) (results : List (Except GError Unit))
        (ctx : DisableLocationGatheringContext),
      (disableRun priv port results ctx).priv.sgpss_support = priv.sgpss_support ∧
      (disableRun priv port results ctx).priv.sgpsc_support = priv.sgpsc_support) := by
  have hp := modemAfter_probed port parent events
  refine ⟨?_, ?_, ?_, ?_⟩
  · intro sources rs rs'
    obtain ⟨hmid, -, -, -, -⟩ := probeRun_probed sources rs _ hp
    obtain ⟨-, k2, k3, -, -⟩ := probeRun_probed sources rs' _ hmid
    rw [probeRun_append_priv sources rs rs' _]
    exact ⟨k2, k3⟩
  · intro ev
    rw [modemAfter_snoc]
    obtain ⟨-, k2, k3⟩ := ModemEvent.apply_probed port parent _ ev hp
    exact ⟨k2, k3⟩
  · intro priv results ctx
    obtain ⟨enabled, he⟩ := enableRun_features priv port results ctx
    rw [he]
    exact ⟨rfl, rfl⟩
  · intro priv results ctx
    obtain ⟨enabled, he⟩ := disableRun_features priv port results ctx
    rw [he]
    exact ⟨rfl, rfl⟩

/-! ## Requests for sources supported or not, and the GPS sources enabled -/

/-- The end of the disable sequence, with or without a GPS data port: once no
command is left to send the step completes the task, and sends no command. -/
theorem disable_tail (priv : Private) (port : GpsPort) (source n : Nat)
    (se sc : Option GError) (hone : oneDialect priv = true)
    (hn : n = 5 ∨ (priv.sgpsc_support ≠ .FEATURE_SUPPORTED ∧ n = 2)) :
    ∃ actions priv',
      disable_location_gathering_context_gps_step priv port ⟨source, n, se, sc⟩ =
        .done actions priv' ∧
      commandsOf actions = [] := by
  have h5 : ∃ actions priv',
      disable_location_gathering_context_gps_step priv port ⟨source, 5, se, sc⟩ =
        .done actions priv' ∧
      commandsOf actions = [] := by
    simp only [disable_location_gathering_context_gps_step, hone, if_true, disableSwitch]
    cases se <;> cases sc <;> cases port.present <;>
      by_cases hs : source &&& (MM_MODEM_LOCATION_SOURCE_GPS_NMEA |||
        MM_MODEM_LOCATION_SOURCE_GPS_RAW) = 0 <;>
      simp [hs, commandsOf]
  rcases hn with hn | ⟨hsc, hn⟩
  · subst hn
    exact h5
  · subst hn
    obtain ⟨a, p, h, hc⟩ := h5
    refine ⟨a, p, ?_, hc⟩
    rw [← h]
    simp [disable_location_gathering_context_gps_step, hone, disableSwitch, hsc]

/-- The commands of the disable sequence, with or without a GPS data port and
whatever the commands return: the one `^SGPSS` command, or the three `^SGPSC`
commands Engine, Antenna, Output, by the dialect supported. -/
theorem disable_commands (priv : Private) (port : GpsPort) (source : Nat)
    (outs rest : List (Except GError Unit)) (hone : oneDialect priv = true)
    (hlen : outs.length = if priv.sgpss_support = .FEATURE_SUPPORTED then 1 else 3) :
    commandsOf (disableRun priv port (outs ++ rest) (disableContext source)).actions =
      (if priv.sgpss_support = .FEATURE_SUPPORTED then ["AT^SGPSS=0"]
        else ["AT^SGPSC=\"Engine\",\"0\"", "AT^SGPSC=\"Power/Antenna\",\"off\"",
          "AT^SGPSC=\"NMEA/Output\",\"off\""]) := by
  by_cases hss : priv.sgpss_support = .FEATURE_SUPPORTED
  · have hsc : priv.sgpsc_support ≠ .FEATURE_SUPPORTED := by
      intro h
      simp [oneDialect, hss, h] at hone
    rw [if_pos hss] at hlen
    match outs, hlen with
    | [o], _ =>
      cases o with
      | ok u =>
        obtain ⟨a, p, h, hc⟩ := disable_tail priv port source 2 none none hone
          (Or.inr ⟨hsc, rfl⟩)
        have h6 := disableRun_done priv port _ a p h rest
        simp [disableRun, disable_location_gathering_context_gps_step, hone, disableSwitch,
          hss, disableContext, disableReady, disable_sgpss_ready,
          DISABLE_LOCATION_GATHERING_GPS_STEP_FIRST, DISABLE_LOCATION_GATHERING_GPS_STEP_SGPSS,
          h6, commandsOf, hc]
        simpa [commandsOf] using hc
      | error e =>
        obtain ⟨a, p, h, hc⟩ := disable_tail priv port source 2 (some e) none hone
          (Or.inr ⟨hsc, rfl⟩)
        have h6 := disableRun_done priv port _ a p h rest
        simp [disableRun, disable_location_gathering_context_gps_step, hone, disableSwitch,
          hss, disableContext, disableReady, disable_sgpss_ready,
          DISABLE_LOCATION_GATHERING_GPS_STEP_FIRST, DISABLE_LOCATION_GATHERING_GPS_STEP_SGPSS,
          h6, commandsOf, hc]
        simpa [commandsOf] using hc
  · have hsc : priv.sgpsc_support = .FEATURE_SUPPORTED := by
      by_contra h
      simp [oneDialect, hss, h] at hone
    rw [if_neg hss] at hlen
    match outs, hlen with
    | [o1, o2, o3], _ =>
      have key : ∀ sc : Option GError,
          commandsOf (disableRun priv port rest ⟨source, 5, none, sc⟩).actions = [] := by
        intro sc
        obtain ⟨a, p, h, hc⟩ := disable_tail priv port source 5 none sc hone (Or.inl rfl)
        rw [disableRun_done priv port _ a p h rest]
        exact hc
      cases o1 <;> cases o2 <;> cases o3 <;>
        simp [disableRun, disable_location_gathering_context_gps_step, hone, disableSwitch,
          hss, hsc, disableContext, disableReady, disable_sgpss_ready,
          disable_sgpsc_ready,
          DISABLE_LOCATION_GATHERING_GPS_STEP_FIRST, DISABLE_LOCATION_GATHERING_GPS_STEP_SGPSS,
          commandsOf] <;>
        simpa [commandsOf] using key _

theorem or_eq_left_of_and_eq (e s : Nat) (h : s &&& e = s) : e ||| s = e := by
  apply Nat.eq_of_testBit_eq
  intro i
  have hi : (s &&& e).testBit i = s.testBit i := by rw [h]
  rw [Nat.testBit_and] at hi
  rw [Nat.testBit_or]
  cases hs : s.testBit i <;> cases he : e.testBit i <;> simp [hs, he] at hi ⊢

/-- C24, at a modem whose parent does not implement the disabling (no
`disable_location_gathering`): the request to disable a source this layer
does not support is not forwarded; success is reported at once. -/
theorem disable_unsupported_no_parent_counterexample :
    (mm_shared_cinterion_disable_location_gathering
        ⟨22, 0, .FEATURE_NOT_SUPPORTED, .FEATURE_SUPPORTED⟩ ⟨true, .ok ()⟩
        ⟨fun _ => .error (.external 1), none⟩ 1 []).forwarded = none ∧
    reported (mm_shared_cinterion_disable_location_gathering
        ⟨22, 0, .FEATURE_NOT_SUPPORTED, .FEATURE_SUPPORTED⟩ ⟨true, .ok ()⟩
        ⟨fun _ => .error (.external 1), none⟩ 1 []).actions = some (.ok ()) ∧
    (22 : Nat) &&& 1 = 0 :=
  ⟨rfl, rfl, by decide⟩

/-- C24: when the requested source shares no bit with the supported sources,
neither sequence runs: this layer sends no AT command, opens and closes no
port and leaves its private data as they were.  An enable request is handed
to the parent with the same source and reports what the parent reports; so
does a disable request when the parent implements the disabling; when the
parent does not, the disable request is handed to nobody and reports
success. -/
theorem unsupported_source_delegated (priv : Private) (port : GpsPort)
    (parent : ParentLocation) (source : Nat) (results : List (Except GError Unit))
    (h : priv.supported_sources &&& source = 0) :
    mm_shared_cinterion_enable_location_gathering priv port parent source results =
      ⟨some source, [.task_return (parent.enable_location_gathering source)], priv⟩ ∧
    mm_shared_cinterion_disable_location_gathering priv port parent source results =
      (match parent.disable_location_gathering with
        | some disable => ⟨some source, [.task_return (disable source)], priv⟩
        | none => ⟨none, [.task_return (.ok ())], priv⟩) ∧
    commandsOf (mm_shared_cinterion_enable_location_gathering priv port parent source
      results).actions = [] ∧
    commandsOf (mm_shared_cinterion_disable_location_gathering priv port parent source
      results).actions = [] ∧
    (∀ isOpen, portAfter port isOpen (mm_shared_cinterion_enable_location_gathering priv port
      parent source results).actions = isOpen) ∧
    (∀ isOpen, portAfter port isOpen (mm_shared_cinterion_disable_location_gathering priv port
      parent source results).actions = isOpen) ∧
    reported (mm_shared_cinterion_enable_location_gathering priv port parent source
      results).actions = some (parent.enable_location_gathering source) ∧
    reported (mm_shared_cinterion_disable_location_gathering priv port parent source
      results).actions =
      some (match parent.disable_location_gathering with
        | some disable => disable source
        | none => .ok ()) := by
  have he : mm_shared_cinterion_enable_location_gathering priv port parent source results =
      ⟨some source, [.task_return (parent.enable_location_gathering source)], priv⟩ := by
    simp only [mm_shared_cinterion_enable_location_gathering, h, if_true]
  have hd : mm_shared_cinterion_disable_location_gathering priv port parent source results =
      (match parent.disable_location_gathering with
        | some disable => ⟨some source, [.task_return (disable source)], priv⟩
        | none => ⟨none, [.task_return (.ok ())], priv⟩) := by
    rw [mm_shared_cinterion_disable_location_gathering, if_pos h]
  refine ⟨he, hd, ?_, ?_, ?_, ?_, ?_, ?_⟩
  · rw [he]
    rfl
  · rw [hd]
    cases parent.disable_location_gathering <;> rfl
  · intro isOpen
    rw [he]
    rfl
  · intro isOpen
    rw [hd]
    cases parent.disable_location_gathering <;> rfl
  · rw [he]
    rfl
  · rw [hd]
    cases parent.disable_location_gathering <;> rfl

/-- C24, at a modem that supports the three GPS sources, for the source 1: the
enable request is forwarded and reports the parent's error, the disable request
is forwarded and reports the parent's success. -/
theorem unsupported_source_delegated_witness :
    mm_shared_cinterion_enable_location_gathering
        ⟨22, 0, .FEATURE_NOT_SUPPORTED, .FEATURE_SUPPORTED⟩ ⟨true, .ok ()⟩
        ⟨fun _ => .error (.external 1), some (fun _ => .ok ())⟩ 1 [] =
      ⟨some 1, [.task_return (.error (.external 1))],
        ⟨22, 0, .FEATURE_NOT_SUPPORTED, .FEATURE_SUPPORTED⟩⟩ ∧
    mm_shared_cinterion_disable_location_gathering
        ⟨22, 0, .FEATURE_NOT_SUPPORTED, .FEATURE_SUPPORTED⟩ ⟨true, .ok ()⟩
        ⟨fun _ => .error (.external 1), some (fun _ => .ok ())⟩ 1 [] =
      ⟨some 1, [.task_return (.ok ())],
        ⟨22, 0, .FEATURE_NOT_SUPPORTED, .FEATURE_SUPPORTED⟩⟩ :=
  ⟨(unsupported_source_delegated ⟨22, 0, .FEATURE_NOT_SUPPORTED, .FEATURE_SUPPORTED⟩
      ⟨true, .ok ()⟩ ⟨fun _ => .error (.external 1), some (fun _ => .ok ())⟩ 1 []
      (by decide)).1,
    (unsupported_source_delegated ⟨22, 0, .FEATURE_NOT_SUPPORTED, .FEATURE_SUPPORTED⟩
      ⟨true, .ok ()⟩ ⟨fun _ => .error (.external 1), some (fun _ => .ok ())⟩ 1 []
      (by decide)).2.1⟩

/-- C25: a request to enable a source that shares a bit with the supported
sources and with the three GPS sources, made while a GPS source is in the
enabled mask: the request is not forwarded, no AT command is sent and nothing
is done but report success; the new enabled mask is the old one with the bits
of the source set, every other bit as it was; and if the source is in the
enabled mask already, the private data are left as they were. -/
theorem enable_with_gps_started (priv : Private) (port : GpsPort)
    (parent : ParentLocation) (source : Nat) (results : List (Except GError Unit))
    (hs : priv.supported_sources &&& source ≠ 0) (hg : source &&& gpsSources ≠ 0)
    (he : priv.enabled_sources &&& gpsSources ≠ 0) :
    mm_shared_cinterion_enable_location_gathering priv port parent source results =
      ⟨none, [.task_return (.ok ())],
        { priv with enabled_sources := priv.enabled_sources ||| source }⟩ ∧
    commandsOf (mm_shared_cinterion_enable_location_gathering priv port parent source
      results).actions = [] ∧
    reported (mm_shared_cinterion_enable_location_gathering priv port parent source
      results).actions = some (.ok ()) ∧
    (∀ i, (mm_shared_cinterion_enable_location_gathering priv port parent source
        results).priv.enabled_sources.testBit i =
      (priv.enabled_sources.testBit i || source.testBit i)) ∧
    (source &&& priv.enabled_sources = source →
      (mm_shared_cinterion_enable_location_gathering priv port parent source
        results).priv = priv) := by
  have hrun : mm_shared_cinterion_enable_location_gathering priv port parent source results =
      ⟨none, [.task_return (.ok ())],
        { priv with enabled_sources := priv.enabled_sources ||| source }⟩ := by
    simp only [mm_shared_cinterion_enable_location_gathering, if_neg hs, if_neg hg, if_pos he]
  refine ⟨hrun, ?_, ?_, ?_, ?_⟩
  · rw [hrun]
    rfl
  · rw [hrun]
    rfl
  · intro i
    rw [hrun]
    exact Nat.testBit_or _ _ _
  · intro h
    rw [hrun]
    simp only [or_eq_left_of_and_eq _ _ h]

/-- C25, at a modem with the unmanaged GPS source enabled: enabling the NMEA
source only adds its bit to the enabled mask (16 becomes 20) and reports
success. -/
theorem enable_with_gps_started_witness :
    mm_shared_cinterion_enable_location_gathering
        ⟨22, 16, .FEATURE_NOT_SUPPORTED, .FEATURE_SUPPORTED⟩ ⟨true, .ok ()⟩
        ⟨fun _ => .ok (), none⟩ 4 [] =
      ⟨none, [.task_return (.ok ())],
        ⟨22, 20, .FEATURE_NOT_SUPPORTED, .FEATURE_SUPPORTED⟩⟩ :=
  (enable_with_gps_started ⟨22, 16, .FEATURE_NOT_SUPPORTED, .FEATURE_SUPPORTED⟩
    ⟨true, .ok ()⟩ ⟨fun _ => .ok (), none⟩ 4 [] (by decide) (by decide) (by decide)).1

/-- C26: a request to disable a source that shares a bit with the supported
sources and with the three GPS sources.  If a GPS source is left in the
enabled mask once the bits of the source are cleared, no AT command is sent,
the bits are cleared and success is reported.  If none is left, the disable
sequence runs, and with one dialect supported and its commands answered it
sends all the commands of that dialect: `AT^SGPSS=0`, or the three `^SGPSC`
commands Engine, Antenna, Output. -/
theorem disable_last_gps_source (priv : Private) (port : GpsPort)
    (parent : ParentLocation) (source : Nat) (outs rest : List (Except GError Unit))
    (hs : priv.supported_sources &&& source ≠ 0) (hg : source &&& gpsSources ≠ 0) :
    ((priv.enabled_sources &&& maskNot source) &&& gpsSources ≠ 0 →
      mm_shared_cinterion_disable_location_gathering priv port parent source (outs ++ rest) =
        ⟨none, [.task_return (.ok ())],
          { priv with enabled_sources := priv.enabled_sources &&& maskNot source }⟩ ∧
      commandsOf (mm_shared_cinterion_disable_location_gathering priv port parent source
        (outs ++ rest)).actions = [] ∧
      reported (mm_shared_cinterion_disable_location_gathering priv port parent source
        (outs ++ rest)).actions = some (.ok ())) ∧
    ((priv.enabled_sources &&& maskNot source) &&& gpsSources = 0 →
      (mm_shared_cinterion_disable_location_gathering priv port parent source
          (outs ++ rest)).actions =
        (disableRun priv port (outs ++ rest) (disableContext source)).actions ∧
      (oneDialect priv = true →
        outs.length = (if priv.sgpss_support = .FEATURE_SUPPORTED then 1 else 3) →
        commandsOf (mm_shared_cinterion_disable_location_gathering priv port parent source
            (outs ++ rest)).actions =
          (if priv.sgpss_support = .FEATURE_SUPPORTED then ["AT^SGPSS=0"]
            else ["AT^SGPSC=\"Engine\",\"0\"", "AT^SGPSC=\"Power/Antenna\",\"off\"",
              "AT^SGPSC=\"NMEA/Output\",\"off\""]))) := by
  refine ⟨?_, ?_⟩
  · intro h
    have hrun : mm_shared_cinterion_disable_location_gathering priv port parent source
        (outs ++ rest) =
        ⟨none, [.task_return (.ok ())],
          { priv with enabled_sources := priv.enabled_sources &&& maskNot source }⟩ := by
      simp only [mm_shared_cinterion_disable_location_gathering, if_neg hs, if_neg hg,
        if_pos h]
    refine ⟨hrun, ?_, ?_⟩
    · rw [hrun]
      rfl
    · rw [hrun]
      rfl
  · intro h
    have hrun : (mm_shared_cinterion_disable_location_gathering priv port parent source
        (outs ++ rest)).actions =
        (disableRun priv port (outs ++ rest) (disableContext source)).actions := by
      simp only [mm_shared_cinterion_disable_location_gathering, if_neg hs, if_neg hg,
        h, ne_eq, not_true_eq_false, if_false]
    refine ⟨hrun, ?_⟩
    intro hone hlen
    rw [hrun]
    exact disable_commands priv port source outs rest hone hlen

/-- C26, with the `^SGPSC` dialect: disabling the NMEA source while the unmanaged
source stays enabled only clears its bit (20 becomes 16); disabling the
unmanaged source when it is the only one enabled sends the three commands. -/
theorem disable_last_gps_source_witness :
    mm_shared_cinterion_disable_location_gathering
        ⟨22, 20, .FEATURE_NOT_SUPPORTED, .FEATURE_SUPPORTED⟩ ⟨true, .ok ()⟩
        ⟨fun _ => .ok (), none⟩ 4 ([.ok (), .ok (), .ok ()] ++ []) =
      ⟨none, [.task_return (.ok ())],
        ⟨22, 16, .FEATURE_NOT_SUPPORTED, .FEATURE_SUPPORTED⟩⟩ ∧
    commandsOf (mm_shared_cinterion_disable_location_gathering
        ⟨22, 16, .FEATURE_NOT_SUPPORTED, .FEATURE_SUPPORTED⟩ ⟨true, .ok ()⟩
        ⟨fun _ => .ok (), none⟩ 16 ([.ok (), .ok (), .ok ()] ++ [])).actions =
      ["AT^SGPSC=\"Engine\",\"0\"", "AT^SGPSC=\"Power/Antenna\",\"off\"",
        "AT^SGPSC=\"NMEA/Output\",\"off\""] :=
  ⟨((disable_last_gps_source ⟨22, 20, .FEATURE_NOT_SUPPORTED, .FEATURE_SUPPORTED⟩
      ⟨true, .ok ()⟩ ⟨fun _ => .ok (), none⟩ 4 [.ok (), .ok (), .ok ()] []
      (by decide) (by decide)).1 (by decide)).1,
    ((disable_last_gps_source ⟨22, 16, .FEATURE_NOT_SUPPORTED, .FEATURE_SUPPORTED⟩
      ⟨true, .ok ()⟩ ⟨fun _ => .ok (), none⟩ 16 [.ok (), .ok (), .ok ()] []
      (by decide) (by decide)).2 (by decide)).2 (by decide) rfl⟩

/-! ## The commands of the sequences, their order, delays and number -/

/-- The end of the enable sequence, with or without a GPS data port: the last
step completes the task and sends no command. -/
theorem enable_tail (priv : Private) (port : GpsPort) (source retries : Nat)
    (hone : oneDialect priv = true) :
    ∃ actions priv',
      enable_location_gathering_context_gps_step priv port ⟨source, 5, retries⟩ =
        .done actions priv' ∧
      commandsOf actions = [] ∧ (reported actions).isSome = true := by
  simp only [enable_location_gathering_context_gps_step, hone, if_true, enableSwitch]
  by_cases hs : source &&& (MM_MODEM_LOCATION_SOURCE_GPS_NMEA |||
      MM_MODEM_LOCATION_SOURCE_GPS_RAW) = 0
  · simp [hs, commandsOf, reported]
  · cases hp : port.present
    · simp [hs, hp, commandsOf, reported]
    · cases ho : port.open_result <;> simp [hs, hp, ho, commandsOf, reported]

/-- The commands of the enable sequence with the `^SGPSS` dialect when its
command succeeds. -/
theorem enable_commands_sgpss (priv : Private) (port : GpsPort) (source : Nat)
    (rest : List (Except GError Unit))
    (hss : priv.sgpss_support = .FEATURE_SUPPORTED)
    (hsc : priv.sgpsc_support ≠ .FEATURE_SUPPORTED) :
    commandsOf (enableRun priv port (.ok () :: rest) (enableContext source)).actions =
      ["AT^SGPSS=4"] := by
  have h1 : oneDialect priv = true := by simp [oneDialect, hss, hsc]
  obtain ⟨acts, p, h5, hc, -⟩ := enable_tail priv port source 0 h1
  have h2 : enable_location_gathering_context_gps_step priv port ⟨source, 2, 0⟩ =
      .done acts p := by
    rw [← h5]
    simp [enable_location_gathering_context_gps_step, h1, enableSwitch, hsc]
  have h6 := enableRun_done priv port _ acts p h2 rest
  simp [enableRun, enable_location_gathering_context_gps_step, h1, enableSwitch, hss,
    enableContext, enable_sgpsc_or_sgpss_ready, scheduleDelay,
    ENABLE_LOCATION_GATHERING_GPS_STEP_FIRST, ENABLE_LOCATION_GATHERING_GPS_STEP_SGPSC_ENGINE,
    GPS_COMMAND_TIMEOUT_ENGINE_MS, GPS_COMMAND_TIMEOUT_DEFAULT_MS, h6, commandsOf, hc]
  simpa [commandsOf] using hc

/-- The command the `switch` of the enable sequence sends is the one of the
step it stops at, a step not before the one it was entered at. -/
theorem enableSwitch_command (priv : Private) (port : GpsPort) :
    ∀ (fuel : Nat) (ctx ctx' : EnableLocationGatheringContext) (command : String),
      enableSwitch priv port fuel ctx = .command command ctx' →
      ctx.gps_step ≤ ctx'.gps_step ∧
      ctx'.sgpsc_engine_retries = ctx.sgpsc_engine_retries ∧
      ((ctx'.gps_step = ENABLE_LOCATION_GATHERING_GPS_STEP_SGPSS ∧ command = "AT^SGPSS=4" ∧
          priv.sgpss_support = .FEATURE_SUPPORTED) ∨
        (ctx'.gps_step = ENABLE_LOCATION_GATHERING_GPS_STEP_SGPSC_OUTPUT ∧
          command = "AT^SGPSC=\"NMEA/Output\",\"on\"" ∧
          priv.sgpsc_support = .FEATURE_SUPPORTED) ∨
        (ctx'.gps_step = ENABLE_LOCATION_GATHERING_GPS_STEP_SGPSC_ANTENNA ∧
          command = "AT^SGPSC=\"Power/Antenna\",\"on\"" ∧
          priv.sgpsc_support = .FEATURE_SUPPORTED) ∨
        (ctx'.gps_step = ENABLE_LOCATION_GATHERING_GPS_STEP_SGPSC_ENGINE ∧
          command = "AT^SGPSC=\"Engine\",\"1\"" ∧
          priv.sgpsc_support = .FEATURE_SUPPORTED)) := by
  intro fuel
  induction fuel with
  | zero =>
    intro ctx ctx' c h
    simp [enableSwitch] at h
  | succ n ih =>
    intro ctx ctx' c h
    obtain ⟨source, step, retries⟩ := ctx
    have hnext := ih ⟨source, step + 1, retries⟩ ctx' c
    simp only at hnext
    match step with
    | 0 =>
      simp only [enableSwitch] at h
      obtain ⟨h1, h2, h3⟩ := hnext h
      exact ⟨by simp only; omega, h2, h3⟩
    | 1 =>
      simp only [enableSwitch] at h
      split at h
      · rename_i hs
        cases h
        exact ⟨Nat.le_refl _, rfl, Or.inl ⟨rfl, rfl, hs⟩⟩
      · obtain ⟨h1, h2, h3⟩ := hnext h
        exact ⟨by simp only; omega, h2, h3⟩
    | 2 =>
      simp only [enableSwitch] at h
      split at h
      · rename_i hs
        cases h
        exact ⟨Nat.le_refl _, rfl, Or.inr (Or.inl ⟨rfl, rfl, hs⟩)⟩
      · obtain ⟨h1, h2, h3⟩ := hnext h
        exact ⟨by simp only; omega, h2, h3⟩
    | 3 =>
      simp only [enableSwitch] at h
      split at h
      · rename_i hs
        cases h
        exact ⟨Nat.le_refl _, rfl, Or.inr (Or.inr (Or.inl ⟨rfl, rfl, hs⟩))⟩
      · obtain ⟨h1, h2, h3⟩ := hnext h
        exact ⟨by simp only; omega, h2, h3⟩
    | 4 =>
      simp only [enableSwitch] at h
      split at h
      · rename_i hs
        cases h
        exact ⟨Nat.le_refl _, rfl, Or.inr (Or.inr (Or.inr ⟨rfl, rfl, hs⟩))⟩
      · obtain ⟨h1, h2, h3⟩ := hnext h
        exact ⟨by simp only; omega, h2, h3⟩
    | 5 =>
      simp only [enableSwitch] at h
      split at h
      · split at h
        · cases h
        · split at h <;> cases h
      · cases h
    | k + 6 =>
      simp only [enableSwitch] at h
      cases h

/-- C31: in the enable sequence with exactly one dialect supported, when every
command succeeds: with `^SGPSS` the commands sent are `AT^SGPSS=4` and nothing
else; with `^SGPSC` they are NMEA/Output on, Power/Antenna on, Engine 1, in
this order, and nothing else.  A step of the dialect that is not supported
sends nothing and falls through to the next step; a command is sent only at
its own step and with its dialect supported, never at a step before the one
the sequence has reached; and a command that succeeds moves the sequence to
the step that follows in the enumeration. -/
theorem enable_sequence_commands (priv : Private) (port : GpsPort) (source : Nat)
    (rest : List (Except GError Unit)) (hone : oneDialect priv = true) :
    (priv.sgpss_support = .FEATURE_SUPPORTED →
      commandsOf (enableRun priv port (.ok () :: rest) (enableContext source)).actions =
        ["AT^SGPSS=4"]) ∧
    (priv.sgpsc_support = .FEATURE_SUPPORTED →
      commandsOf (enableRun priv port (.ok () :: .ok () :: .ok () :: rest)
          (enableContext source)).actions =
        ["AT^SGPSC=\"NMEA/Output\",\"on\"", "AT^SGPSC=\"Power/Antenna\",\"on\"",
          "AT^SGPSC=\"Engine\",\"1\""]) ∧
    (∀ fuel retries, priv.sgpss_support ≠ .FEATURE_SUPPORTED →
      enableSwitch priv port (fuel + 1)
          ⟨source, ENABLE_LOCATION_GATHERING_GPS_STEP_SGPSS, retries⟩ =
        enableSwitch priv port fuel
          ⟨source, ENABLE_LOCATION_GATHERING_GPS_STEP_SGPSC_OUTPUT, retries⟩) ∧
    (∀ fuel retries step, priv.sgpsc_support ≠ .FEATURE_SUPPORTED →
      ENABLE_LOCATION_GATHERING_GPS_STEP_SGPSC_OUTPUT ≤ step →
      step ≤ ENABLE_LOCATION_GATHERING_GPS_STEP_SGPSC_ENGINE →
      enableSwitch priv port (fuel + 1) ⟨source, step, retries⟩ =
        enableSwitch priv port fuel ⟨source, step + 1, retries⟩) ∧
    (∀ ctx ctx' command,
      enable_location_gathering_context_gps_step priv port ctx = .command command ctx' →
      ctx.gps_step ≤ ctx'.gps_step ∧
      ((ctx'.gps_step = ENABLE_LOCATION_GATHERING_GPS_STEP_SGPSS ∧ command = "AT^SGPSS=4" ∧
          priv.sgpss_support = .FEATURE_SUPPORTED) ∨
        (ctx'.gps_step = ENABLE_LOCATION_GATHERING_GPS_STEP_SGPSC_OUTPUT ∧
          command = "AT^SGPSC=\"NMEA/Output\",\"on\"" ∧
          priv.sgpsc_support = .FEATURE_SUPPORTED) ∨
        (ctx'.gps_step = ENABLE_LOCATION_GATHERING_GPS_STEP_SGPSC_ANTENNA ∧
          command = "AT^SGPSC=\"Power/Antenna\",\"on\"" ∧
          priv.sgpsc_support = .FEATURE_SUPPORTED) ∨
        (ctx'.gps_step = ENABLE_LOCATION_GATHERING_GPS_STEP_SGPSC_ENGINE ∧
          command = "AT^SGPSC=\"Engine\",\"1\"" ∧
          priv.sgpsc_support = .FEATURE_SUPPORTED))) ∧
    (∀ ctx : EnableLocationGatheringContext,
      enable_sgpsc_or_sgpss_ready ctx (.ok ()) =
        .schedule (scheduleDelay { ctx with gps_step := ctx.gps_step + 1 })
          { ctx with gps_step := ctx.gps_step + 1 }) := by
  refine ⟨?_, ?_, ?_, ?_, ?_, fun ctx => rfl⟩
  · intro hss
    have hsc : priv.sgpsc_support ≠ .FEATURE_SUPPORTED := by
      intro h
      simp [oneDialect, hss, h] at hone
    exact enable_commands_sgpss priv port source rest hss hsc
  · intro hsc
    have hss : priv.sgpss_support ≠ .FEATURE_SUPPORTED := by
      intro h
      simp [oneDialect, hsc, h] at hone
    exact enable_commands_sgpsc priv port source rest hss hsc
  · intro fuel retries hss
    simp [enableSwitch, hss, ENABLE_LOCATION_GATHERING_GPS_STEP_SGPSS,
      ENABLE_LOCATION_GATHERING_GPS_STEP_SGPSC_OUTPUT]
  · intro fuel retries step hsc h1 h2
    simp only [ENABLE_LOCATION_GATHERING_GPS_STEP_SGPSC_OUTPUT,
      ENABLE_LOCATION_GATHERING_GPS_STEP_SGPSC_ENGINE] at h1 h2
    interval_cases step <;> simp [enableSwitch, hsc]
  · intro ctx ctx' command h
    simp only [enable_location_gathering_context_gps_step, hone, if_true] at h
    obtain ⟨h1, -, h3⟩ := enableSwitch_command priv port 6 ctx ctx' command h
    exact ⟨h1, h3⟩

/-- C31, at a modem with the `^SGPSS` dialect and at one with the `^SGPSC`
dialect, the NMEA source being enabled. -/
theorem enable_sequence_commands_witness :
    commandsOf (enableRun ⟨22, 0, .FEATURE_SUPPORTED, .FEATURE_NOT_SUPPORTED⟩ ⟨true, .ok ()⟩
        [.ok ()] (enableContext MM_MODEM_LOCATION_SOURCE_GPS_NMEA)).actions =
      ["AT^SGPSS=4"] ∧
    commandsOf (enableRun ⟨22, 0, .FEATURE_NOT_SUPPORTED, .FEATURE_SUPPORTED⟩ ⟨true, .ok ()⟩
        [.ok (), .ok (), .ok ()] (enableContext MM_MODEM_LOCATION_SOURCE_GPS_NMEA)).actions =
      ["AT^SGPSC=\"NMEA/Output\",\"on\"", "AT^SGPSC=\"Power/Antenna\",\"on\"",
        "AT^SGPSC=\"Engine\",\"1\""] :=
  ⟨(enable_sequence_commands ⟨22, 0, .FEATURE_SUPPORTED, .FEATURE_NOT_SUPPORTED⟩ ⟨true, .ok ()⟩
      MM_MODEM_LOCATION_SOURCE_GPS_NMEA [] (by decide)).1 rfl,
    (enable_sequence_commands ⟨22, 0, .FEATURE_NOT_SUPPORTED, .FEATURE_SUPPORTED⟩
      ⟨true, .ok ()⟩ MM_MODEM_LOCATION_SOURCE_GPS_NMEA [] (by decide)).2.1 rfl⟩

/-- C32: in the disable sequence with exactly one dialect supported and for
every combination of results of its commands: with `^SGPSC` the commands sent
are Engine 0, Power/Antenna off, NMEA/Output off, in this order, each once,
whatever the earlier ones returned; their settings are those of the commands
of the enable sequence (Output, Antenna, Engine) in the reverse order.  With
`^SGPSS` the one command `AT^SGPSS=0` is sent. -/
theorem disable_sequence_commands (priv : Private) (port : GpsPort) (source : Nat)
    (outs rest : List (Except GError Unit)) (hone : oneDialect priv = true)
    (hlen : outs.length = if priv.sgpss_support = .FEATURE_SUPPORTED then 1 else 3) :
    (priv.sgpsc_support = .FEATURE_SUPPORTED →
      commandsOf (disableRun priv port (outs ++ rest) (disableContext source)).actions =
        ["AT^SGPSC=\"Engine\",\"0\"", "AT^SGPSC=\"Power/Antenna\",\"off\"",
          "AT^SGPSC=\"NMEA/Output\",\"off\""] ∧
      (commandsOf (disableRun priv port (outs ++ rest)
          (disableContext source)).actions).map sgpscSetting =
        ((commandsOf (enableRun priv port (.ok () :: .ok () :: .ok () :: rest)
          (enableContext source)).actions).map sgpscSetting).reverse ∧
      (commandsOf (enableRun priv port (.ok () :: .ok () :: .ok () :: rest)
          (enableContext source)).actions).map sgpscSetting =
        [some "NMEA/Output", some "Power/Antenna", some "Engine"]) ∧
    (priv.sgpss_support = .FEATURE_SUPPORTED →
      commandsOf (disableRun priv port (outs ++ rest) (disableContext source)).actions =
        ["AT^SGPSS=0"]) := by
  have hd := disable_commands priv port source outs rest hone hlen
  refine ⟨?_, ?_⟩
  · intro hsc
    have hss : priv.sgpss_support ≠ .FEATURE_SUPPORTED := by
      intro h
      simp [oneDialect, hsc, h] at hone
    rw [if_neg hss] at hd
    rw [hd, enable_commands_sgpsc priv port source rest hss hsc]
    exact ⟨rfl, by decide, by decide⟩
  · intro hss
    rw [if_pos hss] at hd
    exact hd

/-- C32, at a modem with the `^SGPSC` dialect, the NMEA source being disabled:
the Engine command fails, the two others succeed; all three are sent. -/
theorem disable_sequence_commands_witness :
    commandsOf (disableRun ⟨22, 4, .FEATURE_NOT_SUPPORTED, .FEATURE_SUPPORTED⟩ ⟨true, .ok ()⟩
        ([.error (.external 767), .ok (), .ok ()] ++ [])
        (disableContext MM_MODEM_LOCATION_SOURCE_GPS_NMEA)).actions =
      ["AT^SGPSC=\"Engine\",\"0\"", "AT^SGPSC=\"Power/Antenna\",\"off\"",
        "AT^SGPSC=\"NMEA/Output\",\"off\""] :=
  ((disable_sequence_commands ⟨22, 4, .FEATURE_NOT_SUPPORTED, .FEATURE_SUPPORTED⟩
    ⟨true, .ok ()⟩ MM_MODEM_LOCATION_SOURCE_GPS_NMEA
    [.error (.external 767), .ok (), .ok ()] [] (by decide) rfl).1 rfl).1

/-- C33: in the enable sequence the delay is the long one (2000 ms) exactly
when the step scheduled is the Engine step: after the Antenna command has
succeeded and after each Engine command that failed and is tried again; every
other delay scheduled, after the `^SGPSS` command, after the Output command
and after the Engine command has succeeded, is the short one (100 ms). -/
theorem enable_delay_before_engine (source retries : Nat) (e : GError) :
    (∀ ctx res interval ctx', enable_sgpsc_or_sgpss_ready ctx res = .schedule interval ctx' →
      interval = (if ctx'.gps_step = ENABLE_LOCATION_GATHERING_GPS_STEP_SGPSC_ENGINE then 2000
        else 100)) ∧
    enable_sgpsc_or_sgpss_ready
        ⟨source, ENABLE_LOCATION_GATHERING_GPS_STEP_SGPSC_ANTENNA, retries⟩ (.ok ()) =
      .schedule 2000 ⟨source, ENABLE_LOCATION_GATHERING_GPS_STEP_SGPSC_ENGINE, retries⟩ ∧
    (retries + 1 < MAX_SGPSC_ENGINE_RETRIES →
      enable_sgpsc_or_sgpss_ready
          ⟨source, ENABLE_LOCATION_GATHERING_GPS_STEP_SGPSC_ENGINE, retries⟩ (.error e) =
        .schedule 2000
          ⟨source, ENABLE_LOCATION_GATHERING_GPS_STEP_SGPSC_ENGINE, retries + 1⟩) ∧
    enable_sgpsc_or_sgpss_ready
        ⟨source, ENABLE_LOCATION_GATHERING_GPS_STEP_SGPSS, retries⟩ (.ok ()) =
      .schedule 100 ⟨source, ENABLE_LOCATION_GATHERING_GPS_STEP_SGPSC_OUTPUT, retries⟩ ∧
    enable_sgpsc_or_sgpss_ready
        ⟨source, ENABLE_LOCATION_GATHERING_GPS_STEP_SGPSC_OUTPUT, retries⟩ (.ok ()) =
      .schedule 100 ⟨source, ENABLE_LOCATION_GATHERING_GPS_STEP_SGPSC_ANTENNA, retries⟩ ∧
    enable_sgpsc_or_sgpss_ready
        ⟨source, ENABLE_LOCATION_GATHERING_GPS_STEP_SGPSC_ENGINE, retries⟩ (.ok ()) =
      .schedule 100 ⟨source, ENABLE_LOCATION_GATHERING_GPS_STEP_LAST, retries⟩ ∧
    (∀ (priv : Private) (port : GpsPort) (e1 : GError),
      priv.sgpss_support ≠ .FEATURE_SUPPORTED → priv.sgpsc_support = .FEATURE_SUPPORTED →
      (enableRun priv port [.ok (), .ok (), .error e1, .ok ()]
          (enableContext source)).actions.take 8 =
        [.at_command "AT^SGPSC=\"NMEA/Output\",\"on\"", .timeout_add 100,
          .at_command "AT^SGPSC=\"Power/Antenna\",\"on\"", .timeout_add 2000,
          .at_command "AT^SGPSC=\"Engine\",\"1\"", .timeout_add 2000,
          .at_command "AT^SGPSC=\"Engine\",\"1\"", .timeout_add 100]) := by
  refine ⟨?_, rfl, ?_, rfl, rfl, rfl, ?_⟩
  · intro ctx res interval ctx' h
    cases res with
    | error e' =>
      simp only [enable_sgpsc_or_sgpss_ready] at h
      split at h
      · split at h
        · cases h
          simp [scheduleDelay, GPS_COMMAND_TIMEOUT_ENGINE_MS, GPS_COMMAND_TIMEOUT_DEFAULT_MS]
        · cases h
      · cases h
    | ok u =>
      simp only [enable_sgpsc_or_sgpss_ready] at h
      cases h
      simp [scheduleDelay, GPS_COMMAND_TIMEOUT_ENGINE_MS, GPS_COMMAND_TIMEOUT_DEFAULT_MS]
  · intro h
    simp [enable_sgpsc_or_sgpss_ready, h, scheduleDelay, GPS_COMMAND_TIMEOUT_ENGINE_MS]
  · intro priv port e1 hss hsc
    have h1 : oneDialect priv = true := by simp [oneDialect, hss, hsc]
    simp [enableRun, enable_location_gathering_context_gps_step, h1, enableSwitch, hss, hsc,
      enableContext, enable_sgpsc_or_sgpss_ready, scheduleDelay,
      ENABLE_LOCATION_GATHERING_GPS_STEP_FIRST, ENABLE_LOCATION_GATHERING_GPS_STEP_SGPSC_ENGINE,
      MAX_SGPSC_ENGINE_RETRIES, GPS_COMMAND_TIMEOUT_ENGINE_MS, GPS_COMMAND_TIMEOUT_DEFAULT_MS]

/-- C34: in the enable sequence a command other than the Engine command that
fails ends the sequence at once: the callback completes the task with the
error of the command and schedules nothing, whatever the retry counter holds.
So with `^SGPSS` a failed command, and with `^SGPSC` a failed Output command
or a failed Antenna command, is the last command sent, it was sent once, the
error reported is its error and the private data, the enabled mask among them,
are as they were. -/
theorem enable_failure_without_retry (priv : Private) (port : GpsPort) (source : Nat)
    (e : GError) (rest : List (Except GError Unit)) (hone : oneDialect priv = true) :
    (∀ ctx : EnableLocationGatheringContext,
      ctx.gps_step ≠ ENABLE_LOCATION_GATHERING_GPS_STEP_SGPSC_ENGINE →
      enable_sgpsc_or_sgpss_ready ctx (.error e) = .failed e) ∧
    (priv.sgpss_support = .FEATURE_SUPPORTED →
      (enableRun priv port (.error e :: rest) (enableContext source)).actions =
        [.at_command "AT^SGPSS=4", .task_return (.error e)] ∧
      (enableRun priv port (.error e :: rest) (enableContext source)).priv = priv) ∧
    (priv.sgpsc_support = .FEATURE_SUPPORTED →
      (enableRun priv port (.error e :: rest) (enableContext source)).actions =
        [.at_command "AT^SGPSC=\"NMEA/Output\",\"on\"", .task_return (.error e)] ∧
      (enableRun priv port (.error e :: rest) (enableContext source)).priv = priv ∧
      (enableRun priv port (.ok () :: .error e :: rest) (enableContext source)).actions =
        [.at_command "AT^SGPSC=\"NMEA/Output\",\"on\"", .timeout_add 100,
          .at_command "AT^SGPSC=\"Power/Antenna\",\"on\"", .task_return (.error e)] ∧
      (enableRun priv port (.ok () :: .error e :: rest) (enableContext source)).priv = priv) := by
  refine ⟨?_, ?_, ?_⟩
  · intro ctx h
    simp [enable_sgpsc_or_sgpss_ready, h]
  · intro hss
    simp [enableRun, enable_location_gathering_context_gps_step, hone, enableSwitch, hss,
      enableContext, enable_sgpsc_or_sgpss_ready,
      ENABLE_LOCATION_GATHERING_GPS_STEP_FIRST, ENABLE_LOCATION_GATHERING_GPS_STEP_SGPSC_ENGINE]
  · intro hsc
    have hss : priv.sgpss_support ≠ .FEATURE_SUPPORTED := by
      intro h
      simp [oneDialect, hsc, h] at hone
    simp [enableRun, enable_location_gathering_context_gps_step, hone, enableSwitch, hss, hsc,
      enableContext, enable_sgpsc_or_sgpss_ready, scheduleDelay,
      ENABLE_LOCATION_GATHERING_GPS_STEP_FIRST, ENABLE_LOCATION_GATHERING_GPS_STEP_SGPSC_ENGINE,
      GPS_COMMAND_TIMEOUT_ENGINE_MS, GPS_COMMAND_TIMEOUT_DEFAULT_MS]

/-- C34, at a modem with the `^SGPSC` dialect, the NMEA source being enabled and
the Antenna command failing with error 767. -/
theorem enable_failure_without_retry_witness :
    (enableRun ⟨22, 0, .FEATURE_NOT_SUPPORTED, .FEATURE_SUPPORTED⟩ ⟨true, .ok ()⟩
        [.ok (), .error (.external 767), .ok ()]
        (enableContext MM_MODEM_LOCATION_SOURCE_GPS_NMEA)).actions =
      [.at_command "AT^SGPSC=\"NMEA/Output\",\"on\"", .timeout_add 100,
        .at_command "AT^SGPSC=\"Power/Antenna\",\"on\"",
        .task_return (.error (.external 767))] :=
  ((enable_failure_without_retry ⟨22, 0, .FEATURE_NOT_SUPPORTED, .FEATURE_SUPPORTED⟩
    ⟨true, .ok ()⟩ MM_MODEM_LOCATION_SOURCE_GPS_NMEA (.external 767) [.ok ()]
    (by decide)).2.2 rfl).2.2.1

theorem oneDialect_cases (priv : Private) (h : oneDialect priv = true) :
    (priv.sgpss_support = .FEATURE_SUPPORTED ∧ priv.sgpsc_support ≠ .FEATURE_SUPPORTED) ∨
      (priv.sgpss_support ≠ .FEATURE_SUPPORTED ∧ priv.sgpsc_support = .FEATURE_SUPPORTED) := by
  by_cases h1 : priv.sgpss_support = .FEATURE_SUPPORTED <;>
    by_cases h2 : priv.sgpsc_support = .FEATURE_SUPPORTED <;>
    simp [oneDialect, h1, h2] at h ⊢

/-- When the `switch` of the enable sequence completes the task it has sent no
command and has reported a result. -/
theorem enableSwitch_done_reported (priv : Private) (port : GpsPort) :
    ∀ (fuel : Nat) (ctx : EnableLocationGatheringContext) (actions : List Action)
      (priv' : Private), enableSwitch priv port fuel ctx = .done actions priv' →
      commandsOf actions = [] ∧ (reported actions).isSome = true := by
  intro fuel
  induction fuel with
  | zero =>
    intro ctx a p h
    simp [enableSwitch] at h
  | succ n ih =>
    intro ctx a p h
    obtain ⟨source, step, retries⟩ := ctx
    have hnext := ih ⟨source, step + 1, retries⟩ a p
    match step with
    | 0 =>
      simp only [enableSwitch] at h
      exact hnext h
    | 1 =>
      simp only [enableSwitch] at h
      split at h
      · cases h
      · exact hnext h
    | 2 =>
      simp only [enableSwitch] at h
      split at h
      · cases h
      · exact hnext h
    | 3 =>
      simp only [enableSwitch] at h
      split at h
      · cases h
      · exact hnext h
    | 4 =>
      simp only [enableSwitch] at h
      split at h
      · cases h
      · exact hnext h
    | 5 =>
      simp only [enableSwitch] at h
      split at h
      · split at h
        · cases h
          exact ⟨rfl, rfl⟩
        · split at h
          · cases h
            exact ⟨rfl, rfl⟩
          · cases h
            exact ⟨rfl, rfl⟩
      · cases h
        exact ⟨rfl, rfl⟩
    | k + 6 =>
      simp only [enableSwitch] at h
      cases h

/-- What a step of the enable sequence does from a step number of the
enumeration: it sends the command of a step not before that one, with its
dialect supported, or it completes the task. -/
theorem enable_step_cases (priv : Private) (port : GpsPort)
    (ctx : EnableLocationGatheringContext) (hone : oneDialect priv = true)
    (hstep : ctx.gps_step ≤ 5) :
    (∃ c ctx', enable_location_gathering_context_gps_step priv port ctx = .command c ctx' ∧
      ctx.gps_step ≤ ctx'.gps_step ∧ ctx'.sgpsc_engine_retries = ctx.sgpsc_engine_retries ∧
      ((ctx'.gps_step = 1 ∧ priv.sgpss_support = .FEATURE_SUPPORTED) ∨
        (2 ≤ ctx'.gps_step ∧ ctx'.gps_step ≤ 4 ∧ priv.sgpsc_support = .FEATURE_SUPPORTED))) ∨
    (∃ a p, enable_location_gathering_context_gps_step priv port ctx = .done a p ∧
      commandsOf a = [] ∧ (reported a).isSome = true) := by
  simp only [enable_location_gathering_context_gps_step, hone, if_true]
  rcases enableSwitch_decides priv port ctx hstep with ⟨c, ctx', h⟩ | ⟨a, p, h⟩
  · left
    obtain ⟨h1, h2, h3⟩ := enableSwitch_command priv port 6 ctx ctx' c h
    refine ⟨c, ctx', h, h1, h2, ?_⟩
    simp only [ENABLE_LOCATION_GATHERING_GPS_STEP_SGPSS,
      ENABLE_LOCATION_GATHERING_GPS_STEP_SGPSC_OUTPUT,
      ENABLE_LOCATION_GATHERING_GPS_STEP_SGPSC_ANTENNA,
      ENABLE_LOCATION_GATHERING_GPS_STEP_SGPSC_ENGINE] at h3
    rcases h3 with ⟨a, -, b⟩ | ⟨a, -, b⟩ | ⟨a, -, b⟩ | ⟨a, -, b⟩
    · exact Or.inl ⟨a, b⟩
    · exact Or.inr ⟨by omega, by omega, b⟩
    · exact Or.inr ⟨by omega, by omega, b⟩
    · exact Or.inr ⟨by omega, by omega, b⟩
  · right
    obtain ⟨h1, h2⟩ := enableSwitch_done_reported priv port 6 ctx a p h
    exact ⟨a, p, h, h1, h2⟩

/-- What the callback of a command of the enable sequence does: on success it
schedules the next step of the enumeration; on a failure of the Engine command
with attempts left it schedules the same step with one retry more; on any
other failure it completes the task with the error. -/
theorem enable_ready_cases (ctx : EnableLocationGatheringContext)
    (res : Except GError Unit) :
    (∃ i, enable_sgpsc_or_sgpss_ready ctx res =
      .schedule i { ctx with gps_step := ctx.gps_step + 1 }) ∨
    (ctx.gps_step = 4 ∧ ctx.sgpsc_engine_retries + 1 < 3 ∧
      ∃ i, enable_sgpsc_or_sgpss_ready ctx res =
        .schedule i { ctx with sgpsc_engine_retries := ctx.sgpsc_engine_retries + 1 }) ∨
    (∃ e, enable_sgpsc_or_sgpss_ready ctx res = .failed e) := by
  cases res with
  | ok u => exact Or.inl ⟨_, rfl⟩
  | error e =>
    by_cases h4 : ctx.gps_step = 4
    · by_cases hr : ctx.sgpsc_engine_retries + 1 < 3
      · refine Or.inr (Or.inl ⟨h4, hr,
          scheduleDelay { ctx with sgpsc_engine_retries := ctx.sgpsc_engine_retries + 1 }, ?_⟩)
        simp [enable_sgpsc_or_sgpss_ready, h4, hr,
          ENABLE_LOCATION_GATHERING_GPS_STEP_SGPSC_ENGINE, MAX_SGPSC_ENGINE_RETRIES]
      · refine Or.inr (Or.inr ⟨e, ?_⟩)
        simp [enable_sgpsc_or_sgpss_ready, h4, hr,
          ENABLE_LOCATION_GATHERING_GPS_STEP_SGPSC_ENGINE, MAX_SGPSC_ENGINE_RETRIES]
    · refine Or.inr (Or.inr ⟨e, ?_⟩)
      simp [enable_sgpsc_or_sgpss_ready, h4,
        ENABLE_LOCATION_GATHERING_GPS_STEP_SGPSC_ENGINE]

/-- A run of the enable sequence sends no more commands than are left from its
context, and once it has had that many results it has completed its task. -/
theorem enableRun_bound (priv : Private) (port : GpsPort) (hone : oneDialect priv = true) :
    ∀ (results : List (Except GError Unit)) (ctx : EnableLocationGatheringContext),
      ctx.gps_step ≤ 5 → ctx.sgpsc_engine_retries < 3 →
      (commandsOf (enableRun priv port results ctx).actions).length ≤
          enableCommandsLeft priv ctx ∧
        (enableCommandsLeft priv ctx ≤ results.length →
          (reported (enableRun priv port results ctx).actions).isSome = true) := by
  have hleft : ∀ (ctx ctx' : EnableLocationGatheringContext),
      ctx.gps_step ≤ ctx'.gps_step → ctx'.sgpsc_engine_retries = ctx.sgpsc_engine_retries →
      ctx'.sgpsc_engine_retries < 3 →
      ((ctx'.gps_step = 1 ∧ priv.sgpss_support = .FEATURE_SUPPORTED) ∨
        (2 ≤ ctx'.gps_step ∧ ctx'.gps_step ≤ 4 ∧ priv.sgpsc_support = .FEATURE_SUPPORTED)) →
      1 ≤ enableCommandsLeft priv ctx' ∧
        enableCommandsLeft priv ctx' ≤ enableCommandsLeft priv ctx ∧
        enableCommandsLeft priv { ctx' with gps_step := ctx'.gps_step + 1 } + 1 ≤
          enableCommandsLeft priv ctx' ∧
        (ctx'.gps_step = 4 → ctx'.sgpsc_engine_retries + 1 < 3 →
          enableCommandsLeft priv
              { ctx' with sgpsc_engine_retries := ctx'.sgpsc_engine_retries + 1 } + 1 ≤
            enableCommandsLeft priv ctx') := by
    intro ctx ctx' h1 h2 h3 h4
    rcases oneDialect_cases priv hone with ⟨hss, hsc⟩ | ⟨hss, hsc⟩
    · rcases h4 with ⟨h4, -⟩ | ⟨-, -, h4⟩
      · simp only [enableCommandsLeft, hss, hsc, true_and, if_false, Nat.add_zero,
          ENABLE_LOCATION_GATHERING_GPS_STEP_SGPSS]
        refine ⟨?_, ?_, ?_, ?_⟩
        · split_ifs <;> omega
        · split_ifs <;> omega
        · split_ifs <;> omega
        · intro h5
          omega
      · exact absurd h4 hsc
    · rcases h4 with ⟨-, h4⟩ | ⟨h4, h5, -⟩
      · exact absurd h4 hss
      · simp only [enableCommandsLeft, hss, hsc, false_and, if_false, if_true, Nat.zero_add,
          ENABLE_LOCATION_GATHERING_GPS_STEP_SGPSC_OUTPUT,
          ENABLE_LOCATION_GATHERING_GPS_STEP_SGPSC_ANTENNA,
          ENABLE_LOCATION_GATHERING_GPS_STEP_SGPSC_ENGINE, MAX_SGPSC_ENGINE_RETRIES]
        refine ⟨?_, ?_, ?_, ?_⟩
        · split_ifs <;> omega
        · split_ifs <;> omega
        · split_ifs <;> omega
        · intro h6 h7
          split_ifs <;> omega
  intro results
  induction results with
  | nil =>
    intro ctx hstep hret
    rcases enable_step_cases priv port ctx hone hstep with
      ⟨c, ctx', h, h1, h2, h3⟩ | ⟨a, p, h, h1, h2⟩
    · obtain ⟨k1, k2, -, -⟩ := hleft ctx ctx' h1 h2 (by omega) h3
      simp only [enableRun, h]
      refine ⟨?_, ?_⟩
      · simp only [commandsOf, List.filterMap_cons, List.filterMap_nil, List.length_singleton]
        omega
      · intro hle
        simp only [List.length_nil] at hle
        omega
    · simp only [enableRun, h, h1, h2, List.length_nil, Nat.zero_le, implies_true, and_self]
  | cons res rest ih =>
    intro ctx hstep hret
    rcases enable_step_cases priv port ctx hone hstep with
      ⟨c, ctx', h, h1, h2, h3⟩ | ⟨a, p, h, h1, h2⟩
    · obtain ⟨k1, k2, k3, k4⟩ := hleft ctx ctx' h1 h2 (by omega) h3
      have hs4 : ctx'.gps_step ≤ 4 := by
        rcases h3 with ⟨a, -⟩ | ⟨-, a, -⟩ <;> omega
      rcases enable_ready_cases ctx' res with ⟨i, hr⟩ | ⟨g4, gr, i, hr⟩ | ⟨e, hr⟩
      · obtain ⟨i1, i2⟩ := ih { ctx' with gps_step := ctx'.gps_step + 1 }
          (by simp only; omega) (by simp only; omega)
        simp only [enableRun, h, hr]
        refine ⟨?_, ?_⟩
        · simp only [commandsOf, List.filterMap_cons] at i1 ⊢
          simp only [List.length_cons]
          omega
        · intro hle
          simp only [List.length_cons] at hle
          simp only [reported]
          exact i2 (by omega)
      · obtain ⟨i1, i2⟩ := ih
          { ctx' with sgpsc_engine_retries := ctx'.sgpsc_engine_retries + 1 }
          (by simp only; omega) (by simp only; omega)
        have k5 := k4 g4 gr
        simp only [enableRun, h, hr]
        refine ⟨?_, ?_⟩
        · simp only [commandsOf, List.filterMap_cons] at i1 ⊢
          simp only [List.length_cons]
          omega
        · intro hle
          simp only [List.length_cons] at hle
          simp only [reported]
          exact i2 (by omega)
      · simp only [enableRun, h, hr]
        refine ⟨?_, fun _ => rfl⟩
        simp only [commandsOf, List.filterMap_cons, List.filterMap_nil, List.length_singleton]
        omega
    · simp only [enableRun, h, h1, h2, List.length_nil, Nat.zero_le, implies_true, and_self]

/-- A run of the enable sequence that has completed its task is not changed by
further results. -/
theorem enableRun_terminal_append (priv : Private) (port : GpsPort) :
    ∀ (results rest : List (Except GError Unit)) (ctx : EnableLocationGatheringContext),
      (reported (enableRun priv port results ctx).actions).isSome = true →
      enableRun priv port (results ++ rest) ctx = enableRun priv port results ctx := by
  intro results
  induction results with
  | nil =>
    intro rest ctx hrep
    cases h : enable_location_gathering_context_gps_step priv port ctx with
    | command c ctx' => simp [enableRun, h, reported] at hrep
    | done a p =>
      rw [List.nil_append, enableRun_done priv port ctx a p h rest,
        enableRun_done priv port ctx a p h []]
    | aborted => simp [enableRun, h, reported] at hrep
    | nothing => simp [enableRun, h, reported] at hrep
  | cons res results ih =>
    intro rest ctx hrep
    cases h : enable_location_gathering_context_gps_step priv port ctx with
    | command c ctx' =>
      cases hr : enable_sgpsc_or_sgpss_ready ctx' res with
      | schedule i ctx'' =>
        simp only [enableRun, h, hr, reported] at hrep
        have := ih rest ctx'' hrep
        simp only [List.cons_append, enableRun, h, hr]
        rw [show results.append rest = results ++ rest from rfl, this]
      | failed e => simp only [List.cons_append, enableRun, h, hr]
    | done a p =>
      rw [enableRun_done priv port ctx a p h _, enableRun_done priv port ctx a p h _]
    | aborted => simp [enableRun, h, reported] at hrep
    | nothing => simp [enableRun, h, reported] at hrep

/-- The end of the disable sequence: once no command is left to send the step
completes the task, sends no command and reports a result. -/
theorem disable_tail_reported (priv : Private) (port : GpsPort) (source n : Nat)
    (se sc : Option GError) (hone : oneDialect priv = true)
    (hn : n = 5 ∨ (priv.sgpsc_support ≠ .FEATURE_SUPPORTED ∧ n = 2)) :
    ∃ actions priv',
      disable_location_gathering_context_gps_step priv port ⟨source, n, se, sc⟩ =
        .done actions priv' ∧
      (reported actions).isSome = true := by
  have h5 : ∃ actions priv',
      disable_location_gathering_context_gps_step priv port ⟨source, 5, se, sc⟩ =
        .done actions priv' ∧
      (reported actions).isSome = true := by
    simp only [disable_location_gathering_context_gps_step, hone, if_true, disableSwitch]
    cases se <;> cases sc <;> cases port.present <;>
      by_cases hs : source &&& (MM_MODEM_LOCATION_SOURCE_GPS_NMEA |||
        MM_MODEM_LOCATION_SOURCE_GPS_RAW) = 0 <;>
      simp [hs, reported]
  rcases hn with hn | ⟨hsc, hn⟩
  · subst hn
    exact h5
  · subst hn
    obtain ⟨a, p, h, hc⟩ := h5
    refine ⟨a, p, ?_, hc⟩
    rw [← h]
    simp [disable_location_gathering_context_gps_step, hone, disableSwitch, hsc]

/-- The disable sequence has completed its task once its commands, one with
`^SGPSS` and three with `^SGPSC`, have their results. -/
theorem disable_reported (priv : Private) (port : GpsPort) (source : Nat)
    (outs rest : List (Except GError Unit)) (hone : oneDialect priv = true)
    (hlen : outs.length = if priv.sgpss_support = .FEATURE_SUPPORTED then 1 else 3) :
    (reported (disableRun priv port (outs ++ rest) (disableContext source)).actions).isSome =
      true := by
  by_cases hss : priv.sgpss_support = .FEATURE_SUPPORTED
  · have hsc : priv.sgpsc_support ≠ .FEATURE_SUPPORTED := by
      intro h
      simp [oneDialect, hss, h] at hone
    rw [if_pos hss] at hlen
    match outs, hlen with
    | [o], _ =>
      have key : ∀ se : Option GError,
          (reported (disableRun priv port rest ⟨source, 2, se, none⟩).actions).isSome = true := by
        intro se
        obtain ⟨a, p, h, hc⟩ := disable_tail_reported priv port source 2 se none hone
          (Or.inr ⟨hsc, rfl⟩)
        rw [disableRun_done priv port _ a p h rest]
        exact hc
      cases o <;>
        simp [disableRun, disable_location_gathering_context_gps_step, hone, disableSwitch,
          hss, disableContext, disableReady, disable_sgpss_ready,
          DISABLE_LOCATION_GATHERING_GPS_STEP_FIRST, DISABLE_LOCATION_GATHERING_GPS_STEP_SGPSS,
          reported] <;>
        simpa using key _
  · have hsc : priv.sgpsc_support = .FEATURE_SUPPORTED := by
      by_contra h
      simp [oneDialect, hss, h] at hone
    rw [if_neg hss] at hlen
    match outs, hlen with
    | [o1, o2, o3], _ =>
      have key : ∀ sc : Option GError,
          (reported (disableRun priv port rest ⟨source, 5, none, sc⟩).actions).isSome = true := by
        intro sc
        obtain ⟨a, p, h, hc⟩ := disable_tail_reported priv port source 5 none sc hone
          (Or.inl rfl)
        rw [disableRun_done priv port _ a p h rest]
        exact hc
      cases o1 <;> cases o2 <;> cases o3 <;>
        simp [disableRun, disable_location_gathering_context_gps_step, hone, disableSwitch,
          hss, hsc, disableContext, disableReady, disable_sgpss_ready,
          disable_sgpsc_ready,
          DISABLE_LOCATION_GATHERING_GPS_STEP_FIRST, DISABLE_LOCATION_GATHERING_GPS_STEP_SGPSS,
          reported] <;>
        simpa using key _

/-- A run of the disable sequence that has completed its task is not changed
by further results. -/
theorem disableRun_terminal_append (priv : Private) (port : GpsPort) :
    ∀ (results rest : List (Except GError Unit)) (ctx : DisableLocationGatheringContext),
      (reported (disableRun priv port results ctx).actions).isSome = true →
      disableRun priv port (results ++ rest) ctx = disableRun priv port results ctx := by
  intro results
  induction results with
  | nil =>
    intro rest ctx hrep
    cases h : disable_location_gathering_context_gps_step priv port ctx with
    | command c ctx' => simp [disableRun, h, reported] at hrep
    | done a p =>
      rw [List.nil_append, disableRun_done priv port ctx a p h rest,
        disableRun_done priv port ctx a p h []]
    | aborted => simp [disableRun, h, reported] at hrep
    | nothing => simp [disableRun, h, reported] at hrep
  | cons res results ih =>
    intro rest ctx hrep
    cases h : disable_location_gathering_context_gps_step priv port ctx with
    | command c ctx' =>
      cases hr : disableReady ctx' res with
      | some ctx'' =>
        simp only [disableRun, h, hr, reported] at hrep
        have := ih rest ctx'' hrep
        simp only [List.cons_append, disableRun, h, hr]
        rw [show results.append rest = results ++ rest from rfl, this]
      | none => simp only [List.cons_append, disableRun, h, hr]
    | done a p =>
      rw [disableRun_done priv port ctx a p h _, disableRun_done priv port ctx a p h _]
    | aborted => simp [disableRun, h, reported] at hrep
    | nothing => simp [disableRun, h, reported] at hrep

/-- The step the `switch` of the disable sequence stops at to send a command
is not before the one it was entered at. -/
theorem disableSwitch_command (priv : Private) (port : GpsPort) :
    ∀ (fuel : Nat) (ctx ctx' : DisableLocationGatheringContext) (command : String),
      disableSwitch priv port fuel ctx = .command command ctx' →
      ctx.gps_step ≤ ctx'.gps_step := by
  intro fuel
  induction fuel with
  | zero =>
    intro ctx ctx' c h
    simp [disableSwitch] at h
  | succ n ih =>
    intro ctx ctx' c h
    obtain ⟨source, step, se, sc⟩ := ctx
    have hnext := ih ⟨source, step + 1, se, sc⟩ ctx' c
    simp only at hnext
    match step with
    | 0 =>
      simp only [disableSwitch] at h
      have := hnext h
      simp only
      omega
    | 1 =>
      simp only [disableSwitch] at h
      split at h
      · cases h
        exact Nat.le_refl _
      · have := hnext h
        simp only
        omega
    | 2 =>
      simp only [disableSwitch] at h
      split at h
      · cases h
        exact Nat.le_refl _
      · have := hnext h
        simp only
        omega
    | 3 =>
      simp only [disableSwitch] at h
      split at h
      · cases h
        exact Nat.le_refl _
      · have := hnext h
        simp only
        omega
    | 4 =>
      simp only [disableSwitch] at h
      split at h
      · cases h
        exact Nat.le_refl _
      · have := hnext h
        simp only
        omega
    | 5 =>
      simp only [disableSwitch] at h
      split at h
      · cases h
      · split at h <;> cases h
    | k + 6 =>
      simp only [disableSwitch] at h
      cases h

theorem disableReady_step (ctx ctx' : DisableLocationGatheringContext)
    (res : Except GError Unit) (h : disableReady ctx res = some ctx') :
    ctx'.gps_step = ctx.gps_step + 1 := by
  simp only [disableReady] at h
  split at h
  · simp only [disable_sgpss_ready] at h
    split at h
    · cases h
    · cases h
      cases res <;> rfl
  · cases h
    simp only [disable_sgpsc_ready]
    cases res with
    | ok u => rfl
    | error e => cases ctx.sgpsc_error <;> rfl

theorem outcomes_add {α : Type} (f : Nat → α) (n k : Nat) :
    outcomes f (n + k) = outcomes f n ++ (List.range k).map (fun i => f (n + i)) := by
  simp [outcomes, List.range_add, List.map_map, Function.comp_def]

theorem outcomes_length {α : Type} (f : Nat → α) (n : Nat) : (outcomes f n).length = n := by
  simp [outcomes]

/-- C39: with exactly one dialect supported, for every list of results of the
commands and for every endless sequence of them.  The enable sequence sends at
most 5 commands with `^SGPSC` and at most 1 with `^SGPSS`, and has completed
its task once it has had that many results, exactly 1 command being sent with
`^SGPSS`; the disable sequence has completed its task after exactly 3 commands
with `^SGPSC` and exactly 1 with `^SGPSS`; of an endless sequence of results
the first 5 (3 for the disable sequence) decide the run.  The step number never
goes down, neither when a step is run nor in the callback of a command, and a
retry counter below 3 stays below 3 in every step scheduled, so that it never
exceeds 3. -/
theorem sequences_terminate (priv : Private) (port : GpsPort) (source : Nat)
    (results : List (Except GError Unit)) (f : Nat → Except GError Unit)
    (hone : oneDialect priv = true) :
    (commandsOf (enableRun priv port results (enableContext source)).actions).length ≤
      (if priv.sgpss_support = .FEATURE_SUPPORTED then 1 else 5) ∧
    ((if priv.sgpss_support = .FEATURE_SUPPORTED then 1 else 5) ≤ results.length →
      (reported (enableRun priv port results (enableContext source)).actions).isSome = true) ∧
    (priv.sgpss_support = .FEATURE_SUPPORTED → 1 ≤ results.length →
      (commandsOf (enableRun priv port results (enableContext source)).actions).length = 1) ∧
    ((if priv.sgpss_support = .FEATURE_SUPPORTED then 1 else 3) ≤ results.length →
      (commandsOf (disableRun priv port results (disableContext source)).actions).length =
        (if priv.sgpss_support = .FEATURE_SUPPORTED then 1 else 3) ∧
      (reported (disableRun priv port results (disableContext source)).actions).isSome = true) ∧
    (∀ n, 5 ≤ n →
      (reported (enableRun priv port (outcomes f n) (enableContext source)).actions).isSome =
        true ∧
      enableRun priv port (outcomes f n) (enableContext source) =
        enableRun priv port (outcomes f 5) (enableContext source)) ∧
    (∀ n, 3 ≤ n →
      (reported (disableRun priv port (outcomes f n) (disableContext source)).actions).isSome =
        true ∧
      disableRun priv port (outcomes f n) (disableContext source) =
        disableRun priv port (outcomes f 3) (disableContext source)) ∧
    (∀ ctx ctx' command,
      enable_location_gathering_context_gps_step priv port ctx = .command command ctx' →
      ctx.gps_step ≤ ctx'.gps_step ∧
        ctx'.sgpsc_engine_retries = ctx.sgpsc_engine_retries) ∧
    (∀ ctx res interval ctx',
      enable_sgpsc_or_sgpss_ready ctx res = .schedule interval ctx' →
      ctx.gps_step ≤ ctx'.gps_step ∧
        (ctx'.sgpsc_engine_retries = ctx.sgpsc_engine_retries ∨
          (ctx'.sgpsc_engine_retries = ctx.sgpsc_engine_retries + 1 ∧
            ctx'.sgpsc_engine_retries < MAX_SGPSC_ENGINE_RETRIES))) ∧
    (∀ ctx ctx' command,
      disable_location_gathering_context_gps_step priv port ctx = .command command ctx' →
      ctx.gps_step ≤ ctx'.gps_step) ∧
    (∀ ctx res ctx', disableReady ctx res = some ctx' → ctx'.gps_step = ctx.gps_step + 1) := by
  have hleft : enableCommandsLeft priv (enableContext source) =
      (if priv.sgpss_support = .FEATURE_SUPPORTED then 1 else 5) := by
    rcases oneDialect_cases priv hone with ⟨hss, hsc⟩ | ⟨hss, hsc⟩ <;>
      simp [enableCommandsLeft, enableContext, hss, hsc,
        ENABLE_LOCATION_GATHERING_GPS_STEP_FIRST, ENABLE_LOCATION_GATHERING_GPS_STEP_SGPSS,
        ENABLE_LOCATION_GATHERING_GPS_STEP_SGPSC_OUTPUT,
        ENABLE_LOCATION_GATHERING_GPS_STEP_SGPSC_ANTENNA,
        ENABLE_LOCATION_GATHERING_GPS_STEP_SGPSC_ENGINE, MAX_SGPSC_ENGINE_RETRIES]
  have hen : ∀ rs : List (Except GError Unit),
      (commandsOf (enableRun priv port rs (enableContext source)).actions).length ≤
        (if priv.sgpss_support = .FEATURE_SUPPORTED then 1 else 5) ∧
      ((if priv.sgpss_support = .FEATURE_SUPPORTED then 1 else 5) ≤ rs.length →
        (reported (enableRun priv port rs (enableContext source)).actions).isSome = true) := by
    intro rs
    have := enableRun_bound priv port hone rs (enableContext source)
      (by simp [enableContext, ENABLE_LOCATION_GATHERING_GPS_STEP_FIRST])
      (by simp [enableContext])
    rw [hleft] at this
    exact this
  have hdis : ∀ rs : List (Except GError Unit),
      (if priv.sgpss_support = .FEATURE_SUPPORTED then 1 else 3) ≤ rs.length →
      (commandsOf (disableRun priv port rs (disableContext source)).actions).length =
        (if priv.sgpss_support = .FEATURE_SUPPORTED then 1 else 3) ∧
      (reported (disableRun priv port rs (disableContext source)).actions).isSome = true := by
    intro rs hle
    have hk : (rs.take (if priv.sgpss_support = .FEATURE_SUPPORTED then 1 else 3)).length =
        if priv.sgpss_support = .FEATURE_SUPPORTED then 1 else 3 := by
      rw [List.length_take]
      omega
    have hsplit := List.take_append_drop
      (if priv.sgpss_support = .FEATURE_SUPPORTED then 1 else 3) rs
    have h1 := disable_commands priv port source _ (rs.drop
      (if priv.sgpss_support = .FEATURE_SUPPORTED then 1 else 3)) hone hk
    have h2 := disable_reported priv port source _ (rs.drop
      (if priv.sgpss_support = .FEATURE_SUPPORTED then 1 else 3)) hone hk
    rw [hsplit] at h1 h2
    refine ⟨?_, h2⟩
    rw [h1]
    split <;> rfl
  refine ⟨(hen results).1, (hen results).2, ?_, hdis results, ?_, ?_, ?_, ?_, ?_, ?_⟩
  · intro hss hlen
    cases results with
    | nil => simp at hlen
    | cons r rest =>
      have hsc : priv.sgpsc_support ≠ .FEATURE_SUPPORTED := by
        intro h
        simp [oneDialect, hss, h] at hone
      have h1 := (hen (r :: rest)).1
      rw [if_pos hss] at h1
      have h2 : 1 ≤ (commandsOf (enableRun priv port (r :: rest)
          (enableContext source)).actions).length := by
        cases r <;>
          simp [enableRun, enable_location_gathering_context_gps_step, hone, enableSwitch, hss,
            enableContext, enable_sgpsc_or_sgpss_ready, commandsOf,
            ENABLE_LOCATION_GATHERING_GPS_STEP_FIRST,
            ENABLE_LOCATION_GATHERING_GPS_STEP_SGPSC_ENGINE]
      omega
  · intro n hn
    have h5 := (hen (outcomes f 5)).2 (by rw [outcomes_length]; split <;> omega)
    obtain ⟨k, rfl⟩ : ∃ k, n = 5 + k := ⟨n - 5, by omega⟩
    rw [outcomes_add, enableRun_terminal_append priv port _ _ _ h5]
    exact ⟨h5, rfl⟩
  · intro n hn
    have h3 := (hdis (outcomes f 3) (by rw [outcomes_length]; split <;> omega)).2
    obtain ⟨k, rfl⟩ : ∃ k, n = 3 + k := ⟨n - 3, by omega⟩
    rw [outcomes_add, disableRun_terminal_append priv port _ _ _ h3]
    exact ⟨h3, rfl⟩
  · intro ctx ctx' command h
    simp only [enable_location_gathering_context_gps_step, hone, if_true] at h
    obtain ⟨h1, h2, -⟩ := enableSwitch_command priv port 6 ctx ctx' command h
    exact ⟨h1, h2⟩
  · intro ctx res interval ctx' h
    rcases enable_ready_cases ctx res with ⟨i, hr⟩ | ⟨g4, gr, i, hr⟩ | ⟨e, hr⟩
    · rw [hr] at h
      cases h
      exact ⟨Nat.le_succ _, Or.inl rfl⟩
    · rw [hr] at h
      cases h
      exact ⟨Nat.le_refl _, Or.inr ⟨rfl, gr⟩⟩
    · rw [hr] at h
      cases h
  · intro ctx ctx' command h
    simp only [disable_location_gathering_context_gps_step, hone, if_true] at h
    exact disableSwitch_command priv port 6 ctx ctx' command h
  · intro ctx res ctx' h
    exact disableReady_step ctx ctx' res h

/-- C39, at a modem with the `^SGPSC` dialect, the NMEA source being enabled, the
Output and the Antenna command succeeding and the Engine command failing 3
times: 5 commands are sent and the task is completed. -/
theorem sequences_terminate_witness :
    (commandsOf (enableRun ⟨22, 0, .FEATURE_NOT_SUPPORTED, .FEATURE_SUPPORTED⟩ ⟨true, .ok ()⟩
        [.ok (), .ok (), .error (.external 767), .error (.external 767),
          .error (.external 767)]
        (enableContext MM_MODEM_LOCATION_SOURCE_GPS_NMEA)).actions).length ≤ 5 ∧
    (reported (enableRun ⟨22, 0, .FEATURE_NOT_SUPPORTED, .FEATURE_SUPPORTED⟩ ⟨true, .ok ()⟩
        [.ok (), .ok (), .error (.external 767), .error (.external 767),
          .error (.external 767)]
        (enableContext MM_MODEM_LOCATION_SOURCE_GPS_NMEA)).actions).isSome = true :=
  ⟨(sequences_terminate ⟨22, 0, .FEATURE_NOT_SUPPORTED, .FEATURE_SUPPORTED⟩ ⟨true, .ok ()⟩
      MM_MODEM_LOCATION_SOURCE_GPS_NMEA
      [.ok (), .ok (), .error (.external 767), .error (.external 767), .error (.external 767)]
      (fun _ => .ok ()) (by decide)).1,
    (sequences_terminate ⟨22, 0, .FEATURE_NOT_SUPPORTED, .FEATURE_SUPPORTED⟩ ⟨true, .ok ()⟩
      MM_MODEM_LOCATION_SOURCE_GPS_NMEA
      [.ok (), .ok (), .error (.external 767), .error (.external 767), .error (.external 767)]
      (fun _ => .ok ()) (by decide)).2.1 (by decide)⟩

/-! ## The custom init of the Longcheer plugin -/

theorem customInitRun_cancelled (strip : CStr → Option CStr) (cancelled : Nat → Bool)
    (n : Nat) (results : List (Except GError CStr)) (ctx : LongcheerCustomInitContext)
    (h : cancelled n = true) :
    customInitRun strip cancelled n results ctx = [.task_return (.ok ())] := by
  cases results <;> simp [customInitRun, longcheer_custom_init_step, h]

theorem customInitRun_retry (strip : CStr → Option CStr) (cancelled : Nat → Bool)
    (n : Nat) (e : GError) (rest : List (Except GError CStr))
    (ctx : LongcheerCustomInitContext) (h : cancelled n = false) (hr : 0 < ctx.retries) :
    customInitRun strip cancelled n (.error e :: rest) ctx =
      .at_command "AT+GMR" ::
        customInitRun strip cancelled (n + 1) rest ⟨ctx.retries - 1⟩ := by
  have hne : ctx.retries ≠ 0 := by omega
  simp [customInitRun, longcheer_custom_init_step, h, hne, gmr_ready]

/-- The commands that fail before the cancellation is seen: each is sent again
while retries are left, and the step that sees the cancellation sends nothing
and reports success. -/
theorem customInitRun_cancelled_after (strip : CStr → Option CStr) (cancelled : Nat → Bool)
    (rest : List (Except GError CStr)) :
    ∀ (errors : List GError) (n : Nat) (ctx : LongcheerCustomInitContext),
      errors.length ≤ ctx.retries →
      (∀ i, i < errors.length → cancelled (n + i) = false) →
      cancelled (n + errors.length) = true →
      customInitRun strip cancelled n (errors.map .error ++ rest) ctx =
        List.replicate errors.length (.at_command "AT+GMR") ++ [.task_return (.ok ())] := by
  intro errors
  induction errors with
  | nil =>
    intro n ctx _ _ hc
    exact customInitRun_cancelled strip cancelled n _ ctx hc
  | cons e errors ih =>
    intro n ctx hlen hnot hc
    simp only [List.length_cons] at hlen hnot hc
    have h0 : cancelled n = false := hnot 0 (by omega)
    simp only [List.map_cons, List.cons_append, List.length_cons, List.replicate_succ]
    rw [customInitRun_retry strip cancelled n e _ ctx h0 (by omega)]
    rw [ih (n + 1) ⟨ctx.retries - 1⟩ (by simp only; omega)
      (fun i hi => by
        have := hnot (i + 1) (by omega)
        rw [← this]
        congr 1
        omega)
      (by
        rw [← hc]
        congr 1
        omega)]

/-- The run of the custom init looks at the cancellation at the start of its
steps only: two cancellation histories that agree at the steps of the run give
the same run. -/
theorem customInitRun_steps_only (strip : CStr → Option CStr)
    (cancelled cancelled' : Nat → Bool) :
    ∀ (results : List (Except GError CStr)) (n : Nat) (ctx : LongcheerCustomInitContext),
      (∀ i, i ≤ results.length → cancelled (n + i) = cancelled' (n + i)) →
      customInitRun strip cancelled n results ctx =
        customInitRun strip cancelled' n results ctx := by
  intro results
  induction results with
  | nil =>
    intro n ctx h
    have h0 := h 0 (Nat.zero_le _)
    simp only [Nat.add_zero] at h0
    simp only [customInitRun, h0]
  | cons res rest ih =>
    intro n ctx h
    have h0 := h 0 (Nat.zero_le _)
    simp only [Nat.add_zero] at h0
    have hrest := ih (n + 1) ⟨ctx.retries - 1⟩ (fun i hi => by
      have := h (i + 1) (by simp only [List.length_cons]; omega)
      rw [Nat.add_assoc, Nat.add_comm 1 i]
      exact this)
    simp only [customInitRun, h0]
    cases longcheer_custom_init_step (cancelled' n) ctx with
    | done r => rfl
    | command c =>
      simp only
      cases gmr_ready strip res with
      | retry =>
        simp only
        rw [ih (n + 1) c (fun i hi => by
          have := h (i + 1) (by simp only [List.length_cons]; omega)
          rw [Nat.add_assoc, Nat.add_comm 1 i]
          exact this)]
      | done r => rfl

/-- C29: the step of the custom init looks at the cancellation first thing,
before it looks at the retries and before it sends the command: if it sees the
cancellation it completes the task with success and sends nothing, whatever
retries are left, none included.  So in a run, when the commands sent so far
have failed and the next step sees the cancellation, no further command is
sent and success is reported.  The callback of the command does not look at
the cancellation: a reply that has arrived decides the result, and the run
depends on the cancellation at the starts of its steps only. -/
theorem custom_init_cancelled_at_step (strip : CStr → Option CStr)
    (cancelled : Nat → Bool) (n : Nat) (ctx : LongcheerCustomInitContext)
    (results : List (Except GError CStr)) :
    longcheer_custom_init_step true ctx = .done (.ok ()) ∧
    (cancelled n = true →
      customInitRun strip cancelled n results ctx = [.task_return (.ok ())]) ∧
    (∀ (errors : List GError), errors.length ≤ 3 →
      (∀ i, i < errors.length → cancelled i = false) →
      cancelled errors.length = true →
      longcheer_custom_init strip 0x1bbb 0x0000 cancelled (errors.map .error ++ results) =
        List.replicate errors.length (.at_command "AT+GMR") ++ [.task_return (.ok ())]) ∧
    (∀ reply, cancelled n = false → 0 < ctx.retries →
      ∃ result, gmr_ready strip (.ok reply) = .done result ∧
        customInitRun strip cancelled n (.ok reply :: results) ctx =
          [.at_command "AT+GMR", .task_return result]) ∧
    (∀ cancelled' : Nat → Bool,
      (∀ i, i ≤ results.length → cancelled (n + i) = cancelled' (n + i)) →
      customInitRun strip cancelled n results ctx =
        customInitRun strip cancelled' n results ctx) := by
  refine ⟨rfl, customInitRun_cancelled strip cancelled n results ctx, ?_, ?_,
    fun c' h => customInitRun_steps_only strip cancelled c' results n ctx h⟩
  · intro errors hlen hnot hc
    have := customInitRun_cancelled_after strip cancelled results errors 0 ⟨3⟩ hlen
      (fun i hi => by rw [Nat.zero_add]; exact hnot i hi)
      (by rw [Nat.zero_add]; exact hc)
    simp only [longcheer_custom_init, ne_eq, not_true_eq_false, or_self, if_false]
    exact this
  · intro reply h hr
    have hne : ctx.retries ≠ 0 := by omega
    have hg : ∃ r, gmr_ready strip (.ok reply) = .done r := by
      simp only [gmr_ready]
      split <;> exact ⟨_, rfl⟩
    obtain ⟨r, hg⟩ := hg
    refine ⟨r, hg, ?_⟩
    simp only [customInitRun, longcheer_custom_init_step, h, hne, Bool.false_eq_true,
      if_false, hg]

/-- Without cancellation the custom init sends its command at most as many
times as retries are left. -/
theorem customInitRun_commands_le (strip : CStr → Option CStr) :
    ∀ (results : List (Except GError CStr)) (n : Nat) (ctx : LongcheerCustomInitContext),
      (initCommandsOf (customInitRun strip (fun _ => false) n results ctx)).length ≤
        ctx.retries := by
  intro results
  induction results with
  | nil =>
    intro n ctx
    by_cases h : ctx.retries = 0
    · simp [customInitRun, longcheer_custom_init_step, h, initCommandsOf]
    · simp [customInitRun, longcheer_custom_init_step, h, initCommandsOf]
      omega
  | cons res rest ih =>
    intro n ctx
    by_cases h : ctx.retries = 0
    · simp [customInitRun, longcheer_custom_init_step, h, initCommandsOf]
    · simp only [customInitRun, longcheer_custom_init_step, Bool.false_eq_true, if_false, h]
      cases hg : gmr_ready strip res with
      | retry =>
        have := ih (n + 1) ⟨ctx.retries - 1⟩
        simp only at this
        simp only [initCommandsOf, List.filterMap_cons, List.length_cons] at this ⊢
        omega
      | done r =>
        simp [initCommandsOf]
        omega

/-- Without cancellation, the commands that fail while retries are left are
sent again, their errors dropped. -/
theorem customInitRun_failures (strip : CStr → Option CStr)
    (rest : List (Except GError CStr)) :
    ∀ (errors : List GError) (n : Nat) (ctx : LongcheerCustomInitContext),
      errors.length ≤ ctx.retries →
      customInitRun strip (fun _ => false) n (errors.map .error ++ rest) ctx =
        List.replicate errors.length (.at_command "AT+GMR") ++
          customInitRun strip (fun _ => false) (n + errors.length) rest
            ⟨ctx.retries - errors.length⟩ := by
  intro errors
  induction errors with
  | nil =>
    intro n ctx _
    rfl
  | cons e errors ih =>
    intro n ctx hlen
    simp only [List.length_cons] at hlen
    simp only [List.map_cons, List.cons_append, List.length_cons, List.replicate_succ]
    rw [customInitRun_retry strip _ n e _ ctx rfl (by omega)]
    rw [ih (n + 1) ⟨ctx.retries - 1⟩ (by simp only; omega)]
    have e1 : n + 1 + errors.length = n + (errors.length + 1) := by omega
    have e2 : ctx.retries - 1 - errors.length = ctx.retries - (errors.length + 1) := by omega
    simp only [e1, e2]

/-- C35: the custom init for a device with vendor 0x1bbb and product 0x0000,
never cancelled, `strip` standing for `mm_strip_tag` with the tag `AT+GMR`.
The query is sent at most 3 times.  When it fails `k` times (`k` below 3) and
then gets a reply, it has been sent `k + 1` times, the errors are dropped and
the reply decides: the error that the X200 is not supported if the text after
the tag starts with `L`, success otherwise.  When it fails 3 times the task
fails with the error that the revision could not be read, after 3 queries.
For any other vendor or product the task succeeds and nothing is sent. -/
theorem custom_init_retries (strip : CStr → Option CStr) (errors : List GError)
    (reply : CStr) (rest : List (Except GError CStr)) :
    (∀ results,
      (initCommandsOf (longcheer_custom_init strip 0x1bbb 0x0000 (fun _ => false)
        results)).length ≤ 3) ∧
    (errors.length < 3 →
      longcheer_custom_init strip 0x1bbb 0x0000 (fun _ => false)
          (errors.map .error ++ .ok reply :: rest) =
        List.replicate (errors.length + 1) (.at_command "AT+GMR") ++
          [.task_return
            (if (strip reply).bind List.head? = some 'L' then
              .error (.core_unsupported "X200 cannot be supported with the Longcheer plugin")
            else .ok ())]) ∧
    (errors.length = 3 →
      longcheer_custom_init strip 0x1bbb 0x0000 (fun _ => false)
          (errors.map .error ++ rest) =
        List.replicate 3 (.at_command "AT+GMR") ++
          [.task_return (.error (.core_failed "Couldn't get device revision information"))]) ∧
    (∀ vendor product cancelled results, vendor ≠ 0x1bbb ∨ product ≠ 0x0000 →
      longcheer_custom_init strip vendor product cancelled results =
        [.task_return (.ok ())]) := by
  have hinit : ∀ results, longcheer_custom_init strip 0x1bbb 0x0000 (fun _ => false) results =
      customInitRun strip (fun _ => false) 0 results ⟨3⟩ := by
    intro results
    simp [longcheer_custom_init]
  refine ⟨?_, ?_, ?_, ?_⟩
  · intro results
    rw [hinit]
    exact customInitRun_commands_le strip results 0 ⟨3⟩
  · intro hlen
    rw [hinit, customInitRun_failures strip _ errors 0 ⟨3⟩ (by simp only; omega)]
    have hne : 3 - errors.length ≠ 0 := by omega
    have hg : gmr_ready strip (.ok reply) =
        .done (if (strip reply).bind List.head? = some 'L' then
          .error (.core_unsupported "X200 cannot be supported with the Longcheer plugin")
        else .ok ()) := by
      simp only [gmr_ready]
      split
      · rename_i t ht
        simp [ht]
      · rename_i hno
        rcases hs : strip reply with _ | ⟨_ | ⟨c, t⟩⟩
        · simp
        · simp
        · have hc : c ≠ 'L' := by
            intro h
            subst h
            exact hno t hs
          simp [hc]
    simp only [customInitRun, longcheer_custom_init_step, Bool.false_eq_true, if_false, hne, hg,
      List.replicate_succ', List.append_assoc, List.singleton_append]
  · intro hlen
    rw [hinit, customInitRun_failures strip _ errors 0 ⟨3⟩ (by simp only; omega), hlen]
    cases rest <;> simp [customInitRun, longcheer_custom_init_step]
  · intro vendor product cancelled results h
    simp only [longcheer_custom_init, ne_eq]
    rw [if_pos h]


/-! ## The signal quality of the Huawei plugin -/

/-- The quality computed from the raw value, in natural numbers: 0 for 99,
else the value clamped to 0..31, times 100, divided by 31. -/
theorem normalizedQuality_eq (q : Int) :
    (normalizedQuality q : Int) =
      if q = 99 then 0 else (min (max q 0) 31 * 100) / 31 := by
  have hc : 0 ≤ CLAMP q 0 31 ∧ CLAMP q 0 31 ≤ 31 ∧ CLAMP q 0 31 = min (max q 0) 31 := by
    simp only [CLAMP]
    split
    · omega
    · split <;> omega
  obtain ⟨h0, h31, hm⟩ := hc
  simp only [normalizedQuality]
  by_cases h : q = 99
  · simp [h]
  · simp only [h, if_false]
    rw [Int.tdiv_eq_ediv (by omega) (by omega), ← hm]
    have h1 : 0 ≤ CLAMP q 0 31 * 100 / 31 := by omega
    have h2 : CLAMP q 0 31 * 100 / 31 < 2 ^ 32 := by omega
    rw [Int.emod_eq_of_lt h1 h2, Int.toNat_of_nonneg h1]

theorem toInt32_small (v : Int) (h0 : 0 ≤ v) (h1 : v < 2 ^ 31) : toInt32 v = v := by
  simp only [toInt32]
  omega

/-- C40: the quality the Huawei handler reports for the raw value `q` that
`atoi` reads from the `^RSSI` message is 0 for 99 and otherwise `q` clamped to
0..31, times 100, divided by 31 (the quotient truncated).  For every `q` the
quality is within 0..100; it does not decrease when `q` grows through values
other than 99; and for `q` not negative it is 100 exactly when `q` is at
least 31 and is not 99.  For a message whose group is a text of decimal
digits below 2^31 the raw value is the number the text denotes. -/
theorem huawei_signal_quality (q : Int) :
    normalizedQuality 99 = 0 ∧
    (q ≠ 99 → (normalizedQuality q : Int) = (min (max q 0) 31 * 100) / 31) ∧
    normalizedQuality q ≤ 100 ∧
    (∀ q' : Int, q ≤ q' → q ≠ 99 → q' ≠ 99 → normalizedQuality q ≤ normalizedQuality q') ∧
    (normalizedQuality q = 100 ↔ 31 ≤ q ∧ q ≠ 99) ∧
    (∀ (whole str : CStr) (rest : List CStr), (∀ c ∈ str, isdigit c = true) →
      decimalValue str < 2 ^ 31 →
      handle_signal_quality_change (whole :: str :: rest) =
        some (normalizedQuality (decimalValue str))) := by
  have key := normalizedQuality_eq
  refine ⟨by decide, ?_, ?_, ?_, ?_, ?_⟩
  · intro h
    rw [key q, if_neg h]
  · have := key q
    split at this <;> omega
  · intro q' hle h1 h2
    have a := key q
    have b := key q'
    rw [if_neg h1] at a
    rw [if_neg h2] at b
    omega
  · have := key q
    constructor
    · intro h
      rw [h] at this
      split at this <;> omega
    · rintro ⟨h1, h2⟩
      rw [if_neg h2] at this
      omega
  · intro whole str rest hd hlt
    have h1 := strtol_dec str hd
    have h2 : atoi str = (decimalValue str : Int) := by
      have hv : (decimalValue str : Int) < 2 ^ 31 := by exact_mod_cast hlt
      rw [atoi, h1, min_eq_left (by simp only [LONG_MAX]; omega)]
      exact toInt32_small _ (by omega) hv
    simp [handle_signal_quality_change, g_match_info_fetch, h2]
end ModemManager
